import Mathlib

/-!
# Shallow embedding of `pandas/src/ujson/python/objToJSON.c`

The file embeds the type dispatcher (`Object_beginTypeContext`), the stride-based
array cursor (`NpyArr_*`), the label encoder (`NpyArr_encodeLabels`) and the container
iterators of `objToJSON.c`, and proves properties of them.

Conventions of the embedding.

* Pointers to heap blocks are block numbers (`Nat`), `NULL` is `none`.
* Byte addresses (`char*` into array payload or into a text buffer) are `Int`.
* `npy_intp`, `Py_ssize_t` and `int` counters are `Int`; C `int` arithmetic wraps
  explicitly (`wrap32`) where the source computes at `int` width.
* A C `char` is a `Nat` byte; `0` is the NUL terminator and `34` the double quote.
* A host object (`PyObject`) is what the CPython / numpy API answers about it.
* Reference counting (`Py_INCREF` / `Py_DECREF`) is not tracked.
* A function that dereferences a pointer returns `none` when the pointer is `NULL`
  or dangling (undefined behaviour in C).
-/

namespace ObjToJSON

/-! ## Constants and enumerations -/

/-- EPOCH_ORD, line 9. -/
def EPOCH_ORD : Int := 719163

/-- NPY_MAXDIMS of numpy, the length of the `index` array of a cursor. -/
def NPY_MAXDIMS : Int := 32

/-- The enum PANDAS_FORMAT, lines 88-95. -/
inductive PANDAS_FORMAT where
  | SPLIT
  | RECORDS
  | INDEX
  | COLUMNS
  | VALUES
  deriving DecidableEq, Repr

/-- Node kinds the dispatcher reports to the encoder (enum JSTYPES of ultrajson.h). -/
inductive JSTYPES where
  | JT_NULL
  | JT_TRUE
  | JT_FALSE
  | JT_INT
  | JT_LONG
  | JT_DOUBLE
  | JT_UTF8
  | JT_ARRAY
  | JT_OBJECT
  | JT_INVALID
  deriving DecidableEq, Repr

/-- Host exception classes the source raises or tests for. -/
inductive PyExc where
  | OverflowError
  | ValueError
  | MemoryError
  | Other
  deriving DecidableEq, Repr

/-- Bytes of a string literal of the source, without the terminating NUL. -/
def cstr (s : String) : List Nat := s.toList.map Char.toNat

/-- The byte of the double quote character. -/
def QUOTE : Nat := 34

/-! ## Host values -/

/-- Answers of the host object model about one object: the type predicates the
dispatcher asks, in the order it asks them, and the payload each accessor returns. -/
structure PyInfo where
  -- type predicates
  PyIter_Check : Bool := false
  PyArray_Check : Bool := false
  PyBool_Check : Bool := false
  isPyTrue : Bool := false            -- obj == Py_True
  PyInt_Check : Bool := false
  PyLong_Check : Bool := false
  isScalarInteger : Bool := false     -- PyArray_IsScalar(obj, Integer)
  PyString_Check : Bool := false
  PyUnicode_Check : Bool := false
  PyFloat_Check : Bool := false
  isScalarFloat : Bool := false       -- PyArray_IsScalar(obj, Float)
  isScalarHalf : Bool := false        -- PyArray_IsScalar(obj, Half)
  isScalarDatetime : Bool := false    -- PyArray_IsScalar(obj, Datetime)
  PyDateTime_Check : Bool := false
  PyDate_Check : Bool := false
  isPyNone : Bool := false            -- obj == Py_None
  PyDict_Check : Bool := false
  PyList_Check : Bool := false
  PyTuple_Check : Bool := false
  isIndex : Bool := false             -- PyObject_TypeCheck(obj, cls_index)
  isSeries : Bool := false            -- PyObject_TypeCheck(obj, cls_series)
  isDataFrame : Bool := false         -- PyObject_TypeCheck(obj, cls_dataframe)
  PyCallable_Check : Bool := false
  -- scalar payloads
  PyInt_AS_LONG : Int := 0
  longValue : Int := 0                -- mathematical value of a PyLong
  castLong : Int := 0                 -- result of PyArray_CastScalarToCtype(.., NPY_LONG)
  castOverflow : Bool := false        -- that cast left an OverflowError pending
  castDatetime : Int := 0             -- result of PyArray_CastScalarToCtype(.., NPY_DATETIME)
  PyFloat_AS_DOUBLE : Nat := 0        -- binary64 bit pattern
  castDouble : Nat := 0               -- binary64 bits of PyArray_CastScalarToCtype(.., NPY_DOUBLE)
  halfAsDouble : Nat := 0             -- binary64 bits of npy_half_to_double
  PyString_AS_STRING : List Nat := []
  year : Int := 1
  month : Int := 1
  day : Int := 1
  hour : Int := 0
  minute : Int := 0
  second : Int := 0
  -- containers
  size : Int := 0                     -- PyList_GET_SIZE / PyTuple_GET_SIZE / number of dict entries
  -- ndarray header (read through PyArray_DATA, PyArray_DIM, PyArray_STRIDE)
  data : Int := 0
  dims : List Nat := []
  strides : List Int := []

/-- Selectors of the objects reachable from one host object through the API. -/
inductive Sel where
  | attr (name : List Nat)     -- PyObject_GetAttr / PyObject_GetAttrString
  | getitem (addr : Int)       -- the descr getitem function at a payload address
  | item (i : Int)             -- PyList_GET_ITEM / PyTuple_GET_ITEM
  | dictKey (i : Int)          -- key of the entry PyDict_Next visits at position i
  | dictValue (i : Int)        -- value of that entry
  | call                       -- PyObject_Call(obj, (), NULL)
  | str                        -- PyObject_Str(obj)
  | utf8                       -- PyUnicode_EncodeUTF8 of the object
  | dir                        -- PyObject_Dir(obj)
  deriving DecidableEq

/-- A host object: its answers and the objects reachable from it (`none` is a NULL
result, that is a failed call). -/
inductive PyObject where
  | mk (info : PyInfo) (child : Sel → Option PyObject)

/-- Answers of the host about the object. -/
def PyObject.info : PyObject → PyInfo
  | .mk i _ => i

/-- Objects reachable from the object. -/
def PyObject.child : PyObject → Sel → Option PyObject
  | .mk _ c => c

/-- PyArray_NDIM. -/
def PyArray_NDIM (a : PyObject) : Int := a.info.dims.length

/-- PyArray_SIZE: the product of the extents. -/
def PyArray_SIZE (a : PyObject) : Int := (a.info.dims.prod : Nat)

/-- PyArray_DIM(a, k); an axis outside the header reads as 0. -/
def PyArray_DIM (a : PyObject) (k : Int) : Int :=
  if 0 ≤ k then ((a.info.dims.getD k.toNat 0 : Nat) : Int) else 0

/-- PyArray_STRIDE(a, k); an axis outside the header reads as 0. -/
def PyArray_STRIDE (a : PyObject) (k : Int) : Int :=
  if 0 ≤ k then a.info.strides.getD k.toNat 0 else 0

/-- PyArray_DATA. -/
def PyArray_DATA (a : PyObject) : Int := a.info.data

/-- The element the descr getitem function builds from the payload at an address. -/
def getitem (addr : Int) (a : PyObject) : Option PyObject := a.child (.getitem addr)

/-- The macro npy_isnan on a binary64 bit pattern: exponent all ones, mantissa non-zero. -/
def npy_isnan (bits : Nat) : Bool :=
  (bits / 2 ^ 52) % 2 ^ 11 == 2047 && bits % 2 ^ 52 != 0

/-- The macro npy_isinf on a binary64 bit pattern: exponent all ones, mantissa zero. -/
def npy_isinf (bits : Nat) : Bool :=
  (bits / 2 ^ 52) % 2 ^ 11 == 2047 && bits % 2 ^ 52 == 0

/-! ## Program state -/

/-- One label string: the block PyObject_Malloc returned and the bytes memcpy put there. -/
structure LabelStr where
  ptr : Nat
  bytes : List Nat
  deriving DecidableEq, Repr

/-- A `char**` label array: its own block and its entries (`none` is a NULL entry). -/
structure LabelArray where
  ptr : Nat
  entries : List (Option LabelStr)
  deriving DecidableEq, Repr

/-- The struct NpyArrContext, lines 22-37. -/
structure NpyArrContext where
  array : PyObject
  dataptr : Int
  curdim : Int
  stridedim : Int
  inc : Int
  dim : Int
  stride : Int
  ndim : Int
  index : Int → Int
  rowLabels : Option LabelArray
  columnLabels : Option LabelArray

/-- Names of the functions a TypeContext slot can point to; NULL is the zeroed slot. -/
inductive Fn where
  | NULL
  | NpyArr_iterNextNone
  | NpyArr_iterBegin
  | NpyArr_iterEnd
  | NpyArrPassThru_iterBegin
  | NpyArrPassThru_iterEnd
  | NpyArr_iterNextItem
  | NpyArr_iterNext
  | NpyArr_iterGetValue
  | NpyArr_iterGetName
  | Tuple_iterBegin
  | Tuple_iterNext
  | Tuple_iterEnd
  | Tuple_iterGetValue
  | Tuple_iterGetName
  | Dir_iterBegin
  | Dir_iterEnd
  | Dir_iterNext
  | Dir_iterGetValue
  | Dir_iterGetName
  | List_iterBegin
  | List_iterNext
  | List_iterEnd
  | List_iterGetValue
  | List_iterGetName
  | Index_iterBegin
  | Index_iterNext
  | Index_iterEnd
  | Index_iterGetValue
  | Index_iterGetName
  | Series_iterBegin
  | Series_iterNext
  | Series_iterEnd
  | Series_iterGetValue
  | Series_iterGetName
  | DataFrame_iterBegin
  | DataFrame_iterNext
  | DataFrame_iterEnd
  | DataFrame_iterGetValue
  | DataFrame_iterGetName
  | Dict_iterBegin
  | Dict_iterNext
  | Dict_iterEnd
  | Dict_iterGetValue
  | Dict_iterGetName
  | PyIntToINT32
  | PyIntToINT64
  | PyLongToINT64
  | NpyHalfToDOUBLE
  | NpyFloatToDOUBLE
  | PyFloatToDOUBLE
  | PyStringToUTF8
  | PyUnicodeToUTF8
  | NpyDateTimeToINT64
  | PyDateTimeToINT64
  | PyDateToINT64
  deriving DecidableEq, Repr

/-- A malloc'ed name buffer (`citemName`): its block and the bytes written so far. -/
structure NameBuf where
  ptr : Nat
  bytes : List Nat
  deriving DecidableEq, Repr

/-- The struct TypeContext, lines 39-65, together with the `type` field of the
JSONTypeContext that holds it. -/
structure TypeContext where
  type : JSTYPES
  iterBegin : Fn
  iterEnd : Fn
  iterNext : Fn
  iterGetName : Fn
  iterGetValue : Fn
  PyTypeToJSON : Fn
  newObj : Option PyObject
  dictObj : Option PyObject
  index : Int
  size : Int
  itemValue : Option PyObject
  itemName : Option PyObject
  attrList : Option PyObject
  citemName : Option NameBuf
  longValue : Int
  npyarr : Option Nat
  transpose : Int
  rowLabels : Option LabelArray
  columnLabels : Option LabelArray
  rowLabelsLen : Int
  columnLabelsLen : Int

/-- The TypeContext after the zeroing loop of Object_beginTypeContext (lines 946-950);
`type` is written on every path before it is read. -/
def TypeContext.zero (t : JSTYPES) : TypeContext :=
  { type := t, iterBegin := .NULL, iterEnd := .NULL, iterNext := .NULL, iterGetName := .NULL,
    iterGetValue := .NULL, PyTypeToJSON := .NULL, newObj := none, dictObj := none, index := 0,
    size := 0, itemValue := none, itemName := none, attrList := none, citemName := none,
    longValue := 0, npyarr := none, transpose := 0, rowLabels := none, columnLabels := none,
    rowLabelsLen := 0, columnLabelsLen := 0 }

/-- The fields of ultrajson's JSONObjectEncoder that this file reads or writes. -/
structure JSONObjectEncoder where
  start : Int
  end_ : Int
  offset : Int
  errorMsg : Option String
  deriving DecidableEq, Repr

/-- The struct PyObjectEncoder, lines 67-77. -/
structure PyObjectEncoder where
  enc : JSONObjectEncoder
  npyCtxtPassthru : Option Nat
  outputFormat : PANDAS_FORMAT
  originalOutputFormat : PANDAS_FORMAT
  deriving DecidableEq, Repr

/-- Everything outside the node under dispatch: the encoder, the pending host error,
the allocator and the cursors on the heap. -/
structure World where
  encoder : PyObjectEncoder
  pyErr : Option PyExc                 -- PyErr_Occurred()
  mallocCount : Nat                    -- PyObject_Malloc calls so far; the next block number
  live : List Nat                      -- blocks allocated and not freed
  mallocFails : List Bool              -- outcome of the coming PyObject_Malloc calls, true = NULL
  cursors : Nat → Option NpyArrContext -- contents of the NpyArrContext blocks
  junk : Int → Int                     -- contents of a fresh block before it is written

/-- The environment of a run: the platform and the external writer. -/
structure Env where
  lp64 : Bool                          -- whether _LP64 is defined
  labelBuffer : Int                    -- address of the local array of NpyArr_encodeLabels
  -- text the external writer renders for one value, with its error slot and host error
  render : Option PyObject → List Nat × Option String × Option PyExc

/-- PyObject_Malloc: NULL when the allocator fails, else a fresh live block. -/
def PyObject_Malloc (w : World) : Option Nat × World :=
  match w.mallocFails with
  | true :: rest => (none, { w with mallocFails := rest })
  | false :: rest =>
    (some w.mallocCount,
      { w with mallocFails := rest, mallocCount := w.mallocCount + 1, live := w.mallocCount :: w.live })
  | [] =>
    (some w.mallocCount, { w with mallocCount := w.mallocCount + 1, live := w.mallocCount :: w.live })

/-- PyObject_Free: a no-op on NULL. -/
def PyObject_Free (p : Option Nat) (w : World) : World :=
  match p with
  | none => w
  | some b => { w with live := w.live.erase b }

/-- PyErr_NoMemory / PyErr_SetString: make an exception pending. -/
def PyErr_Set (e : PyExc) (w : World) : World := { w with pyErr := some e }

/-- PyErr_Clear. -/
def PyErr_Clear (w : World) : World := { w with pyErr := none }

/-- Write one NpyArrContext block. -/
def World.setCursor (w : World) (p : Nat) (c : NpyArrContext) : World :=
  { w with cursors := Function.update w.cursors p (some c) }

/-- Store into the hand-off slot of the encoder. -/
def World.setPassthru (w : World) (p : Option Nat) : World :=
  { w with encoder := { w.encoder with npyCtxtPassthru := p } }

/-- Store into the current output format of the encoder. -/
def World.setOutputFormat (w : World) (f : PANDAS_FORMAT) : World :=
  { w with encoder := { w.encoder with outputFormat := f } }

/-- PyObject_GetAttr: the attribute, or NULL with an exception pending. -/
def PyObject_GetAttr (obj : PyObject) (name : List Nat) (w : World) : Option PyObject × World :=
  match obj.child (.attr name) with
  | some v => (some v, w)
  | none => (none, PyErr_Set .Other w)

/-- PyObject_GetAttrString. -/
def PyObject_GetAttrString (obj : PyObject) (name : String) (w : World) : Option PyObject × World :=
  PyObject_GetAttr obj (cstr name) w

/-- Dereference a cursor pointer: the block must be allocated, live and written. -/
def World.deref (w : World) (p : Option Nat) : Option (Nat × NpyArrContext) :=
  match p with
  | none => none
  | some b => if b ∈ w.live then (w.cursors b).map (fun c => (b, c)) else none

/-- The bytes of a NUL-terminated string stored in a block, up to the terminator;
`none` when the block holds no terminator. -/
def cstring (bytes : List Nat) : Option (List Nat) :=
  if 0 ∈ bytes then some (bytes.takeWhile (fun b => b != 0)) else none

/-- The string `labels[idx]` of a label array, as strlen delimits it. -/
def labelAt (labels : Option LabelArray) (idx : Int) : Option (List Nat) :=
  match labels with
  | none => none
  | some la =>
    if 0 ≤ idx then
      match la.entries.get? idx.toNat with
      | some (some s) => cstring s.bytes
      | _ => none
    else none

/-- The effect of memcpy(dst, src, n) on the written bytes of a name buffer. -/
def memcpy_into (dst : List Nat) (src : List Nat) : List Nat := src ++ dst.drop src.length

/-! ## Numpy array iteration functions (lines 217-377) -/

/-- NpyArr_iterNextNone, lines 220-223. -/
def NpyArr_iterNextNone (tc : TypeContext) (w : World) : Option (Int × TypeContext × World) :=
  some (0, tc, w)

/-- NpyArr_iterBegin, lines 225-282. -/
def NpyArr_iterBegin (_obj : PyObject) (tc : TypeContext) (w : World) : TypeContext × World :=
  let obj := match tc.newObj with
    | some o => o
    | none => _obj
  if PyArray_SIZE obj > 0 then
    match PyObject_Malloc w with
    | (none, w1) =>
      ({ tc with npyarr := none, iterNext := .NpyArr_iterNextNone }, PyErr_Set .MemoryError w1)
    | (some p, w1) =>
      let ndim := PyArray_NDIM obj - 1
      let c : NpyArrContext :=
        if tc.transpose ≠ 0 then
          { array := obj, dataptr := PyArray_DATA obj, curdim := 0, stridedim := ndim, inc := -1,
            dim := PyArray_DIM obj ndim, stride := PyArray_STRIDE obj ndim, ndim := ndim,
            index := Function.update w1.junk ndim 0,
            rowLabels := tc.rowLabels, columnLabels := tc.columnLabels }
        else
          { array := obj, dataptr := PyArray_DATA obj, curdim := 0, stridedim := 0, inc := 1,
            dim := PyArray_DIM obj 0, stride := PyArray_STRIDE obj 0, ndim := ndim,
            index := Function.update w1.junk 0 0,
            rowLabels := tc.rowLabels, columnLabels := tc.columnLabels }
      ({ tc with npyarr := some p }, w1.setCursor p c)
  else
    ({ tc with iterNext := .NpyArr_iterNextNone }, w)

/-- NpyArr_iterEnd, lines 284-291. -/
def NpyArr_iterEnd (tc : TypeContext) (w : World) : World :=
  match tc.npyarr with
  | some p => PyObject_Free (some p) w
  | none => w

/-- NpyArrPassThru_iterBegin, lines 293-296. -/
def NpyArrPassThru_iterBegin (tc : TypeContext) (w : World) : TypeContext × World := (tc, w)

/-- The cursor update of NpyArrPassThru_iterEnd, lines 303-308. -/
def NpyArrPassThru_iterEnd_cursor (c : NpyArrContext) : NpyArrContext :=
  let c1 := { c with curdim := c.curdim - 1 }
  let c2 := { c1 with dataptr := c1.dataptr - c1.stride * c1.index c1.stridedim }
  let c3 := { c2 with stridedim := c2.stridedim - c2.inc }
  let c4 := { c3 with dim := PyArray_DIM c3.array c3.stridedim }
  let c5 := { c4 with stride := PyArray_STRIDE c4.array c4.stridedim }
  { c5 with dataptr := c5.dataptr + c5.stride }

/-- NpyArrPassThru_iterEnd, lines 298-309. -/
def NpyArrPassThru_iterEnd (tc : TypeContext) (w : World) : Option World :=
  match w.deref tc.npyarr with
  | none => none
  | some (p, c) => some (w.setCursor p (NpyArrPassThru_iterEnd_cursor c))

/-- The cursor update of NpyArr_iterNextItem, lines 323-324. -/
def NpyArr_iterNextItem_advance (c : NpyArrContext) : NpyArrContext :=
  let c1 := { c with dataptr := c.dataptr + c.stride }
  { c1 with index := Function.update c1.index c1.stridedim (c1.index c1.stridedim + 1) }

/-- NpyArr_iterNextItem, lines 311-326. -/
def NpyArr_iterNextItem (tc : TypeContext) (w : World) : Option (Int × TypeContext × World) :=
  match w.deref tc.npyarr with
  | none => none
  | some (p, c) =>
    if c.index c.stridedim ≥ c.dim then
      some (0, tc, w)
    else
      let tc1 := { tc with itemValue := getitem c.dataptr c.array }
      some (1, tc1, w.setCursor p (NpyArr_iterNextItem_advance c))

/-- The cursor update of the descending branch of NpyArr_iterNext, lines 341-347. -/
def NpyArr_iterNext_descend (c : NpyArrContext) : NpyArrContext :=
  let c1 := { c with index := Function.update c.index c.stridedim (c.index c.stridedim + 1) }
  let c2 := { c1 with curdim := c1.curdim + 1 }
  let c3 := { c2 with stridedim := c2.stridedim + c2.inc }
  let c4 := { c3 with dim := PyArray_DIM c3.array c3.stridedim }
  let c5 := { c4 with stride := PyArray_STRIDE c4.array c4.stridedim }
  { c5 with index := Function.update c5.index c5.stridedim 0 }

/-- NpyArr_iterNext, lines 328-352. -/
def NpyArr_iterNext (tc : TypeContext) (w : World) : Option (Int × TypeContext × World) :=
  match w.deref tc.npyarr with
  | none => none
  | some (p, c) =>
    if c.curdim ≥ c.ndim ∨ c.index c.stridedim ≥ c.dim then
      NpyArr_iterNextItem { tc with iterNext := .NpyArr_iterNextItem } w
    else
      let c1 := NpyArr_iterNext_descend c
      let w1 := (w.setCursor p c1).setPassthru (some p)
      some (1, { tc with itemValue := some c1.array }, w1)

/-- NpyArr_iterGetValue, lines 354-358. -/
def NpyArr_iterGetValue (tc : TypeContext) : Option PyObject := tc.itemValue

/-- NpyArr_iterGetName, lines 360-377: the label, with the length strlen gives it. -/
def NpyArr_iterGetName (tc : TypeContext) (w : World) : Option (List Nat) :=
  match w.deref tc.npyarr with
  | none => none
  | some (_, c) =>
    if tc.iterNext = .NpyArr_iterNextItem then
      labelAt c.columnLabels (c.index c.stridedim - 1)
    else
      labelAt c.rowLabels (c.index (c.stridedim - c.inc) - 1)

/-- The label array and the index NpyArr_iterGetName reads, lines 366-375: the column
labels at the position on the striding axis minus one after NpyArr_iterNextItem, the
row labels at the position on the parent axis minus one otherwise. -/
def NpyArr_iterGetName_lookup (tc : TypeContext) (w : World) :
    Option (Option LabelArray × Int) :=
  match w.deref tc.npyarr with
  | none => none
  | some (_, c) =>
    if tc.iterNext = .NpyArr_iterNextItem then
      some (c.columnLabels, c.index c.stridedim - 1)
    else
      some (c.rowLabels, c.index (c.stridedim - c.inc) - 1)

/-! ## Tuple and list iteration functions (lines 379-418, 522-557) -/

/-- Tuple_iterBegin, lines 383-388. -/
def Tuple_iterBegin (obj : PyObject) (tc : TypeContext) : TypeContext :=
  { tc with index := 0, size := obj.info.size, itemValue := none }

/-- Tuple_iterNext, lines 390-404. -/
def Tuple_iterNext (obj : PyObject) (tc : TypeContext) : Int × TypeContext :=
  if tc.index ≥ tc.size then (0, tc)
  else (1, { tc with itemValue := obj.child (.item tc.index), index := tc.index + 1 })

/-- List_iterBegin, lines 526-530. -/
def List_iterBegin (obj : PyObject) (tc : TypeContext) : TypeContext :=
  { tc with index := 0, size := obj.info.size }

/-- List_iterNext, lines 532-543. -/
def List_iterNext (obj : PyObject) (tc : TypeContext) : Int × TypeContext :=
  if tc.index ≥ tc.size then (0, tc)
  else (1, { tc with itemValue := obj.child (.item tc.index), index := tc.index + 1 })

/-! ## Dir iteration functions (lines 420-517) -/

/-- Dir_iterBegin, lines 425-431. -/
def Dir_iterBegin (obj : PyObject) (tc : TypeContext) : Option TypeContext :=
  match obj.child .dir with
  | none => none
  | some l => some { tc with attrList := some l, index := 0, size := l.info.size }

/-- The for loop of Dir_iterNext, lines 458-487, run for at most `n` positions: the
index where it stopped, the member found (name and value) if any, and the state. -/
def Dir_scan (obj attrList : PyObject) (size : Int) :
    Nat → Int → World → Option (Int × Option (PyObject × PyObject) × World)
  | 0, index, w => some (index, none, w)
  | n + 1, index, w =>
    if index < size then
      match attrList.child (.item index) with
      | none => none
      | some attr =>
        if attr.info.PyString_AS_STRING.head? = some 95 then
          Dir_scan obj attrList size n (index + 1) w
        else
          match PyObject_GetAttr obj attr.info.PyString_AS_STRING w with
          | (none, w1) => Dir_scan obj attrList size n (index + 1) (PyErr_Clear w1)
          | (some itemValue, w1) =>
            if itemValue.info.PyCallable_Check then
              Dir_scan obj attrList size n (index + 1) w1
            else
              some (index, some (attr, itemValue), w1)
    else some (index, none, w)

/-- Dir_iterNext, lines 445-502. -/
def Dir_iterNext (obj : PyObject) (tc : TypeContext) (w : World) :
    Option (Int × TypeContext × World) :=
  let tc0 := { tc with itemValue := none }
  match tc0.attrList with
  | none => none
  | some attrList =>
    match Dir_scan obj attrList tc0.size (tc0.size - tc0.index).toNat tc0.index w with
    | none => none
    | some (_, none, w1) => some (0, { tc0 with index := tc0.size, itemValue := none }, w1)
    | some (index, some (itemName, itemValue), w1) =>
      some (1, { tc0 with itemName := some itemName, itemValue := some itemValue,
                          index := index + 1 }, w1)

/-- Dir_iterGetName, lines 512-517. -/
def Dir_iterGetName (tc : TypeContext) : Option (List Nat) :=
  tc.itemName.map (fun n => n.info.PyString_AS_STRING)

/-! ## pandas Index, Series and DataFrame iteration functions (lines 559-772) -/

/-- The allocation of the 20 byte name buffer shared by the three iterBegin functions. -/
def alloc_citemName (tc : TypeContext) (w : World) : TypeContext × World :=
  match PyObject_Malloc w with
  | (none, w1) => ({ tc with citemName := none }, w1)
  | (some p, w1) => ({ tc with citemName := some { ptr := p, bytes := [] } }, w1)

/-- The memcpy of a string literal, with its terminator, into the name buffer. -/
def set_citemName (tc : TypeContext) (name : String) : TypeContext :=
  let src := cstr name ++ [0]
  { tc with citemName := Option.map (fun b => { b with bytes := memcpy_into b.bytes src }) tc.citemName }

/-- Index_iterBegin, lines 562-571. -/
def Index_iterBegin (tc : TypeContext) (w : World) : TypeContext × World :=
  let (tc1, w1) := alloc_citemName { tc with index := 0 } w
  if tc1.citemName.isNone then (tc1, PyErr_Set .MemoryError w1) else (tc1, w1)

/-- Index_iterNext, lines 573-602. -/
def Index_iterNext (obj : PyObject) (tc : TypeContext) (w : World) : Int × TypeContext × World :=
  if tc.citemName.isNone then (0, tc, w)
  else if tc.index = 0 then
    let (v, w1) := PyObject_GetAttrString obj "name" w
    (1, { (set_citemName tc "name") with itemValue := v, index := tc.index + 1 }, w1)
  else if tc.index = 1 then
    let (v, w1) := PyObject_GetAttrString obj "values" w
    (1, { (set_citemName tc "data") with itemValue := v, index := tc.index + 1 }, w1)
  else (0, tc, w)

/-- Index_iterEnd, lines 604-611. -/
def Index_iterEnd (tc : TypeContext) (w : World) : World :=
  PyObject_Free (tc.citemName.map (fun b => b.ptr)) w

/-- Index_iterGetName, lines 618-622 (also Series_iterGetName and DataFrame_iterGetName). -/
def Index_iterGetName (tc : TypeContext) : Option (List Nat) :=
  match tc.citemName with
  | none => none
  | some b => cstring b.bytes

/-- Series_iterBegin, lines 627-638. -/
def Series_iterBegin (tc : TypeContext) (w : World) : TypeContext × World :=
  let (tc1, w1) := alloc_citemName { tc with index := 0 } w
  let w2 := w1.setOutputFormat .VALUES
  if tc1.citemName.isNone then (tc1, PyErr_Set .MemoryError w2) else (tc1, w2)

/-- Series_iterNext, lines 640-675. -/
def Series_iterNext (obj : PyObject) (tc : TypeContext) (w : World) : Int × TypeContext × World :=
  if tc.citemName.isNone then (0, tc, w)
  else if tc.index = 0 then
    let (v, w1) := PyObject_GetAttrString obj "name" w
    (1, { (set_citemName tc "name") with itemValue := v, index := tc.index + 1 }, w1)
  else if tc.index = 1 then
    let (v, w1) := PyObject_GetAttrString obj "index" w
    (1, { (set_citemName tc "index") with itemValue := v, index := tc.index + 1 }, w1)
  else if tc.index = 2 then
    let (v, w1) := PyObject_GetAttrString obj "values" w
    (1, { (set_citemName tc "data") with itemValue := v, index := tc.index + 1 }, w1)
  else (0, tc, w)

/-- Series_iterEnd, lines 677-686. -/
def Series_iterEnd (tc : TypeContext) (w : World) : World :=
  let w1 := w.setOutputFormat w.encoder.originalOutputFormat
  PyObject_Free (tc.citemName.map (fun b => b.ptr)) w1

/-- DataFrame_iterBegin, lines 702-713. -/
def DataFrame_iterBegin (tc : TypeContext) (w : World) : TypeContext × World :=
  let (tc1, w1) := alloc_citemName { tc with index := 0 } w
  let w2 := w1.setOutputFormat .VALUES
  if tc1.citemName.isNone then (tc1, PyErr_Set .MemoryError w2) else (tc1, w2)

/-- DataFrame_iterNext, lines 715-750. -/
def DataFrame_iterNext (obj : PyObject) (tc : TypeContext) (w : World) :
    Int × TypeContext × World :=
  if tc.citemName.isNone then (0, tc, w)
  else if tc.index = 0 then
    let (v, w1) := PyObject_GetAttrString obj "columns" w
    (1, { (set_citemName tc "columns") with itemValue := v, index := tc.index + 1 }, w1)
  else if tc.index = 1 then
    let (v, w1) := PyObject_GetAttrString obj "index" w
    (1, { (set_citemName tc "index") with itemValue := v, index := tc.index + 1 }, w1)
  else if tc.index = 2 then
    let (v, w1) := PyObject_GetAttrString obj "values" w
    (1, { (set_citemName tc "data") with itemValue := v, index := tc.index + 1 }, w1)
  else (0, tc, w)

/-- DataFrame_iterEnd, lines 752-761. -/
def DataFrame_iterEnd (tc : TypeContext) (w : World) : World :=
  let w1 := w.setOutputFormat w.encoder.originalOutputFormat
  PyObject_Free (tc.citemName.map (fun b => b.ptr)) w1

/-! ## Dict iteration functions (lines 774-841) -/

/-- Dict_iterBegin, lines 779-783. -/
def Dict_iterBegin (tc : TypeContext) : TypeContext := { tc with index := 0 }

/-- Dict_iterNext, lines 785-819; PyDict_Next visits the entries by position. -/
def Dict_iterNext (tc : TypeContext) : Option (Int × TypeContext) :=
  let tc0 := { tc with itemName := none }
  match tc0.dictObj with
  | none => none
  | some d =>
    if 0 ≤ tc0.index ∧ tc0.index < d.info.size then
      match d.child (.dictKey tc0.index) with
      | none => none
      | some key =>
        let tc1 := { tc0 with itemName := some key, itemValue := d.child (.dictValue tc0.index),
                              index := tc0.index + 1 }
        if key.info.PyUnicode_Check then
          some (1, { tc1 with itemName := key.child .utf8 })
        else if !key.info.PyString_Check then
          some (1, { tc1 with itemName := key.child .str })
        else
          some (1, tc1)
    else some (0, tc0)

/-- Dict_iterEnd, lines 821-830. -/
def Dict_iterEnd (tc : TypeContext) : TypeContext := { tc with itemName := none }

/-- Dict_iterGetName, lines 837-841. -/
def Dict_iterGetName (tc : TypeContext) : Option (List Nat) :=
  tc.itemName.map (fun n => n.info.PyString_AS_STRING)

/-! ## Scalar converters (lines 117-215) -/

/-- Conversion to a 32 bit C int (two's complement wrap). -/
def wrap32 (x : Int) : Int := (x + 2 ^ 31) % 2 ^ 32 - 2 ^ 31

/-- Conversion to a 64 bit JSINT64 (two's complement wrap). -/
def wrap64 (x : Int) : Int := (x + 2 ^ 63) % 2 ^ 64 - 2 ^ 63

/-- Leap years of the proleptic Gregorian calendar (the host's datetime module). -/
def is_leap (y : Int) : Bool := y % 4 == 0 && (y % 100 != 0 || y % 400 == 0)

/-- Days before January 1st of year `y` (the host's datetime module). -/
def days_before_year (y : Int) : Int :=
  let y1 := y - 1
  y1 * 365 + y1 / 4 - y1 / 100 + y1 / 400

/-- Days in year `y` before the first day of month `m` (the host's datetime module). -/
def days_before_month (y m : Int) : Int :=
  [0, 0, 31, 59, 90, 120, 151, 181, 212, 243, 273, 304, 334].getD m.toNat 0
    + (if m > 2 && is_leap y then 1 else 0)

/-- The host's date(y, m, d).toordinal(): the proleptic Gregorian ordinal. -/
def toordinal (y m d : Int) : Int := days_before_year y + days_before_month y m + d

/-- PyDateTimeToINT64, lines 185-200. -/
def PyDateTimeToINT64 (obj : PyObject) : Int :=
  let y := obj.info.year
  let m := obj.info.month
  let d := obj.info.day
  let h := obj.info.hour
  let mn := obj.info.minute
  let s := obj.info.second
  let days := wrap32 (toordinal y m 1 - EPOCH_ORD + d - 1)
  wrap64 (wrap32 ((days * 24 + h) * 60 + mn) * 60 + s)

/-- PyDateToINT64, lines 202-215. -/
def PyDateToINT64 (obj : PyObject) : Int :=
  let y := obj.info.year
  let m := obj.info.month
  let d := obj.info.day
  let days := wrap32 (toordinal y m 1 - EPOCH_ORD + d - 1)
  wrap64 (days * 86400)

/-- Object_getLongValue (lines 1367-1373) and Object_getIntValue (lines 1375-1380) through
the integer converters of lines 117-135 and 178-215; `none` when the slot holds no
integer converter. -/
def Object_getLongValue (obj : PyObject) (tc : TypeContext) : Option Int :=
  match tc.PyTypeToJSON with
  | .PyIntToINT32 => some obj.info.PyInt_AS_LONG
  | .PyIntToINT64 => some obj.info.PyInt_AS_LONG
  | .PyLongToINT64 => some tc.longValue
  | .NpyDateTimeToINT64 => some obj.info.castDatetime
  | .PyDateTimeToINT64 => some (PyDateTimeToINT64 obj)
  | .PyDateToINT64 => some (PyDateToINT64 obj)
  | _ => none

/-- Object_getDoubleValue, lines 1383-1388, through the converters of lines 137-158. -/
def Object_getDoubleValue (obj : PyObject) (tc : TypeContext) : Option Nat :=
  match tc.PyTypeToJSON with
  | .NpyHalfToDOUBLE => some obj.info.halfAsDouble
  | .NpyFloatToDOUBLE => some obj.info.castDouble
  | .PyFloatToDOUBLE => some obj.info.PyFloat_AS_DOUBLE
  | _ => none

/-- Object_getStringValue, lines 1362-1365, through the converters of lines 160-176. -/
def Object_getStringValue (obj : PyObject) (tc : TypeContext) : Option (List Nat × TypeContext) :=
  match tc.PyTypeToJSON with
  | .PyStringToUTF8 => some (obj.info.PyString_AS_STRING, tc)
  | .PyUnicodeToUTF8 =>
    match obj.child .utf8 with
    | none => none
    | some newObj => some (newObj.info.PyString_AS_STRING, { tc with newObj := some newObj })
  | _ => none

/-! ## Label encoding (lines 843-931) -/

/-- NpyArr_freeLabels, lines 843-855. -/
def NpyArr_freeLabels (labels : Option LabelArray) (len : Int) (w : World) : World :=
  match labels with
  | none => w
  | some la =>
    let w1 := (la.entries.take len.toNat).foldl
      (fun acc e => PyObject_Free (Option.map (fun s => s.ptr) e) acc) w
    PyObject_Free (some la.ptr) w1

/-- Store the buffer pointers of the encoder. -/
def World.setBuffer (w : World) (start end_ offset : Int) : World :=
  { w with encoder := { w.encoder with
      enc := { w.encoder.enc with start := start, end_ := end_, offset := offset } } }

/-- Write bytes into a text buffer from an address on. -/
def pokeBytes (buf : Int → Nat) (addr : Int) (bytes : List Nat) : Int → Nat :=
  fun a => if addr ≤ a ∧ a < addr + bytes.length then bytes.getD (a - addr).toNat 0 else buf a

/-- Read `len` bytes of a text buffer from an address on (the source of a memcpy). -/
def peekBytes (buf : Int → Nat) (addr : Int) (len : Int) : List Nat :=
  (List.range len.toNat).map (fun k : Nat => buf (addr + (k : Int)))

/-- Modelled from the spec: the entry point JSON_EncodeObject of the external writer
(ultrajson), called on a caller supplied buffer. It renders the value as JSON text from
the start of the buffer, appends a NUL terminator, leaves `start` at the buffer,
`offset` one past the terminator and `end` at the end of the buffer, and reports
failure in `errorMsg` or as a pending host error. It returns `start`. -/
def JSON_EncodeObject (env : Env) (obj : Option PyObject) (buf : Int → Nat) (buffer : Int)
    (cbBuffer : Int) (w : World) : Int × (Int → Nat) × World :=
  let r := env.render obj
  let text := r.1
  let w1 := w.setBuffer buffer (buffer + cbBuffer) (buffer + text.length + 1)
  let w2 := { w1 with encoder := { w1.encoder with enc := { w1.encoder.enc with errorMsg := r.2.1 } } }
  let w3 := match r.2.2 with
    | some e => PyErr_Set e w2
    | none => w2
  (buffer, pokeBytes buf buffer (text ++ [0]), w3)

/-- The second for loop of NpyArr_encodeLabels, lines 893-924, for the `n` elements from
position `i` on: the array to return (NULL after a failure) and the state. -/
def NpyArr_encodeLabels_loop (env : Env) (labels : PyObject) (stride : Int) (ret : Nat)
    (num : Int) : Nat → Int → Int → List (Option LabelStr) → (Int → Nat) → World →
    Option LabelArray × World
  | 0, _, _, entries, _, w => (some { ptr := ret, entries := entries }, w)
  | n + 1, i, dataptr, entries, buf, w =>
    let (cLabel, buf1, w1) := JSON_EncodeObject env (getitem dataptr labels) buf env.labelBuffer 32768 w
    if w1.pyErr.isSome || w1.encoder.enc.errorMsg.isSome then
      (none, NpyArr_freeLabels (some { ptr := ret, entries := entries }) num w1)
    else
      let e1 := w1.encoder.enc
      -- trim off any quotes surrounding the result
      let (cLabel2, buf2, w2) :=
        if buf1 cLabel = QUOTE then
          (cLabel + 1, pokeBytes buf1 (e1.offset - 2) [0],
            w1.setBuffer e1.start e1.end_ (e1.offset - 2))
        else (cLabel, buf1, w1)
      let len := w2.encoder.enc.offset - cLabel2 + 1
      match PyObject_Malloc w2 with
      | (none, w3) => (none, PyErr_Set .MemoryError w3)
      | (some p, w3) =>
        let s : LabelStr := { ptr := p, bytes := peekBytes buf2 cLabel2 len }
        NpyArr_encodeLabels_loop env labels stride ret num n (i + 1) (dataptr + stride)
          (entries.set i.toNat (some s)) buf2 w3

/-- NpyArr_encodeLabels, lines 857-931; `none` when `labels` is NULL. -/
def NpyArr_encodeLabels (env : Env) (labels : Option PyObject) (num : Int) (w : World) :
    Option (Option LabelArray × World) :=
  match labels with
  | none => none
  | some labels =>
    if PyArray_SIZE labels < num then
      some (none, PyErr_Set .ValueError w)
    else
      match PyObject_Malloc w with
      | (none, w1) => some (none, PyErr_Set .MemoryError w1)
      | (some ret, w1) =>
        let entries : List (Option LabelStr) := List.replicate num.toNat none
        let origst := w1.encoder.enc.start
        let origend := w1.encoder.enc.end_
        let origoffset := w1.encoder.enc.offset
        let stride := PyArray_STRIDE labels 0
        let dataptr := PyArray_DATA labels
        let labelBuffer : Int → Nat := fun a => (w1.junk a).toNat
        let (r, w2) := NpyArr_encodeLabels_loop env labels stride ret num num.toNat 0 dataptr
          entries labelBuffer w1
        some (r, w2.setBuffer origst origend origoffset)

/-! ## The type dispatcher (lines 933-1352) -/

/-- PyLong_AsLongLong of the host: the value when it fits a signed 64 bit integer,
otherwise -1 with an OverflowError pending. -/
def PyLong_AsLongLong (obj : PyObject) (w : World) : Int × World :=
  if -(2 : Int) ^ 63 ≤ obj.info.longValue ∧ obj.info.longValue ≤ 2 ^ 63 - 1 then
    (obj.info.longValue, w)
  else (-1, PyErr_Set .OverflowError w)

/-- The test `exc && PyErr_ExceptionMatches(PyExc_OverflowError)` of lines 986 and 1007. -/
def overflowPending (w : World) : Bool := w.pyErr == some PyExc.OverflowError

/-- The iterator slots of the array cursor, as lines 1147-1151 and the like set them. -/
def TypeContext.withNpyArr (pc : TypeContext) : TypeContext :=
  { pc with iterBegin := .NpyArr_iterBegin, iterEnd := .NpyArr_iterEnd,
            iterNext := .NpyArr_iterNext, iterGetValue := .NpyArr_iterGetValue,
            iterGetName := .NpyArr_iterGetName }

/-- The iterator slots of the mapping iterator, lines 1095-1099 and 1333-1337. -/
def TypeContext.withDict (pc : TypeContext) : TypeContext :=
  { pc with iterBegin := .Dict_iterBegin, iterEnd := .Dict_iterEnd,
            iterNext := .Dict_iterNext, iterGetValue := .Dict_iterGetValue,
            iterGetName := .Dict_iterGetName }

/-- The scalar checks of Object_beginTypeContext, lines 957-1086, on a zeroed context:
the node when one of them applies, `none` when control reaches the label ISITERABLE. -/
def Object_beginTypeContext_scalar (env : Env) (obj : PyObject) (pc : TypeContext) (w : World) :
    Option (TypeContext × World) :=
  let i := obj.info
  if i.PyBool_Check then
    some ({ pc with type := if i.isPyTrue then .JT_TRUE else .JT_FALSE }, w)
  else if i.PyInt_Check then
    if env.lp64 then some ({ pc with PyTypeToJSON := .PyIntToINT64, type := .JT_LONG }, w)
    else some ({ pc with PyTypeToJSON := .PyIntToINT32, type := .JT_INT }, w)
  else if i.PyLong_Check then
    let (v, w1) := PyLong_AsLongLong obj w
    let pc1 := { pc with PyTypeToJSON := .PyLongToINT64, type := .JT_LONG, longValue := v }
    if overflowPending w1 then some ({ pc1 with type := .JT_INVALID }, w1)
    else some (pc1, w1)
  else if i.isScalarInteger then
    let w1 := if i.castOverflow then PyErr_Set .OverflowError w else w
    let pc1 := { pc with PyTypeToJSON := .PyLongToINT64, type := .JT_LONG, longValue := i.castLong }
    if overflowPending w1 then some ({ pc1 with type := .JT_INVALID }, w1)
    else some (pc1, w1)
  else if i.PyString_Check then
    some ({ pc with PyTypeToJSON := .PyStringToUTF8, type := .JT_UTF8 }, w)
  else if i.PyUnicode_Check then
    some ({ pc with PyTypeToJSON := .PyUnicodeToUTF8, type := .JT_UTF8 }, w)
  else if i.PyFloat_Check then
    let val := i.PyFloat_AS_DOUBLE
    if npy_isnan val || npy_isinf val then some ({ pc with type := .JT_NULL }, w)
    else some ({ pc with PyTypeToJSON := .PyFloatToDOUBLE, type := .JT_DOUBLE }, w)
  else if i.isScalarFloat then
    some ({ pc with PyTypeToJSON := .NpyFloatToDOUBLE, type := .JT_DOUBLE }, w)
  else if i.isScalarHalf then
    some ({ pc with PyTypeToJSON := .NpyHalfToDOUBLE, type := .JT_DOUBLE }, w)
  else if i.isScalarDatetime then
    some ({ pc with PyTypeToJSON := .NpyDateTimeToINT64, type := .JT_LONG }, w)
  else if i.PyDateTime_Check then
    some ({ pc with PyTypeToJSON := .PyDateTimeToINT64, type := .JT_LONG }, w)
  else if i.PyDate_Check then
    some ({ pc with PyTypeToJSON := .PyDateToINT64, type := .JT_LONG }, w)
  else if i.isPyNone then
    some ({ pc with type := .JT_NULL }, w)
  else none

/-- The labeled table branch of Object_beginTypeContext, lines 1221-1305; `none` when
a NULL attribute is dereferenced. -/
def Object_beginTypeContext_dataframe (env : Env) (obj : PyObject) (pc : TypeContext)
    (w : World) : Option (TypeContext × World) :=
  if w.encoder.outputFormat = .SPLIT then
    some ({ pc with type := .JT_OBJECT, iterBegin := .DataFrame_iterBegin,
                    iterEnd := .DataFrame_iterEnd, iterNext := .DataFrame_iterNext,
                    iterGetValue := .DataFrame_iterGetValue,
                    iterGetName := .DataFrame_iterGetName }, w)
  else
    let (values, w1) := PyObject_GetAttrString obj "values" w
    let pc1 := { pc with newObj := values }.withNpyArr
    if w1.encoder.outputFormat = .VALUES then
      some ({ pc1 with type := .JT_ARRAY }, w1)
    else
      match values with
      | none => none
      | some newObj =>
        if w1.encoder.outputFormat = .RECORDS then
          let pc2 := { pc1 with type := .JT_ARRAY, columnLabelsLen := PyArray_DIM newObj 1 }
          let (columns, w2) := PyObject_GetAttrString obj "columns" w1
          match NpyArr_encodeLabels env columns pc2.columnLabelsLen w2 with
          | none => none
          | some (none, w3) => some ({ pc2 with columnLabels := none, type := .JT_INVALID }, w3)
          | some (some l, w3) => some ({ pc2 with columnLabels := some l }, w3)
        else if w1.encoder.outputFormat = .INDEX then
          let pc2 := { pc1 with type := .JT_OBJECT, rowLabelsLen := PyArray_DIM newObj 0 }
          let (index, w2) := PyObject_GetAttrString obj "index" w1
          match NpyArr_encodeLabels env index pc2.rowLabelsLen w2 with
          | none => none
          | some (none, w3) => some ({ pc2 with rowLabels := none, type := .JT_INVALID }, w3)
          | some (some r, w3) =>
            let pc3 := { pc2 with rowLabels := some r, columnLabelsLen := PyArray_DIM newObj 1 }
            let (columns, w4) := PyObject_GetAttrString obj "columns" w3
            match NpyArr_encodeLabels env columns pc3.columnLabelsLen w4 with
            | none => none
            | some (none, w5) =>
              let w6 := NpyArr_freeLabels pc3.rowLabels pc3.rowLabelsLen w5
              some ({ pc3 with columnLabels := none, rowLabels := none, type := .JT_INVALID }, w6)
            | some (some l, w5) => some ({ pc3 with columnLabels := some l }, w5)
        else
          let pc2 := { pc1 with type := .JT_OBJECT, rowLabelsLen := PyArray_DIM newObj 1 }
          let (columns, w2) := PyObject_GetAttrString obj "columns" w1
          match NpyArr_encodeLabels env columns pc2.rowLabelsLen w2 with
          | none => none
          | some (none, w3) => some ({ pc2 with rowLabels := none, type := .JT_INVALID }, w3)
          | some (some r, w3) =>
            let pc3 := { pc2 with rowLabels := some r, columnLabelsLen := PyArray_DIM newObj 0 }
            let (index, w4) := PyObject_GetAttrString obj "index" w3
            match NpyArr_encodeLabels env index pc3.columnLabelsLen w4 with
            | none => none
            | some (none, w5) =>
              let w6 := NpyArr_freeLabels pc3.rowLabels pc3.rowLabelsLen w5
              some ({ pc3 with columnLabels := none, rowLabels := none, type := .JT_INVALID }, w6)
            | some (some l, w5) => some ({ pc3 with columnLabels := some l, transpose := 1 }, w5)

/-- The container rules of Object_beginTypeContext from the label ISITERABLE on, lines
1089-1352, on a zeroed context; `none` when a NULL attribute is dereferenced. -/
def Object_beginTypeContext_iterable (env : Env) (obj : PyObject) (pc : TypeContext)
    (w : World) : Option (TypeContext × World) :=
  let i := obj.info
  if i.PyDict_Check then
    some ({ pc with type := .JT_OBJECT, dictObj := some obj }.withDict, w)
  else if i.PyList_Check then
    some ({ pc with type := .JT_ARRAY, iterBegin := .List_iterBegin, iterEnd := .List_iterEnd,
                    iterNext := .List_iterNext, iterGetValue := .List_iterGetValue,
                    iterGetName := .List_iterGetName }, w)
  else if i.PyTuple_Check then
    some ({ pc with type := .JT_ARRAY, iterBegin := .Tuple_iterBegin, iterEnd := .Tuple_iterEnd,
                    iterNext := .Tuple_iterNext, iterGetValue := .Tuple_iterGetValue,
                    iterGetName := .Tuple_iterGetName }, w)
  else if i.isIndex then
    if w.encoder.outputFormat = .SPLIT then
      some ({ pc with type := .JT_OBJECT, iterBegin := .Index_iterBegin,
                      iterEnd := .Index_iterEnd, iterNext := .Index_iterNext,
                      iterGetValue := .Index_iterGetValue,
                      iterGetName := .Index_iterGetName }, w)
    else
      let (values, w1) := PyObject_GetAttrString obj "values" w
      some ({ pc with type := .JT_ARRAY, newObj := values }.withNpyArr, w1)
  else if i.isSeries then
    if w.encoder.outputFormat = .SPLIT then
      some ({ pc with type := .JT_OBJECT, iterBegin := .Series_iterBegin,
                      iterEnd := .Series_iterEnd, iterNext := .Series_iterNext,
                      iterGetValue := .Series_iterGetValue,
                      iterGetName := .Series_iterGetName }, w)
    else if w.encoder.outputFormat = .INDEX ∨ w.encoder.outputFormat = .COLUMNS then
      let pc1 := { pc with type := .JT_OBJECT, columnLabelsLen := PyArray_SIZE obj }
      let (index, w1) := PyObject_GetAttrString obj "index" w
      match NpyArr_encodeLabels env index pc1.columnLabelsLen w1 with
      | none => none
      | some (none, w2) => some ({ pc1 with columnLabels := none, type := .JT_INVALID }, w2)
      | some (some l, w2) =>
        let (values, w3) := PyObject_GetAttrString obj "values" w2
        some ({ pc1 with columnLabels := some l, newObj := values }.withNpyArr, w3)
    else
      let (values, w1) := PyObject_GetAttrString obj "values" w
      some ({ pc with type := .JT_ARRAY, newObj := values }.withNpyArr, w1)
  else if i.PyArray_Check then
    match w.encoder.npyCtxtPassthru with
    | some p =>
      match w.deref (some p) with
      | none => none
      | some (_, c) =>
        some ({ pc with npyarr := some p,
                        type := if c.columnLabels.isSome then .JT_OBJECT else .JT_ARRAY,
                        iterBegin := .NpyArrPassThru_iterBegin,
                        iterEnd := .NpyArrPassThru_iterEnd, iterNext := .NpyArr_iterNext,
                        iterGetValue := .NpyArr_iterGetValue,
                        iterGetName := .NpyArr_iterGetName }, w.setPassthru none)
    | none => some ({ pc with type := .JT_ARRAY }.withNpyArr, w)
  else if i.isDataFrame then
    Object_beginTypeContext_dataframe env obj pc w
  else
    match PyObject_GetAttrString obj "toDict" w with
    | (some toDictFunc, w1) =>
      match toDictFunc.child .call with
      | none => some ({ pc with type := .JT_NULL }, PyErr_Clear w1)
      | some toDictResult =>
        if !toDictResult.info.PyDict_Check then some ({ pc with type := .JT_NULL }, w1)
        else some ({ pc with type := .JT_OBJECT, dictObj := some toDictResult }.withDict, w1)
    | (none, w1) =>
      some ({ pc with type := .JT_OBJECT, iterBegin := .Dir_iterBegin, iterEnd := .Dir_iterEnd,
                      iterNext := .Dir_iterNext, iterGetValue := .Dir_iterGetValue,
                      iterGetName := .Dir_iterGetName }, PyErr_Clear w1)

/-- Object_beginTypeContext, lines 933-1352. -/
def Object_beginTypeContext (env : Env) (_obj : Option PyObject) (w : World) :
    Option (TypeContext × World) :=
  match _obj with
  | none => some (TypeContext.zero .JT_INVALID, w)
  | some obj =>
    let pc := TypeContext.zero .JT_INVALID
    if obj.info.PyIter_Check || obj.info.PyArray_Check then
      Object_beginTypeContext_iterable env obj pc w
    else
      match Object_beginTypeContext_scalar env obj pc w with
      | some r => some r
      | none => Object_beginTypeContext_iterable env obj pc w

/-- Object_endTypeContext, lines 1355-1360. -/
def Object_endTypeContext (tc : TypeContext) (w : World) : World :=
  let w1 := NpyArr_freeLabels tc.rowLabels tc.rowLabelsLen w
  NpyArr_freeLabels tc.columnLabels tc.columnLabelsLen w1

/-! ## The callbacks handed to the encoder (lines 1397-1420) -/

/-- Object_iterBegin, lines 1397-1400. -/
def Object_iterBegin (obj : PyObject) (tc : TypeContext) (w : World) :
    Option (TypeContext × World) :=
  match tc.iterBegin with
  | .NpyArr_iterBegin => some (NpyArr_iterBegin obj tc w)
  | .NpyArrPassThru_iterBegin => some (NpyArrPassThru_iterBegin tc w)
  | .Tuple_iterBegin => some (Tuple_iterBegin obj tc, w)
  | .List_iterBegin => some (List_iterBegin obj tc, w)
  | .Dir_iterBegin => (Dir_iterBegin obj tc).map (fun t => (t, w))
  | .Index_iterBegin => some (Index_iterBegin tc w)
  | .Series_iterBegin => some (Series_iterBegin tc w)
  | .DataFrame_iterBegin => some (DataFrame_iterBegin tc w)
  | .Dict_iterBegin => some (Dict_iterBegin tc, w)
  | _ => none

/-- Object_iterNext, lines 1402-1405. -/
def Object_iterNext (obj : PyObject) (tc : TypeContext) (w : World) :
    Option (Int × TypeContext × World) :=
  match tc.iterNext with
  | .NpyArr_iterNextNone => NpyArr_iterNextNone tc w
  | .NpyArr_iterNextItem => NpyArr_iterNextItem tc w
  | .NpyArr_iterNext => NpyArr_iterNext tc w
  | .Tuple_iterNext => let r := Tuple_iterNext obj tc
    some (r.1, r.2, w)
  | .List_iterNext => let r := List_iterNext obj tc
    some (r.1, r.2, w)
  | .Dir_iterNext => Dir_iterNext obj tc w
  | .Index_iterNext => some (Index_iterNext obj tc w)
  | .Series_iterNext => some (Series_iterNext obj tc w)
  | .DataFrame_iterNext => some (DataFrame_iterNext obj tc w)
  | .Dict_iterNext => (Dict_iterNext tc).map (fun r => (r.1, r.2, w))
  | _ => none

/-- Object_iterEnd, lines 1407-1410. -/
def Object_iterEnd (tc : TypeContext) (w : World) : Option (TypeContext × World) :=
  match tc.iterEnd with
  | .NpyArr_iterEnd => some (tc, NpyArr_iterEnd tc w)
  | .NpyArrPassThru_iterEnd => (NpyArrPassThru_iterEnd tc w).map (fun w1 => (tc, w1))
  | .Tuple_iterEnd => some (tc, w)
  | .List_iterEnd => some (tc, w)
  | .Dir_iterEnd => if tc.attrList.isSome then some ({ tc with itemValue := none }, w) else none
  | .Index_iterEnd => some (tc, Index_iterEnd tc w)
  | .Series_iterEnd => some (tc, Series_iterEnd tc w)
  | .DataFrame_iterEnd => some (tc, DataFrame_iterEnd tc w)
  | .Dict_iterEnd => if tc.dictObj.isSome then some (Dict_iterEnd tc, w) else none
  | _ => none

/-- Object_iterGetValue, lines 1412-1415: every iterGetValue function returns itemValue. -/
def Object_iterGetValue (tc : TypeContext) : Option (Option PyObject) :=
  match tc.iterGetValue with
  | .NpyArr_iterGetValue => some tc.itemValue
  | .Tuple_iterGetValue => some tc.itemValue
  | .List_iterGetValue => some tc.itemValue
  | .Dir_iterGetValue => some tc.itemValue
  | .Index_iterGetValue => some tc.itemValue
  | .Series_iterGetValue => some tc.itemValue
  | .DataFrame_iterGetValue => some tc.itemValue
  | .Dict_iterGetValue => some tc.itemValue
  | _ => none

/-- Object_iterGetName, lines 1417-1420: `some none` is a NULL name (tuple, list), `none`
a dereference of a missing label or name. -/
def Object_iterGetName (tc : TypeContext) (w : World) : Option (Option (List Nat)) :=
  match tc.iterGetName with
  | .NpyArr_iterGetName => (NpyArr_iterGetName tc w).map some
  | .Tuple_iterGetName => some none
  | .List_iterGetName => some none
  | .Dir_iterGetName => (Dir_iterGetName tc).map some
  | .Index_iterGetName => (Index_iterGetName tc).map some
  | .Series_iterGetName => (Index_iterGetName tc).map some
  | .DataFrame_iterGetName => (Index_iterGetName tc).map some
  | .Dict_iterGetName => (Dict_iterGetName tc).map some
  | _ => none

/-! ## The driving encoder -/

/-- What the encoder is driven to emit for one value: a primitive, an array of items or
an object of named members. `invalid` stands for a node the dispatcher rejected. -/
inductive JSON where
  | null
  | true_
  | false_
  | int (v : Int)
  | long (v : Int)
  | double (bits : Nat)
  | utf8 (s : List Nat)
  | invalid
  | array (items : List JSON)
  | object (members : List (Option (List Nat) × JSON))

/-- Modelled from the spec: the item loop of the Driving Encoder (ultrajson's `encode`,
cases JT_ARRAY and JT_OBJECT). While iterNext reports an item it fetches the value with
iterGetValue, for an object also the name with iterGetName, and encodes the value with
`child` before asking for the next item. `n` bounds the number of iterNext calls. -/
def iterate (child : World → Option PyObject → Option (World × JSON)) (obj : PyObject)
    (named : Bool) : Nat → TypeContext → World →
    Option (List (Option (List Nat) × JSON) × TypeContext × World)
  | 0, _, _ => none
  | n + 1, tc, w =>
    match Object_iterNext obj tc w with
    | none => none
    | some (r, tc1, w1) =>
      if r = 0 then some ([], tc1, w1)
      else
        match Object_iterGetValue tc1 with
        | none => none
        | some iterObj =>
          match (if named then Object_iterGetName tc1 w1 else some none) with
          | none => none
          | some objName =>
            match child w1 iterObj with
            | none => none
            | some (w2, j) =>
              match iterate child obj named n tc1 w2 with
              | none => none
              | some (rest, tc2, w3) => some ((objName, j) :: rest, tc2, w3)

/-- Modelled from the spec: the Driving Encoder (ultrajson's `encode`). It asks the
dispatcher for the node kind (beginNode), reads a primitive through the matching read
operation, or runs iterBegin, the item loop and iterEnd for an array or an object,
recursing into every value yielded, and closes the node (endNode). A node reported
invalid is left at once. `fuel` bounds the nesting depth and the length of every item
loop; `none` means the fuel ran out or a callback dereferenced a missing pointer. -/
def encode (env : Env) : Nat → World → Option PyObject → Option (World × JSON)
  | 0, _, _ => none
  | fuel + 1, w, obj =>
    match Object_beginTypeContext env obj w with
    | none => none
    | some (tc, w1) =>
      match tc.type, obj with
      | .JT_INVALID, _ => some (w1, .invalid)
      | _, none => none
      | .JT_NULL, some _ => some (Object_endTypeContext tc w1, .null)
      | .JT_TRUE, some _ => some (Object_endTypeContext tc w1, .true_)
      | .JT_FALSE, some _ => some (Object_endTypeContext tc w1, .false_)
      | .JT_INT, some o =>
        (Object_getLongValue o tc).map (fun v => (Object_endTypeContext tc w1, .int v))
      | .JT_LONG, some o =>
        (Object_getLongValue o tc).map (fun v => (Object_endTypeContext tc w1, .long v))
      | .JT_DOUBLE, some o =>
        (Object_getDoubleValue o tc).map (fun v => (Object_endTypeContext tc w1, .double v))
      | .JT_UTF8, some o =>
        (Object_getStringValue o tc).map (fun r => (Object_endTypeContext r.2 w1, .utf8 r.1))
      | .JT_ARRAY, some o =>
        match Object_iterBegin o tc w1 with
        | none => none
        | some (tc2, w2) =>
          match iterate (encode env fuel) o false fuel tc2 w2 with
          | none => none
          | some (items, tc3, w3) =>
            match Object_iterEnd tc3 w3 with
            | none => none
            | some (tc4, w4) => some (Object_endTypeContext tc4 w4, .array (items.map Prod.snd))
      | .JT_OBJECT, some o =>
        match Object_iterBegin o tc w1 with
        | none => none
        | some (tc2, w2) =>
          match iterate (encode env fuel) o true fuel tc2 w2 with
          | none => none
          | some (items, tc3, w3) =>
            match Object_iterEnd tc3 w3 with
            | none => none
            | some (tc4, w4) => some (Object_endTypeContext tc4 w4, .object items)


/-! ## The top-level call (lines 1423-1538) -/

/-- What one call of objToJSON does: the `pyEncoder` it hands to JSON_EncodeObject
(`none` when it returns before that call), the exception it leaves pending, and the
document it returns (`none` for a NULL return). `finished` is false when the model of
the encoder ran out of fuel or followed a missing pointer. -/
structure CallOutcome where
  invoked : Option PyObjectEncoder
  pyErr : Option PyExc
  ret : Option JSON
  finished : Bool

/-- The test `strcmp(sOrient, lit) == 0` of lines 1462-1484, a C string being the bytes
before its terminating NUL. -/
def strcmp_eq (s : List Nat) (lit : String) : Bool := s == cstr lit

/-- objToJSON, lines 1423-1538, after PyArg_ParseTupleAndKeywords has succeeded with the
object `oinput` and the orient string `sOrient` (NULL when the argument is absent); `w`
is the state of the host at the call. -/
def objToJSON (env : Env) (fuel : Nat) (w : World) (oinput : PyObject)
    (sOrient : Option (List Nat)) : CallOutcome :=
  let pyEncoder : PyObjectEncoder :=
    { enc := { start := 0, end_ := 0, offset := 0, errorMsg := none },
      npyCtxtPassthru := none, outputFormat := .COLUMNS, originalOutputFormat := .SPLIT }
  let parsed : Option PyObjectEncoder :=
    match sOrient with
    | none => some pyEncoder
    | some s =>
      if strcmp_eq s "records" then some { pyEncoder with outputFormat := .RECORDS }
      else if strcmp_eq s "index" then some { pyEncoder with outputFormat := .INDEX }
      else if strcmp_eq s "split" then some { pyEncoder with outputFormat := .SPLIT }
      else if strcmp_eq s "values" then some { pyEncoder with outputFormat := .VALUES }
      else if !strcmp_eq s "columns" then none
      else some pyEncoder
  match parsed with
  | none => { invoked := none, pyErr := some .ValueError, ret := none, finished := true }
  | some pe =>
    let pe1 := { pe with originalOutputFormat := pe.outputFormat }
    match encode env fuel { w with encoder := pe1 } (some oinput) with
    | none => { invoked := some pe1, pyErr := none, ret := none, finished := false }
    | some (w1, doc) =>
      if w1.pyErr.isSome then
        { invoked := some pe1, pyErr := w1.pyErr, ret := none, finished := true }
      else if w1.encoder.enc.errorMsg.isSome then
        { invoked := some pe1, pyErr := some .OverflowError, ret := none, finished := true }
      else { invoked := some pe1, pyErr := none, ret := some doc, finished := true }
/-! ## Auxiliary definitions for the statements and proofs -/

/-- The world `w` with cursor block `p` holding `c` and the hand-off slot holding `s`. -/
def World.withCursor (w : World) (p : Nat) (c : NpyArrContext) (s : Option Nat) : World :=
  (w.setCursor p c).setPassthru s

/-- The cursor after the item loop of one frame: the data pointer has advanced by the
whole axis and the position counter of the axis stands at the extent. -/
def cursorAfter (c : NpyArrContext) (a : Int) (D : Int) : NpyArrContext :=
  { c with dataptr := a, index := Function.update c.index c.stridedim D }

/-- The cursor of the frame at depth `k` of a walk of `arr` whose first axis is `s0`
and whose step direction is `inc`, at byte address `a`, with position counters `idx`. -/
def frame (arr : PyObject) (inc s0 ndim : Int) (rl cl : Option LabelArray) (k a : Int)
    (idx : Int → Int) : NpyArrContext :=
  { array := arr, dataptr := a, curdim := k, stridedim := s0 + inc * k, inc := inc,
    dim := PyArray_DIM arr (s0 + inc * k), stride := PyArray_STRIDE arr (s0 + inc * k),
    ndim := ndim, index := idx, rowLabels := rl, columnLabels := cl }

/-- The items one frame yields: position `j` carries the label `labels[j]` when the node
is an object, and the value `T` of the byte address `a + j * S`. -/
def frameItems (named : Bool) (labels : Option LabelArray) (T : Int → JSON) (D : Nat) (S a : Int) :
    List (Option (List Nat) × JSON) :=
  (List.range D).map
    (fun j : Nat => (if named then labelAt labels (j : Int) else none, T (a + (j : Int) * S)))

/-- A raw N-dimensional array: an ndarray that no earlier container rule takes. -/
def RawArray (o : PyObject) : Prop :=
  o.info.PyArray_Check = true ∧ o.info.PyDict_Check = false ∧ o.info.PyList_Check = false ∧
    o.info.PyTuple_Check = false ∧ o.info.isIndex = false ∧ o.info.isSeries = false

/-- The node the dispatcher builds when it adopts the cursor `p` (lines 1199-1207). -/
def passthruTC (p : Nat) (cl : Option LabelArray) : TypeContext :=
  { TypeContext.zero .JT_INVALID with
    npyarr := some p, type := if cl.isSome then .JT_OBJECT else .JT_ARRAY,
    iterBegin := .NpyArrPassThru_iterBegin, iterEnd := .NpyArrPassThru_iterEnd,
    iterNext := .NpyArr_iterNext, iterGetValue := .NpyArr_iterGetValue,
    iterGetName := .NpyArr_iterGetName }

/-- The node of an item list: an object keeps the names, an array drops them. -/
def mkNode (named : Bool) (items : List (Option (List Nat) × JSON)) : JSON :=
  if named then .object items else .array (items.map Prod.snd)

/-- The item loop of the frame at depth `k`, run on a node that adopted or created the
cursor `p`, yields `items a` and leaves the cursor one whole axis further. -/
def FrameOK (child : World → Option PyObject → Option (World × JSON)) (obj arr : PyObject)
    (w : World) (p : Nat) (inc s0 ndim : Int) (rl cl : Option LabelArray) (named : Bool)
    (k : Int) (n : Nat) (items : Int → List (Option (List Nat) × JSON)) : Prop :=
  ∀ (tc : TypeContext) (a : Int) (idx : Int → Int),
    tc.npyarr = some p → tc.iterNext = .NpyArr_iterNext →
    tc.iterGetValue = .NpyArr_iterGetValue → tc.iterGetName = .NpyArr_iterGetName →
    idx (s0 + inc * k) = 0 →
    ∃ v nx idx', (∀ l, l < k → idx' (s0 + inc * l) = idx (s0 + inc * l)) ∧
      idx' (s0 + inc * k) = PyArray_DIM arr (s0 + inc * k) ∧
      iterate child obj named n tc (w.withCursor p (frame arr inc s0 ndim rl cl k a idx) none) =
        some (items a, { tc with itemValue := v, iterNext := nx },
          w.withCursor p (frame arr inc s0 ndim rl cl k
            (a + PyArray_DIM arr (s0 + inc * k) * PyArray_STRIDE arr (s0 + inc * k)) idx') none)

/-- The nesting the claim describes: one array level per axis `(extent, stride)`, child
`i` of a level at byte address `a` lying at `a + i * stride`, and the leaf at an address
being the element fetched there. -/
def nestedArray (leaf : Int → JSON) : List (Nat × Int) → Int → JSON
  | [], a => leaf a
  | (d, s) :: rest, a =>
    .array ((List.range d).map (fun i : Nat => nestedArray leaf rest (a + (i : Int) * s)))

/-- No scalar check of lines 957-1086 applies to the object. -/
def NoScalar (o : PyObject) : Prop :=
  o.info.PyBool_Check = false ∧ o.info.PyInt_Check = false ∧ o.info.PyLong_Check = false ∧
    o.info.isScalarInteger = false ∧ o.info.PyString_Check = false ∧
    o.info.PyUnicode_Check = false ∧ o.info.PyFloat_Check = false ∧
    o.info.isScalarFloat = false ∧ o.info.isScalarHalf = false ∧
    o.info.isScalarDatetime = false ∧ o.info.PyDateTime_Check = false ∧
    o.info.PyDate_Check = false ∧ o.info.isPyNone = false

/-- A labeled table: an instance of the DataFrame class that is neither iterator-like
nor an ndarray, and that no scalar check and no earlier container rule takes. -/
def IsTable (o : PyObject) : Prop :=
  o.info.PyIter_Check = false ∧ o.info.PyArray_Check = false ∧ NoScalar o ∧
    o.info.PyDict_Check = false ∧ o.info.PyList_Check = false ∧ o.info.PyTuple_Check = false ∧
    o.info.isIndex = false ∧ o.info.isSeries = false ∧ o.info.isDataFrame = true

/-- The root of a bare array walk over `arr`: the array itself, or a labeled table in
Values mode whose dense values are `arr`. -/
def ValuesRoot (w : World) (root arr : PyObject) : Prop :=
  root = arr ∨
    (IsTable root ∧ w.encoder.outputFormat = .VALUES ∧
      root.child (.attr (cstr "values")) = some arr)

/-! ### The 2 x 3 table of the specification -/

/-- An object with no reachable objects. -/
def noChild : Sel → Option PyObject := fun _ => none

/-- A host integer. -/
def pyInt (v : Int) : PyObject := .mk { PyInt_Check := true, PyInt_AS_LONG := v } noChild

/-- A host byte string. -/
def pyStr (s : String) : PyObject :=
  .mk { PyString_Check := true, PyString_AS_STRING := cstr s } noChild

/-- The values `[[1,2,3],[4,5,6]]`: a C-contiguous 2 x 3 array of 8 byte integers whose
payload starts at address 1000. -/
def values23 : PyObject :=
  .mk { PyArray_Check := true, data := 1000, dims := [2, 3], strides := [24, 8] }
    (fun s => match s with
      | .getitem a => some (pyInt ((a - 1000) / 8 + 1))
      | _ => none)

/-- The row labels `["r0","r1"]`, an array of strings at address 2000. -/
def index23 : PyObject :=
  .mk { PyArray_Check := true, isIndex := true, data := 2000, dims := [2], strides := [8] }
    (fun s => match s with
      | .getitem a => some (pyStr (if a = 2000 then "r0" else "r1"))
      | _ => none)

/-- The column labels `["c0","c1","c2"]`, an array of strings at address 3000. -/
def columns23 : PyObject :=
  .mk { PyArray_Check := true, isIndex := true, data := 3000, dims := [3], strides := [8] }
    (fun s => match s with
      | .getitem a => some (pyStr (if a = 3000 then "c0" else if a = 3008 then "c1" else "c2"))
      | _ => none)

/-- The 2 x 3 labeled table. -/
def table23 : PyObject :=
  .mk { isDataFrame := true }
    (fun s => if s = .attr (cstr "values") then some values23
      else if s = .attr (cstr "index") then some index23
      else if s = .attr (cstr "columns") then some columns23
      else none)

/-- A 64 bit platform whose writer renders a byte string between double quotes and
anything else as `0`. -/
def env64 : Env :=
  { lp64 := true, labelBuffer := 5000,
    render := fun o => match o with
      | some v =>
        if v.info.PyString_Check then ([QUOTE] ++ v.info.PyString_AS_STRING ++ [QUOTE], none, none)
        else ([48], none, none)
      | none => ([], none, some .Other) }

/-- The state at the start of a top-level call in the given output format. -/
def world0 (f : PANDAS_FORMAT) : World :=
  { encoder := { enc := { start := 0, end_ := 0, offset := 0, errorMsg := none },
                 npyCtxtPassthru := none, outputFormat := f, originalOutputFormat := f },
    pyErr := none, mallocCount := 0, live := [], mallocFails := [], cursors := fun _ => none,
    junk := fun _ => 0 }

/-- The label the claim describes for a rendered text: the text without its first and
last character when it begins with a double quote, the text itself otherwise. -/
def labelText (text : List Nat) : List Nat :=
  if text.head? = some QUOTE then (text.drop 1).dropLast else text

/-- What a successful run of the label encoder leaves unchanged or clean in the state. -/
def KeepsEncoder (w w' : World) : Prop :=
  w'.encoder.npyCtxtPassthru = w.encoder.npyCtxtPassthru ∧
  w'.encoder.outputFormat = w.encoder.outputFormat ∧
  w'.encoder.originalOutputFormat = w.encoder.originalOutputFormat ∧
  w'.pyErr = none ∧ (∀ b ∈ w'.mallocFails, b = false) ∧
  w'.cursors = w.cursors ∧ w'.junk = w.junk

/-- The writer renders the first `num` elements of a label array without error, as
the texts `text j`, none of which holds a NUL byte and each of which, when it begins
with a quote, has at least two characters. -/
def LabelsEncode (env : Env) (labels : PyObject) (num : Nat) (text : Nat → List Nat) : Prop :=
  ∀ j : Nat, j < num →
    env.render (getitem (PyArray_DATA labels + (j : Int) * PyArray_STRIDE labels 0) labels)
      = (text j, none, none) ∧
    0 ∉ text j ∧ ((text j).head? = some QUOTE → 2 ≤ (text j).length)

/-- A non-empty `m x n` labeled table over the dense values `values` (byte strides `s0`,
`s1`) with the row axis `index` and the column axis `columns`. -/
def TableOf (obj values index columns : PyObject) (m n : Nat) (s0 s1 : Int) : Prop :=
  IsTable obj ∧ RawArray values ∧
    obj.child (.attr (cstr "values")) = some values ∧
    obj.child (.attr (cstr "index")) = some index ∧
    obj.child (.attr (cstr "columns")) = some columns ∧
    values.info.dims = [m, n] ∧ values.info.strides = [s0, s1] ∧ 0 < m ∧ 0 < n

/-- The state in which a top-level node is dispatched: no cursor hand-off pending, no
host error pending, no allocation failing. -/
def CleanWorld (w : World) : Prop :=
  w.encoder.npyCtxtPassthru = none ∧ w.pyErr = none ∧ ∀ b ∈ w.mallocFails, b = false

/-- The node the labeled table branch builds (lines 1236-1303) over the values `values`. -/
def tableTC (values : PyObject) (ty : JSTYPES) (rl cl : Option LabelArray) (rlen clen : Int)
    (tr : Int) : TypeContext :=
  { { TypeContext.zero .JT_INVALID with newObj := some values }.withNpyArr with
    type := ty, rowLabels := rl, columnLabels := cl, rowLabelsLen := rlen,
    columnLabelsLen := clen, transpose := tr }


/-- The node the labeled table branch builds in Split mode (lines 1223-1232). -/
def splitTableTC : TypeContext :=
  { TypeContext.zero .JT_INVALID with
    type := .JT_OBJECT, iterBegin := .DataFrame_iterBegin, iterEnd := .DataFrame_iterEnd,
    iterNext := .DataFrame_iterNext, iterGetValue := .DataFrame_iterGetValue,
    iterGetName := .DataFrame_iterGetName }

/-- The Split mode table node with its name buffer holding `bytes`, the item value `v`
and the member counter `i`. -/
def splitTableAt (p : Nat) (bytes : List Nat) (v : Option PyObject) (i : Int) : TypeContext :=
  { splitTableTC with citemName := some { ptr := p, bytes := bytes }, itemValue := v, index := i }

/-- A numpy float32 scalar holding a quiet NaN. -/
def npFloatNaN : PyObject :=
  .mk { isScalarFloat := true, castDouble := 0x7FF8000000000000 } noChild

/-- A numpy half-precision scalar holding +Infinity. -/
def npHalfInf : PyObject :=
  .mk { isScalarHalf := true, halfAsDouble := 0x7FF0000000000000 } noChild

/-- A host float holding a quiet NaN. -/
def pyFloatNaN : PyObject :=
  .mk { PyFloat_Check := true, PyFloat_AS_DOUBLE := 0x7FF8000000000000 } noChild

/-- A host arbitrary-precision integer. -/
def pyLong (v : Int) : PyObject := .mk { PyLong_Check := true, longValue := v } noChild

/-- An arbitrary-precision integer that is not iterable-like: the PyLong check is the
first scalar check that applies to it. -/
def IsPyLong (o : PyObject) : Prop :=
  o.info.PyIter_Check = false ∧ o.info.PyArray_Check = false ∧ o.info.PyBool_Check = false ∧
    o.info.PyInt_Check = false ∧ o.info.PyLong_Check = true

/-- The node the PyLong branch builds (lines 980-982) with kind `ty` and value `v`. -/
def longTC (ty : JSTYPES) (v : Int) : TypeContext :=
  { TypeContext.zero .JT_INVALID with PyTypeToJSON := .PyLongToINT64, type := ty, longValue := v }

/-- An empty raw array of shape 0 x 3. -/
def emptyArray : PyObject :=
  .mk { PyArray_Check := true, data := 1000, dims := [0, 3], strides := [24, 8] } noChild

/-- A one element label array holding the string `abc`. -/
def labelsAbc : PyObject :=
  .mk { PyArray_Check := true, isIndex := true, data := 4000, dims := [1], strides := [8] }
    (fun s => match s with
      | .getitem _ => some (pyStr "abc")
      | _ => none)

/-- A labeled table over the 2 x 3 values whose column axis has only two labels. -/
def tableShort : PyObject :=
  .mk { isDataFrame := true }
    (fun s => if s = .attr (cstr "values") then some values23
      else if s = .attr (cstr "index") then some index23
      else if s = .attr (cstr "columns") then some index23
      else none)

/-- A labeled series: an instance of the Series class that no earlier container rule
takes (it is an ndarray in the host library, so the scalar checks are skipped). -/
def IsSeries (o : PyObject) : Prop :=
  o.info.PyArray_Check = true ∧ o.info.PyDict_Check = false ∧ o.info.PyList_Check = false ∧
    o.info.PyTuple_Check = false ∧ o.info.isIndex = false ∧ o.info.isSeries = true

/-- The label arrays a table dispatch requests in an output mode are too short for the
axes of `values` they annotate. -/
def ShortLabels (f : PANDAS_FORMAT) (values index columns : PyObject) : Prop :=
  match f with
  | .RECORDS => PyArray_SIZE columns < PyArray_DIM values 1
  | .INDEX => PyArray_SIZE index < PyArray_DIM values 0 ∨ PyArray_SIZE columns < PyArray_DIM values 1
  | .COLUMNS => PyArray_SIZE columns < PyArray_DIM values 1 ∨ PyArray_SIZE index < PyArray_DIM values 0
  | _ => False

/-- Control reaches the container rules (the label ISITERABLE): the value is
iterable-like, or no scalar check applies to it. -/
def ReachesContainers (o : PyObject) : Prop :=
  o.info.PyIter_Check = true ∨ o.info.PyArray_Check = true ∨ NoScalar o

/-- A host datetime value with the given fields. -/
def pyDateTime (y m d h mn s : Int) : PyObject :=
  .mk { PyDateTime_Check := true, PyDate_Check := true, year := y, month := m, day := d,
        hour := h, minute := mn, second := s } noChild

/-- A host date value with the given fields. -/
def pyDate (y m d : Int) : PyObject :=
  .mk { PyDate_Check := true, year := y, month := m, day := d } noChild

/-- Seconds since the epoch of a calendar moment, as the specification gives them. -/
def epochSeconds (y m d h mn s : Int) : Int :=
  86400 * (toordinal y m d - 719163) + 3600 * h + 60 * mn + s

/-- Minutes since the epoch, the quantity the code computes at int width. -/
def epochMinutes (y m d h mn : Int) : Int :=
  ((toordinal y m d - 719163) * 24 + h) * 60 + mn

/-- The text object the claim names for a mapping key: the key itself when it is a
byte string, its UTF-8 transcoding when it is Unicode, and the host's default string
conversion of the key otherwise. -/
def keyText (key : PyObject) : Option PyObject :=
  if key.info.PyUnicode_Check then key.child .utf8
  else if key.info.PyString_Check then some key
  else key.child .str

/-- The node of a mapping `d` with the item name `nm`, the item value `v` and the
position `i` of PyDict_Next. -/
def dictNode (d : PyObject) (nm v : Option PyObject) (i : Int) : TypeContext :=
  { ({ TypeContext.zero .JT_INVALID with type := .JT_OBJECT, dictObj := some d }.withDict) with
    itemName := nm, itemValue := v, index := i }

/-- The node of a mapping after `k` items were yielded. -/
def dictAfter (d : PyObject) (name : Nat → PyObject) (k : Nat) : TypeContext :=
  match k with
  | 0 => dictNode d none none 0
  | j + 1 => dictNode d (some (name j)) (d.child (.dictValue (j : Int))) ((j : Int) + 1)

/-- A host mapping with the two entries `1: 10` and `"b": 20`. -/
def dict2 : PyObject :=
  .mk { PyDict_Check := true, size := 2 }
    (fun s => match s with
      | .dictKey 0 => some (.mk { PyInt_Check := true, PyInt_AS_LONG := 1 }
          (fun t => match t with
            | .str => some (pyStr "1")
            | _ => none))
      | .dictValue 0 => some (pyInt 10)
      | .dictKey 1 => some (pyStr "b")
      | .dictValue 1 => some (pyInt 20)
      | _ => none)

/-- The output mode the claim assigns to an orient argument: Records, Index, Split and
Values for the strings of those names, Columns for `columns` and for an absent
argument, and no mode for any other string. -/
def orientMode (sOrient : Option (List Nat)) : Option PANDAS_FORMAT :=
  match sOrient with
  | none => some .COLUMNS
  | some s =>
    if s = cstr "columns" then some .COLUMNS
    else if s = cstr "records" then some .RECORDS
    else if s = cstr "index" then some .INDEX
    else if s = cstr "split" then some .SPLIT
    else if s = cstr "values" then some .VALUES
    else none

/-- The encoder state objToJSON builds for the output mode `f`. -/
def encoderFor (f : PANDAS_FORMAT) : PyObjectEncoder :=
  { enc := { start := 0, end_ := 0, offset := 0, errorMsg := none },
    npyCtxtPassthru := none, outputFormat := f, originalOutputFormat := f }

/-- A value that matches no dedicated handler: control reaches the container rules and
none of the mapping, list, tuple, labeled axis, series, array and table rules takes it. -/
def NoHandler (o : PyObject) : Prop :=
  (o.info.PyIter_Check = true ∨ NoScalar o) ∧ o.info.PyDict_Check = false ∧
    o.info.PyList_Check = false ∧ o.info.PyTuple_Check = false ∧ o.info.isIndex = false ∧
    o.info.isSeries = false ∧ o.info.PyArray_Check = false ∧ o.info.isDataFrame = false

/-- The node the mapping rule builds over the mapping `d` (lines 1091-1103, 1330-1338). -/
def dictTC (d : PyObject) : TypeContext :=
  { TypeContext.zero .JT_INVALID with type := .JT_OBJECT, dictObj := some d }.withDict

/-- An object whose only attribute is the method `toDict`, which behaves as `call` says. -/
def withToDict (call : Option PyObject) : PyObject :=
  .mk {} (fun s => if s = .attr (cstr "toDict")
    then some (.mk { PyCallable_Check := true } (fun t => if t = .call then call else none))
    else none)

/-- The item loop of the driving encoder with the yielded items collected instead of
encoded: the next operation is called until it reports no more items, and after each
item its name and its value are fetched. `n` bounds the number of calls. -/
def drain (obj : PyObject) : Nat → TypeContext → World →
    Option (List (Option (List Nat) × Option PyObject) × TypeContext × World)
  | 0, _, _ => none
  | n + 1, tc, w =>
    match Object_iterNext obj tc w with
    | none => none
    | some (r, tc1, w1) =>
      if r = 0 then some ([], tc1, w1)
      else
        match Object_iterGetName tc1 w1, Object_iterGetValue tc1 with
        | some nm, some v =>
          match drain obj n tc1 w1 with
          | none => none
          | some (rest, tc2, w2) => some ((nm, v) :: rest, tc2, w2)
        | _, _ => none

/-- The members the claim names for an attribute-name list: in the order of the list,
the names that do not begin with an underscore, whose attribute read succeeds and whose
value is not callable, each with the value read. -/
def publicMembers (obj : PyObject) (names : List PyObject) : List (PyObject × PyObject) :=
  names.filterMap (fun attr =>
    if attr.info.PyString_AS_STRING.head? = some 95 then none
    else match obj.child (.attr attr.info.PyString_AS_STRING) with
      | none => none
      | some v => if v.info.PyCallable_Check then none else some (attr, v))

/-- Some attribute read of the reflection walk over `names` fails. -/
def anyReadFails (obj : PyObject) (names : List PyObject) : Bool :=
  names.any (fun attr => !(attr.info.PyString_AS_STRING.head? == some 95) &&
    (obj.child (.attr attr.info.PyString_AS_STRING)).isNone)

/-- The state after the reflection walk: the pending error is cleared when a read failed. -/
def clearIf (b : Bool) (w : World) : World := if b then PyErr_Clear w else w

/-- The node the reflection fallback builds (lines 1342-1351). -/
def dirTC : TypeContext :=
  { TypeContext.zero .JT_INVALID with
    type := .JT_OBJECT, iterBegin := .Dir_iterBegin, iterEnd := .Dir_iterEnd,
    iterNext := .Dir_iterNext, iterGetValue := .Dir_iterGetValue,
    iterGetName := .Dir_iterGetName }

/-- The reflection node over the attribute list `l` at position `i`, holding the item
name `nm` and the item value `v`. -/
def dirNode (l : PyObject) (nm v : Option PyObject) (i : Int) : TypeContext :=
  { dirTC with attrList := some l, size := l.info.size, itemName := nm, itemValue := v, index := i }

/-- A host list holding the given objects. -/
def pyList (items : List PyObject) : PyObject :=
  .mk { PyList_Check := true, size := items.length }
    (fun s => match s with
      | .item i => if 0 ≤ i then items.get? i.toNat else none
      | _ => none)

/-- A generic object with the attributes `_p` (private), `a` = 1, `m` (a method), `b`
whose read raises, and `c` = 3, listed in that order. -/
def generic5 : PyObject :=
  .mk {}
    (fun s =>
      if s = .dir then some (pyList [pyStr "_p", pyStr "a", pyStr "m", pyStr "b", pyStr "c"])
      else if s = .attr (cstr "_p") then some (pyInt 0)
      else if s = .attr (cstr "a") then some (pyInt 1)
      else if s = .attr (cstr "m") then some (.mk { PyCallable_Check := true } noChild)
      else if s = .attr (cstr "c") then some (pyInt 3)
      else none)

/-- The fields of the encoder outside its text buffer: the hand-off slot and the two
output modes. -/
def World.modes (w : World) : Option Nat × PANDAS_FORMAT × PANDAS_FORMAT :=
  (w.encoder.npyCtxtPassthru, w.encoder.outputFormat, w.encoder.originalOutputFormat)

/-- The begin operation of the node switches the output mode to Values. -/
def Switches (tc : TypeContext) : Prop :=
  tc.iterBegin = .Series_iterBegin ∨ tc.iterBegin = .DataFrame_iterBegin

/-- The end operation of the node restores the output mode from the saved mode. -/
def Restores (tc : TypeContext) : Prop :=
  tc.iterEnd = .Series_iterEnd ∨ tc.iterEnd = .DataFrame_iterEnd

/-- What a dispatch guarantees about the node and the encoder: the two modes stay, the
hand-off slot stays or is emptied, a node that restores the mode at its end was
dispatched in Split mode, and a node that switches the mode restores it. -/
def BeginOK (w : World) (tc : TypeContext) (w' : World) : Prop :=
  w'.encoder.outputFormat = w.encoder.outputFormat ∧
  w'.encoder.originalOutputFormat = w.encoder.originalOutputFormat ∧
  (w'.encoder.npyCtxtPassthru = w.encoder.npyCtxtPassthru ∨ w'.encoder.npyCtxtPassthru = none) ∧
  (Restores tc → w.encoder.outputFormat = .SPLIT) ∧ (Switches tc → Restores tc)

/-- The invariant of the output modes during an encoding: the current mode is the
saved original mode, or it is Values. -/
def ModeInv (w : World) : Prop :=
  w.encoder.outputFormat = w.encoder.originalOutputFormat ∨ w.encoder.outputFormat = .VALUES

/-- The two worlds have the same current and saved output mode. -/
def SameFormat (w w' : World) : Prop :=
  w'.encoder.outputFormat = w.encoder.outputFormat ∧
    w'.encoder.originalOutputFormat = w.encoder.originalOutputFormat

/-- A labeled axis: an instance of the Index class that reaches the container rules
and that no earlier container rule takes. -/
def IsIndexLike (o : PyObject) : Prop :=
  ReachesContainers o ∧ o.info.PyDict_Check = false ∧ o.info.PyList_Check = false ∧
    o.info.PyTuple_Check = false ∧ o.info.isIndex = true

/-- The node the labeled axis branch builds in Split mode (lines 1132-1141). -/
def splitIndexTC : TypeContext :=
  { TypeContext.zero .JT_INVALID with
    type := .JT_OBJECT, iterBegin := .Index_iterBegin, iterEnd := .Index_iterEnd,
    iterNext := .Index_iterNext, iterGetValue := .Index_iterGetValue,
    iterGetName := .Index_iterGetName }

/-- The Split mode axis node with its name buffer holding `bytes`, the item value `v`
and the member counter `i`. -/
def splitIndexAt (p : Nat) (bytes : List Nat) (v : Option PyObject) (i : Int) : TypeContext :=
  { splitIndexTC with citemName := some { ptr := p, bytes := bytes }, itemValue := v, index := i }

/-- The node of a bare array walk over the values `values` (lines 1143-1151 and the like). -/
def valuesTC (values : Option PyObject) : TypeContext :=
  { TypeContext.zero .JT_INVALID with type := .JT_ARRAY, newObj := values }.withNpyArr

/-- The cursor of a walk of the 2 x 3 values that has descended into the first row. -/
def cursor23 : NpyArrContext := frame values23 1 0 1 none none 1 1000 (fun _ => 0)

/-- A state in which the cursor `cursor23`, held in block 0, waits in the hand-off slot. -/
def worldHandoff : World :=
  { encoder := { enc := { start := 0, end_ := 0, offset := 0, errorMsg := none },
                 npyCtxtPassthru := some 0, outputFormat := .VALUES,
                 originalOutputFormat := .VALUES },
    pyErr := none, mallocCount := 1, live := [0], mallocFails := [],
    cursors := fun _ => some cursor23, junk := fun _ => 0 }

/-- A labeled axis named `idx` over the labels `r0`, `r1`. -/
def axis2 : PyObject :=
  .mk { isIndex := true }
    (fun s => if s = .attr (cstr "name") then some (pyStr "idx")
      else if s = .attr (cstr "values") then some index23
      else none)

/-- The node the series branch builds in Split mode (lines 1157-1166). -/
def splitSeriesTC : TypeContext :=
  { TypeContext.zero .JT_INVALID with
    type := .JT_OBJECT, iterBegin := .Series_iterBegin, iterEnd := .Series_iterEnd,
    iterNext := .Series_iterNext, iterGetValue := .Series_iterGetValue,
    iterGetName := .Series_iterGetName }

/-- The Split mode series node with its name buffer holding `bytes`, the item value `v`
and the member counter `i`. -/
def splitSeriesAt (p : Nat) (bytes : List Nat) (v : Option PyObject) (i : Int) : TypeContext :=
  { splitSeriesTC with citemName := some { ptr := p, bytes := bytes }, itemValue := v, index := i }

/-- The node the series branch builds in Index or Columns mode (lines 1169-1192) over
the values `values`, with the `len` labels `l` of the series' own axis. -/
def seriesTC (values : Option PyObject) (l : LabelArray) (len : Int) : TypeContext :=
  { { TypeContext.zero .JT_INVALID with
      type := .JT_OBJECT, columnLabelsLen := len, columnLabels := some l,
      newObj := values }.withNpyArr with }

/-- The values `[7, 8]` of a series: a rank 1 array of 8 byte integers at address 6000. -/
def values2 : PyObject :=
  .mk { PyArray_Check := true, data := 6000, dims := [2], strides := [8] }
    (fun s => match s with
      | .getitem a => some (pyInt ((a - 6000) / 8 + 7))
      | _ => none)

/-- A labeled series `r0: 7, r1: 8` named `ser`. -/
def series2 : PyObject :=
  .mk { PyArray_Check := true, isSeries := true, data := 6000, dims := [2], strides := [8] }
    (fun s => if s = .attr (cstr "name") then some (pyStr "ser")
      else if s = .attr (cstr "index") then some index23
      else if s = .attr (cstr "values") then some values2
      else none)

/-- An encoder whose writer fails on every value with an error message. -/
def envFail : Env :=
  { lp64 := true, labelBuffer := 5000, render := fun _ => ([], some "error", none) }

/-- The state at the start of a call in which the second allocation fails. -/
def worldSecondMallocFails : World :=
  { encoder := { enc := { start := 0, end_ := 0, offset := 0, errorMsg := none },
                 npyCtxtPassthru := none, outputFormat := .COLUMNS,
                 originalOutputFormat := .COLUMNS },
    pyErr := none, mallocCount := 0, live := [], mallocFails := [false, true],
    cursors := fun _ => none, junk := fun _ => 0 }

/-- The items of the frame at depth `k` of a walk with `r` levels below it, every node
of the walk being named exactly when the cursor carries column labels. -/
def walkItems (L : Int → JSON) (arr : PyObject) (inc s0 : Int) (rl cl : Option LabelArray) :
    Nat → Int → Int → List (Option (List Nat) × JSON)
  | 0, k, a =>
    frameItems cl.isSome cl L (PyArray_DIM arr (s0 + inc * k)).toNat
      (PyArray_STRIDE arr (s0 + inc * k)) a
  | r + 1, k, a =>
    frameItems cl.isSome rl
      (fun a' => mkNode cl.isSome (walkItems L arr inc s0 rl cl r (k + 1) a'))
      (PyArray_DIM arr (s0 + inc * k)).toNat (PyArray_STRIDE arr (s0 + inc * k)) a

/-- A state with block 0 allocated and nothing else. -/
def worldLive : World :=
  { encoder := { enc := { start := 0, end_ := 0, offset := 0, errorMsg := none },
                 npyCtxtPassthru := none, outputFormat := .VALUES,
                 originalOutputFormat := .VALUES },
    pyErr := none, mallocCount := 1, live := [0], mallocFails := [],
    cursors := fun _ => none, junk := fun _ => 0 }

/-- A node of the container rules: its kind is object, array, null or invalid and it
has no scalar converter. -/
def ContainerNode (tc : TypeContext) : Prop :=
  (tc.type = .JT_OBJECT ∨ tc.type = .JT_ARRAY ∨ tc.type = .JT_NULL ∨ tc.type = .JT_INVALID) ∧
    tc.PyTypeToJSON = .NULL

/-- An empty ndarray that also answers the string, integer and boolean checks. -/
def arrayAndScalar : PyObject :=
  .mk { PyArray_Check := true, PyString_Check := true, PyInt_Check := true, PyBool_Check := true,
        dims := [0], strides := [8] } noChild

/-- A name lookup is safe: the label array is present, the index is at least 0 and
below the length `len` the array was built with, and the array has that many entries. -/
def LabelLookupOK (labels : Option LabelArray) (idx len : Int) : Prop :=
  ∃ l, labels = some l ∧ 0 ≤ idx ∧ idx < len ∧ len ≤ (l.entries.length : Int)

/-- A label array with the single integer label 0 at address 4000. -/
def labelsZero : PyObject :=
  .mk { PyArray_Check := true, isIndex := true, data := 4000, dims := [1], strides := [8] }
    (fun s => match s with
      | .getitem _ => some (pyLong 0)
      | _ => none)

/-- A label buffer every byte of which holds 7 before the rendering. -/
def bufSevens : Int → Nat := fun _ => 7

/-- The label array whose block is `ptr` and whose strings, the blocks after it, hold
the given names, each followed by its NUL terminator. -/
def labelArrayOf (ptr : Nat) (names : List String) : LabelArray :=
  { ptr := ptr,
    entries := names.enum.map (fun e => some { ptr := ptr + 1 + e.1, bytes := cstr e.2 ++ [0] }) }

/-- The state after the labels of the 2 x 3 table were built in the given mode: seven
blocks allocated, all live. -/
def worldLabeled (f : PANDAS_FORMAT) : World :=
  { world0 f with mallocCount := 7, live := [6, 5, 4, 3, 2, 1, 0] }

/-- The blocks of a label array: its own block and the blocks of its strings. -/
def LabelArray.blocks (la : LabelArray) : List Nat :=
  la.ptr :: la.entries.filterMap (fun e => e.map (fun s => s.ptr))

/-- The allocator state is well formed: the live blocks are distinct and each was
handed out by the allocator. -/
def HeapOK (w : World) : Prop :=
  w.live.Nodup ∧ ∀ p ∈ w.live, p < w.mallocCount

/-- The two outcomes of building the labels of both axes, first the row labels from
the array `first` with `n1` entries, then the column labels from `second` with `n2`:
both arrays present on an object node, with `n1` and `n2` entries; or neither on an
invalid node, the row labels either not built or, when the column labels failed, freed:
every block of the row labels, live after they were built, is no longer live. -/
def LabelsOutcome (env : Env) (w w' : World) (tc : TypeContext) (first second : PyObject)
    (n1 n2 tr : Int) : Prop :=
  (tc.type = .JT_OBJECT ∧ tc.transpose = tr ∧ tc.rowLabelsLen = n1 ∧ tc.columnLabelsLen = n2 ∧
    ∃ r l w1, tc.rowLabels = some r ∧ tc.columnLabels = some l ∧
      NpyArr_encodeLabels env (some first) n1 w = some (some r, w1) ∧
      NpyArr_encodeLabels env (some second) n2 w1 = some (some l, w') ∧
      r.entries.length = n1.toNat ∧ l.entries.length = n2.toNat) ∨
  (tc.type = .JT_INVALID ∧ tc.rowLabels = none ∧ tc.columnLabels = none ∧
    (NpyArr_encodeLabels env (some first) n1 w = some (none, w') ∨
      ∃ r w1 w2, NpyArr_encodeLabels env (some first) n1 w = some (some r, w1) ∧
        NpyArr_encodeLabels env (some second) n2 w1 = some (none, w2) ∧
        w' = NpyArr_freeLabels (some r) n1 w2 ∧
        (∀ p ∈ r.blocks, p ∈ w1.live) ∧ (∀ p ∈ r.blocks, p ∉ w'.live)))
/-! ## Lemmas on the array cursor and the driving encoder -/

theorem deref_withCursor (w : World) (p : Nat) (c : NpyArrContext) (s : Option Nat)
    (hp : p ∈ w.live) : (w.withCursor p c s).deref (some p) = some (p, c) := by
  simp [World.withCursor, World.deref, World.setCursor, World.setPassthru, hp]

theorem setCursor_withCursor (w : World) (p : Nat) (c c' : NpyArrContext) (s : Option Nat) :
    (w.withCursor p c s).setCursor p c' = w.withCursor p c' s := by
  simp [World.withCursor, World.setCursor, World.setPassthru]

theorem setPassthru_withCursor (w : World) (p : Nat) (c : NpyArrContext) (s s' : Option Nat) :
    (w.withCursor p c s).setPassthru s' = w.withCursor p c s' := by
  simp [World.withCursor, World.setCursor, World.setPassthru]

theorem passthru_withCursor (w : World) (p : Nat) (c : NpyArrContext) (s : Option Nat) :
    (w.withCursor p c s).encoder.npyCtxtPassthru = s := rfl

theorem NpyArr_iterNextItem_withCursor (w : World) (p : Nat) (c : NpyArrContext) (s : Option Nat)
    (tc : TypeContext) (hp : p ∈ w.live) (htc : tc.npyarr = some p) :
    NpyArr_iterNextItem tc (w.withCursor p c s) =
      if c.index c.stridedim ≥ c.dim then some (0, tc, w.withCursor p c s)
      else some (1, { tc with itemValue := getitem c.dataptr c.array },
        w.withCursor p (NpyArr_iterNextItem_advance c) s) := by
  unfold NpyArr_iterNextItem
  rw [htc, deref_withCursor w p c s hp]
  simp only [setCursor_withCursor]

theorem NpyArr_iterNext_withCursor (w : World) (p : Nat) (c : NpyArrContext) (s : Option Nat)
    (tc : TypeContext) (hp : p ∈ w.live) (htc : tc.npyarr = some p) :
    NpyArr_iterNext tc (w.withCursor p c s) =
      if c.curdim ≥ c.ndim ∨ c.index c.stridedim ≥ c.dim then
        NpyArr_iterNextItem { tc with iterNext := .NpyArr_iterNextItem } (w.withCursor p c s)
      else some (1, { tc with itemValue := some c.array },
        w.withCursor p (NpyArr_iterNext_descend c) (some p)) := by
  unfold NpyArr_iterNext
  rw [htc, deref_withCursor w p c s hp]
  simp only [setCursor_withCursor, setPassthru_withCursor]
  rfl

theorem Object_iterNext_item (obj : PyObject) (tc : TypeContext) (w : World)
    (h : tc.iterNext = .NpyArr_iterNextItem) :
    Object_iterNext obj tc w = NpyArr_iterNextItem tc w := by
  unfold Object_iterNext; rw [h]

theorem Object_iterNext_npy (obj : PyObject) (tc : TypeContext) (w : World)
    (h : tc.iterNext = .NpyArr_iterNext) :
    Object_iterNext obj tc w = NpyArr_iterNext tc w := by
  unfold Object_iterNext; rw [h]

theorem Object_iterGetValue_npy (tc : TypeContext) (h : tc.iterGetValue = .NpyArr_iterGetValue) :
    Object_iterGetValue tc = some tc.itemValue := by
  unfold Object_iterGetValue; rw [h]

theorem Object_iterGetName_npy (tc : TypeContext) (w : World)
    (h : tc.iterGetName = .NpyArr_iterGetName) :
    Object_iterGetName tc w = (NpyArr_iterGetName tc w).map some := by
  unfold Object_iterGetName; rw [h]

theorem iterate_succ (child : World → Option PyObject → Option (World × JSON)) (obj : PyObject)
    (named : Bool) (n : Nat) (tc tc1 : TypeContext) (w w1 w2 : World) (v : Option PyObject)
    (nm : Option (List Nat)) (j : JSON)
    (hnext : Object_iterNext obj tc w = some (1, tc1, w1))
    (hval : Object_iterGetValue tc1 = some v)
    (hname : (if named then Object_iterGetName tc1 w1 else some none) = some nm)
    (hchild : child w1 v = some (w2, j)) :
    iterate child obj named (n + 1) tc w =
      (iterate child obj named n tc1 w2).map (fun r => ((nm, j) :: r.1, r.2.1, r.2.2)) := by
  rw [iterate, hnext]
  simp only [one_ne_zero, if_false, hval, hname, hchild]
  cases iterate child obj named n tc1 w2 <;> rfl

theorem iterate_stop (child : World → Option PyObject → Option (World × JSON)) (obj : PyObject)
    (named : Bool) (n : Nat) (tc tc1 : TypeContext) (w w1 : World)
    (hnext : Object_iterNext obj tc w = some (0, tc1, w1)) :
    iterate child obj named (n + 1) tc w = some ([], tc1, w1) := by
  rw [iterate, hnext]
  simp

theorem iterate_items (child : World → Option PyObject → Option (World × JSON)) (obj arr : PyObject)
    (L : Int → JSON) (w : World) (p : Nat) (hp : p ∈ w.live) (named : Bool)
    (cl : Option LabelArray) (D : Nat) (S sd : Int)
    (hchild : ∀ a c, child (w.withCursor p c none) (getitem a arr)
      = some (w.withCursor p c none, L a))
    (hnames : named = true → ∀ i : Nat, i < D → (labelAt cl i).isSome) :
    ∀ (r i n : Nat) (tc : TypeContext) (c : NpyArrContext),
      i + r = D → r + 1 ≤ n →
      tc.npyarr = some p → tc.iterNext = .NpyArr_iterNextItem →
      tc.iterGetValue = .NpyArr_iterGetValue → tc.iterGetName = .NpyArr_iterGetName →
      c.array = arr → c.dim = D → c.stride = S → c.stridedim = sd → c.index sd = i →
      c.columnLabels = cl →
      ∃ v, iterate child obj named n tc (w.withCursor p c none) =
        some ((List.range r).map
                (fun j : Nat => (if named then labelAt cl ((i + j : Nat) : Int) else none,
                                 L (c.dataptr + (j : Int) * S))),
              { tc with itemValue := v },
              w.withCursor p (cursorAfter c (c.dataptr + (r : Int) * S) D) none) := by
  intro r
  induction r with
  | zero =>
    intro i n tc c hir hn htc hnext hgv hgn harr hdim hstr hsd hidx hcl
    obtain ⟨n, rfl⟩ : ∃ m, n = m + 1 := ⟨n - 1, by omega⟩
    refine ⟨tc.itemValue, ?_⟩
    have hiD : i = D := by omega
    have hge : c.index c.stridedim ≥ c.dim := by rw [hsd, hidx, hdim, hiD]
    have hc : cursorAfter c (c.dataptr + ((0 : Nat) : Int) * S) D = c := by
      have : Function.update c.index c.stridedim (D : Int) = c.index := by
        rw [Function.update_eq_self_iff, hsd, hidx, hiD]
      simp [cursorAfter, this]
    rw [hc]
    rw [iterate_stop child obj named n tc tc _ _ (by
      rw [Object_iterNext_item _ _ _ hnext, NpyArr_iterNextItem_withCursor w p c none tc hp htc,
        if_pos hge])]
    rfl
  | succ r ih =>
    intro i n tc c hir hn htc hnext hgv hgn harr hdim hstr hsd hidx hcl
    obtain ⟨n, rfl⟩ : ∃ m, n = m + 1 := ⟨n - 1, by omega⟩
    have hlt : ¬ (c.index c.stridedim ≥ c.dim) := by
      rw [hsd, hidx, hdim]; push_cast; omega
    obtain ⟨tc1, e1⟩ : ∃ t : TypeContext, t = { tc with itemValue := getitem c.dataptr c.array } :=
      ⟨_, rfl⟩
    obtain ⟨c2, e2⟩ : ∃ t : NpyArrContext, t = NpyArr_iterNextItem_advance c := ⟨_, rfl⟩
    have h1 : tc1.npyarr = some p := by rw [e1]; exact htc
    have h2 : tc1.iterNext = .NpyArr_iterNextItem := by rw [e1]; exact hnext
    have h3 : tc1.iterGetValue = .NpyArr_iterGetValue := by rw [e1]; exact hgv
    have h4 : tc1.iterGetName = .NpyArr_iterGetName := by rw [e1]; exact hgn
    have h5 : tc1.itemValue = getitem c.dataptr arr := by rw [e1, ← harr]
    have k1 : c2.array = arr := by rw [e2]; exact harr
    have k2 : c2.dim = D := by rw [e2]; exact hdim
    have k3 : c2.stride = S := by rw [e2]; exact hstr
    have k4 : c2.stridedim = sd := by rw [e2]; exact hsd
    have k5 : c2.index sd = ((i + 1 : Nat) : Int) := by
      rw [e2]; simp [NpyArr_iterNextItem_advance, hsd, hidx]
    have k6 : c2.columnLabels = cl := by rw [e2]; exact hcl
    have k7 : c2.dataptr = c.dataptr + S := by rw [e2, ← hstr]; rfl
    obtain ⟨v, hv⟩ := ih (i + 1) n tc1 c2 (by omega) (by omega) h1 h2 h3 h4 k1 k2 k3 k4 k5 k6
    refine ⟨v, ?_⟩
    have hname : (if named then Object_iterGetName tc1 (w.withCursor p c2 none) else some none)
        = some (if named then labelAt cl ((i : Nat) : Int) else none) := by
      cases hnamed : named with
      | false => simp
      | true =>
        have hs := hnames hnamed i (by omega)
        obtain ⟨nm, hnm⟩ := Option.isSome_iff_exists.mp hs
        rw [if_pos rfl, if_pos rfl, Object_iterGetName_npy tc1 _ h4]
        unfold NpyArr_iterGetName
        rw [h1, deref_withCursor w p _ none hp]
        simp [h2, k4, k5, k6, hnm]
    rw [iterate_succ child obj named n tc tc1 _ (w.withCursor p c2 none) _ _ _ _
      (by rw [Object_iterNext_item _ _ _ hnext,
            NpyArr_iterNextItem_withCursor w p c none tc hp htc, if_neg hlt, e1, e2])
      (Object_iterGetValue_npy tc1 h3) hname (by rw [h5]; exact hchild _ _)]
    rw [hv]
    simp only [List.range_succ_eq_map, List.map_cons, List.map_map, Option.map_some']
    congr 1
    refine Prod.ext ?_ (Prod.ext ?_ ?_)
    · simp only []
      congr 1
      · simp
      · apply List.map_congr_left
        intro j _
        have e3 : ((i + 1 + j : Nat) : Int) = ((i + (j + 1) : Nat) : Int) := by
          push_cast; ring
        have e4 : c2.dataptr + (j : Int) * S = c.dataptr + ((j + 1 : Nat) : Int) * S := by
          rw [k7]; push_cast; ring
        simp only [Function.comp_apply, Nat.succ_eq_add_one]
        rw [e3, e4]
    · rw [e1]
    · simp only [cursorAfter, k7, k4]
      rw [e2]
      simp only [NpyArr_iterNextItem_advance, hsd]
      congr 2
      · push_cast; ring
      · simp

theorem descend_frame (arr : PyObject) (inc s0 ndim : Int) (rl cl : Option LabelArray) (k a : Int)
    (idx : Int → Int) :
    NpyArr_iterNext_descend (frame arr inc s0 ndim rl cl k a idx) =
      frame arr inc s0 ndim rl cl (k + 1) a
        (Function.update (Function.update idx (s0 + inc * k) (idx (s0 + inc * k) + 1))
          (s0 + inc * (k + 1)) 0) := by
  have h : s0 + inc * k + inc = s0 + inc * (k + 1) := by ring
  simp [NpyArr_iterNext_descend, frame, h]

theorem passThruEnd_frame (arr : PyObject) (inc s0 ndim : Int) (rl cl : Option LabelArray)
    (k a : Int) (idx : Int → Int) (D : Int)
    (hD : idx (s0 + inc * (k + 1)) = D) :
    NpyArrPassThru_iterEnd_cursor
        (frame arr inc s0 ndim rl cl (k + 1)
          (a + D * PyArray_STRIDE arr (s0 + inc * (k + 1))) idx) =
      frame arr inc s0 ndim rl cl k (a + PyArray_STRIDE arr (s0 + inc * k)) idx := by
  have h : s0 + inc * (k + 1) - inc = s0 + inc * k := by ring
  simp only [NpyArrPassThru_iterEnd_cursor, frame, h, hD]
  congr 1
  · ring
  · ring

theorem iterate_congr_next (child : World → Option PyObject → Option (World × JSON))
    (obj : PyObject) (named : Bool) (n : Nat) (tc tc' : TypeContext) (w : World)
    (h : Object_iterNext obj tc w = Object_iterNext obj tc' w) :
    iterate child obj named n tc w = iterate child obj named n tc' w := by
  cases n with
  | zero => rfl
  | succ n => rw [iterate, iterate, h]

theorem PyArray_DIM_toNat (arr : PyObject) (k : Int) :
    ((PyArray_DIM arr k).toNat : Int) = PyArray_DIM arr k := by
  unfold PyArray_DIM
  split <;> simp

theorem axis_ne (inc s0 k l : Int) (hinc : inc ≠ 0) (h : l ≠ k) : s0 + inc * l ≠ s0 + inc * k := by
  intro e
  have : inc * l = inc * k := by linarith
  exact h (mul_left_cancel₀ hinc this)

theorem iterate_nodes (child : World → Option PyObject → Option (World × JSON)) (obj arr : PyObject)
    (T : Int → JSON) (w : World) (p : Nat) (hp : p ∈ w.live) (named : Bool)
    (inc s0 ndim : Int) (rl cl : Option LabelArray) (k : Int) (D : Nat) (S : Int)
    (hinc : inc ≠ 0) (hk : k < ndim)
    (hD : PyArray_DIM arr (s0 + inc * k) = D) (hS : PyArray_STRIDE arr (s0 + inc * k) = S)
    (hchild : ∀ a idx, idx (s0 + inc * (k + 1)) = 0 →
      ∃ idx', (∀ l, l ≤ k → idx' (s0 + inc * l) = idx (s0 + inc * l)) ∧
        child (w.withCursor p (frame arr inc s0 ndim rl cl (k + 1) a idx) (some p)) (some arr)
          = some (w.withCursor p (frame arr inc s0 ndim rl cl k (a + S) idx') none, T a))
    (hnames : named = true → ∀ i : Nat, i < D → (labelAt rl i).isSome) :
    ∀ (r i n : Nat) (tc : TypeContext) (a : Int) (idx : Int → Int),
      i + r = D → r + 1 ≤ n →
      tc.npyarr = some p → tc.iterNext = .NpyArr_iterNext →
      tc.iterGetValue = .NpyArr_iterGetValue → tc.iterGetName = .NpyArr_iterGetName →
      idx (s0 + inc * k) = i →
      ∃ v nx idx', (∀ l, l < k → idx' (s0 + inc * l) = idx (s0 + inc * l)) ∧
        idx' (s0 + inc * k) = ((D : Nat) : Int) ∧
        iterate child obj named n tc (w.withCursor p (frame arr inc s0 ndim rl cl k a idx) none) =
          some ((List.range r).map
                  (fun j : Nat => (if named then labelAt rl ((i + j : Nat) : Int) else none,
                                   T (a + (j : Int) * S))),
                { tc with itemValue := v, iterNext := nx },
                w.withCursor p (frame arr inc s0 ndim rl cl k (a + (r : Int) * S) idx') none) := by
  intro r
  induction r with
  | zero =>
    intro i n tc a idx hir hn htc hnext hgv hgn hidx
    obtain ⟨n, rfl⟩ : ∃ m, n = m + 1 := ⟨n - 1, by omega⟩
    refine ⟨tc.itemValue, .NpyArr_iterNextItem, idx, fun _ _ => rfl, ?_, ?_⟩
    · rw [hidx]; congr 1
    · have hge : (frame arr inc s0 ndim rl cl k a idx).index
          (frame arr inc s0 ndim rl cl k a idx).stridedim ≥
          (frame arr inc s0 ndim rl cl k a idx).dim := by
        show idx (s0 + inc * k) ≥ PyArray_DIM arr (s0 + inc * k)
        rw [hidx, hD]; push_cast; omega
      rw [iterate_stop child obj named n tc { tc with iterNext := .NpyArr_iterNextItem } _ _ (by
        rw [Object_iterNext_npy _ _ _ hnext, NpyArr_iterNext_withCursor w p _ none tc hp htc,
          if_pos (Or.inr hge),
          NpyArr_iterNextItem_withCursor w p _ none { tc with iterNext := .NpyArr_iterNextItem } hp htc,
          if_pos hge])]
      simp
  | succ r ih =>
    intro i n tc a idx hir hn htc hnext hgv hgn hidx
    obtain ⟨n, rfl⟩ : ∃ m, n = m + 1 := ⟨n - 1, by omega⟩
    have hcond : ¬ ((frame arr inc s0 ndim rl cl k a idx).curdim ≥
          (frame arr inc s0 ndim rl cl k a idx).ndim ∨
        (frame arr inc s0 ndim rl cl k a idx).index
          (frame arr inc s0 ndim rl cl k a idx).stridedim ≥
          (frame arr inc s0 ndim rl cl k a idx).dim) := by
      show ¬ (k ≥ ndim ∨ idx (s0 + inc * k) ≥ PyArray_DIM arr (s0 + inc * k))
      rw [hidx, hD]; push_cast; omega
    obtain ⟨tc1, e1⟩ : ∃ t : TypeContext, t = { tc with itemValue := some arr } := ⟨_, rfl⟩
    obtain ⟨idx1, e2⟩ : ∃ f : Int → Int, f =
        Function.update (Function.update idx (s0 + inc * k) (idx (s0 + inc * k) + 1))
          (s0 + inc * (k + 1)) 0 := ⟨_, rfl⟩
    have h1 : tc1.npyarr = some p := by rw [e1]; exact htc
    have h2 : tc1.iterNext = .NpyArr_iterNext := by rw [e1]; exact hnext
    have h3 : tc1.iterGetValue = .NpyArr_iterGetValue := by rw [e1]; exact hgv
    have h4 : tc1.iterGetName = .NpyArr_iterGetName := by rw [e1]; exact hgn
    have h5 : tc1.itemValue = some arr := by rw [e1]
    have hne : s0 + inc * k ≠ s0 + inc * (k + 1) := axis_ne inc s0 (k + 1) k hinc (by omega)
    have k0 : idx1 (s0 + inc * (k + 1)) = 0 := by rw [e2]; simp
    have k1 : idx1 (s0 + inc * k) = ((i + 1 : Nat) : Int) := by
      rw [e2, Function.update_noteq hne]; simp [hidx]
    have k2 : ∀ l, l < k → idx1 (s0 + inc * l) = idx (s0 + inc * l) := by
      intro l hl
      rw [e2, Function.update_noteq (axis_ne inc s0 (k + 1) l hinc (by omega)),
        Function.update_noteq (axis_ne inc s0 k l hinc (by omega))]
    obtain ⟨idx2, hpres, hch⟩ := hchild a idx1 k0
    obtain ⟨v, nx, idx3, hpres3, hD3, hv⟩ := ih (i + 1) n tc1 (a + S) idx2 (by omega) (by omega)
      h1 h2 h3 h4 (by rw [hpres k le_rfl, k1])
    refine ⟨v, nx, idx3, ?_, hD3, ?_⟩
    · intro l hl
      rw [hpres3 l hl, hpres l (le_of_lt hl), k2 l hl]
    have hname : (if named then Object_iterGetName tc1
          (w.withCursor p (frame arr inc s0 ndim rl cl (k + 1) a idx1) (some p)) else some none)
        = some (if named then labelAt rl ((i : Nat) : Int) else none) := by
      cases hnamed : named with
      | false => simp
      | true =>
        have hs := hnames hnamed i (by omega)
        obtain ⟨nm, hnm⟩ := Option.isSome_iff_exists.mp hs
        rw [if_pos rfl, if_pos rfl, Object_iterGetName_npy tc1 _ h4]
        unfold NpyArr_iterGetName
        rw [h1, deref_withCursor w p _ (some p) hp]
        have e : s0 + inc * (k + 1) - inc = s0 + inc * k := by ring
        simp [h2, frame, e, k1, hnm]
    rw [iterate_succ child obj named n tc tc1 _
      (w.withCursor p (frame arr inc s0 ndim rl cl (k + 1) a idx1) (some p)) _ _ _ _
      (by rw [Object_iterNext_npy _ _ _ hnext,
            NpyArr_iterNext_withCursor w p _ none tc hp htc, if_neg hcond, descend_frame, e1, e2]
          rfl)
      (Object_iterGetValue_npy tc1 h3) hname (by rw [h5]; exact hch)]
    rw [hv]
    simp only [List.range_succ_eq_map, List.map_cons, List.map_map, Option.map_some']
    congr 1
    refine Prod.ext ?_ (Prod.ext ?_ ?_)
    · simp only []
      congr 1
      · simp
      · apply List.map_congr_left
        intro j _
        have e3 : ((i + 1 + j : Nat) : Int) = ((i + (j + 1) : Nat) : Int) := by
          push_cast; ring
        have e4 : a + S + (j : Int) * S = a + ((j + 1 : Nat) : Int) * S := by
          push_cast; ring
        simp only [Function.comp_apply, Nat.succ_eq_add_one]
        rw [e3, e4]
    · rw [e1]
    · have e5 : a + S + (r : Int) * S = a + ((r + 1 : Nat) : Int) * S := by push_cast; ring
      simp only [e5]

theorem begin_passthru (env : Env) (arr : PyObject) (hraw : RawArray arr) (w : World) (p : Nat)
    (hp : p ∈ w.live) (c : NpyArrContext) :
    Object_beginTypeContext env (some arr) (w.withCursor p c (some p)) =
      some (passthruTC p c.columnLabels, w.withCursor p c none) := by
  obtain ⟨h1, h2, h3, h4, h5, h6⟩ := hraw
  have hd := deref_withCursor w p c (some p) hp
  simp only [Object_beginTypeContext, Object_beginTypeContext_iterable, h1, h2, h3, h4, h5, h6,
    Bool.or_true, if_true, passthru_withCursor, hd, setPassthru_withCursor]
  simp [passthruTC]

theorem freeLabels_none (len : Int) (w : World) : NpyArr_freeLabels none len w = w := rfl

theorem Object_iterEnd_passthru (tc : TypeContext) (w : World)
    (h : tc.iterEnd = .NpyArrPassThru_iterEnd) :
    Object_iterEnd tc w = (NpyArrPassThru_iterEnd tc w).map (fun w1 => (tc, w1)) := by
  unfold Object_iterEnd; rw [h]

theorem Object_iterEnd_npy (tc : TypeContext) (w : World) (h : tc.iterEnd = .NpyArr_iterEnd) :
    Object_iterEnd tc w = some (tc, NpyArr_iterEnd tc w) := by
  unfold Object_iterEnd; rw [h]

theorem Object_endTypeContext_nolabels (tc : TypeContext) (w : World)
    (h1 : tc.rowLabels = none) (h2 : tc.columnLabels = none) :
    Object_endTypeContext tc w = w := by
  unfold Object_endTypeContext
  rw [h1, h2]
  rfl

theorem encode_node (env : Env) (fuel : Nat) (obj : PyObject) (w w1 w2 w3 w4 : World)
    (tc tc2 tc3 tc4 : TypeContext) (named : Bool) (items : List (Option (List Nat) × JSON))
    (hbegin : Object_beginTypeContext env (some obj) w = some (tc, w1))
    (htype : tc.type = if named then .JT_OBJECT else .JT_ARRAY)
    (hib : Object_iterBegin obj tc w1 = some (tc2, w2))
    (hit : iterate (encode env fuel) obj named fuel tc2 w2 = some (items, tc3, w3))
    (hie : Object_iterEnd tc3 w3 = some (tc4, w4)) :
    encode env (fuel + 1) w (some obj) = some (Object_endTypeContext tc4 w4, mkNode named items) := by
  rw [encode, hbegin]
  cases named with
  | false =>
    simp only [Bool.false_eq_true, if_false] at htype
    simp only [htype, hib, hit, hie, mkNode, Bool.false_eq_true, if_false]
  | true =>
    simp only [if_true] at htype
    simp only [htype, hib, hit, hie, mkNode, if_true]

theorem encode_passthru (env : Env) (fuel : Nat) (arr : PyObject) (hraw : RawArray arr)
    (w : World) (p : Nat) (hp : p ∈ w.live) (inc s0 ndim : Int) (rl cl : Option LabelArray)
    (k a : Int) (idx idx' : Int → Int) (items : List (Option (List Nat) × JSON))
    (v : Option PyObject) (nx : Fn)
    (hloop : iterate (encode env fuel) arr cl.isSome fuel (passthruTC p cl)
        (w.withCursor p (frame arr inc s0 ndim rl cl (k + 1) a idx) none) =
      some (items, { passthruTC p cl with itemValue := v, iterNext := nx },
        w.withCursor p (frame arr inc s0 ndim rl cl (k + 1)
          (a + PyArray_DIM arr (s0 + inc * (k + 1)) * PyArray_STRIDE arr (s0 + inc * (k + 1)))
          idx') none))
    (hD : idx' (s0 + inc * (k + 1)) = PyArray_DIM arr (s0 + inc * (k + 1))) :
    encode env (fuel + 1) (w.withCursor p (frame arr inc s0 ndim rl cl (k + 1) a idx) (some p))
        (some arr) =
      some (w.withCursor p
          (frame arr inc s0 ndim rl cl k (a + PyArray_STRIDE arr (s0 + inc * k)) idx') none,
        mkNode cl.isSome items) := by
  have hend : NpyArrPassThru_iterEnd { passthruTC p cl with itemValue := v, iterNext := nx }
        (w.withCursor p (frame arr inc s0 ndim rl cl (k + 1)
          (a + PyArray_DIM arr (s0 + inc * (k + 1)) * PyArray_STRIDE arr (s0 + inc * (k + 1)))
          idx') none) =
        some (w.withCursor p
          (frame arr inc s0 ndim rl cl k (a + PyArray_STRIDE arr (s0 + inc * k)) idx') none) := by
    unfold NpyArrPassThru_iterEnd
    have htc : ({ passthruTC p cl with itemValue := v, iterNext := nx } : TypeContext).npyarr
        = some p := rfl
    rw [htc, deref_withCursor w p _ none hp]
    simp only [setCursor_withCursor]
    rw [passThruEnd_frame arr inc s0 ndim rl cl k a idx' _ hD]
  have h := encode_node env fuel arr
    (w.withCursor p (frame arr inc s0 ndim rl cl (k + 1) a idx) (some p)) _ _ _ _
    _ _ _ _ cl.isSome items (begin_passthru env arr hraw w p hp _) rfl rfl hloop
    (show Object_iterEnd { passthruTC p cl with itemValue := v, iterNext := nx } _ = _ by
      rw [Object_iterEnd_passthru _ _ rfl, hend]
      rfl)
  rw [h, Object_endTypeContext_nolabels _ _ rfl rfl]

theorem frame_leaf (child : World → Option PyObject → Option (World × JSON)) (obj arr : PyObject)
    (L : Int → JSON) (w : World) (p : Nat) (hp : p ∈ w.live) (named : Bool)
    (inc s0 ndim : Int) (rl cl : Option LabelArray) (k : Int) (n : Nat)
    (hinc : inc ≠ 0) (hk : ndim ≤ k)
    (hn : (PyArray_DIM arr (s0 + inc * k)).toNat + 1 ≤ n)
    (hchild : ∀ a c, child (w.withCursor p c none) (getitem a arr)
      = some (w.withCursor p c none, L a))
    (hnames : named = true → ∀ i : Nat, i < (PyArray_DIM arr (s0 + inc * k)).toNat →
      (labelAt cl i).isSome) :
    FrameOK child obj arr w p inc s0 ndim rl cl named k n
      (frameItems named cl L (PyArray_DIM arr (s0 + inc * k)).toNat
        (PyArray_STRIDE arr (s0 + inc * k))) := by
  intro tc a idx htc hnext hgv hgn hidx
  have hDD := PyArray_DIM_toNat arr (s0 + inc * k)
  obtain ⟨v, hv⟩ := iterate_items child obj arr L w p hp named cl
    (PyArray_DIM arr (s0 + inc * k)).toNat (PyArray_STRIDE arr (s0 + inc * k)) (s0 + inc * k)
    hchild hnames (PyArray_DIM arr (s0 + inc * k)).toNat 0 n
    { tc with iterNext := .NpyArr_iterNextItem } (frame arr inc s0 ndim rl cl k a idx)
    (by omega) hn htc rfl hgv hgn rfl hDD.symm rfl rfl
    (by show idx (s0 + inc * k) = _; rw [hidx]; rfl) rfl
  refine ⟨v, .NpyArr_iterNextItem,
    Function.update idx (s0 + inc * k) (PyArray_DIM arr (s0 + inc * k)), ?_, by simp, ?_⟩
  · intro l hl
    rw [Function.update_noteq (axis_ne inc s0 k l hinc (by omega))]
  · rw [iterate_congr_next child obj named n tc { tc with iterNext := .NpyArr_iterNextItem } _ (by
      rw [Object_iterNext_npy _ _ _ hnext, NpyArr_iterNext_withCursor w p _ none tc hp htc,
        if_pos (show (frame arr inc s0 ndim rl cl k a idx).curdim ≥ (frame arr inc s0 ndim rl cl k a idx).ndim ∨ _ from Or.inl hk),
        Object_iterNext_item _ { tc with iterNext := .NpyArr_iterNextItem } _ rfl])]
    rw [hv]
    simp only [frameItems, cursorAfter, frame, hDD, Nat.zero_add]

theorem frame_node (child : World → Option PyObject → Option (World × JSON)) (obj arr : PyObject)
    (T : Int → JSON) (w : World) (p : Nat) (hp : p ∈ w.live) (named : Bool)
    (inc s0 ndim : Int) (rl cl : Option LabelArray) (k : Int) (n : Nat)
    (hinc : inc ≠ 0) (hk : k < ndim)
    (hn : (PyArray_DIM arr (s0 + inc * k)).toNat + 1 ≤ n)
    (hchild : ∀ a idx, idx (s0 + inc * (k + 1)) = 0 →
      ∃ idx', (∀ l, l ≤ k → idx' (s0 + inc * l) = idx (s0 + inc * l)) ∧
        child (w.withCursor p (frame arr inc s0 ndim rl cl (k + 1) a idx) (some p)) (some arr)
          = some (w.withCursor p (frame arr inc s0 ndim rl cl k
              (a + PyArray_STRIDE arr (s0 + inc * k)) idx') none, T a))
    (hnames : named = true → ∀ i : Nat, i < (PyArray_DIM arr (s0 + inc * k)).toNat →
      (labelAt rl i).isSome) :
    FrameOK child obj arr w p inc s0 ndim rl cl named k n
      (frameItems named rl T (PyArray_DIM arr (s0 + inc * k)).toNat
        (PyArray_STRIDE arr (s0 + inc * k))) := by
  intro tc a idx htc hnext hgv hgn hidx
  have hDD := PyArray_DIM_toNat arr (s0 + inc * k)
  obtain ⟨v, nx, idx', h1, h2, h3⟩ := iterate_nodes child obj arr T w p hp named inc s0 ndim rl cl k
    (PyArray_DIM arr (s0 + inc * k)).toNat (PyArray_STRIDE arr (s0 + inc * k)) hinc hk hDD.symm rfl
    hchild hnames (PyArray_DIM arr (s0 + inc * k)).toNat 0 n tc a idx (by omega) hn htc hnext hgv
    hgn (by rw [hidx]; rfl)
  refine ⟨v, nx, idx', h1, by rw [h2, hDD], ?_⟩
  rw [h3]
  simp only [frameItems, hDD, Nat.zero_add]

theorem child_of_frame (env : Env) (fuel : Nat) (arr : PyObject) (hraw : RawArray arr)
    (w : World) (p : Nat) (hp : p ∈ w.live) (inc s0 ndim : Int) (rl cl : Option LabelArray)
    (k : Int) (items : Int → List (Option (List Nat) × JSON))
    (h : FrameOK (encode env fuel) arr arr w p inc s0 ndim rl cl cl.isSome (k + 1) fuel items) :
    ∀ a idx, idx (s0 + inc * (k + 1)) = 0 →
      ∃ idx', (∀ l, l ≤ k → idx' (s0 + inc * l) = idx (s0 + inc * l)) ∧
        encode env (fuel + 1)
            (w.withCursor p (frame arr inc s0 ndim rl cl (k + 1) a idx) (some p)) (some arr)
          = some (w.withCursor p (frame arr inc s0 ndim rl cl k
              (a + PyArray_STRIDE arr (s0 + inc * k)) idx') none, mkNode cl.isSome (items a)) := by
  intro a idx hidx
  obtain ⟨v, nx, idx', h1, h2, h3⟩ := h (passthruTC p cl) a idx rfl rfl rfl rfl hidx
  refine ⟨idx', fun l hl => h1 l (by omega), ?_⟩
  exact encode_passthru env fuel arr hraw w p hp inc s0 ndim rl cl k a idx idx' (items a) v nx h3 h2

theorem PyObject_Malloc_ok (w : World) (h : w.mallocFails.head? ≠ some true) :
    (PyObject_Malloc w).1 = some w.mallocCount ∧
    (PyObject_Malloc w).2.live = w.mallocCount :: w.live ∧
    (PyObject_Malloc w).2.encoder = w.encoder ∧
    (PyObject_Malloc w).2.junk = w.junk ∧
    (PyObject_Malloc w).2.pyErr = w.pyErr ∧
    (PyObject_Malloc w).2.mallocCount = w.mallocCount + 1 ∧
    (PyObject_Malloc w).2.mallocFails = w.mallocFails.tail := by
  unfold PyObject_Malloc
  cases hf : w.mallocFails with
  | nil => simp
  | cons b rest =>
    cases b with
    | true => simp [hf] at h
    | false => simp

theorem setPassthru_self (w : World) (s : Option Nat) (h : w.encoder.npyCtxtPassthru = s) :
    w.setPassthru s = w := by
  cases w with
  | mk encoder pyErr mallocCount live mallocFails cursors junk =>
    cases encoder with
    | mk enc npyCtxtPassthru outputFormat originalOutputFormat =>
      simp only [World.setPassthru] at h ⊢
      subst h
      rfl

theorem NpyArr_iterBegin_ok (obj arr : PyObject) (tc : TypeContext) (w : World)
    (harr : (match tc.newObj with
      | some o => o
      | none => obj) = arr)
    (hsize : 0 < PyArray_SIZE arr) (hmalloc : w.mallocFails.head? ≠ some true)
    (hslot : w.encoder.npyCtxtPassthru = none) (inc s0 : Int)
    (hdir : (inc, s0) = if tc.transpose ≠ 0 then ((-1 : Int), PyArray_NDIM arr - 1) else (1, 0)) :
    NpyArr_iterBegin obj tc w =
      ({ tc with npyarr := some w.mallocCount },
        (PyObject_Malloc w).2.withCursor w.mallocCount
          (frame arr inc s0 (PyArray_NDIM arr - 1) tc.rowLabels tc.columnLabels 0
            (PyArray_DATA arr) (Function.update w.junk s0 0)) none) := by
  obtain ⟨m1, m2, m3, m4, m5, m6, m7⟩ := PyObject_Malloc_ok w hmalloc
  unfold NpyArr_iterBegin
  simp only [harr, gt_iff_lt, hsize, if_true]
  have hm : PyObject_Malloc w = (some w.mallocCount, (PyObject_Malloc w).2) := by
    rw [← m1]
  rw [hm]
  simp only []
  have hs : (PyObject_Malloc w).2.encoder.npyCtxtPassthru = none := by rw [m3, hslot]
  by_cases ht : tc.transpose = 0
  · rw [if_neg (not_not.mpr ht)] at hdir
    obtain ⟨rfl, rfl⟩ := Prod.mk.inj hdir
    simp only [ne_eq, ht, not_true_eq_false, if_false, World.withCursor, m4]
    rw [setPassthru_self _ none (by simpa [World.setCursor] using hs)]
    simp [frame]
  · rw [if_pos ht] at hdir
    obtain ⟨rfl, rfl⟩ := Prod.mk.inj hdir
    simp only [ne_eq, ht, not_false_eq_true, if_true, World.withCursor, m4]
    rw [setPassthru_self _ none (by simpa [World.setCursor] using hs)]
    simp [frame]

theorem encode_cursor_node (env : Env) (fuel : Nat) (obj arr : PyObject) (w w1 : World)
    (tc : TypeContext) (named : Bool)
    (hbegin : Object_beginTypeContext env (some obj) w = some (tc, w1))
    (htype : tc.type = if named then .JT_OBJECT else .JT_ARRAY)
    (hb : tc.iterBegin = .NpyArr_iterBegin) (he : tc.iterEnd = .NpyArr_iterEnd)
    (hn : tc.iterNext = .NpyArr_iterNext) (hgv : tc.iterGetValue = .NpyArr_iterGetValue)
    (hgn : tc.iterGetName = .NpyArr_iterGetName)
    (harr : (match tc.newObj with
      | some o => o
      | none => obj) = arr)
    (hsize : 0 < PyArray_SIZE arr) (hmalloc : w1.mallocFails.head? ≠ some true)
    (hslot : w1.encoder.npyCtxtPassthru = none) (inc s0 : Int)
    (hdir : (inc, s0) = if tc.transpose ≠ 0 then ((-1 : Int), PyArray_NDIM arr - 1) else (1, 0))
    (items : Int → List (Option (List Nat) × JSON))
    (hframe : FrameOK (encode env fuel) obj arr (PyObject_Malloc w1).2 w1.mallocCount inc s0
      (PyArray_NDIM arr - 1) tc.rowLabels tc.columnLabels named 0 fuel items) :
    ∃ w', encode env (fuel + 1) w (some obj) = some (w', mkNode named (items (PyArray_DATA arr))) := by
  have hbeg := NpyArr_iterBegin_ok obj arr tc w1 harr hsize hmalloc hslot inc s0 hdir
  have hs0 : s0 + inc * 0 = s0 := by ring
  obtain ⟨v, nx, idx', -, -, h3⟩ := hframe { tc with npyarr := some w1.mallocCount }
    (PyArray_DATA arr) (Function.update w1.junk s0 0) rfl hn hgv hgn (by rw [hs0]; simp)
  have hib : Object_iterBegin obj tc w1 = some (NpyArr_iterBegin obj tc w1) := by
    unfold Object_iterBegin; rw [hb]
  rw [hbeg] at hib
  exact ⟨_, encode_node env fuel obj w w1 _ _ _ tc _ _ _ named _ hbegin htype hib h3
    (Object_iterEnd_npy _ _ he)⟩

theorem axis_of_drop (arr : PyObject) (k : Nat) (d : Nat) (s : Int) (rest : List (Nat × Int))
    (h : (arr.info.dims.zip arr.info.strides).drop k = (d, s) :: rest) :
    PyArray_DIM arr (0 + 1 * (k : Int)) = d ∧ PyArray_STRIDE arr (0 + 1 * (k : Int)) = s := by
  have h0 : ((arr.info.dims.zip arr.info.strides).drop k)[0]? = some (d, s) := by rw [h]; simp
  rw [List.getElem?_drop, Nat.add_zero, List.getElem?_zip_eq_some] at h0
  have e : (0 : Int) + 1 * (k : Int) = (k : Int) := by ring
  rw [e]
  unfold PyArray_DIM PyArray_STRIDE
  simp [h0.1, h0.2]

theorem frame_nested (env : Env) (arr : PyObject) (hraw : RawArray arr) (L : Int → JSON)
    (w : World) (p : Nat) (hp : p ∈ w.live) (rl : Option LabelArray) (M : Nat)
    (hM : ∀ d ∈ arr.info.dims, d ≤ M)
    (hstrides : arr.info.strides.length = arr.info.dims.length)
    (hleaf : ∀ (a : Int) (f : Nat) (w' : World), w'.encoder.npyCtxtPassthru = none →
      encode env (f + 1) w' (getitem a arr) = some (w', L a)) :
    ∀ (rest : List (Nat × Int)) (d : Nat) (s : Int) (k f : Nat) (obj : PyObject),
      (arr.info.dims.zip arr.info.strides).drop k = (d, s) :: rest →
      M + 1 + rest.length ≤ f →
      FrameOK (encode env f) obj arr w p 1 0 (PyArray_NDIM arr - 1) rl none false (k : Int) f
        (fun a => (List.range d).map
          (fun i : Nat => (none, nestedArray L rest (a + (i : Int) * s)))) := by
  intro rest
  induction rest with
  | nil =>
    intro d s k f obj hdrop hf
    obtain ⟨hd, hs⟩ := axis_of_drop arr k d s [] hdrop
    have hlen : arr.info.dims.length - k = 1 := by
      have := congrArg List.length hdrop
      simpa [hstrides] using this
    have hdM : d ≤ M := by
      have h0 : ((arr.info.dims.zip arr.info.strides).drop k)[0]? = some (d, s) := by
        rw [hdrop]; simp
      rw [List.getElem?_drop, Nat.add_zero, List.getElem?_zip_eq_some] at h0
      exact hM d (List.getElem?_mem h0.1)
    obtain ⟨f', rfl⟩ : ∃ m, f = m + 1 := ⟨f - 1, by omega⟩
    have h := frame_leaf (encode env (f' + 1)) obj arr L w p hp false 1 0 (PyArray_NDIM arr - 1)
      rl none (k : Int) (f' + 1) one_ne_zero (by unfold PyArray_NDIM; omega)
      (by rw [hd]; simp; omega)
      (fun a c => hleaf a f' _ (passthru_withCursor w p c none)) (by simp)
    rw [hd, hs] at h
    simpa [frameItems, nestedArray] using h
  | cons ax rest ih =>
    intro d s k f obj hdrop hf
    obtain ⟨d', s'⟩ := ax
    obtain ⟨hd, hs⟩ := axis_of_drop arr k d s _ hdrop
    have hdrop' : (arr.info.dims.zip arr.info.strides).drop (k + 1) = (d', s') :: rest := by
      rw [← List.tail_drop, hdrop]; rfl
    have hlen : arr.info.dims.length - k = rest.length + 2 := by
      have := congrArg List.length hdrop
      simpa [hstrides] using this
    have hdM : d ≤ M := by
      have h0 : ((arr.info.dims.zip arr.info.strides).drop k)[0]? = some (d, s) := by
        rw [hdrop]; simp
      rw [List.getElem?_drop, Nat.add_zero, List.getElem?_zip_eq_some] at h0
      exact hM d (List.getElem?_mem h0.1)
    obtain ⟨f', rfl⟩ : ∃ m, f = m + 1 := ⟨f - 1, by omega⟩
    have hrec := ih d' s' (k + 1) f' arr hdrop' (by simp at hf; omega)
    have hch := child_of_frame env f' arr hraw w p hp 1 0 (PyArray_NDIM arr - 1) rl none (k : Int)
      _ (by simpa using hrec)
    have h := frame_node (encode env (f' + 1)) obj arr
      (fun a => nestedArray L ((d', s') :: rest) a) w p hp false 1 0 (PyArray_NDIM arr - 1)
      rl none (k : Int) (f' + 1) one_ne_zero (by unfold PyArray_NDIM; omega)
      (by rw [hd]; simp; omega)
      (by
        intro a idx hidx
        obtain ⟨idx', h1, h2⟩ := hch a idx hidx
        refine ⟨idx', h1, ?_⟩
        rw [h2]
        simp [mkNode, nestedArray, Function.comp])
      (by simp)
    rw [hd, hs] at h
    simpa [frameItems] using h

/-! ## Dispatch of the roots of an array walk -/

theorem begin_rawArray (env : Env) (arr : PyObject) (hraw : RawArray arr) (w : World)
    (hslot : w.encoder.npyCtxtPassthru = none) :
    Object_beginTypeContext env (some arr) w =
      some ({ TypeContext.zero .JT_INVALID with type := .JT_ARRAY }.withNpyArr, w) := by
  obtain ⟨h1, h2, h3, h4, h5, h6⟩ := hraw
  simp only [Object_beginTypeContext, Object_beginTypeContext_iterable, h1, h2, h3, h4, h5, h6,
    Bool.or_true, if_true, hslot]
  simp

theorem begin_scalar_none (env : Env) (o : PyObject) (pc : TypeContext) (w : World)
    (h : NoScalar o) : Object_beginTypeContext_scalar env o pc w = none := by
  obtain ⟨h1, h2, h3, h4, h5, h6, h7, h8, h9, h10, h11, h12, h13⟩ := h
  simp [Object_beginTypeContext_scalar, h1, h2, h3, h4, h5, h6, h7, h8, h9, h10, h11, h12, h13]

theorem begin_table (env : Env) (o : PyObject) (w : World) (h : IsTable o) :
    Object_beginTypeContext env (some o) w =
      Object_beginTypeContext_dataframe env o (TypeContext.zero .JT_INVALID) w := by
  obtain ⟨h1, h2, h3, h4, h5, h6, h7, h8, h9⟩ := h
  simp only [Object_beginTypeContext, h1, h2, Bool.or_false, Bool.false_eq_true, if_false,
    begin_scalar_none env o _ w h3, Object_beginTypeContext_iterable, h4, h5, h6, h7, h8, h9,
    if_true]

theorem getAttr_some (o v : PyObject) (name : String) (w : World)
    (h : o.child (.attr (cstr name)) = some v) :
    PyObject_GetAttrString o name w = (some v, w) := by
  simp [PyObject_GetAttrString, PyObject_GetAttr, h]

theorem begin_table_values (env : Env) (o arr : PyObject) (w : World) (h : IsTable o)
    (hfmt : w.encoder.outputFormat = .VALUES)
    (hval : o.child (.attr (cstr "values")) = some arr) :
    Object_beginTypeContext env (some o) w =
      some ({ { TypeContext.zero .JT_INVALID with newObj := some arr }.withNpyArr with
              type := .JT_ARRAY }, w) := by
  rw [begin_table env o w h]
  simp [Object_beginTypeContext_dataframe, hfmt, getAttr_some o arr "values" w hval]

theorem encode_pyInt (env : Env) (hlp : env.lp64 = true) (v : Int) (f : Nat) (w : World) :
    encode env (f + 1) w (some (pyInt v)) = some (w, .long v) := by
  simp [encode, Object_beginTypeContext, Object_beginTypeContext_scalar, pyInt, PyObject.info, hlp,
    TypeContext.zero, Object_getLongValue, Object_endTypeContext, freeLabels_none]

theorem peekBytes_eq (buf : Int → Nat) (c : Int) (l : List Nat) (n : Int) (hn : n = l.length)
    (h : ∀ j : Nat, j < l.length → buf (c + (j : Int)) = l.getD j 0) :
    peekBytes buf c n = l := by
  subst hn
  apply List.ext_getElem?
  intro j
  unfold peekBytes
  rw [List.getElem?_map, Int.toNat_ofNat]
  by_cases hj : j < l.length
  · rw [List.getElem?_range hj, Option.map_some', h j hj, List.getD_eq_getElem?_getD,
      List.getElem?_eq_getElem hj]
    rfl
  · rw [List.getElem?_eq_none (by simpa using hj), List.getElem?_eq_none (by omega)]
    rfl

theorem cstring_append (pre post : List Nat) (h : 0 ∉ pre) :
    cstring (pre ++ 0 :: post) = some pre := by
  unfold cstring
  rw [if_pos (by simp)]
  congr 1
  induction pre with
  | nil => simp
  | cons x xs ih =>
    have hx : x ≠ 0 := fun e => h (by simp [e])
    have hxs : 0 ∉ xs := fun e => h (by simp [e])
    simp [List.takeWhile_cons, hx, ih hxs]

theorem pokeBytes_in (buf : Int → Nat) (addr : Int) (bytes : List Nat) (j : Nat)
    (h : j < bytes.length) : pokeBytes buf addr bytes (addr + (j : Int)) = bytes.getD j 0 := by
  unfold pokeBytes
  rw [if_pos ⟨by omega, by omega⟩]
  congr 1
  omega

theorem pokeBytes_out (buf : Int → Nat) (addr : Int) (bytes : List Nat) (a : Int)
    (h : a < addr ∨ addr + bytes.length ≤ a) : pokeBytes buf addr bytes a = buf a := by
  unfold pokeBytes
  rw [if_neg (by omega)]

/-- The bytes memcpy stores for a text that does not begin with a quote. -/
theorem stored_unquoted (buf : Int → Nat) (buffer : Int) (text : List Nat) (hz : 0 ∉ text) :
    cstring (peekBytes (pokeBytes buf buffer (text ++ [0])) buffer
      (buffer + text.length + 1 - buffer + 1)) = some text := by
  have e : peekBytes (pokeBytes buf buffer (text ++ [0])) buffer
      (buffer + text.length + 1 - buffer + 1)
      = text ++ 0 :: [pokeBytes buf buffer (text ++ [0]) (buffer + ((text.length + 1 : Nat) : Int))] := by
    apply peekBytes_eq
    · simp; ring
    · intro j hj
      simp only [List.length_append, List.length_cons, List.length_nil] at hj
      by_cases hj2 : j < text.length + 1
      · rw [pokeBytes_in buf buffer (text ++ [0]) j (by simpa using hj2)]
        simp only [List.getD_eq_getElem?_getD]
        congr 1
        by_cases hj3 : j < text.length
        · rw [List.getElem?_append_left hj3, List.getElem?_append_left hj3]
        · have : j = text.length := by omega
          subst this
          rw [List.getElem?_append_right (le_refl _), List.getElem?_append_right (le_refl _)]
          simp
      · have : j = text.length + 1 := by omega
        subst this
        rw [List.getD_eq_getElem?_getD, List.getElem?_append_right (by omega)]
        simp
  rw [e]
  exact cstring_append text _ hz

/-- The bytes memcpy stores for a text that begins with a quote: the quote is skipped
and the last character is overwritten by the terminator. -/
theorem stored_quoted (buf : Int → Nat) (buffer : Int) (body : List Nat) (z : Nat)
    (hz : 0 ∉ body) :
    cstring (peekBytes
      (pokeBytes (pokeBytes buf buffer ((QUOTE :: (body ++ [z])) ++ [0]))
        (buffer + ((QUOTE :: (body ++ [z])).length : Int) + 1 - 2) [0])
      (buffer + 1)
      (buffer + ((QUOTE :: (body ++ [z])).length : Int) + 1 - 2 - (buffer + 1) + 1)) = some body := by
  have e : peekBytes
      (pokeBytes (pokeBytes buf buffer ((QUOTE :: (body ++ [z])) ++ [0]))
        (buffer + ((QUOTE :: (body ++ [z])).length : Int) + 1 - 2) [0])
      (buffer + 1)
      (buffer + ((QUOTE :: (body ++ [z])).length : Int) + 1 - 2 - (buffer + 1) + 1)
      = body ++ 0 :: [] := by
    apply peekBytes_eq
    · simp; ring
    · intro j hj
      simp only [List.length_append, List.length_cons, List.length_nil] at hj
      by_cases hj3 : j < body.length
      · rw [pokeBytes_out _ _ _ _ (by left; simp; omega)]
        have := pokeBytes_in buf buffer ((QUOTE :: (body ++ [z])) ++ [0]) (j + 1)
          (by simp; omega)
        have e2 : buffer + 1 + (j : Int) = buffer + ((j + 1 : Nat) : Int) := by push_cast; ring
        rw [e2, this]
        simp [List.getD_eq_getElem?_getD, List.getElem?_append_left, hj3]
      · have : j = body.length := by omega
        subst this
        have e2 : buffer + 1 + (body.length : Int)
            = buffer + ((QUOTE :: (body ++ [z])).length : Int) + 1 - 2 + ((0 : Nat) : Int) := by
          simp; ring
        rw [e2, pokeBytes_in _ _ [0] 0 (by simp)]
        simp
  rw [e]
  exact cstring_append body _ hz

theorem head_poke (buf : Int → Nat) (buffer : Int) (text : List Nat) (hz : 0 ∉ text) :
    (pokeBytes buf buffer (text ++ [0]) buffer = QUOTE) ↔ text.head? = some QUOTE := by
  have := pokeBytes_in buf buffer (text ++ [0]) 0 (by simp)
  simp only [Nat.cast_zero, add_zero] at this
  rw [this]
  cases text with
  | nil => simp [QUOTE]
  | cons x xs => simp

theorem labelAt_set_self (ret : Nat) (entries : List (Option LabelStr)) (i : Nat) (s : LabelStr)
    (hi : i < entries.length) :
    labelAt (some { ptr := ret, entries := entries.set i (some s) }) (i : Int) = cstring s.bytes := by
  simp [labelAt, List.getElem?_set, hi]

theorem labelAt_set_other (ret : Nat) (entries : List (Option LabelStr)) (i j : Nat) (s : LabelStr)
    (hij : j ≠ i) :
    labelAt (some { ptr := ret, entries := entries.set i (some s) }) (j : Int) =
      labelAt (some { ptr := ret, entries := entries }) (j : Int) := by
  simp [labelAt, List.getElem?_set, Ne.symm hij]

theorem encodeLabels_step (env : Env) (labels : PyObject) (stride : Int) (ret : Nat) (num : Int)
    (n : Nat) (i dataptr : Int) (entries : List (Option LabelStr)) (buf : Int → Nat) (w : World)
    (text : List Nat)
    (hr : env.render (getitem dataptr labels) = (text, none, none))
    (hz : 0 ∉ text) (hq : text.head? = some QUOTE → 2 ≤ text.length)
    (herr : w.pyErr = none) (hfail : ∀ b ∈ w.mallocFails, b = false) :
    ∃ bytes buf2 w3,
      NpyArr_encodeLabels_loop env labels stride ret num (n + 1) i dataptr entries buf w =
        NpyArr_encodeLabels_loop env labels stride ret num n (i + 1) (dataptr + stride)
          (entries.set i.toNat (some { ptr := w.mallocCount, bytes := bytes })) buf2 w3 ∧
      cstring bytes = some (labelText text) ∧ KeepsEncoder w w3 := by
  have hcase : w.mallocFails = [] ∨ ∃ rest, w.mallocFails = false :: rest := by
    cases hf : w.mallocFails with
    | nil => exact Or.inl rfl
    | cons b rest =>
      have := hfail b (by rw [hf]; simp)
      exact Or.inr ⟨rest, by rw [this]⟩
  have htail : ∀ b ∈ w.mallocFails.tail, b = false :=
    fun b hb => hfail b (List.mem_of_mem_tail hb)
  rw [NpyArr_encodeLabels_loop]
  simp only [JSON_EncodeObject, hr]
  by_cases hquote : text.head? = some QUOTE
  · obtain ⟨body, z, htext⟩ : ∃ body z, text = QUOTE :: (body ++ [z]) := by
      cases ht : text with
      | nil => simp [ht] at hquote
      | cons x rest =>
        have hx : x = QUOTE := by simpa [ht] using hquote
        have hrest : rest ≠ [] := by
          intro e
          have := hq hquote
          simp [ht, e] at this
        exact ⟨rest.dropLast, rest.getLast hrest, by
          rw [hx, List.dropLast_append_getLast hrest]⟩
    have hbody : 0 ∉ body := by
      intro e
      apply hz
      rw [htext]
      simp [e]
    have hlab : labelText text = body := by
      simp [labelText, htext]
    have hstored := stored_quoted buf env.labelBuffer body z hbody
    rw [← htext] at hstored
    have hhead := (head_poke buf env.labelBuffer text hz).mpr hquote
    simp only [World.setBuffer, PyErr_Set, herr, Option.isSome_none, Bool.or_self,
      Bool.false_eq_true, if_false, hhead, if_true]
    rcases hcase with hf | ⟨rest, hf⟩
    · simp only [PyObject_Malloc, hf]
      refine ⟨_, _, _, rfl, by rw [hlab]; exact hstored, rfl, rfl, rfl, rfl, by simp, rfl, rfl⟩
    · simp only [PyObject_Malloc, hf]
      refine ⟨_, _, _, rfl, by rw [hlab]; exact hstored, rfl, rfl, rfl, rfl, ?_, rfl, rfl⟩
      intro b hb
      exact htail b (by rw [hf]; exact hb)
  · have hlab : labelText text = text := by
      simp [labelText, hquote]
    have hstored := stored_unquoted buf env.labelBuffer text hz
    have hhead : ¬ (pokeBytes buf env.labelBuffer (text ++ [0]) env.labelBuffer = QUOTE) :=
      fun e => hquote ((head_poke buf env.labelBuffer text hz).mp e)
    simp only [World.setBuffer, PyErr_Set, herr, Option.isSome_none, Bool.or_self,
      Bool.false_eq_true, if_false, hhead]
    rcases hcase with hf | ⟨rest, hf⟩
    · simp only [PyObject_Malloc, hf]
      refine ⟨_, _, _, rfl, by rw [hlab]; exact hstored, rfl, rfl, rfl, rfl, by simp, rfl, rfl⟩
    · simp only [PyObject_Malloc, hf]
      refine ⟨_, _, _, rfl, by rw [hlab]; exact hstored, rfl, rfl, rfl, rfl, ?_, rfl, rfl⟩
      intro b hb
      exact htail b (by rw [hf]; exact hb)

theorem KeepsEncoder_trans (w1 w2 w3 : World) (h1 : KeepsEncoder w1 w2) (h2 : KeepsEncoder w2 w3) :
    KeepsEncoder w1 w3 := by
  obtain ⟨a1, a2, a3, a4, a5, a6, a7⟩ := h1
  obtain ⟨b1, b2, b3, b4, b5, b6, b7⟩ := h2
  exact ⟨b1.trans a1, b2.trans a2, b3.trans a3, b4, b5, b6.trans a6, b7.trans a7⟩

theorem encodeLabels_loop_ok (env : Env) (labels : PyObject) (ret N : Nat) (text : Nat → List Nat)
    (hrender : LabelsEncode env labels N text) :
    ∀ (n i : Nat) (entries : List (Option LabelStr)) (buf : Int → Nat) (w : World),
      i + n = N → entries.length = N →
      (∀ j : Nat, j < i → labelAt (some { ptr := ret, entries := entries }) (j : Int)
        = some (labelText (text j))) →
      w.pyErr = none → (∀ b ∈ w.mallocFails, b = false) →
      ∃ la w', NpyArr_encodeLabels_loop env labels (PyArray_STRIDE labels 0) ret (N : Int) n
          (i : Int) (PyArray_DATA labels + (i : Int) * PyArray_STRIDE labels 0) entries buf w
          = (some la, w') ∧
        la.ptr = ret ∧ la.entries.length = N ∧
        (∀ j : Nat, j < N → labelAt (some la) (j : Int) = some (labelText (text j))) ∧
        KeepsEncoder w w' := by
  intro n
  induction n with
  | zero =>
    intro i entries buf w hin hlen hdone herr hfail
    refine ⟨{ ptr := ret, entries := entries }, w, rfl, rfl, hlen, ?_,
      rfl, rfl, rfl, herr, hfail, rfl, rfl⟩
    intro j hj
    exact hdone j (by omega)
  | succ n ih =>
    intro i entries buf w hin hlen hdone herr hfail
    obtain ⟨hr, hz, hq⟩ := hrender i (by omega)
    obtain ⟨bytes, buf2, w3, hstep, hbytes, hkeep⟩ := encodeLabels_step env labels
      (PyArray_STRIDE labels 0) ret (N : Int) n (i : Int)
      (PyArray_DATA labels + (i : Int) * PyArray_STRIDE labels 0) entries buf w (text i) hr hz hq
      herr hfail
    have e1 : ((i : Int) + 1) = ((i + 1 : Nat) : Int) := by push_cast; rfl
    have e2 : PyArray_DATA labels + (i : Int) * PyArray_STRIDE labels 0 + PyArray_STRIDE labels 0
        = PyArray_DATA labels + ((i + 1 : Nat) : Int) * PyArray_STRIDE labels 0 := by
      push_cast; ring
    rw [hstep, e1, e2, Int.toNat_ofNat]
    obtain ⟨la, w', h1, h2, h3, h4, h5⟩ := ih (i + 1)
      (entries.set i (some { ptr := w.mallocCount, bytes := bytes })) buf2 w3 (by omega)
      (by simpa using hlen)
      (by
        intro j hj
        by_cases hji : j = i
        · subst hji
          rw [labelAt_set_self ret entries j _ (by omega), hbytes]
        · rw [labelAt_set_other ret entries i j _ hji]
          exact hdone j (by omega))
      hkeep.2.2.2.1 hkeep.2.2.2.2.1
    exact ⟨la, w', h1, h2, h3, h4, KeepsEncoder_trans w w3 w' hkeep h5⟩

/-- A successful run of NpyArr_encodeLabels, lines 857-931: with at least `N` elements,
every one of the first `N` rendered without error and no allocation failing, it returns
`N` labels, label `j` being the trimmed text of element `j`, and leaves the buffer
pointers of the encoder as they were. -/
theorem encodeLabels_ok (env : Env) (labels : PyObject) (N : Nat) (text : Nat → List Nat)
    (w : World) (hsize : (N : Int) ≤ PyArray_SIZE labels)
    (hrender : LabelsEncode env labels N text)
    (herr : w.pyErr = none) (hfail : ∀ b ∈ w.mallocFails, b = false) :
    ∃ la w', NpyArr_encodeLabels env (some labels) (N : Int) w = some (some la, w') ∧
      la.entries.length = N ∧
      (∀ j : Nat, j < N → labelAt (some la) (j : Int) = some (labelText (text j))) ∧
      KeepsEncoder w w' ∧ w'.encoder.enc.start = w.encoder.enc.start ∧
      w'.encoder.enc.end_ = w.encoder.enc.end_ ∧ w'.encoder.enc.offset = w.encoder.enc.offset := by
  have hcase : w.mallocFails = [] ∨ ∃ rest, w.mallocFails = false :: rest := by
    cases hf : w.mallocFails with
    | nil => exact Or.inl rfl
    | cons b rest =>
      have := hfail b (by rw [hf]; simp)
      exact Or.inr ⟨rest, by rw [this]⟩
  have htail : ∀ b ∈ w.mallocFails.tail, b = false :=
    fun b hb => hfail b (List.mem_of_mem_tail hb)
  unfold NpyArr_encodeLabels
  simp only [if_neg (not_lt.mpr hsize)]
  have hloop := fun w1 (h1 : w1.pyErr = none) (h2 : ∀ b ∈ w1.mallocFails, b = false) buf =>
    encodeLabels_loop_ok env labels w.mallocCount N text hrender N 0
      (List.replicate N none) buf w1 (by omega) (by simp) (by intro j hj; omega) h1 h2
  simp only [Nat.cast_zero, zero_mul, add_zero] at hloop
  rcases hcase with hf | ⟨rest, hf⟩
  · simp only [PyObject_Malloc, hf, Int.toNat_ofNat]
    obtain ⟨la, w', h1, -, h3, h4, h5⟩ := hloop
      { w with mallocFails := [], mallocCount := w.mallocCount + 1,
               live := w.mallocCount :: w.live } herr
      (by intro b hb; simp at hb) (fun a => (w.junk a).toNat)
    rw [h1]
    exact ⟨la, _, rfl, h3, h4, h5, rfl, rfl, rfl⟩
  · simp only [PyObject_Malloc, hf, Int.toNat_ofNat]
    obtain ⟨la, w', h1, -, h3, h4, h5⟩ := hloop
      { w with mallocFails := rest, mallocCount := w.mallocCount + 1,
               live := w.mallocCount :: w.live } herr
      (by intro b hb; exact htail b (by rw [hf]; exact hb)) (fun a => (w.junk a).toNat)
    rw [h1]
    exact ⟨la, _, rfl, h3, h4, h5, rfl, rfl, rfl⟩

theorem CleanWorld_keeps (w w' : World) (h : CleanWorld w) (hk : KeepsEncoder w w') :
    CleanWorld w' := by
  obtain ⟨a1, a2, a3⟩ := h
  obtain ⟨b1, b2, b3, b4, b5, b6, b7⟩ := hk
  exact ⟨b1.trans a1, b4, b5⟩

theorem mallocFails_head (w : World) (h : ∀ b ∈ w.mallocFails, b = false) :
    w.mallocFails.head? ≠ some true := by
  cases hf : w.mallocFails with
  | nil => simp
  | cons b rest =>
    have := h b (by rw [hf]; simp)
    simp [this]

theorem frame_rank2 (env : Env) (f : Nat) (obj arr : PyObject) (hraw : RawArray arr)
    (L : Int → JSON) (w : World) (p : Nat) (hp : p ∈ w.live) (inc s0 ndim : Int)
    (rl cl : Option LabelArray) (named : Bool) (hinc : inc ≠ 0) (hnd : ndim = 1)
    (hf0 : (PyArray_DIM arr (s0 + inc * 0)).toNat + 1 ≤ f + 1)
    (hf1 : (PyArray_DIM arr (s0 + inc * (0 + 1))).toNat + 1 ≤ f) (hf : 1 ≤ f)
    (hleaf : ∀ (a : Int) (g : Nat) (w' : World), w'.encoder.npyCtxtPassthru = none →
      encode env (g + 1) w' (getitem a arr) = some (w', L a))
    (hnames0 : named = true → ∀ i : Nat, i < (PyArray_DIM arr (s0 + inc * 0)).toNat →
      (labelAt rl i).isSome)
    (hnames1 : cl.isSome = true → ∀ i : Nat, i < (PyArray_DIM arr (s0 + inc * (0 + 1))).toNat →
      (labelAt cl i).isSome) :
    FrameOK (encode env (f + 1)) obj arr w p inc s0 ndim rl cl named 0 (f + 1)
      (frameItems named rl
        (fun a => mkNode cl.isSome (frameItems cl.isSome cl L
          (PyArray_DIM arr (s0 + inc * (0 + 1))).toNat (PyArray_STRIDE arr (s0 + inc * (0 + 1))) a))
        (PyArray_DIM arr (s0 + inc * 0)).toNat (PyArray_STRIDE arr (s0 + inc * 0))) := by
  subst hnd
  obtain ⟨g, rfl⟩ : ∃ m, f = m + 1 := ⟨f - 1, by omega⟩
  have hl := frame_leaf (encode env (g + 1)) arr arr L w p hp cl.isSome inc s0 1 rl cl (0 + 1)
    (g + 1) hinc (by omega) hf1 (fun a c => hleaf a g _ (passthru_withCursor w p c none)) hnames1
  have hch := child_of_frame env (g + 1) arr hraw w p hp inc s0 1 rl cl 0 _ hl
  exact frame_node (encode env (g + 1 + 1)) obj arr _ w p hp named inc s0 1 rl cl 0 (g + 1 + 1)
    hinc (by omega) hf0 hch hnames0

theorem frameItems_named (l : Option LabelArray) (txt : Nat → List Nat) (T : Int → JSON)
    (D : Nat) (S a : Int) (h : ∀ j : Nat, j < D → labelAt l (j : Int) = some (txt j)) :
    frameItems true l T D S a =
      (List.range D).map (fun j : Nat => (some (txt j), T (a + (j : Int) * S))) := by
  unfold frameItems
  apply List.map_congr_left
  intro j hj
  rw [if_pos rfl, h j (List.mem_range.mp hj)]

theorem frameItems_unnamed (l : Option LabelArray) (T : Int → JSON) (D : Nat) (S a : Int) :
    mkNode false (frameItems false l T D S a) =
      .array ((List.range D).map (fun j : Nat => T (a + (j : Int) * S))) := by
  simp [frameItems, mkNode, Function.comp]

theorem PyArray_DIM_two (arr : PyObject) (m n : Nat) (h : arr.info.dims = [m, n]) :
    PyArray_DIM arr 0 = m ∧ PyArray_DIM arr 1 = n ∧ PyArray_NDIM arr - 1 = 1 ∧
      PyArray_SIZE arr = ((m * n : Nat) : Int) := by
  simp [PyArray_DIM, PyArray_NDIM, PyArray_SIZE, h]

theorem PyArray_STRIDE_two (arr : PyObject) (s0 s1 : Int) (h : arr.info.strides = [s0, s1]) :
    PyArray_STRIDE arr 0 = s0 ∧ PyArray_STRIDE arr 1 = s1 := by
  simp [PyArray_STRIDE, h]

theorem begin_table_columns (env : Env) (obj values index columns : PyObject) (m n : Nat)
    (s0 s1 : Int) (rtext ctext : Nat → List Nat) (w : World)
    (ht : TableOf obj values index columns m n s0 s1)
    (hfmt : w.encoder.outputFormat = .COLUMNS) (hw : CleanWorld w)
    (hcs : (n : Int) ≤ PyArray_SIZE columns) (hce : LabelsEncode env columns n ctext)
    (hrs : (m : Int) ≤ PyArray_SIZE index) (hre : LabelsEncode env index m rtext) :
    ∃ lr lc w', Object_beginTypeContext env (some obj) w =
        some (tableTC values .JT_OBJECT (some lr) (some lc) n m 1, w') ∧
      (∀ j : Nat, j < n → labelAt (some lr) (j : Int) = some (labelText (ctext j))) ∧
      (∀ i : Nat, i < m → labelAt (some lc) (i : Int) = some (labelText (rtext i))) ∧
      CleanWorld w' := by
  obtain ⟨h1, h2, h3, h4, h5, h6, h7, h8, h9⟩ := ht
  obtain ⟨d0, d1, -, -⟩ := PyArray_DIM_two values m n h6
  obtain ⟨lr, w1, e1, -, l1, k1, -, -, -⟩ := encodeLabels_ok env columns n ctext w hcs hce hw.2.1 hw.2.2
  have hw1 := CleanWorld_keeps w w1 hw k1
  obtain ⟨lc, w2, e2, -, l2, k2, -, -, -⟩ := encodeLabels_ok env index m rtext w1 hrs hre hw1.2.1 hw1.2.2
  have hw2 := CleanWorld_keeps w1 w2 hw1 k2
  refine ⟨lr, lc, w2, ?_, l1, l2, hw2⟩
  rw [begin_table env obj w h1]
  unfold Object_beginTypeContext_dataframe
  simp only [hfmt, getAttr_some obj values "values" w h3, getAttr_some obj columns "columns" w h5,
    reduceCtorEq, if_false, d1, e1, d0, getAttr_some obj index "index" w1 h4, e2]
  rfl

theorem begin_table_index (env : Env) (obj values index columns : PyObject) (m n : Nat)
    (s0 s1 : Int) (rtext ctext : Nat → List Nat) (w : World)
    (ht : TableOf obj values index columns m n s0 s1)
    (hfmt : w.encoder.outputFormat = .INDEX) (hw : CleanWorld w)
    (hcs : (n : Int) ≤ PyArray_SIZE columns) (hce : LabelsEncode env columns n ctext)
    (hrs : (m : Int) ≤ PyArray_SIZE index) (hre : LabelsEncode env index m rtext) :
    ∃ lr lc w', Object_beginTypeContext env (some obj) w =
        some (tableTC values .JT_OBJECT (some lr) (some lc) m n 0, w') ∧
      (∀ i : Nat, i < m → labelAt (some lr) (i : Int) = some (labelText (rtext i))) ∧
      (∀ j : Nat, j < n → labelAt (some lc) (j : Int) = some (labelText (ctext j))) ∧
      CleanWorld w' := by
  obtain ⟨h1, h2, h3, h4, h5, h6, h7, h8, h9⟩ := ht
  obtain ⟨d0, d1, -, -⟩ := PyArray_DIM_two values m n h6
  obtain ⟨lr, w1, e1, -, l1, k1, -, -, -⟩ := encodeLabels_ok env index m rtext w hrs hre hw.2.1 hw.2.2
  have hw1 := CleanWorld_keeps w w1 hw k1
  obtain ⟨lc, w2, e2, -, l2, k2, -, -, -⟩ := encodeLabels_ok env columns n ctext w1 hcs hce hw1.2.1 hw1.2.2
  have hw2 := CleanWorld_keeps w1 w2 hw1 k2
  refine ⟨lr, lc, w2, ?_, l1, l2, hw2⟩
  rw [begin_table env obj w h1]
  unfold Object_beginTypeContext_dataframe
  simp only [hfmt, getAttr_some obj values "values" w h3, getAttr_some obj index "index" w h4,
    reduceCtorEq, if_false, if_true, d1, e1, d0, getAttr_some obj columns "columns" w1 h5, e2]
  rfl

theorem begin_table_records (env : Env) (obj values index columns : PyObject) (m n : Nat)
    (s0 s1 : Int) (ctext : Nat → List Nat) (w : World)
    (ht : TableOf obj values index columns m n s0 s1)
    (hfmt : w.encoder.outputFormat = .RECORDS) (hw : CleanWorld w)
    (hcs : (n : Int) ≤ PyArray_SIZE columns) (hce : LabelsEncode env columns n ctext) :
    ∃ lc w', Object_beginTypeContext env (some obj) w =
        some (tableTC values .JT_ARRAY none (some lc) 0 n 0, w') ∧
      (∀ j : Nat, j < n → labelAt (some lc) (j : Int) = some (labelText (ctext j))) ∧
      CleanWorld w' := by
  obtain ⟨h1, h2, h3, h4, h5, h6, h7, h8, h9⟩ := ht
  obtain ⟨d0, d1, -, -⟩ := PyArray_DIM_two values m n h6
  obtain ⟨lc, w1, e1, -, l1, k1, -, -, -⟩ := encodeLabels_ok env columns n ctext w hcs hce hw.2.1 hw.2.2
  have hw1 := CleanWorld_keeps w w1 hw k1
  refine ⟨lc, w1, ?_, l1, hw1⟩
  rw [begin_table env obj w h1]
  unfold Object_beginTypeContext_dataframe
  simp only [hfmt, getAttr_some obj values "values" w h3, getAttr_some obj columns "columns" w h5,
    reduceCtorEq, if_false, if_true, d1, e1]
  rfl


theorem table23_ok : TableOf table23 values23 index23 columns23 2 3 24 8 := by
  refine ⟨?_, ?_, rfl, rfl, rfl, rfl, rfl, by decide, by decide⟩
  · simp [IsTable, NoScalar, table23, PyObject.info]
  · simp [RawArray, values23, PyObject.info]

theorem values23_leaf (a : Int) (g : Nat) (w' : World)
    (_h : w'.encoder.npyCtxtPassthru = none) :
    encode env64 (g + 1) w' (getitem a values23) = some (w', .long ((a - 1000) / 8 + 1)) :=
  encode_pyInt env64 rfl _ g w'

theorem columns23_encode : LabelsEncode env64 columns23 3
    (fun j => [QUOTE] ++ cstr (if j = 0 then "c0" else if j = 1 then "c1" else "c2") ++ [QUOTE]) := by
  intro j hj
  interval_cases j <;> exact ⟨rfl, by decide, by decide⟩

theorem index23_encode : LabelsEncode env64 index23 2
    (fun i => [QUOTE] ++ cstr (if i = 0 then "r0" else "r1") ++ [QUOTE]) := by
  intro j hj
  interval_cases j <;> exact ⟨rfl, by decide, by decide⟩

theorem world0_clean (f : PANDAS_FORMAT) : CleanWorld (world0 f) :=
  ⟨rfl, rfl, by intro b hb; simp [world0] at hb⟩

theorem begin_table_split (env : Env) (o : PyObject) (w : World) (h : IsTable o)
    (hfmt : w.encoder.outputFormat = .SPLIT) :
    Object_beginTypeContext env (some o) w = some (splitTableTC, w) := by
  rw [begin_table env o w h]
  simp [Object_beginTypeContext_dataframe, hfmt, splitTableTC]

theorem name_columns : cstring (memcpy_into [] (cstr "columns" ++ [0])) = some (cstr "columns") := by
  decide

theorem name_index :
    cstring (memcpy_into (memcpy_into [] (cstr "columns" ++ [0])) (cstr "index" ++ [0]))
      = some (cstr "index") := by
  decide

theorem name_data :
    cstring (memcpy_into (memcpy_into (memcpy_into [] (cstr "columns" ++ [0]))
      (cstr "index" ++ [0])) (cstr "data" ++ [0])) = some (cstr "data") := by
  decide

theorem getAttr_fst (o : PyObject) (name : String) (w : World) :
    (PyObject_GetAttrString o name w).1 = o.child (.attr (cstr name)) := by
  unfold PyObject_GetAttrString PyObject_GetAttr
  cases o.child (.attr (cstr name)) <;> rfl

/-- The host float branch of the dispatcher (lines 1031-1044): null for NaN and the
infinities, double otherwise. -/
theorem host_float_dispatch (env : Env) (w : World) (o : PyObject)
    (h1 : o.info.PyIter_Check = false) (h2 : o.info.PyArray_Check = false)
    (h3 : o.info.PyBool_Check = false) (h4 : o.info.PyInt_Check = false)
    (h5 : o.info.PyLong_Check = false) (h6 : o.info.isScalarInteger = false)
    (h7 : o.info.PyString_Check = false) (h8 : o.info.PyUnicode_Check = false)
    (h9 : o.info.PyFloat_Check = true) :
    (Object_beginTypeContext env (some o) w).map (fun r => r.1.type) =
      some (if npy_isnan o.info.PyFloat_AS_DOUBLE || npy_isinf o.info.PyFloat_AS_DOUBLE
        then .JT_NULL else .JT_DOUBLE) := by
  by_cases hc : (npy_isnan o.info.PyFloat_AS_DOUBLE || npy_isinf o.info.PyFloat_AS_DOUBLE) = true
  · simp only [Object_beginTypeContext, Object_beginTypeContext_scalar, h1, h2, h3, h4, h5, h6, h7,
      h8, h9, Bool.or_false, Bool.false_eq_true, if_false, if_true, hc]
    rfl
  · simp only [Object_beginTypeContext, Object_beginTypeContext_scalar, h1, h2, h3, h4, h5, h6, h7,
      h8, h9, Bool.or_false, Bool.false_eq_true, if_false, if_true, hc]
    rfl

theorem labelText_length (t : List Nat) :
    (labelText t).length = if t.head? = some QUOTE then t.length - 2 else t.length := by
  unfold labelText
  split
  · simp
    omega
  · rfl

theorem encodeLabels_short (env : Env) (labels : PyObject) (num : Int) (w : World)
    (h : PyArray_SIZE labels < num) :
    NpyArr_encodeLabels env (some labels) num w = some (none, PyErr_Set .ValueError w) := by
  simp [NpyArr_encodeLabels, h]

theorem encodeLabels_some (env : Env) (labels : PyObject) (num : Int) (w : World) :
    ∃ r w', NpyArr_encodeLabels env (some labels) num w = some (r, w') := by
  unfold NpyArr_encodeLabels
  simp only []
  split
  · exact ⟨_, _, rfl⟩
  · split
    · exact ⟨_, _, rfl⟩
    · exact ⟨_, _, rfl⟩

theorem begin_containers (env : Env) (o : PyObject) (w : World) (h : ReachesContainers o) :
    Object_beginTypeContext env (some o) w =
      Object_beginTypeContext_iterable env o (TypeContext.zero .JT_INVALID) w := by
  rcases h with h | h | h
  · simp [Object_beginTypeContext, h]
  · simp [Object_beginTypeContext, h]
  · cases hc : (o.info.PyIter_Check || o.info.PyArray_Check)
    · simp only [Object_beginTypeContext, hc, Bool.false_eq_true, if_false,
        begin_scalar_none env o _ w h]
    · simp only [Object_beginTypeContext, hc, if_true]

theorem wrap32_fits (x : Int) (h1 : -(2 : Int) ^ 31 ≤ x) (h2 : x < 2 ^ 31) : wrap32 x = x := by
  unfold wrap32
  omega

theorem wrap64_fits (x : Int) (h1 : -(2 : Int) ^ 63 ≤ x) (h2 : x < 2 ^ 63) : wrap64 x = x := by
  unfold wrap64
  omega

theorem toordinal_day (y m d : Int) : toordinal y m 1 - EPOCH_ORD + d - 1 = toordinal y m d - 719163 := by
  unfold toordinal EPOCH_ORD
  ring

theorem dict_next_step (d : PyObject) (nm v : Option PyObject) (k n : Nat) (key nameObj : PyObject)
    (hsize : d.info.size = n) (hk : k < n)
    (hkey : d.child (.dictKey (k : Int)) = some key) (hname : keyText key = some nameObj) :
    Dict_iterNext (dictNode d nm v (k : Int)) =
      some (1, dictNode d (some nameObj) (d.child (.dictValue (k : Int))) ((k : Int) + 1)) := by
  have hlt : (k : Int) < d.info.size := by rw [hsize]; exact_mod_cast hk
  have h0 : (0 : Int) ≤ (k : Int) := Int.natCast_nonneg k
  unfold keyText at hname
  unfold Dict_iterNext
  simp only [dictNode, TypeContext.withDict, h0, hlt, and_self, if_true, hkey]
  by_cases hu : key.info.PyUnicode_Check = true
  · simp only [hu, if_true] at hname ⊢
    rw [hname]
  · simp only [hu, Bool.false_eq_true, if_false] at hname ⊢
    by_cases hs : key.info.PyString_Check = true
    · simp only [hs, if_true] at hname
      simp only [hs, Bool.not_true, Bool.false_eq_true, if_false]
      rw [← Option.some.inj hname]
    · simp only [hs, Bool.false_eq_true, if_false] at hname
      simp only [hs, Bool.not_false, if_true]
      rw [hname]

theorem dict_next_stop (d : PyObject) (nm v : Option PyObject) (n : Nat)
    (hsize : d.info.size = n) :
    Dict_iterNext (dictNode d nm v (n : Int)) = some (0, dictNode d none v (n : Int)) := by
  have hlt : ¬ ((n : Int) < d.info.size) := by rw [hsize]; exact lt_irrefl _
  unfold Dict_iterNext
  simp only [dictNode, TypeContext.withDict, hlt, and_false, if_false]

theorem begin_dict (env : Env) (d : PyObject) (w : World) (hd : d.info.PyDict_Check = true)
    (hr : ReachesContainers d) :
    Object_beginTypeContext env (some d) w =
      some ({ TypeContext.zero .JT_INVALID with type := .JT_OBJECT, dictObj := some d }.withDict, w) := by
  rw [begin_containers env d w hr]
  simp only [Object_beginTypeContext_iterable, hd, if_true]

theorem objToJSON_invoked (env : Env) (fuel : Nat) (w : World) (oinput : PyObject)
    (sOrient : Option (List Nat)) :
    (objToJSON env fuel w oinput sOrient).invoked = (orientMode sOrient).map encoderFor ∧
    (orientMode sOrient = none →
      objToJSON env fuel w oinput sOrient =
        { invoked := none, pyErr := some .ValueError, ret := none, finished := true }) := by
  cases sOrient with
  | none =>
    constructor
    · simp only [objToJSON, orientMode, Option.map_some', encoderFor]
      repeat' split
      all_goals rfl
    · intro h
      simp [orientMode] at h
  | some s =>
    by_cases h1 : s = cstr "records"
    · subst h1
      constructor
      · simp only [objToJSON, orientMode, strcmp_eq, beq_iff_eq, if_true, if_false,
          Option.map_some', encoderFor, Bool.not_eq_true', beq_eq_false_iff_ne, ne_eq,
          not_true_eq_false, not_false_eq_true,
          (by decide : ¬ cstr "records" = cstr "index"), (by decide : ¬ cstr "records" = cstr "split"), (by decide : ¬ cstr "records" = cstr "values"), (by decide : ¬ cstr "records" = cstr "columns")]
        repeat' split
        all_goals rfl
      · intro h
        simp [orientMode, (by decide : ¬ cstr "records" = cstr "index"), (by decide : ¬ cstr "records" = cstr "split"), (by decide : ¬ cstr "records" = cstr "values"), (by decide : ¬ cstr "records" = cstr "columns")] at h
    · by_cases h2 : s = cstr "index"
      · subst h2
        constructor
        · simp only [objToJSON, orientMode, strcmp_eq, beq_iff_eq, if_true, if_false,
            Option.map_some', encoderFor, Bool.not_eq_true', beq_eq_false_iff_ne, ne_eq,
            not_true_eq_false, not_false_eq_true,
            (by decide : ¬ cstr "index" = cstr "records"), (by decide : ¬ cstr "index" = cstr "split"), (by decide : ¬ cstr "index" = cstr "values"), (by decide : ¬ cstr "index" = cstr "columns")]
          repeat' split
          all_goals rfl
        · intro h
          simp [orientMode, (by decide : ¬ cstr "index" = cstr "records"), (by decide : ¬ cstr "index" = cstr "split"), (by decide : ¬ cstr "index" = cstr "values"), (by decide : ¬ cstr "index" = cstr "columns")] at h
      · by_cases h3 : s = cstr "split"
        · subst h3
          constructor
          · simp only [objToJSON, orientMode, strcmp_eq, beq_iff_eq, if_true, if_false,
              Option.map_some', encoderFor, Bool.not_eq_true', beq_eq_false_iff_ne, ne_eq,
              not_true_eq_false, not_false_eq_true,
              (by decide : ¬ cstr "split" = cstr "records"), (by decide : ¬ cstr "split" = cstr "index"), (by decide : ¬ cstr "split" = cstr "values"), (by decide : ¬ cstr "split" = cstr "columns")]
            repeat' split
            all_goals rfl
          · intro h
            simp [orientMode, (by decide : ¬ cstr "split" = cstr "records"), (by decide : ¬ cstr "split" = cstr "index"), (by decide : ¬ cstr "split" = cstr "values"), (by decide : ¬ cstr "split" = cstr "columns")] at h
        · by_cases h4 : s = cstr "values"
          · subst h4
            constructor
            · simp only [objToJSON, orientMode, strcmp_eq, beq_iff_eq, if_true, if_false,
                Option.map_some', encoderFor, Bool.not_eq_true', beq_eq_false_iff_ne, ne_eq,
                not_true_eq_false, not_false_eq_true,
                (by decide : ¬ cstr "values" = cstr "records"), (by decide : ¬ cstr "values" = cstr "index"), (by decide : ¬ cstr "values" = cstr "split"), (by decide : ¬ cstr "values" = cstr "columns")]
              repeat' split
              all_goals rfl
            · intro h
              simp [orientMode, (by decide : ¬ cstr "values" = cstr "records"), (by decide : ¬ cstr "values" = cstr "index"), (by decide : ¬ cstr "values" = cstr "split"), (by decide : ¬ cstr "values" = cstr "columns")] at h
          · by_cases h5 : s = cstr "columns"
            · subst h5
              constructor
              · simp only [objToJSON, orientMode, strcmp_eq, beq_iff_eq, if_true, if_false,
                  Option.map_some', encoderFor, Bool.not_eq_true', beq_eq_false_iff_ne, ne_eq,
                  not_true_eq_false, not_false_eq_true,
                  (by decide : ¬ cstr "columns" = cstr "records"), (by decide : ¬ cstr "columns" = cstr "index"), (by decide : ¬ cstr "columns" = cstr "split"), (by decide : ¬ cstr "columns" = cstr "values")]
                repeat' split
                all_goals rfl
              · intro h
                simp [orientMode, (by decide : ¬ cstr "columns" = cstr "records"), (by decide : ¬ cstr "columns" = cstr "index"), (by decide : ¬ cstr "columns" = cstr "split"), (by decide : ¬ cstr "columns" = cstr "values")] at h
            · simp [objToJSON, orientMode, strcmp_eq, h1, h2, h3, h4, h5]

theorem orientMode_none (sOrient : Option (List Nat)) :
    orientMode sOrient = none ↔
      ∃ s, sOrient = some s ∧ s ≠ cstr "columns" ∧ s ≠ cstr "records" ∧ s ≠ cstr "index" ∧
        s ≠ cstr "split" ∧ s ≠ cstr "values" := by
  cases sOrient with
  | none => simp [orientMode]
  | some s =>
    unfold orientMode
    constructor
    · intro h
      refine ⟨s, rfl, ?_⟩
      simp only [] at h
      split_ifs at h with h1 h2 h3 h4 h5
      exact ⟨h1, h2, h3, h4, h5⟩
    · rintro ⟨t, ht, h1, h2, h3, h4, h5⟩
      cases ht
      simp [h1, h2, h3, h4, h5]

theorem begin_nohandler (env : Env) (o : PyObject) (w : World) (h : NoHandler o) :
    Object_beginTypeContext env (some o) w =
      match PyObject_GetAttrString o "toDict" w with
      | (some toDictFunc, w1) =>
        match toDictFunc.child .call with
        | none => some ({ TypeContext.zero .JT_INVALID with type := .JT_NULL }, PyErr_Clear w1)
        | some toDictResult =>
          if !toDictResult.info.PyDict_Check then
            some ({ TypeContext.zero .JT_INVALID with type := .JT_NULL }, w1)
          else some (dictTC toDictResult, w1)
      | (none, w1) =>
        some ({ TypeContext.zero .JT_INVALID with
                  type := .JT_OBJECT, iterBegin := .Dir_iterBegin, iterEnd := .Dir_iterEnd,
                  iterNext := .Dir_iterNext, iterGetValue := .Dir_iterGetValue,
                  iterGetName := .Dir_iterGetName }, PyErr_Clear w1) := by
  obtain ⟨h0, h1, h2, h3, h4, h5, h6, h7⟩ := h
  have hr : ReachesContainers o := by
    rcases h0 with h0 | h0
    · exact Or.inl h0
    · exact Or.inr (Or.inr h0)
  rw [begin_containers env o w hr]
  simp only [Object_beginTypeContext_iterable, h1, h2, h3, h4, h5, h6, h7, Bool.false_eq_true,
    if_false, dictTC]

theorem clear_set (e : PyExc) (w : World) : PyErr_Clear (PyErr_Set e w) = PyErr_Clear w := rfl

theorem clear_clearIf (b : Bool) (w : World) : clearIf b (PyErr_Clear w) = PyErr_Clear w := by
  cases b <;> rfl

theorem Dir_iterNext_node (obj l : PyObject) (nm v : Option PyObject) (i : Int) (w : World) :
    Dir_iterNext obj (dirNode l nm v i) w =
      match Dir_scan obj l l.info.size (l.info.size - i).toNat i w with
      | none => none
      | some (_, none, w1) => some (0, dirNode l nm none l.info.size, w1)
      | some (index, some (a, val), w1) => some (1, dirNode l (some a) (some val) (index + 1), w1) := by
  unfold Dir_iterNext
  simp only [dirNode]

theorem drain_congr (obj : PyObject) (f : Nat) (tc tc' : TypeContext) (w w' : World)
    (h : Object_iterNext obj tc w = Object_iterNext obj tc' w') :
    drain obj (f + 1) tc w = drain obj (f + 1) tc' w' := by
  rw [drain, drain, h]

theorem drain_dir (obj l : PyObject) :
    ∀ (ns : List PyObject) (i : Int) (nm v : Option PyObject) (w : World) (fuel : Nat),
      (∀ (k : Nat) (x : PyObject), ns[k]? = some x → l.child (.item (i + (k : Int))) = some x) →
      l.info.size = i + (ns.length : Int) → ns.length + 1 ≤ fuel →
      ∃ nm', drain obj fuel (dirNode l nm v i) w =
        some ((publicMembers obj ns).map
            (fun p => (some p.1.info.PyString_AS_STRING, some p.2)),
          dirNode l nm' none l.info.size, clearIf (anyReadFails obj ns) w) := by
  intro ns
  induction ns with
  | nil =>
    intro i nm v w fuel _ hsize hfuel
    obtain ⟨f, rfl⟩ : ∃ f, fuel = f + 1 := ⟨fuel - 1, by omega⟩
    have h0 : (l.info.size - i).toNat = 0 := by simp at hsize; rw [hsize]; simp
    refine ⟨nm, ?_⟩
    have hn : Object_iterNext obj (dirNode l nm v i) w = some (0, dirNode l nm none l.info.size, w) := by
      show Dir_iterNext obj (dirNode l nm v i) w = _
      rw [Dir_iterNext_node, h0]
      rfl
    rw [drain, hn]
    rfl
  | cons a rest ih =>
    intro i nm v w fuel hitems hsize hfuel
    obtain ⟨f, rfl⟩ : ∃ f, fuel = f + 1 := ⟨fuel - 1, by omega⟩
    have hlen : ((a :: rest).length : Int) = (rest.length : Int) + 1 := by simp
    have hn : (l.info.size - i).toNat = rest.length + 1 := by rw [hsize, hlen]; omega
    have hn1 : (l.info.size - (i + 1)).toNat = rest.length := by rw [hsize, hlen]; omega
    have hlt : i < l.info.size := by rw [hsize, hlen]; omega
    have ha : l.child (.item i) = some a := by
      have := hitems 0 a (by simp)
      simpa using this
    have hrest : ∀ (k : Nat) (x : PyObject), rest[k]? = some x →
        l.child (.item (i + 1 + (k : Int))) = some x := by
      intro k x hx
      have := hitems (k + 1) x (by simpa using hx)
      rw [show i + 1 + (k : Int) = i + ((k + 1 : Nat) : Int) by push_cast; ring]
      exact this
    have hsize1 : l.info.size = i + 1 + (rest.length : Int) := by rw [hsize, hlen]; ring
    -- the items skipped by the loop
    have hskip : ∀ w2 : World,
        Dir_scan obj l l.info.size (rest.length + 1) i w = Dir_scan obj l l.info.size rest.length (i + 1) w2 →
        publicMembers obj (a :: rest) = publicMembers obj rest →
        clearIf (anyReadFails obj (a :: rest)) w = clearIf (anyReadFails obj rest) w2 →
        ∃ nm', drain obj (f + 1) (dirNode l nm v i) w =
          some ((publicMembers obj (a :: rest)).map
              (fun p => (some p.1.info.PyString_AS_STRING, some p.2)),
            dirNode l nm' none l.info.size, clearIf (anyReadFails obj (a :: rest)) w) := by
      intro w2 hscan hpm hcl
      obtain ⟨nm', hd⟩ := ih (i + 1) nm v w2 (f + 1) hrest hsize1 (by simp at hfuel ⊢; omega)
      refine ⟨nm', ?_⟩
      rw [hpm, hcl, ← hd]
      apply drain_congr
      show Dir_iterNext obj (dirNode l nm v i) w = Dir_iterNext obj (dirNode l nm v (i + 1)) w2
      rw [Dir_iterNext_node, Dir_iterNext_node, hn, hn1, hscan]
    by_cases hu : a.info.PyString_AS_STRING.head? = some 95
    · apply hskip w
      · rw [Dir_scan]
        simp only [hlt, if_true, ha, hu]
      · simp [publicMembers, hu]
      · simp [anyReadFails, hu]
    · cases hc : obj.child (.attr a.info.PyString_AS_STRING) with
      | none =>
        apply hskip (PyErr_Clear w)
        · rw [Dir_scan]
          simp only [hlt, if_true, ha, hu, if_false, PyObject_GetAttr, hc, clear_set]
        · simp [publicMembers, hu, hc]
        · have : anyReadFails obj (a :: rest) = true := by simp [anyReadFails, hu, hc]
          rw [this, clear_clearIf]
          rfl
      | some val =>
        by_cases hcall : val.info.PyCallable_Check = true
        · apply hskip w
          · rw [Dir_scan]
            simp only [hlt, if_true, ha, hu, if_false, PyObject_GetAttr, hc, hcall]
          · simp [publicMembers, hu, hc, hcall]
          · simp [anyReadFails, hu, hc]
        · have hscan : Dir_scan obj l l.info.size (rest.length + 1) i w = some (i, some (a, val), w) := by
            rw [Dir_scan]
            simp only [hlt, if_true, ha, hu, if_false, PyObject_GetAttr, hc, hcall,
              Bool.false_eq_true]
          have hnext : Object_iterNext obj (dirNode l nm v i) w =
              some (1, dirNode l (some a) (some val) (i + 1), w) := by
            show Dir_iterNext obj (dirNode l nm v i) w = _
            rw [Dir_iterNext_node, hn, hscan]
          obtain ⟨nm', hd⟩ := ih (i + 1) (some a) (some val) w f hrest hsize1
            (by simp at hfuel ⊢; omega)
          refine ⟨nm', ?_⟩
          have hpm : publicMembers obj (a :: rest) = (a, val) :: publicMembers obj rest := by
            simp [publicMembers, hu, hc, hcall]
          have hcl : anyReadFails obj (a :: rest) = anyReadFails obj rest := by
            simp [anyReadFails, hu, hc]
          rw [drain, hnext, hpm, hcl]
          simp only [one_ne_zero, if_false]
          have hg : Object_iterGetName (dirNode l (some a) (some val) (i + 1)) w =
              some (some a.info.PyString_AS_STRING) := rfl
          have hv : Object_iterGetValue (dirNode l (some a) (some val) (i + 1)) = some (some val) := rfl
          rw [hg, hv]
          simp only [hd, List.map_cons]

theorem pyList_item (items : List PyObject) (k : Nat) :
    (pyList items).child (.item (0 + (k : Int))) = items[k]? := by
  simp [pyList, PyObject.child]

theorem modes_malloc (w : World) : (PyObject_Malloc w).2.modes = w.modes := by
  unfold PyObject_Malloc
  rcases w.mallocFails with _ | ⟨b, rest⟩
  · rfl
  · cases b <;> rfl

theorem encoder_malloc (w : World) : (PyObject_Malloc w).2.encoder = w.encoder := by
  unfold PyObject_Malloc
  rcases w.mallocFails with _ | ⟨b, rest⟩
  · rfl
  · cases b <;> rfl

theorem modes_free (p : Option Nat) (w : World) : (PyObject_Free p w).modes = w.modes := by
  cases p <;> rfl

theorem modes_freeLabels (l : Option LabelArray) (n : Int) (w : World) :
    (NpyArr_freeLabels l n w).modes = w.modes := by
  cases l with
  | none => rfl
  | some la =>
    simp only [NpyArr_freeLabels, modes_free]
    generalize la.entries.take n.toNat = es
    induction es generalizing w with
    | nil => rfl
    | cons e es ih => rw [List.foldl_cons, ih, modes_free]

theorem modes_encodeObject (env : Env) (o : Option PyObject) (buf : Int → Nat) (b c : Int)
    (w : World) : (JSON_EncodeObject env o buf b c w).2.2.modes = w.modes := by
  unfold JSON_EncodeObject
  simp only []
  cases (env.render o).2.2 <;> rfl

theorem modes_loop (env : Env) (labels : PyObject) (stride : Int) (ret : Nat) (num : Int) :
    ∀ (n : Nat) (i dataptr : Int) (entries : List (Option LabelStr)) (buf : Int → Nat) (w : World),
      (NpyArr_encodeLabels_loop env labels stride ret num n i dataptr entries buf w).2.modes
        = w.modes := by
  intro n
  induction n with
  | zero => intro i dataptr entries buf w; rfl
  | succ n ih =>
    intro i dataptr entries buf w
    rw [NpyArr_encodeLabels_loop]
    have h1 := modes_encodeObject env (getitem dataptr labels) buf env.labelBuffer 32768 w
    generalize JSON_EncodeObject env (getitem dataptr labels) buf env.labelBuffer 32768 w = r at h1
    obtain ⟨cLabel, buf1, w1⟩ := r
    simp only [] at h1 ⊢
    split
    · simp only [modes_freeLabels, h1]
    · by_cases hq : buf1 cLabel = QUOTE
      · simp only [hq, if_true]
        have hm := modes_malloc (w1.setBuffer w1.encoder.enc.start w1.encoder.enc.end_
          (w1.encoder.enc.offset - 2))
        generalize PyObject_Malloc (w1.setBuffer w1.encoder.enc.start w1.encoder.enc.end_
          (w1.encoder.enc.offset - 2)) = m at hm ⊢
        obtain ⟨_ | p, w3⟩ := m
        · exact hm.trans h1
        · simp only []
          rw [ih]
          exact hm.trans h1
      · simp only [hq, if_false]
        have hm := modes_malloc w1
        generalize PyObject_Malloc w1 = m at hm ⊢
        obtain ⟨_ | p, w3⟩ := m
        · exact hm.trans h1
        · simp only []
          rw [ih]
          exact hm.trans h1

theorem encodeLabels_keeps (env : Env) (labels : PyObject) (num : Int) (w : World) :
    ∃ r w', NpyArr_encodeLabels env (some labels) num w = some (r, w') ∧
      w'.modes = w.modes ∧ w'.encoder.enc.start = w.encoder.enc.start ∧
      w'.encoder.enc.end_ = w.encoder.enc.end_ ∧ w'.encoder.enc.offset = w.encoder.enc.offset := by
  unfold NpyArr_encodeLabels
  simp only []
  split
  · exact ⟨_, _, rfl, rfl, rfl, rfl, rfl⟩
  · have hm := modes_malloc w
    have he := encoder_malloc w
    split
    · rename_i w1 hw
      rw [hw] at hm he
      refine ⟨_, _, rfl, ?_, ?_, ?_, ?_⟩
      · exact hm
      · show w1.encoder.enc.start = _; rw [he]
      · show w1.encoder.enc.end_ = _; rw [he]
      · show w1.encoder.enc.offset = _; rw [he]
    · rename_i ret w1 hw
      rw [hw] at hm he
      refine ⟨_, _, rfl, ?_, ?_, ?_, ?_⟩
      · have := modes_loop env labels (PyArray_STRIDE labels 0) ret num num.toNat 0
          (PyArray_DATA labels) (List.replicate num.toNat none) (fun a => (w1.junk a).toNat) w1
        rw [← hm, ← this]
        rfl
      · show w1.encoder.enc.start = _; rw [he]
      · show w1.encoder.enc.end_ = _; rw [he]
      · show w1.encoder.enc.offset = _; rw [he]

theorem pair_of_some {α β : Type} {x : α × β} {a : α} {b : β} (h : some x = some (a, b)) :
    a = x.1 ∧ b = x.2 := by
  cases h
  exact ⟨rfl, rfl⟩

theorem modes_alloc (tc : TypeContext) (w : World) :
    (alloc_citemName tc w).2.modes = w.modes ∧
      (alloc_citemName tc w).1.iterBegin = tc.iterBegin ∧
      (alloc_citemName tc w).1.iterEnd = tc.iterEnd := by
  unfold alloc_citemName
  have hm := modes_malloc w
  generalize PyObject_Malloc w = m at hm ⊢
  obtain ⟨_ | p, w1⟩ := m <;> exact ⟨hm, rfl, rfl⟩

theorem modes_getattr (o : PyObject) (name : String) (w : World) :
    (PyObject_GetAttrString o name w).2.modes = w.modes := by
  unfold PyObject_GetAttrString PyObject_GetAttr
  cases o.child (.attr (cstr name)) <;> rfl

theorem modes_NpyArr_iterBegin (obj : PyObject) (tc : TypeContext) (w : World) :
    (NpyArr_iterBegin obj tc w).2.modes = w.modes ∧
      (NpyArr_iterBegin obj tc w).1.iterBegin = tc.iterBegin ∧
      (NpyArr_iterBegin obj tc w).1.iterEnd = tc.iterEnd := by
  unfold NpyArr_iterBegin
  simp only []
  split
  · have hm := modes_malloc w
    generalize PyObject_Malloc w = m at hm ⊢
    obtain ⟨_ | p, w1⟩ := m
    · exact ⟨hm, rfl, rfl⟩
    · exact ⟨hm, rfl, rfl⟩
  · exact ⟨rfl, rfl, rfl⟩

/-- What the begin operation of a node does to the encoder: the hand-off slot and the
saved mode stay, the current mode becomes Values when the node switches and stays
otherwise; the begin and end slots of the node stay. -/
theorem iterBegin_modes (obj : PyObject) (tc tc' : TypeContext) (w w' : World)
    (h : Object_iterBegin obj tc w = some (tc', w')) :
    w'.encoder.npyCtxtPassthru = w.encoder.npyCtxtPassthru ∧
    w'.encoder.originalOutputFormat = w.encoder.originalOutputFormat ∧
    (Switches tc → w'.encoder.outputFormat = .VALUES) ∧
    (¬ Switches tc → w'.encoder.outputFormat = w.encoder.outputFormat) ∧
    tc'.iterEnd = tc.iterEnd := by
  unfold Object_iterBegin at h
  unfold Switches
  split at h
  · rename_i hb
    obtain ⟨rfl, rfl⟩ := pair_of_some h
    obtain ⟨hm, -, he⟩ := modes_NpyArr_iterBegin obj tc w
    simp only [World.modes, Prod.mk.injEq] at hm
    exact ⟨hm.1, hm.2.2, by simp [hb], fun _ => hm.2.1, he⟩
  · rename_i hb
    obtain ⟨rfl, rfl⟩ := pair_of_some h
    exact ⟨rfl, rfl, by simp [hb], fun _ => rfl, rfl⟩
  · rename_i hb
    obtain ⟨rfl, rfl⟩ := pair_of_some h
    exact ⟨rfl, rfl, by simp [hb], fun _ => rfl, rfl⟩
  · rename_i hb
    obtain ⟨rfl, rfl⟩ := pair_of_some h
    exact ⟨rfl, rfl, by simp [hb], fun _ => rfl, rfl⟩
  · rename_i hb
    unfold Dir_iterBegin at h
    cases hd : obj.child .dir with
    | none => simp [hd] at h
    | some l =>
      simp only [hd, Option.map_some', Option.some.injEq, Prod.mk.injEq] at h
      obtain ⟨rfl, rfl⟩ := h
      exact ⟨rfl, rfl, by simp [hb], fun _ => rfl, rfl⟩
  · rename_i hb
    obtain ⟨rfl, rfl⟩ := pair_of_some h
    obtain ⟨hm, -, he⟩ := modes_alloc { tc with index := 0 } w
    simp only [World.modes, Prod.mk.injEq] at hm
    unfold Index_iterBegin
    simp only []
    split <;> exact ⟨hm.1, hm.2.2, by simp [hb], fun _ => hm.2.1, he⟩
  · rename_i hb
    obtain ⟨rfl, rfl⟩ := pair_of_some h
    obtain ⟨hm, -, he⟩ := modes_alloc { tc with index := 0 } w
    simp only [World.modes, Prod.mk.injEq] at hm
    unfold Series_iterBegin
    simp only []
    split <;> exact ⟨hm.1, hm.2.2, fun _ => rfl, fun hn => absurd (Or.inl hb) hn, he⟩
  · rename_i hb
    obtain ⟨rfl, rfl⟩ := pair_of_some h
    obtain ⟨hm, -, he⟩ := modes_alloc { tc with index := 0 } w
    simp only [World.modes, Prod.mk.injEq] at hm
    unfold DataFrame_iterBegin
    simp only []
    split <;> exact ⟨hm.1, hm.2.2, fun _ => rfl, fun hn => absurd (Or.inr hb) hn, he⟩
  · rename_i hb
    obtain ⟨rfl, rfl⟩ := pair_of_some h
    exact ⟨rfl, rfl, by simp [hb], fun _ => rfl, rfl⟩
  · cases h

/-- What the end operation of a node does to the encoder: the hand-off slot and the
saved mode stay, the current mode becomes the saved mode when the node restores and
stays otherwise. -/
theorem iterEnd_modes (tc tc' : TypeContext) (w w' : World)
    (h : Object_iterEnd tc w = some (tc', w')) :
    w'.encoder.npyCtxtPassthru = w.encoder.npyCtxtPassthru ∧
    w'.encoder.originalOutputFormat = w.encoder.originalOutputFormat ∧
    (Restores tc → w'.encoder.outputFormat = w.encoder.originalOutputFormat) ∧
    (¬ Restores tc → w'.encoder.outputFormat = w.encoder.outputFormat) := by
  unfold Object_iterEnd at h
  unfold Restores
  split at h
  · rename_i hb
    obtain ⟨-, rfl⟩ := pair_of_some h
    have hm : (NpyArr_iterEnd tc w).modes = w.modes := by
      unfold NpyArr_iterEnd
      cases tc.npyarr <;> rfl
    simp only [World.modes, Prod.mk.injEq] at hm
    exact ⟨hm.1, hm.2.2, by simp [hb], fun _ => hm.2.1⟩
  · rename_i hb
    unfold NpyArrPassThru_iterEnd at h
    cases hd : w.deref tc.npyarr with
    | none => simp [hd] at h
    | some pc =>
      simp only [hd, Option.map_some', Option.some.injEq, Prod.mk.injEq] at h
      obtain ⟨rfl, rfl⟩ := h
      exact ⟨rfl, rfl, by simp [hb], fun _ => rfl⟩
  · rename_i hb
    obtain ⟨-, rfl⟩ := pair_of_some h
    exact ⟨rfl, rfl, by simp [hb], fun _ => rfl⟩
  · rename_i hb
    obtain ⟨-, rfl⟩ := pair_of_some h
    exact ⟨rfl, rfl, by simp [hb], fun _ => rfl⟩
  · rename_i hb
    split at h
    · cases h
      exact ⟨rfl, rfl, by simp [hb], fun _ => rfl⟩
    · cases h
  · rename_i hb
    obtain ⟨-, rfl⟩ := pair_of_some h
    have hm : (Index_iterEnd tc w).modes = w.modes := modes_free _ _
    simp only [World.modes, Prod.mk.injEq] at hm
    exact ⟨hm.1, hm.2.2, by simp [hb], fun _ => hm.2.1⟩
  · rename_i hb
    obtain ⟨-, rfl⟩ := pair_of_some h
    have hm : (Series_iterEnd tc w).modes =
        (w.encoder.npyCtxtPassthru, w.encoder.originalOutputFormat, w.encoder.originalOutputFormat) :=
      modes_free _ _
    simp only [World.modes, Prod.mk.injEq] at hm
    exact ⟨hm.1, hm.2.2, fun _ => hm.2.1, fun hn => absurd (Or.inl hb) hn⟩
  · rename_i hb
    obtain ⟨-, rfl⟩ := pair_of_some h
    have hm : (DataFrame_iterEnd tc w).modes =
        (w.encoder.npyCtxtPassthru, w.encoder.originalOutputFormat, w.encoder.originalOutputFormat) :=
      modes_free _ _
    simp only [World.modes, Prod.mk.injEq] at hm
    exact ⟨hm.1, hm.2.2, fun _ => hm.2.1, fun hn => absurd (Or.inr hb) hn⟩
  · rename_i hb
    split at h
    · cases h
      exact ⟨rfl, rfl, by simp [hb], fun _ => rfl⟩
    · cases h
  · cases h

theorem modes_endTypeContext (tc : TypeContext) (w : World) :
    (Object_endTypeContext tc w).modes = w.modes := by
  unfold Object_endTypeContext
  rw [modes_freeLabels, modes_freeLabels]

theorem triple_of_some {α β γ : Type} {x : α × β × γ} {r : α} {a : β} {b : γ}
    (h : some x = some (r, a, b)) : r = x.1 ∧ a = x.2.1 ∧ b = x.2.2 := by
  cases h
  exact ⟨rfl, rfl, rfl⟩

theorem modes_scan (obj l : PyObject) (size : Int) :
    ∀ (n : Nat) (i : Int) (w : World) (r : Int × Option (PyObject × PyObject) × World),
      Dir_scan obj l size n i w = some r → r.2.2.modes = w.modes := by
  intro n
  induction n with
  | zero =>
    intro i w r h
    rw [Dir_scan] at h
    cases h
    rfl
  | succ n ih =>
    intro i w r h
    rw [Dir_scan] at h
    split at h
    · cases ha : l.child (.item i) with
      | none => simp [ha] at h
      | some attr =>
        simp only [ha] at h
        split at h
        · exact ih _ _ _ h
        · unfold PyObject_GetAttr at h
          cases hc : obj.child (.attr attr.info.PyString_AS_STRING) with
          | none =>
            simp only [hc] at h
            exact (ih _ _ _ h).trans rfl
          | some v =>
            simp only [hc] at h
            split at h
            · exact ih _ _ _ h
            · cases h
              rfl
    · cases h
      rfl

theorem modes_NpyArr_iterNextItem (tc tc' : TypeContext) (w w' : World) (r : Int)
    (h : NpyArr_iterNextItem tc w = some (r, tc', w')) :
    w'.modes = w.modes ∧ tc'.iterEnd = tc.iterEnd := by
  unfold NpyArr_iterNextItem at h
  cases hd : w.deref tc.npyarr with
  | none => simp [hd] at h
  | some pc =>
    simp only [hd] at h
    split at h
    · obtain ⟨-, rfl, rfl⟩ := triple_of_some h
      exact ⟨rfl, rfl⟩
    · obtain ⟨-, rfl, rfl⟩ := triple_of_some h
      exact ⟨rfl, rfl⟩

/-- What the next operation of a node does to the encoder: the two modes stay, and the
hand-off slot stays unless the operation is a descending NpyArr_iterNext, which stores
the cursor of the node in the slot and reports an item. -/
theorem iterNext_modes (obj : PyObject) (tc tc' : TypeContext) (w w' : World) (r : Int)
    (h : Object_iterNext obj tc w = some (r, tc', w')) :
    w'.encoder.outputFormat = w.encoder.outputFormat ∧
    w'.encoder.originalOutputFormat = w.encoder.originalOutputFormat ∧
    tc'.iterEnd = tc.iterEnd ∧
    (w'.encoder.npyCtxtPassthru = w.encoder.npyCtxtPassthru ∨
      (tc.iterNext = .NpyArr_iterNext ∧ r = 1 ∧ tc.npyarr.isSome = true ∧
        w'.encoder.npyCtxtPassthru = tc.npyarr)) := by
  have key : ∀ {x : World}, x.modes = w.modes →
      x.encoder.outputFormat = w.encoder.outputFormat ∧
      x.encoder.originalOutputFormat = w.encoder.originalOutputFormat ∧
      x.encoder.npyCtxtPassthru = w.encoder.npyCtxtPassthru := by
    intro x hx
    simp only [World.modes, Prod.mk.injEq] at hx
    exact ⟨hx.2.1, hx.2.2, hx.1⟩
  unfold Object_iterNext at h
  split at h
  · unfold NpyArr_iterNextNone at h
    obtain ⟨-, rfl, rfl⟩ := triple_of_some h
    exact ⟨rfl, rfl, rfl, Or.inl rfl⟩
  · obtain ⟨hm, he⟩ := modes_NpyArr_iterNextItem tc tc' w w' r h
    obtain ⟨k1, k2, k3⟩ := key hm
    exact ⟨k1, k2, he, Or.inl k3⟩
  · rename_i hn
    unfold NpyArr_iterNext at h
    cases hd : w.deref tc.npyarr with
    | none => simp [hd] at h
    | some pc =>
      simp only [hd] at h
      split at h
      · obtain ⟨hm, he⟩ := modes_NpyArr_iterNextItem _ tc' w w' r h
        obtain ⟨k1, k2, k3⟩ := key hm
        exact ⟨k1, k2, he, Or.inl k3⟩
      · obtain ⟨rfl, rfl, rfl⟩ := triple_of_some h
        refine ⟨rfl, rfl, rfl, Or.inr ⟨hn, rfl, ?_, ?_⟩⟩
        · cases hp : tc.npyarr with
          | none => rw [hp] at hd; simp [World.deref] at hd
          | some q => rfl
        · cases hp : tc.npyarr with
          | none => rw [hp] at hd; simp [World.deref] at hd
          | some q =>
            rw [hp] at hd
            simp only [World.deref] at hd
            split at hd
            · cases hc : w.cursors q with
              | none => simp [hc] at hd
              | some c =>
                simp only [hc, Option.map_some', Option.some.injEq] at hd
                rw [← hd]
                rfl
            · cases hd
  · obtain ⟨-, rfl, rfl⟩ := triple_of_some h
    unfold Tuple_iterNext
    split <;> exact ⟨rfl, rfl, rfl, Or.inl rfl⟩
  · obtain ⟨-, rfl, rfl⟩ := triple_of_some h
    unfold List_iterNext
    split <;> exact ⟨rfl, rfl, rfl, Or.inl rfl⟩
  · unfold Dir_iterNext at h
    simp only [] at h
    cases ha : tc.attrList with
    | none => simp [ha] at h
    | some l =>
      simp only [ha] at h
      cases hs : Dir_scan obj l tc.size (tc.size - tc.index).toNat tc.index w with
      | none => simp [hs] at h
      | some res =>
        have hm := modes_scan obj l tc.size _ _ _ _ hs
        obtain ⟨idx, found, w1⟩ := res
        simp only [hs] at h
        cases found with
        | none =>
          obtain ⟨-, rfl, rfl⟩ := triple_of_some h
          obtain ⟨k1, k2, k3⟩ := key hm
          exact ⟨k1, k2, rfl, Or.inl k3⟩
        | some nv =>
          obtain ⟨-, rfl, rfl⟩ := triple_of_some h
          obtain ⟨k1, k2, k3⟩ := key hm
          exact ⟨k1, k2, rfl, Or.inl k3⟩
  · obtain ⟨-, rfl, rfl⟩ := triple_of_some h
    unfold Index_iterNext
    split
    · exact ⟨rfl, rfl, rfl, Or.inl rfl⟩
    · split
      · obtain ⟨k1, k2, k3⟩ := key (modes_getattr obj "name" w)
        exact ⟨k1, k2, rfl, Or.inl k3⟩
      · split
        · obtain ⟨k1, k2, k3⟩ := key (modes_getattr obj "values" w)
          exact ⟨k1, k2, rfl, Or.inl k3⟩
        · exact ⟨rfl, rfl, rfl, Or.inl rfl⟩
  · obtain ⟨-, rfl, rfl⟩ := triple_of_some h
    unfold Series_iterNext
    split
    · exact ⟨rfl, rfl, rfl, Or.inl rfl⟩
    · split
      · obtain ⟨k1, k2, k3⟩ := key (modes_getattr obj "name" w)
        exact ⟨k1, k2, rfl, Or.inl k3⟩
      · split
        · obtain ⟨k1, k2, k3⟩ := key (modes_getattr obj "index" w)
          exact ⟨k1, k2, rfl, Or.inl k3⟩
        · split
          · obtain ⟨k1, k2, k3⟩ := key (modes_getattr obj "values" w)
            exact ⟨k1, k2, rfl, Or.inl k3⟩
          · exact ⟨rfl, rfl, rfl, Or.inl rfl⟩
  · obtain ⟨-, rfl, rfl⟩ := triple_of_some h
    unfold DataFrame_iterNext
    split
    · exact ⟨rfl, rfl, rfl, Or.inl rfl⟩
    · split
      · obtain ⟨k1, k2, k3⟩ := key (modes_getattr obj "columns" w)
        exact ⟨k1, k2, rfl, Or.inl k3⟩
      · split
        · obtain ⟨k1, k2, k3⟩ := key (modes_getattr obj "index" w)
          exact ⟨k1, k2, rfl, Or.inl k3⟩
        · split
          · obtain ⟨k1, k2, k3⟩ := key (modes_getattr obj "values" w)
            exact ⟨k1, k2, rfl, Or.inl k3⟩
          · exact ⟨rfl, rfl, rfl, Or.inl rfl⟩
  · cases hd : Dict_iterNext tc with
    | none => simp [hd] at h
    | some res =>
      simp only [hd, Option.map_some'] at h
      obtain ⟨-, rfl, rfl⟩ := triple_of_some h
      refine ⟨rfl, rfl, ?_, Or.inl rfl⟩
      unfold Dict_iterNext at hd
      simp only [] at hd
      cases hdo : tc.dictObj with
      | none => simp [hdo] at hd
      | some d =>
        simp only [hdo] at hd
        split at hd
        · cases hk : d.child (.dictKey tc.index) with
          | none => simp [hk] at hd
          | some key =>
            simp only [hk] at hd
            split at hd
            · cases hd; rfl
            · split at hd
              · cases hd; rfl
              · cases hd; rfl
        · cases hd; rfl
  · cases h

theorem BeginOK_of_modes (w : World) (tc : TypeContext) (w' : World) (hm : w'.modes = w.modes)
    (hb : tc.iterBegin ≠ .Series_iterBegin ∧ tc.iterBegin ≠ .DataFrame_iterBegin)
    (he : tc.iterEnd ≠ .Series_iterEnd ∧ tc.iterEnd ≠ .DataFrame_iterEnd) : BeginOK w tc w' := by
  simp only [World.modes, Prod.mk.injEq] at hm
  refine ⟨hm.2.1, hm.2.2, Or.inl hm.1, ?_, ?_⟩
  · rintro (h | h)
    · exact absurd h he.1
    · exact absurd h he.2
  · rintro (h | h)
    · exact absurd h hb.1
    · exact absurd h hb.2

theorem encodeLabels_modes (env : Env) (lab : Option PyObject) (num : Int) (w w' : World)
    (r : Option LabelArray) (h : NpyArr_encodeLabels env lab num w = some (r, w')) :
    w'.modes = w.modes := by
  cases lab with
  | none => simp [NpyArr_encodeLabels] at h
  | some labels =>
    obtain ⟨r2, w2, e, hm, -⟩ := encodeLabels_keeps env labels num w
    rw [e] at h
    cases h
    exact hm

theorem begin_scalar_modes (env : Env) (obj : PyObject) (w w' : World) (tc : TypeContext)
    (h : Object_beginTypeContext_scalar env obj (TypeContext.zero .JT_INVALID) w = some (tc, w')) :
    BeginOK w tc w' := by
  unfold Object_beginTypeContext_scalar PyLong_AsLongLong at h
  simp only [] at h
  by_cases h0 : obj.info.PyBool_Check = true
  · rw [if_pos h0] at h
    obtain ⟨rfl, rfl⟩ := pair_of_some h
    exact BeginOK_of_modes _ _ _ rfl (by simp [TypeContext.zero]) (by simp [TypeContext.zero])
  rw [if_neg h0] at h
  by_cases h1 : obj.info.PyInt_Check = true
  · rw [if_pos h1] at h
    split at h <;>
      (obtain ⟨rfl, rfl⟩ := pair_of_some h
       exact BeginOK_of_modes _ _ _ rfl (by simp [TypeContext.zero]) (by simp [TypeContext.zero]))
  rw [if_neg h1] at h
  by_cases h2 : obj.info.PyLong_Check = true
  · rw [if_pos h2] at h
    by_cases hr : -(2 : Int) ^ 63 ≤ obj.info.longValue ∧ obj.info.longValue ≤ 2 ^ 63 - 1
    · rw [if_pos hr] at h
      simp only [] at h
      split at h <;>
        (obtain ⟨rfl, rfl⟩ := pair_of_some h
         exact BeginOK_of_modes _ _ _ rfl (by simp [TypeContext.zero]) (by simp [TypeContext.zero]))
    · rw [if_neg hr] at h
      simp only [] at h
      split at h <;>
        (obtain ⟨rfl, rfl⟩ := pair_of_some h
         exact BeginOK_of_modes _ _ _ rfl (by simp [TypeContext.zero]) (by simp [TypeContext.zero]))
  rw [if_neg h2] at h
  by_cases h3 : obj.info.isScalarInteger = true
  · rw [if_pos h3] at h
    by_cases hc : obj.info.castOverflow = true
    · simp only [hc, if_true] at h
      split at h <;>
        (obtain ⟨rfl, rfl⟩ := pair_of_some h
         exact BeginOK_of_modes _ _ _ rfl (by simp [TypeContext.zero]) (by simp [TypeContext.zero]))
    · simp only [hc, Bool.false_eq_true, if_false] at h
      by_cases ho : overflowPending w = true
      · rw [if_pos ho] at h
        obtain ⟨rfl, rfl⟩ := pair_of_some h
        exact BeginOK_of_modes _ _ _ rfl (by simp [TypeContext.zero]) (by simp [TypeContext.zero])
      · rw [if_neg ho] at h
        obtain ⟨rfl, rfl⟩ := pair_of_some h
        exact BeginOK_of_modes _ _ _ rfl (by simp [TypeContext.zero]) (by simp [TypeContext.zero])
  rw [if_neg h3] at h
  by_cases h4 : obj.info.PyString_Check = true
  · rw [if_pos h4] at h
    obtain ⟨rfl, rfl⟩ := pair_of_some h
    exact BeginOK_of_modes _ _ _ rfl (by simp [TypeContext.zero]) (by simp [TypeContext.zero])
  rw [if_neg h4] at h
  by_cases h5 : obj.info.PyUnicode_Check = true
  · rw [if_pos h5] at h
    obtain ⟨rfl, rfl⟩ := pair_of_some h
    exact BeginOK_of_modes _ _ _ rfl (by simp [TypeContext.zero]) (by simp [TypeContext.zero])
  rw [if_neg h5] at h
  by_cases h6 : obj.info.PyFloat_Check = true
  · rw [if_pos h6] at h
    split at h <;>
      (obtain ⟨rfl, rfl⟩ := pair_of_some h
       exact BeginOK_of_modes _ _ _ rfl (by simp [TypeContext.zero]) (by simp [TypeContext.zero]))
  rw [if_neg h6] at h
  by_cases h7 : obj.info.isScalarFloat = true
  · rw [if_pos h7] at h
    obtain ⟨rfl, rfl⟩ := pair_of_some h
    exact BeginOK_of_modes _ _ _ rfl (by simp [TypeContext.zero]) (by simp [TypeContext.zero])
  rw [if_neg h7] at h
  by_cases h8 : obj.info.isScalarHalf = true
  · rw [if_pos h8] at h
    obtain ⟨rfl, rfl⟩ := pair_of_some h
    exact BeginOK_of_modes _ _ _ rfl (by simp [TypeContext.zero]) (by simp [TypeContext.zero])
  rw [if_neg h8] at h
  by_cases h9 : obj.info.isScalarDatetime = true
  · rw [if_pos h9] at h
    obtain ⟨rfl, rfl⟩ := pair_of_some h
    exact BeginOK_of_modes _ _ _ rfl (by simp [TypeContext.zero]) (by simp [TypeContext.zero])
  rw [if_neg h9] at h
  by_cases h10 : obj.info.PyDateTime_Check = true
  · rw [if_pos h10] at h
    obtain ⟨rfl, rfl⟩ := pair_of_some h
    exact BeginOK_of_modes _ _ _ rfl (by simp [TypeContext.zero]) (by simp [TypeContext.zero])
  rw [if_neg h10] at h
  by_cases h11 : obj.info.PyDate_Check = true
  · rw [if_pos h11] at h
    obtain ⟨rfl, rfl⟩ := pair_of_some h
    exact BeginOK_of_modes _ _ _ rfl (by simp [TypeContext.zero]) (by simp [TypeContext.zero])
  rw [if_neg h11] at h
  by_cases h12 : obj.info.isPyNone = true
  · rw [if_pos h12] at h
    obtain ⟨rfl, rfl⟩ := pair_of_some h
    exact BeginOK_of_modes _ _ _ rfl (by simp [TypeContext.zero]) (by simp [TypeContext.zero])
  rw [if_neg h12] at h
  cases h

theorem labels_step (env : Env) (lab : Option PyObject) (num : Int) (w : World) :
    NpyArr_encodeLabels env lab num w = none ∨
      ∃ r w', NpyArr_encodeLabels env lab num w = some (r, w') ∧ w'.modes = w.modes := by
  cases h : NpyArr_encodeLabels env lab num w with
  | none => exact Or.inl rfl
  | some rw' =>
    obtain ⟨r, w'⟩ := rw'
    exact Or.inr ⟨r, w', rfl, encodeLabels_modes env lab num w w' r h⟩

theorem getattr_step (o : PyObject) (name : String) (w : World) :
    ∃ v w', PyObject_GetAttrString o name w = (v, w') ∧ w'.modes = w.modes :=
  ⟨_, _, rfl, modes_getattr o name w⟩

theorem begin_dataframe_modes (env : Env) (obj : PyObject) (w w' : World) (tc : TypeContext)
    (h : Object_beginTypeContext_dataframe env obj (TypeContext.zero .JT_INVALID) w = some (tc, w')) :
    BeginOK w tc w' := by
  have ok : ∀ (t : TypeContext) (x : World), x.modes = w.modes →
      t.iterBegin = .NpyArr_iterBegin → t.iterEnd = .NpyArr_iterEnd → BeginOK w t x := by
    intro t x hm hb he
    exact BeginOK_of_modes w t x hm (by simp [hb]) (by simp [he])
  unfold Object_beginTypeContext_dataframe at h
  by_cases hs : w.encoder.outputFormat = .SPLIT
  · rw [if_pos hs] at h
    obtain ⟨rfl, rfl⟩ := pair_of_some h
    exact ⟨rfl, rfl, Or.inl rfl, fun _ => hs, fun _ => Or.inr rfl⟩
  · rw [if_neg hs] at h
    obtain ⟨values, w1, g1, m1⟩ := getattr_step obj "values" w
    rw [g1] at h
    simp only [] at h
    by_cases hv : w1.encoder.outputFormat = .VALUES
    · rw [if_pos hv] at h
      obtain ⟨rfl, rfl⟩ := pair_of_some h
      exact ok _ _ m1 rfl rfl
    · rw [if_neg hv] at h
      cases values with
      | none => cases h
      | some newObj =>
        simp only [] at h
        by_cases hr : w1.encoder.outputFormat = .RECORDS
        · rw [if_pos hr] at h
          obtain ⟨columns, w2, g2, m2⟩ := getattr_step obj "columns" w1
          rw [g2] at h
          simp only [] at h
          rcases labels_step env columns (PyArray_DIM newObj 1) w2 with he | ⟨r, w3, he, m3⟩
          · rw [he] at h
            cases h
          · rw [he] at h
            cases r with
            | none =>
              obtain ⟨rfl, rfl⟩ := pair_of_some h
              exact ok _ _ (m3.trans (m2.trans m1)) rfl rfl
            | some l =>
              obtain ⟨rfl, rfl⟩ := pair_of_some h
              exact ok _ _ (m3.trans (m2.trans m1)) rfl rfl
        · rw [if_neg hr] at h
          by_cases hi : w1.encoder.outputFormat = .INDEX
          · rw [if_pos hi] at h
            obtain ⟨index, w2, g2, m2⟩ := getattr_step obj "index" w1
            rw [g2] at h
            simp only [] at h
            rcases labels_step env index (PyArray_DIM newObj 0) w2 with he | ⟨r, w3, he, m3⟩
            · rw [he] at h
              cases h
            · rw [he] at h
              cases r with
              | none =>
                obtain ⟨rfl, rfl⟩ := pair_of_some h
                exact ok _ _ (m3.trans (m2.trans m1)) rfl rfl
              | some l =>
                simp only [] at h
                obtain ⟨columns, w4, g4, m4⟩ := getattr_step obj "columns" w3
                rw [g4] at h
                simp only [] at h
                rcases labels_step env columns (PyArray_DIM newObj 1) w4 with he2 | ⟨r2, w5, he2, m5⟩
                · rw [he2] at h
                  cases h
                · rw [he2] at h
                  cases r2 with
                  | none =>
                    obtain ⟨rfl, rfl⟩ := pair_of_some h
                    refine ok _ _ ?_ rfl rfl
                    rw [modes_freeLabels]
                    exact m5.trans (m4.trans (m3.trans (m2.trans m1)))
                  | some l2 =>
                    obtain ⟨rfl, rfl⟩ := pair_of_some h
                    exact ok _ _ (m5.trans (m4.trans (m3.trans (m2.trans m1)))) rfl rfl
          · rw [if_neg hi] at h
            obtain ⟨columns, w2, g2, m2⟩ := getattr_step obj "columns" w1
            rw [g2] at h
            simp only [] at h
            rcases labels_step env columns (PyArray_DIM newObj 1) w2 with he | ⟨r, w3, he, m3⟩
            · rw [he] at h
              cases h
            · rw [he] at h
              cases r with
              | none =>
                obtain ⟨rfl, rfl⟩ := pair_of_some h
                exact ok _ _ (m3.trans (m2.trans m1)) rfl rfl
              | some l =>
                simp only [] at h
                obtain ⟨index, w4, g4, m4⟩ := getattr_step obj "index" w3
                rw [g4] at h
                simp only [] at h
                rcases labels_step env index (PyArray_DIM newObj 0) w4 with he2 | ⟨r2, w5, he2, m5⟩
                · rw [he2] at h
                  cases h
                · rw [he2] at h
                  cases r2 with
                  | none =>
                    obtain ⟨rfl, rfl⟩ := pair_of_some h
                    refine ok _ _ ?_ rfl rfl
                    rw [modes_freeLabels]
                    exact m5.trans (m4.trans (m3.trans (m2.trans m1)))
                  | some l2 =>
                    obtain ⟨rfl, rfl⟩ := pair_of_some h
                    exact ok _ _ (m5.trans (m4.trans (m3.trans (m2.trans m1)))) rfl rfl

theorem begin_iterable_modes (env : Env) (obj : PyObject) (w w' : World) (tc : TypeContext)
    (h : Object_beginTypeContext_iterable env obj (TypeContext.zero .JT_INVALID) w = some (tc, w')) :
    BeginOK w tc w' := by
  have ok : ∀ (t : TypeContext) (x : World), x.modes = w.modes →
      (t.iterBegin ≠ .Series_iterBegin ∧ t.iterBegin ≠ .DataFrame_iterBegin) →
      (t.iterEnd ≠ .Series_iterEnd ∧ t.iterEnd ≠ .DataFrame_iterEnd) → BeginOK w t x :=
    fun t x hm hb he => BeginOK_of_modes w t x hm hb he
  unfold Object_beginTypeContext_iterable at h
  simp only [] at h
  by_cases h1 : obj.info.PyDict_Check = true
  · rw [if_pos h1] at h
    obtain ⟨rfl, rfl⟩ := pair_of_some h
    exact ok _ _ rfl (by simp [TypeContext.withDict]) (by simp [TypeContext.withDict])
  rw [if_neg h1] at h
  by_cases h2 : obj.info.PyList_Check = true
  · rw [if_pos h2] at h
    obtain ⟨rfl, rfl⟩ := pair_of_some h
    exact ok _ _ rfl (by simp) (by simp)
  rw [if_neg h2] at h
  by_cases h3 : obj.info.PyTuple_Check = true
  · rw [if_pos h3] at h
    obtain ⟨rfl, rfl⟩ := pair_of_some h
    exact ok _ _ rfl (by simp) (by simp)
  rw [if_neg h3] at h
  by_cases h4 : obj.info.isIndex = true
  · rw [if_pos h4] at h
    by_cases hs : w.encoder.outputFormat = .SPLIT
    · rw [if_pos hs] at h
      obtain ⟨rfl, rfl⟩ := pair_of_some h
      exact ok _ _ rfl (by simp) (by simp)
    · rw [if_neg hs] at h
      obtain ⟨values, w1, g1, m1⟩ := getattr_step obj "values" w
      rw [g1] at h
      obtain ⟨rfl, rfl⟩ := pair_of_some h
      exact ok _ _ m1 (by simp [TypeContext.withNpyArr]) (by simp [TypeContext.withNpyArr])
  rw [if_neg h4] at h
  by_cases h5 : obj.info.isSeries = true
  · rw [if_pos h5] at h
    by_cases hs : w.encoder.outputFormat = .SPLIT
    · rw [if_pos hs] at h
      obtain ⟨rfl, rfl⟩ := pair_of_some h
      exact ⟨rfl, rfl, Or.inl rfl, fun _ => hs, fun _ => Or.inl rfl⟩
    · rw [if_neg hs] at h
      by_cases hic : w.encoder.outputFormat = .INDEX ∨ w.encoder.outputFormat = .COLUMNS
      · rw [if_pos hic] at h
        obtain ⟨index, w1, g1, m1⟩ := getattr_step obj "index" w
        rw [g1] at h
        simp only [] at h
        rcases labels_step env index (PyArray_SIZE obj) w1 with he | ⟨r, w2, he, m2⟩
        · rw [he] at h
          cases h
        · rw [he] at h
          cases r with
          | none =>
            obtain ⟨rfl, rfl⟩ := pair_of_some h
            exact ok _ _ (m2.trans m1) (by simp [TypeContext.zero]) (by simp [TypeContext.zero])
          | some l =>
            simp only [] at h
            obtain ⟨values, w3, g3, m3⟩ := getattr_step obj "values" w2
            rw [g3] at h
            obtain ⟨rfl, rfl⟩ := pair_of_some h
            exact ok _ _ (m3.trans (m2.trans m1)) (by simp [TypeContext.withNpyArr])
              (by simp [TypeContext.withNpyArr])
      · rw [if_neg hic] at h
        obtain ⟨values, w1, g1, m1⟩ := getattr_step obj "values" w
        rw [g1] at h
        obtain ⟨rfl, rfl⟩ := pair_of_some h
        exact ok _ _ m1 (by simp [TypeContext.withNpyArr]) (by simp [TypeContext.withNpyArr])
  rw [if_neg h5] at h
  by_cases h6 : obj.info.PyArray_Check = true
  · rw [if_pos h6] at h
    cases hp : w.encoder.npyCtxtPassthru with
    | none =>
      rw [hp] at h
      obtain ⟨rfl, rfl⟩ := pair_of_some h
      exact ok _ _ rfl (by simp [TypeContext.withNpyArr]) (by simp [TypeContext.withNpyArr])
    | some p =>
      rw [hp] at h
      simp only [] at h
      cases hd : w.deref (some p) with
      | none =>
        rw [hd] at h
        cases h
      | some pc =>
        rw [hd] at h
        obtain ⟨rfl, rfl⟩ := pair_of_some h
        refine ⟨rfl, rfl, Or.inr rfl, ?_, ?_⟩
        · rintro (hh | hh) <;> simp at hh
        · rintro (hh | hh) <;> simp at hh
  rw [if_neg h6] at h
  by_cases h7 : obj.info.isDataFrame = true
  · rw [if_pos h7] at h
    exact begin_dataframe_modes env obj w w' tc h
  rw [if_neg h7] at h
  obtain ⟨f, w1, g1, m1⟩ := getattr_step obj "toDict" w
  rw [g1] at h
  cases f with
  | none =>
    obtain ⟨rfl, rfl⟩ := pair_of_some h
    exact ok _ _ m1 (by simp) (by simp)
  | some toDictFunc =>
    simp only [] at h
    cases hc : toDictFunc.child .call with
    | none =>
      rw [hc] at h
      obtain ⟨rfl, rfl⟩ := pair_of_some h
      exact ok _ _ m1 (by simp [TypeContext.zero]) (by simp [TypeContext.zero])
    | some res =>
      rw [hc] at h
      simp only [] at h
      split at h
      · obtain ⟨rfl, rfl⟩ := pair_of_some h
        exact ok _ _ m1 (by simp [TypeContext.zero]) (by simp [TypeContext.zero])
      · obtain ⟨rfl, rfl⟩ := pair_of_some h
        exact ok _ _ m1 (by simp [TypeContext.withDict]) (by simp [TypeContext.withDict])

/-- The dispatcher keeps the two output modes, keeps or empties the hand-off slot, and
builds a node that restores the mode only when dispatched in Split mode. -/
theorem begin_modes (env : Env) (o : Option PyObject) (w w' : World) (tc : TypeContext)
    (h : Object_beginTypeContext env o w = some (tc, w')) : BeginOK w tc w' := by
  unfold Object_beginTypeContext at h
  cases o with
  | none =>
    obtain ⟨rfl, rfl⟩ := pair_of_some h
    exact BeginOK_of_modes _ _ _ rfl (by simp [TypeContext.zero]) (by simp [TypeContext.zero])
  | some obj =>
    simp only [] at h
    split at h
    · exact begin_iterable_modes env obj w w' tc h
    · cases hs : Object_beginTypeContext_scalar env obj (TypeContext.zero .JT_INVALID) w with
      | none =>
        rw [hs] at h
        exact begin_iterable_modes env obj w w' tc h
      | some r =>
        rw [hs] at h
        simp only [Option.some.injEq] at h
        rw [h] at hs
        exact begin_scalar_modes env obj w w' tc hs

theorem ModeInv_of_same (w w' : World) (h : SameFormat w w') (hi : ModeInv w) : ModeInv w' := by
  unfold ModeInv at *
  rw [h.1, h.2]
  exact hi

theorem SameFormat_trans (a b c : World) (h1 : SameFormat a b) (h2 : SameFormat b c) :
    SameFormat a c := ⟨h2.1.trans h1.1, h2.2.trans h1.2⟩

theorem iterate_modes (child : World → Option PyObject → Option (World × JSON))
    (hchild : ∀ w o w' j, ModeInv w → child w o = some (w', j) → SameFormat w w')
    (obj : PyObject) (named : Bool) :
    ∀ (n : Nat) (tc : TypeContext) (w : World) (items : List (Option (List Nat) × JSON))
      (tc' : TypeContext) (w' : World), ModeInv w →
      iterate child obj named n tc w = some (items, tc', w') →
      SameFormat w w' ∧ tc'.iterEnd = tc.iterEnd := by
  intro n
  induction n with
  | zero =>
    intro tc w items tc' w' _ h
    rw [iterate] at h
    cases h
  | succ n ih =>
    intro tc w items tc' w' hi h
    rw [iterate] at h
    cases hn : Object_iterNext obj tc w with
    | none => rw [hn] at h; cases h
    | some res =>
      obtain ⟨r, tc1, w1⟩ := res
      obtain ⟨m1, m2, m3, -⟩ := iterNext_modes obj tc tc1 w w1 r hn
      rw [hn] at h
      simp only [] at h
      split at h
      · cases h
        exact ⟨⟨m1, m2⟩, m3⟩
      · cases hv : Object_iterGetValue tc1 with
        | none => rw [hv] at h; cases h
        | some iterObj =>
          rw [hv] at h
          simp only [] at h
          cases hg : (if named = true then Object_iterGetName tc1 w1 else some none) with
          | none => rw [hg] at h; cases h
          | some objName =>
            rw [hg] at h
            simp only [] at h
            cases hc : child w1 iterObj with
            | none => rw [hc] at h; cases h
            | some cr =>
              obtain ⟨w2, j⟩ := cr
              rw [hc] at h
              simp only [] at h
              have s1 : SameFormat w w1 := ⟨m1, m2⟩
              have i1 := ModeInv_of_same w w1 s1 hi
              have s2 := hchild w1 iterObj w2 j i1 hc
              have i2 := ModeInv_of_same w1 w2 s2 i1
              cases hr : iterate child obj named n tc1 w2 with
              | none => rw [hr] at h; cases h
              | some rr =>
                obtain ⟨rest, tc2, w3⟩ := rr
                rw [hr] at h
                cases h
                obtain ⟨s3, e3⟩ := ih tc1 w2 rest tc' w' i2 hr
                exact ⟨SameFormat_trans _ _ _ (SameFormat_trans _ _ _ s1 s2) s3, e3.trans m3⟩

theorem node_modes (child : World → Option PyObject → Option (World × JSON))
    (hchild : ∀ w o w' j, ModeInv w → child w o = some (w', j) → SameFormat w w')
    (o : PyObject) (named : Bool) (n : Nat) (w w1 w2 w3 w4 : World)
    (tc tc2 tc3 tc4 : TypeContext) (items : List (Option (List Nat) × JSON))
    (hi : ModeInv w) (hb : BeginOK w tc w1)
    (h1 : Object_iterBegin o tc w1 = some (tc2, w2))
    (h2 : iterate child o named n tc2 w2 = some (items, tc3, w3))
    (h3 : Object_iterEnd tc3 w3 = some (tc4, w4)) :
    SameFormat w (Object_endTypeContext tc4 w4) := by
  obtain ⟨b1, b2, -, b4, b5⟩ := hb
  obtain ⟨-, c2, c3, c4, c5⟩ := iterBegin_modes o tc tc2 w1 w2 h1
  have hend : SameFormat w4 (Object_endTypeContext tc4 w4) := by
    have := modes_endTypeContext tc4 w4
    simp only [World.modes, Prod.mk.injEq] at this
    exact ⟨this.2.1, this.2.2⟩
  refine SameFormat_trans _ _ _ ?_ hend
  by_cases hr : Restores tc
  · have hs := b4 hr
    have ho : w.encoder.originalOutputFormat = .SPLIT := by
      rcases hi with hi | hi
      · rw [← hi, hs]
      · rw [hs] at hi; cases hi
    have i2 : ModeInv w2 := by
      by_cases hsw : Switches tc
      · exact Or.inr (c3 hsw)
      · left
        rw [c4 hsw, c2, b1, b2, hs, ho]
    obtain ⟨s3, e3⟩ := iterate_modes child hchild o named n tc2 w2 items tc3 w3 i2 h2
    have hr3 : Restores tc3 := by
      unfold Restores at hr ⊢
      rw [e3, c5]
      exact hr
    obtain ⟨-, d2, d3, -⟩ := iterEnd_modes tc3 tc4 w3 w4 h3
    refine ⟨?_, ?_⟩
    · rw [d3 hr3, s3.2, c2, b2, ho, hs]
    · rw [d2, s3.2, c2, b2]
  · have hsw : ¬ Switches tc := fun hsw => hr (b5 hsw)
    have s2 : SameFormat w w2 := ⟨(c4 hsw).trans b1, c2.trans b2⟩
    have i2 := ModeInv_of_same w w2 s2 hi
    obtain ⟨s3, e3⟩ := iterate_modes child hchild o named n tc2 w2 items tc3 w3 i2 h2
    have hr3 : ¬ Restores tc3 := by
      unfold Restores at hr ⊢
      rw [e3, c5]
      exact hr
    obtain ⟨-, d2, -, d4⟩ := iterEnd_modes tc3 tc4 w3 w4 h3
    exact SameFormat_trans _ _ _ (SameFormat_trans _ _ _ s2 s3) ⟨d4 hr3, d2⟩

/-- Every node the encoder drives leaves the current and the saved output mode as it
found them, when it starts in a state where the current mode is the saved mode or
Values. -/
theorem encode_modes (env : Env) :
    ∀ (fuel : Nat) (w : World) (o : Option PyObject) (w' : World) (j : JSON),
      ModeInv w → encode env fuel w o = some (w', j) → SameFormat w w' := by
  intro fuel
  induction fuel with
  | zero =>
    intro w o w' j _ h
    rw [encode] at h
    cases h
  | succ fuel ih =>
    intro w o w' j hi h
    rw [encode] at h
    cases hb : Object_beginTypeContext env o w with
    | none => rw [hb] at h; cases h
    | some r =>
      obtain ⟨tc, w1⟩ := r
      rw [hb] at h
      simp only [] at h
      have bo := begin_modes env o w w1 tc hb
      have s1 : SameFormat w w1 := ⟨bo.1, bo.2.1⟩
      have hend : ∀ t, SameFormat w (Object_endTypeContext t w1) := by
        intro t
        have := modes_endTypeContext t w1
        simp only [World.modes, Prod.mk.injEq] at this
        exact SameFormat_trans _ _ _ s1 ⟨this.2.1, this.2.2⟩
      have hmap : ∀ {α : Type} (x : Option α) (f : α → World × JSON),
          (∀ a, SameFormat w (f a).1) → x.map f = some (w', j) → SameFormat w w' := by
        intro α x f hf hx
        cases x with
        | none => cases hx
        | some a =>
          simp only [Option.map_some', Option.some.injEq] at hx
          have := hf a
          rw [hx] at this
          exact this
      split at h
      · cases h
        exact s1
      · cases h
      · cases h
        exact hend _
      · cases h
        exact hend _
      · cases h
        exact hend _
      · exact hmap _ _ (fun a => hend _) h
      · exact hmap _ _ (fun a => hend _) h
      · exact hmap _ _ (fun a => hend _) h
      · exact hmap _ _ (fun a => hend _) h
      · rename_i ob _
        cases h1 : Object_iterBegin ob tc w1 with
        | none => rw [h1] at h; cases h
        | some r1 =>
          obtain ⟨tc2, w2⟩ := r1
          rw [h1] at h
          simp only [] at h
          cases h2 : iterate (encode env fuel) ob false fuel tc2 w2 with
          | none => rw [h2] at h; cases h
          | some r2 =>
            obtain ⟨items, tc3, w3⟩ := r2
            rw [h2] at h
            simp only [] at h
            cases h3 : Object_iterEnd tc3 w3 with
            | none => rw [h3] at h; cases h
            | some r3 =>
              obtain ⟨tc4, w4⟩ := r3
              rw [h3] at h
              cases h
              exact node_modes (encode env fuel) ih ob false fuel w w1 w2 w3 w4 tc tc2 tc3 tc4 items
                hi bo h1 h2 h3
      · rename_i ob _
        cases h1 : Object_iterBegin ob tc w1 with
        | none => rw [h1] at h; cases h
        | some r1 =>
          obtain ⟨tc2, w2⟩ := r1
          rw [h1] at h
          simp only [] at h
          cases h2 : iterate (encode env fuel) ob true fuel tc2 w2 with
          | none => rw [h2] at h; cases h
          | some r2 =>
            obtain ⟨items, tc3, w3⟩ := r2
            rw [h2] at h
            simp only [] at h
            cases h3 : Object_iterEnd tc3 w3 with
            | none => rw [h3] at h; cases h
            | some r3 =>
              obtain ⟨tc4, w4⟩ := r3
              rw [h3] at h
              cases h
              exact node_modes (encode env fuel) ih ob true fuel w w1 w2 w3 w4 tc tc2 tc3 tc4 items
                hi bo h1 h2 h3

theorem name_name : cstring (memcpy_into [] (cstr "name" ++ [0])) = some (cstr "name") := by
  decide

theorem name_data2 :
    cstring (memcpy_into (memcpy_into [] (cstr "name" ++ [0])) (cstr "data" ++ [0]))
      = some (cstr "data") := by
  decide

theorem walk_of_begin (env : Env) (w w1 : World) (root arr : PyObject) (L : Int → JSON)
    (values : Option PyObject)
    (harr : (match values with
      | some o => o
      | none => root) = arr)
    (hbegin : Object_beginTypeContext env (some root) w = some (valuesTC values, w1))
    (hraw : RawArray arr) (hrank : 1 ≤ arr.info.dims.length)
    (hstrides : arr.info.strides.length = arr.info.dims.length)
    (hsize : 0 < PyArray_SIZE arr)
    (hslot : w1.encoder.npyCtxtPassthru = none)
    (hmalloc : w1.mallocFails.head? ≠ some true)
    (hleaf : ∀ (a : Int) (f : Nat) (w' : World), w'.encoder.npyCtxtPassthru = none →
      encode env (f + 1) w' (getitem a arr) = some (w', L a))
    (fuel : Nat) (hfuel : arr.info.dims.sum + arr.info.dims.length + 1 ≤ fuel) :
    ∃ w', encode env fuel w (some root) =
      some (w', nestedArray L (arr.info.dims.zip arr.info.strides) (PyArray_DATA arr)) := by
  obtain ⟨f, rfl⟩ : ∃ m, fuel = m + 1 := ⟨fuel - 1, by omega⟩
  obtain ⟨m1, m2, m3, m4, m5, m6, m7⟩ := PyObject_Malloc_ok w1 hmalloc
  obtain ⟨ax, rest, hzip⟩ : ∃ ax rest, arr.info.dims.zip arr.info.strides = ax :: rest := by
    cases hz : arr.info.dims.zip arr.info.strides with
    | nil =>
      have := congrArg List.length hz
      rw [List.length_zip, hstrides, Nat.min_self, List.length_nil] at this
      omega
    | cons ax rest => exact ⟨ax, rest, rfl⟩
  obtain ⟨d, s⟩ := ax
  have hlen : arr.info.dims.length = rest.length + 1 := by
    have := congrArg List.length hzip
    simpa [hstrides] using this
  have hframe := frame_nested env arr hraw L (PyObject_Malloc w1).2 w1.mallocCount
    (by rw [m2]; exact List.mem_cons_self _ _) none arr.info.dims.sum
    (fun d hd => List.le_sum_of_mem hd) hstrides hleaf rest d s 0 f root (by simpa using hzip)
    (by omega)
  rw [hzip]
  have hnode : ∀ a, mkNode false ((List.range d).map
      (fun i : Nat => ((none : Option (List Nat)), nestedArray L rest (a + (i : Int) * s))))
      = nestedArray L ((d, s) :: rest) a := by
    intro a
    simp [mkNode, nestedArray, Function.comp]
  rw [← hnode]
  exact encode_cursor_node env f root arr w w1 (valuesTC values) false hbegin
    rfl rfl rfl rfl rfl rfl harr hsize hmalloc hslot 1 0 rfl
    (fun a => (List.range d).map
      (fun i : Nat => ((none : Option (List Nat)), nestedArray L rest (a + (i : Int) * s))))
    hframe

theorem begin_index (env : Env) (o : PyObject) (w : World) (h : IsIndexLike o) :
    Object_beginTypeContext env (some o) w =
      if w.encoder.outputFormat = .SPLIT then some (splitIndexTC, w)
      else some (valuesTC (PyObject_GetAttrString o "values" w).1,
        (PyObject_GetAttrString o "values" w).2) := by
  obtain ⟨h0, h1, h2, h3, h4⟩ := h
  rw [begin_containers env o w h0]
  simp only [Object_beginTypeContext_iterable, h1, h2, h3, h4, Bool.false_eq_true, if_false,
    if_true]
  rfl

theorem name_index2 :
    cstring (memcpy_into (memcpy_into [] (cstr "name" ++ [0])) (cstr "index" ++ [0]))
      = some (cstr "index") := by
  decide

theorem name_data3 :
    cstring (memcpy_into (memcpy_into (memcpy_into [] (cstr "name" ++ [0])) (cstr "index" ++ [0]))
      (cstr "data" ++ [0])) = some (cstr "data") := by
  decide

theorem begin_series (env : Env) (o : PyObject) (w : World) (h : IsSeries o) :
    Object_beginTypeContext env (some o) w =
      if w.encoder.outputFormat = .SPLIT then some (splitSeriesTC, w)
      else if w.encoder.outputFormat = .INDEX ∨ w.encoder.outputFormat = .COLUMNS then
        match NpyArr_encodeLabels env (PyObject_GetAttrString o "index" w).1 (PyArray_SIZE o)
            (PyObject_GetAttrString o "index" w).2 with
        | none => none
        | some (none, w2) =>
          some ({ TypeContext.zero .JT_INVALID with
                    type := .JT_INVALID, columnLabelsLen := PyArray_SIZE o }, w2)
        | some (some l, w2) =>
          some (seriesTC (PyObject_GetAttrString o "values" w2).1 l (PyArray_SIZE o),
            (PyObject_GetAttrString o "values" w2).2)
      else some (valuesTC (PyObject_GetAttrString o "values" w).1,
        (PyObject_GetAttrString o "values" w).2) := by
  obtain ⟨h0, h1, h2, h3, h4, h5⟩ := h
  rw [begin_containers env o w (Or.inr (Or.inl h0))]
  simp only [Object_beginTypeContext_iterable, h1, h2, h3, h4, h5, Bool.false_eq_true, if_false,
    if_true]
  split
  · rfl
  · split
    · split <;> simp_all [seriesTC, TypeContext.zero]
    · rfl

theorem values2_leaf (a : Int) (g : Nat) (w' : World)
    (_ : w'.encoder.npyCtxtPassthru = none) :
    encode env64 (g + 1) w' (getitem a values2) = some (w', .long ((a - 6000) / 8 + 7)) :=
  encode_pyInt env64 rfl _ g w'

theorem series2_ok : IsSeries series2 := by
  simp [IsSeries, series2, PyObject.info]

theorem series_begin_labeled (env : Env) (w : World) (obj index values : PyObject) (n : Nat)
    (text : Nat → List Nat) (h : IsSeries obj)
    (hfmt : w.encoder.outputFormat = .INDEX ∨ w.encoder.outputFormat = .COLUMNS)
    (hi : obj.child (.attr (cstr "index")) = some index)
    (hv : obj.child (.attr (cstr "values")) = some values)
    (hsz : PyArray_SIZE obj = (n : Int)) (hisz : (n : Int) ≤ PyArray_SIZE index)
    (hle : LabelsEncode env index n text) (hw : CleanWorld w) :
    ∃ l w1, Object_beginTypeContext env (some obj) w =
        some (seriesTC (some values) l (n : Int), w1) ∧ CleanWorld w1 ∧
      ∀ k : Nat, k < n → labelAt (some l) (k : Int) = some (labelText (text k)) := by
  have hb := begin_series env obj w h
  have hns : ¬ w.encoder.outputFormat = .SPLIT := by
    rcases hfmt with e | e <;> rw [e] <;> decide
  obtain ⟨l, w1, e1, -, l1, k1, -, -, -⟩ := encodeLabels_ok env index n text w hisz hle hw.2.1 hw.2.2
  have hw1 := CleanWorld_keeps w w1 hw k1
  rw [if_neg hns, if_pos hfmt, getAttr_some obj index "index" w hi, hsz] at hb
  simp only [e1, getAttr_some obj values "values" w1 hv] at hb
  exact ⟨l, w1, hb, hw1, l1⟩

theorem values_keeps_values (env : Env) (fuel : Nat) (x x' : World) (o : Option PyObject)
    (j : JSON) (hx : x.encoder.outputFormat = .VALUES) (he : encode env fuel x o = some (x', j)) :
    x'.encoder.outputFormat = .VALUES :=
  ((encode_modes env fuel x o x' j (Or.inr hx) he).1).trans hx

theorem begin_split_node (env : Env) (w : World) (obj : PyObject)
    (h : IsTable obj ∨ IsSeries obj) (hfmt : w.encoder.outputFormat = .SPLIT) :
    ∃ tc, Object_beginTypeContext env (some obj) w = some (tc, w) ∧ tc.type = .JT_OBJECT ∧
      Switches tc ∧ Restores tc ∧
      ∃ tc1 w1, Object_iterBegin obj tc w = some (tc1, w1) ∧
        w1.encoder.outputFormat = .VALUES ∧
        w1.encoder.originalOutputFormat = w.encoder.originalOutputFormat := by
  rcases h with h | h
  · have hb := begin_table_split env obj w h hfmt
    obtain ⟨tc1, w1, hib⟩ : ∃ tc1 w1, Object_iterBegin obj splitTableTC w = some (tc1, w1) :=
      ⟨_, _, rfl⟩
    have hs : Switches splitTableTC := Or.inr rfl
    obtain ⟨-, c2, c3, -, -⟩ := iterBegin_modes obj _ _ w w1 hib
    exact ⟨_, hb, rfl, hs, Or.inr rfl, tc1, w1, hib, c3 hs, c2⟩
  · have hb := begin_series env obj w h
    rw [if_pos hfmt] at hb
    obtain ⟨tc1, w1, hib⟩ : ∃ tc1 w1, Object_iterBegin obj splitSeriesTC w = some (tc1, w1) :=
      ⟨_, _, rfl⟩
    have hs : Switches splitSeriesTC := Or.inl rfl
    obtain ⟨-, c2, c3, -, -⟩ := iterBegin_modes obj _ _ w w1 hib
    exact ⟨_, hb, rfl, hs, Or.inl rfl, tc1, w1, hib, c3 hs, c2⟩

theorem split23_encoded :
    ∃ w', encode env64 8 (world0 .SPLIT) (some table23) =
      some (w', .object [
        (some (cstr "columns"), .array [.utf8 (cstr "c0"), .utf8 (cstr "c1"), .utf8 (cstr "c2")]),
        (some (cstr "index"), .array [.utf8 (cstr "r0"), .utf8 (cstr "r1")]),
        (some (cstr "data"), .array [.array [.long 1, .long 2, .long 3],
          .array [.long 4, .long 5, .long 6]])]) := ⟨_, rfl⟩

theorem frame_walk (env : Env) (arr : PyObject) (hraw : RawArray arr) (L : Int → JSON)
    (w : World) (p : Nat) (hp : p ∈ w.live) (inc s0 ndim : Int) (rl cl : Option LabelArray)
    (hinc : inc ≠ 0) (M : Nat) (hM : ∀ l : Int, (PyArray_DIM arr l).toNat ≤ M)
    (hleaf : ∀ (a : Int) (g : Nat) (w' : World), w'.encoder.npyCtxtPassthru = none →
      encode env (g + 1) w' (getitem a arr) = some (w', L a))
    (hcl : cl.isSome = true → ∀ i : Nat, i < (PyArray_DIM arr (s0 + inc * ndim)).toNat →
      (labelAt cl i).isSome) :
    ∀ (r : Nat) (k : Int) (f : Nat) (obj : PyObject), ndim = k + (r : Int) → M + 1 + r ≤ f →
      (cl.isSome = true → ∀ l : Int, k ≤ l → l < ndim →
        ∀ i : Nat, i < (PyArray_DIM arr (s0 + inc * l)).toNat → (labelAt rl i).isSome) →
      FrameOK (encode env f) obj arr w p inc s0 ndim rl cl cl.isSome k f
        (walkItems L arr inc s0 rl cl r k) := by
  intro r
  induction r with
  | zero =>
    intro k f obj hnd hf _
    obtain ⟨g, rfl⟩ : ∃ g, f = g + 1 := ⟨f - 1, by omega⟩
    have hk : ndim = k := by rw [hnd]; simp
    exact frame_leaf (encode env (g + 1)) obj arr L w p hp cl.isSome inc s0 ndim rl cl k (g + 1)
      hinc (by rw [hnd]; simp) (by have := hM (s0 + inc * k); omega)
      (fun a c => hleaf a g _ (passthru_withCursor w p c none))
      (fun h i hi => hcl h i (by rw [hk]; exact hi))
  | succ r ih =>
    intro k f obj hnd hf hrl
    obtain ⟨g, rfl⟩ : ∃ g, f = g + 1 := ⟨f - 1, by omega⟩
    have hch := child_of_frame env g arr hraw w p hp inc s0 ndim rl cl k _
      (ih (k + 1) g arr (by rw [hnd]; push_cast; ring) (by omega)
        (fun h l hl1 hl2 => hrl h l (by omega) hl2))
    exact frame_node (encode env (g + 1)) obj arr _ w p hp cl.isSome inc s0 ndim rl cl k (g + 1)
      hinc (by rw [hnd]; push_cast; omega) (by have := hM (s0 + inc * k); omega) hch
      (fun h i hi => hrl h k (le_refl k) (by rw [hnd]; push_cast; omega) i hi)

theorem begin_dataframe_kind (env : Env) (obj : PyObject) (w w' : World) (tc : TypeContext)
    (h : Object_beginTypeContext_dataframe env obj (TypeContext.zero .JT_INVALID) w = some (tc, w')) :
    ContainerNode tc := by
  unfold Object_beginTypeContext_dataframe at h
  by_cases hs : w.encoder.outputFormat = .SPLIT
  · rw [if_pos hs] at h
    obtain ⟨rfl, rfl⟩ := pair_of_some h
    first
      | (simp [ContainerNode, TypeContext.withNpyArr, TypeContext.withDict, TypeContext.zero]; done)
      | (simp only [ContainerNode, TypeContext.zero]; split <;> simp)
  · rw [if_neg hs] at h
    obtain ⟨values, w1, g1, m1⟩ := getattr_step obj "values" w
    rw [g1] at h
    simp only [] at h
    by_cases hv : w1.encoder.outputFormat = .VALUES
    · rw [if_pos hv] at h
      obtain ⟨rfl, rfl⟩ := pair_of_some h
      first
        | (simp [ContainerNode, TypeContext.withNpyArr, TypeContext.withDict, TypeContext.zero]; done)
        | (simp only [ContainerNode, TypeContext.zero]; split <;> simp)
    · rw [if_neg hv] at h
      cases values with
      | none => cases h
      | some newObj =>
        simp only [] at h
        by_cases hr : w1.encoder.outputFormat = .RECORDS
        · rw [if_pos hr] at h
          obtain ⟨columns, w2, g2, m2⟩ := getattr_step obj "columns" w1
          rw [g2] at h
          simp only [] at h
          rcases labels_step env columns (PyArray_DIM newObj 1) w2 with he | ⟨r, w3, he, m3⟩
          · rw [he] at h
            cases h
          · rw [he] at h
            cases r with
            | none =>
              obtain ⟨rfl, rfl⟩ := pair_of_some h
              first
                | (simp [ContainerNode, TypeContext.withNpyArr, TypeContext.withDict, TypeContext.zero]; done)
                | (simp only [ContainerNode, TypeContext.zero]; split <;> simp)
            | some l =>
              obtain ⟨rfl, rfl⟩ := pair_of_some h
              first
                | (simp [ContainerNode, TypeContext.withNpyArr, TypeContext.withDict, TypeContext.zero]; done)
                | (simp only [ContainerNode, TypeContext.zero]; split <;> simp)
        · rw [if_neg hr] at h
          by_cases hi : w1.encoder.outputFormat = .INDEX
          · rw [if_pos hi] at h
            obtain ⟨index, w2, g2, m2⟩ := getattr_step obj "index" w1
            rw [g2] at h
            simp only [] at h
            rcases labels_step env index (PyArray_DIM newObj 0) w2 with he | ⟨r, w3, he, m3⟩
            · rw [he] at h
              cases h
            · rw [he] at h
              cases r with
              | none =>
                obtain ⟨rfl, rfl⟩ := pair_of_some h
                first
                  | (simp [ContainerNode, TypeContext.withNpyArr, TypeContext.withDict, TypeContext.zero]; done)
                  | (simp only [ContainerNode, TypeContext.zero]; split <;> simp)
              | some l =>
                simp only [] at h
                obtain ⟨columns, w4, g4, m4⟩ := getattr_step obj "columns" w3
                rw [g4] at h
                simp only [] at h
                rcases labels_step env columns (PyArray_DIM newObj 1) w4 with he2 | ⟨r2, w5, he2, m5⟩
                · rw [he2] at h
                  cases h
                · rw [he2] at h
                  cases r2 with
                  | none =>
                    obtain ⟨rfl, rfl⟩ := pair_of_some h
                    first
                      | (simp [ContainerNode, TypeContext.withNpyArr, TypeContext.withDict, TypeContext.zero]; done)
                      | (simp only [ContainerNode, TypeContext.zero]; split <;> simp)
                  | some l2 =>
                    obtain ⟨rfl, rfl⟩ := pair_of_some h
                    first
                      | (simp [ContainerNode, TypeContext.withNpyArr, TypeContext.withDict, TypeContext.zero]; done)
                      | (simp only [ContainerNode, TypeContext.zero]; split <;> simp)
          · rw [if_neg hi] at h
            obtain ⟨columns, w2, g2, m2⟩ := getattr_step obj "columns" w1
            rw [g2] at h
            simp only [] at h
            rcases labels_step env columns (PyArray_DIM newObj 1) w2 with he | ⟨r, w3, he, m3⟩
            · rw [he] at h
              cases h
            · rw [he] at h
              cases r with
              | none =>
                obtain ⟨rfl, rfl⟩ := pair_of_some h
                first
                  | (simp [ContainerNode, TypeContext.withNpyArr, TypeContext.withDict, TypeContext.zero]; done)
                  | (simp only [ContainerNode, TypeContext.zero]; split <;> simp)
              | some l =>
                simp only [] at h
                obtain ⟨index, w4, g4, m4⟩ := getattr_step obj "index" w3
                rw [g4] at h
                simp only [] at h
                rcases labels_step env index (PyArray_DIM newObj 0) w4 with he2 | ⟨r2, w5, he2, m5⟩
                · rw [he2] at h
                  cases h
                · rw [he2] at h
                  cases r2 with
                  | none =>
                    obtain ⟨rfl, rfl⟩ := pair_of_some h
                    first
                      | (simp [ContainerNode, TypeContext.withNpyArr, TypeContext.withDict, TypeContext.zero]; done)
                      | (simp only [ContainerNode, TypeContext.zero]; split <;> simp)
                  | some l2 =>
                    obtain ⟨rfl, rfl⟩ := pair_of_some h
                    first
                      | (simp [ContainerNode, TypeContext.withNpyArr, TypeContext.withDict, TypeContext.zero]; done)
                      | (simp only [ContainerNode, TypeContext.zero]; split <;> simp)

theorem begin_iterable_kind (env : Env) (obj : PyObject) (w w' : World) (tc : TypeContext)
    (h : Object_beginTypeContext_iterable env obj (TypeContext.zero .JT_INVALID) w = some (tc, w')) :
    ContainerNode tc := by
  unfold Object_beginTypeContext_iterable at h
  simp only [] at h
  by_cases h1 : obj.info.PyDict_Check = true
  · rw [if_pos h1] at h
    obtain ⟨rfl, rfl⟩ := pair_of_some h
    first
      | (simp [ContainerNode, TypeContext.withNpyArr, TypeContext.withDict, TypeContext.zero]; done)
      | (simp only [ContainerNode, TypeContext.zero]; split <;> simp)
  rw [if_neg h1] at h
  by_cases h2 : obj.info.PyList_Check = true
  · rw [if_pos h2] at h
    obtain ⟨rfl, rfl⟩ := pair_of_some h
    first
      | (simp [ContainerNode, TypeContext.withNpyArr, TypeContext.withDict, TypeContext.zero]; done)
      | (simp only [ContainerNode, TypeContext.zero]; split <;> simp)
  rw [if_neg h2] at h
  by_cases h3 : obj.info.PyTuple_Check = true
  · rw [if_pos h3] at h
    obtain ⟨rfl, rfl⟩ := pair_of_some h
    first
      | (simp [ContainerNode, TypeContext.withNpyArr, TypeContext.withDict, TypeContext.zero]; done)
      | (simp only [ContainerNode, TypeContext.zero]; split <;> simp)
  rw [if_neg h3] at h
  by_cases h4 : obj.info.isIndex = true
  · rw [if_pos h4] at h
    by_cases hs : w.encoder.outputFormat = .SPLIT
    · rw [if_pos hs] at h
      obtain ⟨rfl, rfl⟩ := pair_of_some h
      first
        | (simp [ContainerNode, TypeContext.withNpyArr, TypeContext.withDict, TypeContext.zero]; done)
        | (simp only [ContainerNode, TypeContext.zero]; split <;> simp)
    · rw [if_neg hs] at h
      obtain ⟨values, w1, g1, m1⟩ := getattr_step obj "values" w
      rw [g1] at h
      obtain ⟨rfl, rfl⟩ := pair_of_some h
      first
        | (simp [ContainerNode, TypeContext.withNpyArr, TypeContext.withDict, TypeContext.zero]; done)
        | (simp only [ContainerNode, TypeContext.zero]; split <;> simp)
  rw [if_neg h4] at h
  by_cases h5 : obj.info.isSeries = true
  · rw [if_pos h5] at h
    by_cases hs : w.encoder.outputFormat = .SPLIT
    · rw [if_pos hs] at h
      obtain ⟨rfl, rfl⟩ := pair_of_some h
      first
        | (simp [ContainerNode, TypeContext.withNpyArr, TypeContext.withDict, TypeContext.zero]; done)
        | (simp only [ContainerNode, TypeContext.zero]; split <;> simp)
    · rw [if_neg hs] at h
      by_cases hic : w.encoder.outputFormat = .INDEX ∨ w.encoder.outputFormat = .COLUMNS
      · rw [if_pos hic] at h
        obtain ⟨index, w1, g1, m1⟩ := getattr_step obj "index" w
        rw [g1] at h
        simp only [] at h
        rcases labels_step env index (PyArray_SIZE obj) w1 with he | ⟨r, w2, he, m2⟩
        · rw [he] at h
          cases h
        · rw [he] at h
          cases r with
          | none =>
            obtain ⟨rfl, rfl⟩ := pair_of_some h
            first
              | (simp [ContainerNode, TypeContext.withNpyArr, TypeContext.withDict, TypeContext.zero]; done)
              | (simp only [ContainerNode, TypeContext.zero]; split <;> simp)
          | some l =>
            simp only [] at h
            obtain ⟨values, w3, g3, m3⟩ := getattr_step obj "values" w2
            rw [g3] at h
            obtain ⟨rfl, rfl⟩ := pair_of_some h
            first
              | (simp [ContainerNode, TypeContext.withNpyArr, TypeContext.withDict, TypeContext.zero]; done)
              | (simp only [ContainerNode, TypeContext.zero]; split <;> simp)
      · rw [if_neg hic] at h
        obtain ⟨values, w1, g1, m1⟩ := getattr_step obj "values" w
        rw [g1] at h
        obtain ⟨rfl, rfl⟩ := pair_of_some h
        first
          | (simp [ContainerNode, TypeContext.withNpyArr, TypeContext.withDict, TypeContext.zero]; done)
          | (simp only [ContainerNode, TypeContext.zero]; split <;> simp)
  rw [if_neg h5] at h
  by_cases h6 : obj.info.PyArray_Check = true
  · rw [if_pos h6] at h
    cases hp : w.encoder.npyCtxtPassthru with
    | none =>
      rw [hp] at h
      obtain ⟨rfl, rfl⟩ := pair_of_some h
      first
        | (simp [ContainerNode, TypeContext.withNpyArr, TypeContext.withDict, TypeContext.zero]; done)
        | (simp only [ContainerNode, TypeContext.zero]; split <;> simp)
    | some p =>
      rw [hp] at h
      simp only [] at h
      cases hd : w.deref (some p) with
      | none =>
        rw [hd] at h
        cases h
      | some pc =>
        rw [hd] at h
        obtain ⟨rfl, rfl⟩ := pair_of_some h
        first
          | (simp [ContainerNode, TypeContext.withNpyArr, TypeContext.withDict, TypeContext.zero]; done)
          | (simp only [ContainerNode, TypeContext.zero]; split <;> simp)
  rw [if_neg h6] at h
  by_cases h7 : obj.info.isDataFrame = true
  · rw [if_pos h7] at h
    exact begin_dataframe_kind env obj w w' tc h
  rw [if_neg h7] at h
  obtain ⟨f, w1, g1, m1⟩ := getattr_step obj "toDict" w
  rw [g1] at h
  cases f with
  | none =>
    obtain ⟨rfl, rfl⟩ := pair_of_some h
    first
      | (simp [ContainerNode, TypeContext.withNpyArr, TypeContext.withDict, TypeContext.zero]; done)
      | (simp only [ContainerNode, TypeContext.zero]; split <;> simp)
  | some toDictFunc =>
    simp only [] at h
    cases hc : toDictFunc.child .call with
    | none =>
      rw [hc] at h
      obtain ⟨rfl, rfl⟩ := pair_of_some h
      first
        | (simp [ContainerNode, TypeContext.withNpyArr, TypeContext.withDict, TypeContext.zero]; done)
        | (simp only [ContainerNode, TypeContext.zero]; split <;> simp)
    | some res =>
      rw [hc] at h
      simp only [] at h
      split at h
      · obtain ⟨rfl, rfl⟩ := pair_of_some h
        first
          | (simp [ContainerNode, TypeContext.withNpyArr, TypeContext.withDict, TypeContext.zero]; done)
          | (simp only [ContainerNode, TypeContext.zero]; split <;> simp)
      · obtain ⟨rfl, rfl⟩ := pair_of_some h
        first
          | (simp [ContainerNode, TypeContext.withNpyArr, TypeContext.withDict, TypeContext.zero]; done)
          | (simp only [ContainerNode, TypeContext.zero]; split <;> simp)

theorem getName_lookup (tc : TypeContext) (w : World) :
    NpyArr_iterGetName tc w =
      (NpyArr_iterGetName_lookup tc w).bind (fun r => labelAt r.1 r.2) := by
  unfold NpyArr_iterGetName NpyArr_iterGetName_lookup
  cases w.deref tc.npyarr with
  | none => rfl
  | some pc =>
    simp only []
    split <;> rfl

theorem labelAt_lt (l : LabelArray) (j : Nat) (s : List Nat)
    (h : labelAt (some l) (j : Int) = some s) : j < l.entries.length := by
  unfold labelAt at h
  simp only [Int.natCast_nonneg, if_true, Int.toNat_ofNat] at h
  by_contra hlt
  have : l.entries.get? j = none := List.get?_eq_none.mpr (by omega)
  rw [this] at h
  cases h

theorem labels_cover (l : LabelArray) (N : Nat) (t : Nat → List Nat)
    (h : ∀ j : Nat, j < N → labelAt (some l) (j : Int) = some (t j)) :
    (N : Int) ≤ (l.entries.length : Int) := by
  cases N with
  | zero => simp
  | succ n =>
    have := labelAt_lt l n (t n) (h n (by omega))
    exact_mod_cast this
theorem advance_frame (arr : PyObject) (inc s0 ndim : Int) (rl cl : Option LabelArray) (k a : Int)
    (idx : Int → Int) :
    NpyArr_iterNextItem_advance (frame arr inc s0 ndim rl cl k a idx) =
      frame arr inc s0 ndim rl cl k (a + PyArray_STRIDE arr (s0 + inc * k))
        (Function.update idx (s0 + inc * k) (idx (s0 + inc * k) + 1)) := by
  simp [NpyArr_iterNextItem_advance, frame]

theorem descent_cursor (obj arr : PyObject) (w : World) (p : Nat) (hp : p ∈ w.live)
    (inc s0 ndim : Int) (rl cl : Option LabelArray) (k a : Int) (idx : Int → Int)
    (tc : TypeContext) (hinc : inc ≠ 0) (htc : tc.npyarr = some p)
    (hnext : tc.iterNext = .NpyArr_iterNext) (hk : k < ndim)
    (hpos : idx (s0 + inc * k) < PyArray_DIM arr (s0 + inc * k)) :
    ∃ tc' idx', Object_iterNext obj tc
          (w.withCursor p (frame arr inc s0 ndim rl cl k a idx) none) =
        some (1, tc', w.withCursor p (frame arr inc s0 ndim rl cl (k + 1) a idx') (some p)) ∧
      idx' (s0 + inc * (k + 1)) = 0 ∧ idx' (s0 + inc * k) = idx (s0 + inc * k) + 1 ∧
      NpyArr_iterGetName_lookup tc'
          (w.withCursor p (frame arr inc s0 ndim rl cl (k + 1) a idx') (some p)) =
        some (rl, idx (s0 + inc * k)) := by
  have h1 : ¬ ((frame arr inc s0 ndim rl cl k a idx).curdim ≥
        (frame arr inc s0 ndim rl cl k a idx).ndim ∨
      (frame arr inc s0 ndim rl cl k a idx).index
          (frame arr inc s0 ndim rl cl k a idx).stridedim ≥
        (frame arr inc s0 ndim rl cl k a idx).dim) := by
    simp only [frame, ge_iff_le, not_or, not_le]
    exact ⟨hk, hpos⟩
  have hne : s0 + inc * k ≠ s0 + inc * (k + 1) := axis_ne inc s0 (k + 1) k hinc (by omega)
  refine ⟨{ tc with itemValue := some arr },
    Function.update (Function.update idx (s0 + inc * k) (idx (s0 + inc * k) + 1))
      (s0 + inc * (k + 1)) 0, ?_, ?_, ?_, ?_⟩
  · rw [Object_iterNext_npy obj tc _ hnext, NpyArr_iterNext_withCursor w p _ none tc hp htc,
      if_neg h1, ← descend_frame]
    rfl
  · simp
  · rw [Function.update_noteq hne, Function.update_same]
  · unfold NpyArr_iterGetName_lookup
    rw [show ({ tc with itemValue := some arr } : TypeContext).npyarr = some p from htc,
      deref_withCursor w p _ (some p) hp]
    have hn : ¬ (({ tc with itemValue := some arr } : TypeContext).iterNext
        = .NpyArr_iterNextItem) := by
      show ¬ (tc.iterNext = .NpyArr_iterNextItem)
      rw [hnext]
      decide
    simp only [hn, if_false]
    have e : s0 + inc * (k + 1) - inc = s0 + inc * k := by ring
    simp only [frame, e]
    rw [Function.update_noteq hne, Function.update_same]
    simp

theorem item_cursor (obj arr : PyObject) (w : World) (p : Nat) (hp : p ∈ w.live)
    (inc s0 ndim : Int) (rl cl : Option LabelArray) (k a : Int) (idx : Int → Int)
    (tc : TypeContext) (htc : tc.npyarr = some p)
    (hnext : tc.iterNext = .NpyArr_iterNext ∨ tc.iterNext = .NpyArr_iterNextItem)
    (hk : ndim ≤ k)
    (hpos : idx (s0 + inc * k) < PyArray_DIM arr (s0 + inc * k)) :
    ∃ tc' idx', Object_iterNext obj tc
          (w.withCursor p (frame arr inc s0 ndim rl cl k a idx) none) =
        some (1, tc', w.withCursor p
          (frame arr inc s0 ndim rl cl k (a + PyArray_STRIDE arr (s0 + inc * k)) idx') none) ∧
      idx' (s0 + inc * k) = idx (s0 + inc * k) + 1 ∧
      tc'.iterNext = .NpyArr_iterNextItem ∧
      NpyArr_iterGetName_lookup tc' (w.withCursor p
          (frame arr inc s0 ndim rl cl k (a + PyArray_STRIDE arr (s0 + inc * k)) idx') none) =
        some (cl, idx (s0 + inc * k)) := by
  have h2 : ¬ ((frame arr inc s0 ndim rl cl k a idx).index
        (frame arr inc s0 ndim rl cl k a idx).stridedim ≥
      (frame arr inc s0 ndim rl cl k a idx).dim) := by
    simp only [frame, ge_iff_le, not_le]
    exact hpos
  have hitem : ∀ t : TypeContext, t.npyarr = some p → t.iterNext = .NpyArr_iterNextItem →
      ∃ tc', NpyArr_iterNextItem t (w.withCursor p (frame arr inc s0 ndim rl cl k a idx) none) =
          some (1, tc', w.withCursor p
            (frame arr inc s0 ndim rl cl k (a + PyArray_STRIDE arr (s0 + inc * k))
              (Function.update idx (s0 + inc * k) (idx (s0 + inc * k) + 1))) none) ∧
        tc'.iterNext = .NpyArr_iterNextItem ∧
        NpyArr_iterGetName_lookup tc' (w.withCursor p
            (frame arr inc s0 ndim rl cl k (a + PyArray_STRIDE arr (s0 + inc * k))
              (Function.update idx (s0 + inc * k) (idx (s0 + inc * k) + 1))) none) =
          some (cl, idx (s0 + inc * k)) := by
    intro t ht hti
    refine ⟨{ t with itemValue := getitem a arr }, ?_, hti, ?_⟩
    · rw [NpyArr_iterNextItem_withCursor w p _ none t hp ht, if_neg h2, ← advance_frame]
      rfl
    · unfold NpyArr_iterGetName_lookup
      rw [show ({ t with itemValue := getitem a arr } : TypeContext).npyarr = some p from ht,
        deref_withCursor w p _ none hp]
      simp [frame, hti]
  rcases hnext with hnext | hnext
  · have h1 : (frame arr inc s0 ndim rl cl k a idx).curdim ≥
          (frame arr inc s0 ndim rl cl k a idx).ndim ∨
        (frame arr inc s0 ndim rl cl k a idx).index
            (frame arr inc s0 ndim rl cl k a idx).stridedim ≥
          (frame arr inc s0 ndim rl cl k a idx).dim := Or.inl hk
    obtain ⟨tc', e1, e2, e3⟩ := hitem { tc with iterNext := .NpyArr_iterNextItem } htc rfl
    refine ⟨tc', _, ?_, by simp, e2, e3⟩
    rw [Object_iterNext_npy obj tc _ hnext, NpyArr_iterNext_withCursor w p _ none tc hp htc,
      if_pos h1]
    exact e1
  · obtain ⟨tc', e1, e2, e3⟩ := hitem tc htc hnext
    refine ⟨tc', _, ?_, by simp, e2, e3⟩
    rw [Object_iterNext_item obj tc _ hnext]
    exact e1

theorem peek_unquoted (buf : Int → Nat) (buffer : Int) (text : List Nat) :
    peekBytes (pokeBytes buf buffer (text ++ [0])) buffer
        (buffer + text.length + 1 - buffer + 1) =
      text ++ [0, buf (buffer + text.length + 1)] := by
  apply peekBytes_eq
  · simp; ring
  · intro j hj
    simp only [List.length_append, List.length_cons, List.length_nil] at hj
    by_cases hj2 : j < text.length + 1
    · rw [pokeBytes_in buf buffer (text ++ [0]) j (by simpa using hj2)]
      simp only [List.getD_eq_getElem?_getD]
      congr 1
      by_cases hj3 : j < text.length
      · rw [List.getElem?_append_left hj3, List.getElem?_append_left hj3]
      · have : j = text.length := by omega
        subst this
        rw [List.getElem?_append_right (le_refl _), List.getElem?_append_right (le_refl _)]
        simp
    · have : j = text.length + 1 := by omega
      subst this
      rw [pokeBytes_out _ _ _ _ (by right; simp)]
      simp only [List.getD_eq_getElem?_getD]
      rw [List.getElem?_append_right (by omega)]
      simp [add_assoc]

theorem table23_columns_labels :
    Object_beginTypeContext env64 (some table23) (world0 .COLUMNS) =
      some (tableTC values23 .JT_OBJECT (some (labelArrayOf 0 ["c0", "c1", "c2"]))
        (some (labelArrayOf 4 ["r0", "r1"])) 3 2 1, worldLabeled .COLUMNS) := by
  rfl

theorem table23_index_labels :
    Object_beginTypeContext env64 (some table23) (world0 .INDEX) =
      some (tableTC values23 .JT_OBJECT (some (labelArrayOf 0 ["r0", "r1"]))
        (some (labelArrayOf 3 ["c0", "c1", "c2"])) 2 3 0, worldLabeled .INDEX) := by
  rfl

theorem HeapOK_of_eq (w w' : World) (h1 : w'.live = w.live) (h2 : w'.mallocCount = w.mallocCount)
    (h : HeapOK w) : HeapOK w' := by
  unfold HeapOK
  rw [h1, h2]
  exact h

theorem heap_encodeObject (env : Env) (o : Option PyObject) (buf : Int → Nat) (b c : Int)
    (w : World) :
    (JSON_EncodeObject env o buf b c w).2.2.live = w.live ∧
      (JSON_EncodeObject env o buf b c w).2.2.mallocCount = w.mallocCount := by
  unfold JSON_EncodeObject
  simp only []
  cases (env.render o).2.2 <;> exact ⟨rfl, rfl⟩

theorem heap_malloc (w : World) (h : HeapOK w) : HeapOK (PyObject_Malloc w).2 := by
  obtain ⟨hn, hb⟩ := h
  have hfresh : HeapOK { w with mallocCount := w.mallocCount + 1, live := w.mallocCount :: w.live } := by
    refine ⟨List.nodup_cons.mpr ⟨fun hm => absurd (hb _ hm) (lt_irrefl _), hn⟩, ?_⟩
    intro p hp
    rcases List.mem_cons.mp hp with e | e
    · rw [e]; exact Nat.lt_succ_self _
    · exact Nat.lt_succ_of_lt (hb p e)
  unfold PyObject_Malloc
  cases hf : w.mallocFails with
  | nil => exact hfresh
  | cons b rest =>
    cases b
    · exact hfresh
    · exact ⟨hn, hb⟩

theorem malloc_live (w : World) : ∀ p ∈ w.live, p ∈ (PyObject_Malloc w).2.live := by
  intro p hp
  unfold PyObject_Malloc
  cases hf : w.mallocFails with
  | nil => exact List.mem_cons_of_mem _ hp
  | cons b rest =>
    cases b
    · exact List.mem_cons_of_mem _ hp
    · exact hp

theorem malloc_some_live (w w3 : World) (p : Nat) (h : PyObject_Malloc w = (some p, w3)) :
    p ∈ w3.live := by
  unfold PyObject_Malloc at h
  cases hf : w.mallocFails with
  | nil =>
    rw [hf] at h
    simp only [Prod.mk.injEq, Option.some.injEq] at h
    obtain ⟨rfl, rfl⟩ := h
    exact List.mem_cons_self _ _
  | cons b rest =>
    rw [hf] at h
    cases b
    · simp only [Prod.mk.injEq, Option.some.injEq] at h
      obtain ⟨rfl, rfl⟩ := h
      exact List.mem_cons_self _ _
    · simp at h

theorem heap_free (p : Option Nat) (w : World) (h : HeapOK w) : HeapOK (PyObject_Free p w) := by
  cases p with
  | none => exact h
  | some b =>
    exact ⟨h.1.erase b, fun q hq => h.2 q (List.mem_of_mem_erase hq)⟩

theorem free_sub (p : Option Nat) (w : World) :
    ∀ q ∈ (PyObject_Free p w).live, q ∈ w.live := by
  intro q hq
  cases p with
  | none => exact hq
  | some b => exact List.mem_of_mem_erase hq

theorem free_gone (b : Nat) (w : World) (h : w.live.Nodup) :
    b ∉ (PyObject_Free (some b) w).live := by
  intro hq
  exact ((List.Nodup.mem_erase_iff h).mp hq).1 rfl

theorem foldl_free (es : List (Option LabelStr)) :
    ∀ w : World, HeapOK w →
      HeapOK (es.foldl (fun acc e => PyObject_Free (Option.map (fun s => s.ptr) e) acc) w) ∧
      (∀ q ∈ (es.foldl (fun acc e => PyObject_Free (Option.map (fun s => s.ptr) e) acc) w).live,
        q ∈ w.live) ∧
      ∀ s : LabelStr, some s ∈ es →
        s.ptr ∉ (es.foldl (fun acc e => PyObject_Free (Option.map (fun s => s.ptr) e) acc) w).live := by
  induction es with
  | nil =>
    intro w h
    exact ⟨h, fun q hq => hq, fun s hs => by simp at hs⟩
  | cons e es ih =>
    intro w h
    rw [List.foldl_cons]
    obtain ⟨i1, i2, i3⟩ := ih (PyObject_Free (Option.map (fun s => s.ptr) e) w) (heap_free _ w h)
    refine ⟨i1, fun q hq => free_sub _ w q (i2 q hq), ?_⟩
    intro s hs
    rcases List.mem_cons.mp hs with e1 | e1
    · intro hq
      have := i2 _ hq
      rw [← e1] at this
      exact free_gone s.ptr w h.1 this
    · exact i3 s e1

theorem heap_freeLabels (l : Option LabelArray) (n : Int) (w : World) (h : HeapOK w) :
    HeapOK (NpyArr_freeLabels l n w) := by
  cases l with
  | none => exact h
  | some la =>
    simp only [NpyArr_freeLabels]
    exact heap_free _ _ (foldl_free _ w h).1

theorem freeLabels_frees (la : LabelArray) (n : Int) (w : World) (h : HeapOK w)
    (hlen : la.entries.length ≤ n.toNat) :
    ∀ p ∈ la.blocks, p ∉ (NpyArr_freeLabels (some la) n w).live := by
  intro p hp
  simp only [NpyArr_freeLabels]
  rw [List.take_of_length_le hlen]
  obtain ⟨i1, i2, i3⟩ := foldl_free la.entries w h
  rcases List.mem_cons.mp hp with e | e
  · rw [e]
    exact free_gone la.ptr _ i1.1
  · obtain ⟨x, hx, hxp⟩ := List.mem_filterMap.mp e
    cases x with
    | none => simp at hxp
    | some s =>
      simp only [Option.map_some', Option.some.injEq] at hxp
      intro hq
      have := free_sub _ _ _ hq
      rw [← hxp] at this
      exact i3 s hx this

theorem heap_loop (env : Env) (labels : PyObject) (stride : Int) (ret : Nat) (num : Int) :
    ∀ (n : Nat) (i dataptr : Int) (entries : List (Option LabelStr)) (buf : Int → Nat) (w : World),
      HeapOK w →
      HeapOK (NpyArr_encodeLabels_loop env labels stride ret num n i dataptr entries buf w).2 := by
  intro n
  induction n with
  | zero => intro i dataptr entries buf w h; exact h
  | succ n ih =>
    intro i dataptr entries buf w h
    rw [NpyArr_encodeLabels_loop]
    have h1 := heap_encodeObject env (getitem dataptr labels) buf env.labelBuffer 32768 w
    generalize JSON_EncodeObject env (getitem dataptr labels) buf env.labelBuffer 32768 w = r at h1
    obtain ⟨cLabel, buf1, w1⟩ := r
    simp only [] at h1 ⊢
    have hw1 : HeapOK w1 := HeapOK_of_eq w w1 h1.1 h1.2 h
    split
    · exact heap_freeLabels _ _ _ hw1
    · by_cases hq : buf1 cLabel = QUOTE
      · simp only [hq, if_true]
        have hm := heap_malloc (w1.setBuffer w1.encoder.enc.start w1.encoder.enc.end_
          (w1.encoder.enc.offset - 2)) (HeapOK_of_eq w1 _ rfl rfl hw1)
        generalize PyObject_Malloc (w1.setBuffer w1.encoder.enc.start w1.encoder.enc.end_
          (w1.encoder.enc.offset - 2)) = m at hm ⊢
        obtain ⟨_ | p, w3⟩ := m
        · exact HeapOK_of_eq w3 _ rfl rfl hm
        · simp only []
          exact ih _ _ _ _ _ hm
      · simp only [hq, if_false]
        have hm := heap_malloc w1 hw1
        generalize PyObject_Malloc w1 = m at hm ⊢
        obtain ⟨_ | p, w3⟩ := m
        · exact HeapOK_of_eq w3 _ rfl rfl hm
        · simp only []
          exact ih _ _ _ _ _ hm

theorem heap_encodeLabels (env : Env) (lab : Option PyObject) (num : Int) (w w' : World)
    (r : Option LabelArray) (h : NpyArr_encodeLabels env lab num w = some (r, w'))
    (hw : HeapOK w) : HeapOK w' := by
  cases lab with
  | none => simp [NpyArr_encodeLabels] at h
  | some labels =>
    unfold NpyArr_encodeLabels at h
    simp only [] at h
    split at h
    · obtain ⟨-, rfl⟩ := pair_of_some h
      exact HeapOK_of_eq w _ rfl rfl hw
    · have hm := heap_malloc w hw
      split at h
      · rename_i w1 e
        rw [e] at hm
        obtain ⟨-, rfl⟩ := pair_of_some h
        exact HeapOK_of_eq w1 _ rfl rfl hm
      · rename_i ret w1 e
        rw [e] at hm
        obtain ⟨-, rfl⟩ := pair_of_some h
        exact HeapOK_of_eq _ _ rfl rfl (heap_loop env labels _ ret num _ _ _ _ _ w1 hm)

theorem loop_success (env : Env) (labels : PyObject) (stride : Int) (ret : Nat) (num : Int) :
    ∀ (n : Nat) (i dataptr : Int) (entries : List (Option LabelStr)) (buf : Int → Nat)
      (w w' : World) (la : LabelArray),
      NpyArr_encodeLabels_loop env labels stride ret num n i dataptr entries buf w = (some la, w') →
      la.ptr = ret ∧ la.entries.length = entries.length ∧ (∀ p ∈ w.live, p ∈ w'.live) ∧
        ∀ s : LabelStr, some s ∈ la.entries → some s ∈ entries ∨ s.ptr ∈ w'.live := by
  intro n
  induction n with
  | zero =>
    intro i dataptr entries buf w w' la h
    rw [NpyArr_encodeLabels_loop] at h
    simp only [Prod.mk.injEq, Option.some.injEq] at h
    obtain ⟨rfl, rfl⟩ := h
    exact ⟨rfl, rfl, fun p hp => hp, fun s hs => Or.inl hs⟩
  | succ n ih =>
    intro i dataptr entries buf w w' la h
    rw [NpyArr_encodeLabels_loop] at h
    have h1 := heap_encodeObject env (getitem dataptr labels) buf env.labelBuffer 32768 w
    generalize JSON_EncodeObject env (getitem dataptr labels) buf env.labelBuffer 32768 w = r
      at h1 h
    obtain ⟨cLabel, buf1, w1⟩ := r
    simp only [] at h1 h
    split at h
    · simp at h
    · have key : ∀ (w2 : World) (c : Int) (b2 : Int → Nat) (len : Int), w2.live = w1.live →
          (match PyObject_Malloc w2 with
            | (none, w3) => ((none : Option LabelArray), PyErr_Set .MemoryError w3)
            | (some p, w3) =>
              NpyArr_encodeLabels_loop env labels stride ret num n (i + 1) (dataptr + stride)
                (entries.set i.toNat (some { ptr := p, bytes := peekBytes b2 c len })) b2 w3) =
            (some la, w') →
          la.ptr = ret ∧ la.entries.length = entries.length ∧ (∀ p ∈ w.live, p ∈ w'.live) ∧
            ∀ s : LabelStr, some s ∈ la.entries → some s ∈ entries ∨ s.ptr ∈ w'.live := by
        intro w2 c b2 len hl hm
        have ml := malloc_live w2
        have ms := malloc_some_live w2
        generalize PyObject_Malloc w2 = m at hm ml ms
        obtain ⟨_ | p, w3⟩ := m
        · simp at hm
        · simp only [] at hm
          obtain ⟨i1, i2, i3, i4⟩ := ih _ _ _ _ _ _ _ hm
          refine ⟨i1, by rw [i2, List.length_set], ?_, ?_⟩
          · intro q hq
            exact i3 q (ml q (by rw [hl, h1.1]; exact hq))
          · intro s hs
            rcases i4 s hs with e | e
            · rcases List.mem_or_eq_of_mem_set e with e2 | e2
              · exact Or.inl e2
              · right
                have : s.ptr = p := by
                  simp only [Option.some.injEq] at e2
                  rw [e2]
                rw [this]
                exact i3 p (ms w3 p rfl)
            · exact Or.inr e
      by_cases hq : buf1 cLabel = QUOTE
      · simp only [hq, if_true] at h
        exact key (w1.setBuffer w1.encoder.enc.start w1.encoder.enc.end_
          (w1.encoder.enc.offset - 2)) _ _ _ rfl h
      · simp only [hq, if_false] at h
        exact key _ _ _ _ rfl h

theorem encodeLabels_success (env : Env) (labels : PyObject) (num : Int) (w w' : World)
    (la : LabelArray) (h : NpyArr_encodeLabels env (some labels) num w = some (some la, w')) :
    (∀ p ∈ la.blocks, p ∈ w'.live) ∧ la.entries.length = num.toNat := by
  unfold NpyArr_encodeLabels at h
  simp only [] at h
  split at h
  · simp at h
  · have ms := malloc_some_live w
    split at h
    · simp at h
    · rename_i ret w1 e
      obtain ⟨hl, rfl⟩ := pair_of_some h
      have hl2 : (NpyArr_encodeLabels_loop env labels (PyArray_STRIDE labels 0) ret num num.toNat 0
          (PyArray_DATA labels) (List.replicate num.toNat none) (fun a => (w1.junk a).toNat)
          w1).1 = some la := hl.symm
      obtain ⟨i1, i2, i3, i4⟩ := loop_success env labels _ ret num _ _ _ _ _ w1 _ la
        (Prod.ext hl2 rfl)
      refine ⟨?_, by rw [i2, List.length_replicate]⟩
      intro p hp
      show p ∈ (NpyArr_encodeLabels_loop env labels (PyArray_STRIDE labels 0) ret num num.toNat 0
          (PyArray_DATA labels) (List.replicate num.toNat none) (fun a => (w1.junk a).toNat)
          w1).2.live
      rcases List.mem_cons.mp hp with e1 | e1
      · rw [e1, i1]
        exact i3 ret (ms w1 ret e)
      · obtain ⟨x, hx, hxp⟩ := List.mem_filterMap.mp e1
        cases x with
        | none => simp at hxp
        | some s =>
          simp only [Option.map_some', Option.some.injEq] at hxp
          rcases i4 s hx with e2 | e2
          · simp [List.mem_replicate] at e2
          · rw [← hxp]
            exact e2
/-! ## Claims -/

/-- C1. A non-empty array of rank at least 1 with arbitrary byte strides, walked without
transposition from its root (the array itself, or a labeled table in Values mode over
it), every yielded sub-array being dispatched through the pass-through branch, is
encoded as a nesting with one array level per axis: the level of axis `k` has exactly
`dim_k` children in increasing position order, and the leaf at positions `(i0, ...)` is
the element fetched at byte address `data + sum (ik * stride_k)`. The allocation of the
cursor is assumed to succeed, every element to encode as a leaf, and the fuel to
exceed the sum of the extents plus the rank. -/
theorem C1_array_walk_nested (env : Env) (w : World) (root arr : PyObject) (L : Int → JSON)
    (hroot : ValuesRoot w root arr) (hraw : RawArray arr)
    (hrank : 1 ≤ arr.info.dims.length)
    (hstrides : arr.info.strides.length = arr.info.dims.length)
    (hsize : 0 < PyArray_SIZE arr)
    (hslot : w.encoder.npyCtxtPassthru = none)
    (hmalloc : w.mallocFails.head? ≠ some true)
    (hleaf : ∀ (a : Int) (f : Nat) (w' : World), w'.encoder.npyCtxtPassthru = none →
      encode env (f + 1) w' (getitem a arr) = some (w', L a))
    (fuel : Nat) (hfuel : arr.info.dims.sum + arr.info.dims.length + 1 ≤ fuel) :
    ∃ w', encode env fuel w (some root) =
      some (w', nestedArray L (arr.info.dims.zip arr.info.strides) (PyArray_DATA arr)) := by
  obtain ⟨f, rfl⟩ : ∃ m, fuel = m + 1 := ⟨fuel - 1, by omega⟩
  obtain ⟨m1, m2, m3, m4, m5, m6, m7⟩ := PyObject_Malloc_ok w hmalloc
  obtain ⟨ax, rest, hzip⟩ : ∃ ax rest, arr.info.dims.zip arr.info.strides = ax :: rest := by
    cases hz : arr.info.dims.zip arr.info.strides with
    | nil =>
      have := congrArg List.length hz
      rw [List.length_zip, hstrides, Nat.min_self, List.length_nil] at this
      omega
    | cons ax rest => exact ⟨ax, rest, rfl⟩
  obtain ⟨d, s⟩ := ax
  have hlen : arr.info.dims.length = rest.length + 1 := by
    have := congrArg List.length hzip
    simpa [hstrides] using this
  have hframe := fun obj => frame_nested env arr hraw L (PyObject_Malloc w).2 w.mallocCount
    (by rw [m2]; exact List.mem_cons_self _ _) none arr.info.dims.sum
    (fun d hd => List.le_sum_of_mem hd) hstrides hleaf rest d s 0 f obj (by simpa using hzip)
    (by omega)
  rw [hzip]
  have hnode : ∀ a, mkNode false ((List.range d).map
      (fun i : Nat => ((none : Option (List Nat)), nestedArray L rest (a + (i : Int) * s))))
      = nestedArray L ((d, s) :: rest) a := by
    intro a
    simp [mkNode, nestedArray, Function.comp]
  rw [← hnode]
  rcases hroot with rfl | ⟨htab, hfmt, hval⟩
  · exact encode_cursor_node env f root root w w _ false (begin_rawArray env root hraw w hslot)
      rfl rfl rfl rfl rfl rfl rfl hsize hmalloc hslot 1 0 rfl
      (fun a => (List.range d).map
        (fun i : Nat => ((none : Option (List Nat)), nestedArray L rest (a + (i : Int) * s))))
      (hframe root)
  · exact encode_cursor_node env f root arr w w _ false
      (begin_table_values env root arr w htab hfmt hval)
      rfl rfl rfl rfl rfl rfl rfl hsize hmalloc hslot 1 0 rfl
      (fun a => (List.range d).map
        (fun i : Nat => ((none : Option (List Nat)), nestedArray L rest (a + (i : Int) * s))))
      (hframe root)

/-- C2. A non-empty `m x n` labeled table dispatched in Columns mode is encoded as an
object with exactly `n` members in column order, member `j` named by column label `j`,
whose value is an object with exactly `m` members in row order, member `i` named by row
label `i` and valued by the element at byte address `data + i * stride0 + j * stride1`:
the payload is read in place through the transposed walk. The labels are the trimmed
renderings of the axis elements; the rendering of every label, every allocation and the
encoding of every element as a leaf are assumed to succeed. -/
theorem C2_columns_mode_object (env : Env) (w : World) (obj values index columns : PyObject)
    (m n : Nat) (s0 s1 : Int) (rtext ctext : Nat → List Nat) (L : Int → JSON)
    (ht : TableOf obj values index columns m n s0 s1)
    (hfmt : w.encoder.outputFormat = .COLUMNS) (hw : CleanWorld w)
    (hcs : (n : Int) ≤ PyArray_SIZE columns) (hce : LabelsEncode env columns n ctext)
    (hrs : (m : Int) ≤ PyArray_SIZE index) (hre : LabelsEncode env index m rtext)
    (hleaf : ∀ (a : Int) (g : Nat) (w' : World), w'.encoder.npyCtxtPassthru = none →
      encode env (g + 1) w' (getitem a values) = some (w', L a))
    (fuel : Nat) (hfuel : m + n + 3 ≤ fuel) :
    ∃ w', encode env fuel w (some obj) =
      some (w', .object ((List.range n).map (fun j : Nat =>
        (some (labelText (ctext j)), .object ((List.range m).map (fun i : Nat =>
          (some (labelText (rtext i)),
            L (PyArray_DATA values + (i : Int) * s0 + (j : Int) * s1)))))))) := by
  obtain ⟨f, rfl⟩ : ∃ g, fuel = g + 1 + 1 := ⟨fuel - 2, by omega⟩
  obtain ⟨lr, lc, w1, hb, hl1, hl2, hw1⟩ := begin_table_columns env obj values index columns m n
    s0 s1 rtext ctext w ht hfmt hw hcs hce hrs hre
  obtain ⟨h1, h2, h3, h4, h5, h6, h7, h8, h9⟩ := ht
  obtain ⟨d0, d1, hnd, hsz⟩ := PyArray_DIM_two values m n h6
  obtain ⟨t0, t1⟩ := PyArray_STRIDE_two values s0 s1 h7
  obtain ⟨m1, m2, -⟩ := PyObject_Malloc_ok w1 (mallocFails_head w1 hw1.2.2)
  have a0 : PyArray_NDIM values - 1 + -1 * 0 = 1 := by rw [hnd]; norm_num
  have a1 : PyArray_NDIM values - 1 + -1 * (0 + 1) = 0 := by rw [hnd]; norm_num
  have hframe := frame_rank2 env f obj values h2 L (PyObject_Malloc w1).2 w1.mallocCount
    (by rw [m2]; exact List.mem_cons_self _ _) (-1) (PyArray_NDIM values - 1)
    (PyArray_NDIM values - 1) (some lr) (some lc) true (by norm_num) hnd
    (by rw [a0, d1]; simp; omega) (by rw [a1, d0]; simp; omega) (by omega) hleaf
    (by
      intro _ i hi
      rw [a0, d1] at hi
      rw [hl1 i (by simpa using hi)]; rfl)
    (by
      intro _ i hi
      rw [a1, d0] at hi
      rw [hl2 i (by simpa using hi)]; rfl)
  obtain ⟨w', hw'⟩ := encode_cursor_node env (f + 1) obj values w w1
    (tableTC values .JT_OBJECT (some lr) (some lc) n m 1) true hb rfl rfl rfl rfl rfl rfl rfl
    (by rw [hsz]; exact_mod_cast Nat.mul_pos h8 h9) (mallocFails_head w1 hw1.2.2) hw1.1 (-1)
    (PyArray_NDIM values - 1) (by simp [tableTC]) _ hframe
  refine ⟨w', ?_⟩
  rw [hw', a0, a1, d0, d1, t0, t1]
  simp only [Int.toNat_ofNat, Option.isSome_some, mkNode, if_true]
  rw [frameItems_named (some lr) (fun j => labelText (ctext j)) _ n s1 _ hl1]
  congr 3
  apply List.map_congr_left
  intro j _
  rw [frameItems_named (some lc) (fun i => labelText (rtext i)) _ m s0 _ hl2]
  congr 3
  funext i
  congr 2
  ring

/-- C3. A non-empty `m x n` labeled table dispatched in Index mode is encoded as an
object with exactly `m` members in row order, member `i` named by row label `i`, whose
value is an object with exactly `n` members in column order, member `j` named by column
label `j` and valued by the element at byte address `data + i * stride0 + j * stride1`.
The labels are the trimmed renderings of the axis elements; the rendering of every
label, every allocation and the encoding of every element as a leaf are assumed to
succeed. -/
theorem C3_index_mode_object (env : Env) (w : World) (obj values index columns : PyObject)
    (m n : Nat) (s0 s1 : Int) (rtext ctext : Nat → List Nat) (L : Int → JSON)
    (ht : TableOf obj values index columns m n s0 s1)
    (hfmt : w.encoder.outputFormat = .INDEX) (hw : CleanWorld w)
    (hcs : (n : Int) ≤ PyArray_SIZE columns) (hce : LabelsEncode env columns n ctext)
    (hrs : (m : Int) ≤ PyArray_SIZE index) (hre : LabelsEncode env index m rtext)
    (hleaf : ∀ (a : Int) (g : Nat) (w' : World), w'.encoder.npyCtxtPassthru = none →
      encode env (g + 1) w' (getitem a values) = some (w', L a))
    (fuel : Nat) (hfuel : m + n + 3 ≤ fuel) :
    ∃ w', encode env fuel w (some obj) =
      some (w', .object ((List.range m).map (fun i : Nat =>
        (some (labelText (rtext i)), .object ((List.range n).map (fun j : Nat =>
          (some (labelText (ctext j)),
            L (PyArray_DATA values + (i : Int) * s0 + (j : Int) * s1)))))))) := by
  obtain ⟨f, rfl⟩ : ∃ g, fuel = g + 1 + 1 := ⟨fuel - 2, by omega⟩
  obtain ⟨lr, lc, w1, hb, hl1, hl2, hw1⟩ := begin_table_index env obj values index columns m n
    s0 s1 rtext ctext w ht hfmt hw hcs hce hrs hre
  obtain ⟨h1, h2, h3, h4, h5, h6, h7, h8, h9⟩ := ht
  obtain ⟨d0, d1, hnd, hsz⟩ := PyArray_DIM_two values m n h6
  obtain ⟨t0, t1⟩ := PyArray_STRIDE_two values s0 s1 h7
  obtain ⟨m1, m2, -⟩ := PyObject_Malloc_ok w1 (mallocFails_head w1 hw1.2.2)
  have a0 : (0 : Int) + 1 * 0 = 0 := by norm_num
  have a1 : (0 : Int) + 1 * (0 + 1) = 1 := by norm_num
  have hframe := frame_rank2 env f obj values h2 L (PyObject_Malloc w1).2 w1.mallocCount
    (by rw [m2]; exact List.mem_cons_self _ _) 1 0
    (PyArray_NDIM values - 1) (some lr) (some lc) true (by norm_num) hnd
    (by rw [a0, d0]; simp; omega) (by rw [a1, d1]; simp; omega) (by omega) hleaf
    (by
      intro _ i hi
      rw [a0, d0] at hi
      rw [hl1 i (by simpa using hi)]; rfl)
    (by
      intro _ i hi
      rw [a1, d1] at hi
      rw [hl2 i (by simpa using hi)]; rfl)
  obtain ⟨w', hw'⟩ := encode_cursor_node env (f + 1) obj values w w1
    (tableTC values .JT_OBJECT (some lr) (some lc) m n 0) true hb rfl rfl rfl rfl rfl rfl rfl
    (by rw [hsz]; exact_mod_cast Nat.mul_pos h8 h9) (mallocFails_head w1 hw1.2.2) hw1.1 1 0
    (by simp [tableTC]) _ hframe
  refine ⟨w', ?_⟩
  rw [hw', a0, a1, d0, d1, t0, t1]
  simp only [Int.toNat_ofNat, Option.isSome_some, mkNode, if_true]
  rw [frameItems_named (some lr) (fun i => labelText (rtext i)) _ m s0 _ hl1]
  congr 3
  apply List.map_congr_left
  intro i _
  rw [frameItems_named (some lc) (fun j => labelText (ctext j)) _ n s1 _ hl2]

/-- C4. A non-empty `m x n` labeled table dispatched in Records mode builds column
labels only (the row label array stays NULL with length 0) and is encoded as an array of
exactly `m` items in row order, item `i` being an object with exactly `n` members in
column order, member `j` named by column label `j` and valued by the element at byte
address `data + i * stride0 + j * stride1`. The rendering of every column label, every
allocation and the encoding of every element as a leaf are assumed to succeed. -/
theorem C4_records_mode_array (env : Env) (w : World) (obj values index columns : PyObject)
    (m n : Nat) (s0 s1 : Int) (ctext : Nat → List Nat) (L : Int → JSON)
    (ht : TableOf obj values index columns m n s0 s1)
    (hfmt : w.encoder.outputFormat = .RECORDS) (hw : CleanWorld w)
    (hcs : (n : Int) ≤ PyArray_SIZE columns) (hce : LabelsEncode env columns n ctext)
    (hleaf : ∀ (a : Int) (g : Nat) (w' : World), w'.encoder.npyCtxtPassthru = none →
      encode env (g + 1) w' (getitem a values) = some (w', L a))
    (fuel : Nat) (hfuel : m + n + 3 ≤ fuel) :
    (∃ tc w1, Object_beginTypeContext env (some obj) w = some (tc, w1) ∧
      tc.type = .JT_ARRAY ∧ tc.rowLabels = none ∧ tc.rowLabelsLen = 0) ∧
    ∃ w', encode env fuel w (some obj) =
      some (w', .array ((List.range m).map (fun i : Nat =>
        JSON.object ((List.range n).map (fun j : Nat =>
          (some (labelText (ctext j)),
            L (PyArray_DATA values + (i : Int) * s0 + (j : Int) * s1))))))) := by
  obtain ⟨f, rfl⟩ : ∃ g, fuel = g + 1 + 1 := ⟨fuel - 2, by omega⟩
  obtain ⟨lc, w1, hb, hl2, hw1⟩ := begin_table_records env obj values index columns m n
    s0 s1 ctext w ht hfmt hw hcs hce
  refine ⟨⟨_, _, hb, rfl, rfl, rfl⟩, ?_⟩
  obtain ⟨h1, h2, h3, h4, h5, h6, h7, h8, h9⟩ := ht
  obtain ⟨d0, d1, hnd, hsz⟩ := PyArray_DIM_two values m n h6
  obtain ⟨t0, t1⟩ := PyArray_STRIDE_two values s0 s1 h7
  obtain ⟨m1, m2, -⟩ := PyObject_Malloc_ok w1 (mallocFails_head w1 hw1.2.2)
  have a0 : (0 : Int) + 1 * 0 = 0 := by norm_num
  have a1 : (0 : Int) + 1 * (0 + 1) = 1 := by norm_num
  have hframe := frame_rank2 env f obj values h2 L (PyObject_Malloc w1).2 w1.mallocCount
    (by rw [m2]; exact List.mem_cons_self _ _) 1 0
    (PyArray_NDIM values - 1) none (some lc) false (by norm_num) hnd
    (by rw [a0, d0]; simp; omega) (by rw [a1, d1]; simp; omega) (by omega) hleaf
    (by intro h; cases h)
    (by
      intro _ i hi
      rw [a1, d1] at hi
      rw [hl2 i (by simpa using hi)]; rfl)
  obtain ⟨w', hw'⟩ := encode_cursor_node env (f + 1) obj values w w1
    (tableTC values .JT_ARRAY none (some lc) 0 n 0) false hb rfl rfl rfl rfl rfl rfl rfl
    (by rw [hsz]; exact_mod_cast Nat.mul_pos h8 h9) (mallocFails_head w1 hw1.2.2) hw1.1 1 0
    (by simp [tableTC]) _ hframe
  refine ⟨w', ?_⟩
  rw [hw', a0, a1, d0, d1, t0, t1, frameItems_unnamed]
  simp only [Int.toNat_ofNat, Option.isSome_some, mkNode, if_true]
  congr 3
  apply List.map_congr_left
  intro i _
  rw [frameItems_named (some lc) (fun j => labelText (ctext j)) _ n s1 _ hl2]


/-- Witness of C1: the 2 x 3 table in Values mode is `[[1,2,3],[4,5,6]]`. -/
theorem C1_array_walk_nested_witness :
    ∃ w', encode env64 8 (world0 .VALUES) (some table23) =
      some (w', .array [.array [.long 1, .long 2, .long 3], .array [.long 4, .long 5, .long 6]]) :=
  C1_array_walk_nested env64 (world0 .VALUES) table23 values23
    (fun a => .long ((a - 1000) / 8 + 1)) (Or.inr ⟨table23_ok.1, rfl, rfl⟩) table23_ok.2.1
    (by decide) rfl (by decide) rfl (by simp [world0]) values23_leaf 8 (by decide)

/-- Witness of C2: the 2 x 3 table in Columns mode is
`{"c0":{"r0":1,"r1":4},"c1":{"r0":2,"r1":5},"c2":{"r0":3,"r1":6}}`. -/
theorem C2_columns_mode_object_witness :
    ∃ w', encode env64 8 (world0 .COLUMNS) (some table23) =
      some (w', .object [
        (some (cstr "c0"), .object [(some (cstr "r0"), .long 1), (some (cstr "r1"), .long 4)]),
        (some (cstr "c1"), .object [(some (cstr "r0"), .long 2), (some (cstr "r1"), .long 5)]),
        (some (cstr "c2"), .object [(some (cstr "r0"), .long 3), (some (cstr "r1"), .long 6)])]) :=
  C2_columns_mode_object env64 (world0 .COLUMNS) table23 values23 index23 columns23 2 3 24 8 _ _
    (fun a => .long ((a - 1000) / 8 + 1)) table23_ok rfl (world0_clean _) (by decide)
    columns23_encode (by decide) index23_encode values23_leaf 8 (by decide)

/-- Witness of C3: the 2 x 3 table in Index mode is
`{"r0":{"c0":1,"c1":2,"c2":3},"r1":{"c0":4,"c1":5,"c2":6}}`. -/
theorem C3_index_mode_object_witness :
    ∃ w', encode env64 8 (world0 .INDEX) (some table23) =
      some (w', .object [
        (some (cstr "r0"), .object [(some (cstr "c0"), .long 1), (some (cstr "c1"), .long 2),
          (some (cstr "c2"), .long 3)]),
        (some (cstr "r1"), .object [(some (cstr "c0"), .long 4), (some (cstr "c1"), .long 5),
          (some (cstr "c2"), .long 6)])]) :=
  C3_index_mode_object env64 (world0 .INDEX) table23 values23 index23 columns23 2 3 24 8 _ _
    (fun a => .long ((a - 1000) / 8 + 1)) table23_ok rfl (world0_clean _) (by decide)
    columns23_encode (by decide) index23_encode values23_leaf 8 (by decide)

/-- Witness of C4: the 2 x 3 table in Records mode is
`[{"c0":1,"c1":2,"c2":3},{"c0":4,"c1":5,"c2":6}]`. -/
theorem C4_records_mode_array_witness :
    ∃ w', encode env64 8 (world0 .RECORDS) (some table23) =
      some (w', .array [
        .object [(some (cstr "c0"), .long 1), (some (cstr "c1"), .long 2),
          (some (cstr "c2"), .long 3)],
        .object [(some (cstr "c0"), .long 4), (some (cstr "c1"), .long 5),
          (some (cstr "c2"), .long 6)]]) :=
  (C4_records_mode_array env64 (world0 .RECORDS) table23 values23 index23 columns23 2 3 24 8 _
    (fun a => .long ((a - 1000) / 8 + 1)) table23_ok rfl (world0_clean _) (by decide)
    columns23_encode values23_leaf 8 (by decide)).2

/-- C5. In Split mode a labeled table is dispatched as an object whose iterator, once
its name buffer is allocated, yields exactly three members, named `columns`, `index`
and `data` in that order and valued by the attributes `columns`, `index` and `values`
of the table; the fourth call of the next operation reports no more items and leaves
the node and the state as they are, so that every later call does the same. -/
theorem C5_split_table_three_members (env : Env) (w : World) (obj : PyObject)
    (ht : IsTable obj) (hfmt : w.encoder.outputFormat = .SPLIT)
    (hmalloc : w.mallocFails.head? ≠ some true) :
    ∃ tc0 tc1 w1 tc2 w2 tc3 w3 tc4 w4,
      Object_beginTypeContext env (some obj) w = some (tc0, w) ∧ tc0.type = .JT_OBJECT ∧
      Object_iterBegin obj tc0 w = some (tc1, w1) ∧
      Object_iterNext obj tc1 w1 = some (1, tc2, w2) ∧
      Object_iterGetName tc2 w2 = some (some (cstr "columns")) ∧
      Object_iterGetValue tc2 = some (obj.child (.attr (cstr "columns"))) ∧
      Object_iterNext obj tc2 w2 = some (1, tc3, w3) ∧
      Object_iterGetName tc3 w3 = some (some (cstr "index")) ∧
      Object_iterGetValue tc3 = some (obj.child (.attr (cstr "index"))) ∧
      Object_iterNext obj tc3 w3 = some (1, tc4, w4) ∧
      Object_iterGetName tc4 w4 = some (some (cstr "data")) ∧
      Object_iterGetValue tc4 = some (obj.child (.attr (cstr "values"))) ∧
      Object_iterNext obj tc4 w4 = some (0, tc4, w4) := by
  obtain ⟨m1, -⟩ := PyObject_Malloc_ok w hmalloc
  have hm : PyObject_Malloc w = (some w.mallocCount, (PyObject_Malloc w).2) := by rw [← m1]
  have hb1 : Object_iterBegin obj splitTableTC w =
      some (splitTableAt w.mallocCount [] none 0,
        (PyObject_Malloc w).2.setOutputFormat .VALUES) := by
    simp only [Object_iterBegin, splitTableTC, DataFrame_iterBegin, alloc_citemName]
    rw [hm]
    rfl
  refine ⟨splitTableTC, _, _,
    splitTableAt w.mallocCount (memcpy_into [] (cstr "columns" ++ [0]))
      (obj.child (.attr (cstr "columns"))) 1,
    (PyObject_GetAttrString obj "columns" ((PyObject_Malloc w).2.setOutputFormat .VALUES)).2,
    splitTableAt w.mallocCount
      (memcpy_into (memcpy_into [] (cstr "columns" ++ [0])) (cstr "index" ++ [0]))
      (obj.child (.attr (cstr "index"))) 2,
    (PyObject_GetAttrString obj "index"
      (PyObject_GetAttrString obj "columns" ((PyObject_Malloc w).2.setOutputFormat .VALUES)).2).2,
    splitTableAt w.mallocCount
      (memcpy_into (memcpy_into (memcpy_into [] (cstr "columns" ++ [0])) (cstr "index" ++ [0]))
        (cstr "data" ++ [0]))
      (obj.child (.attr (cstr "values"))) 3,
    (PyObject_GetAttrString obj "values" (PyObject_GetAttrString obj "index"
      (PyObject_GetAttrString obj "columns" ((PyObject_Malloc w).2.setOutputFormat .VALUES)).2).2).2,
    begin_table_split env obj w ht hfmt, rfl, hb1, ?_, ?_, rfl, ?_, ?_, rfl, ?_, ?_, rfl, ?_⟩
  · simp [Object_iterNext, splitTableAt, splitTableTC, DataFrame_iterNext, set_citemName,
      TypeContext.zero]
    exact getAttr_fst obj "columns" _
  · simp only [Object_iterGetName, splitTableAt, splitTableTC, Index_iterGetName, name_columns]
    rfl
  · simp [Object_iterNext, splitTableAt, splitTableTC, DataFrame_iterNext, set_citemName,
      TypeContext.zero]
    exact getAttr_fst obj "index" _
  · simp only [Object_iterGetName, splitTableAt, splitTableTC, Index_iterGetName, name_index]
    rfl
  · simp [Object_iterNext, splitTableAt, splitTableTC, DataFrame_iterNext, set_citemName,
      TypeContext.zero]
    exact getAttr_fst obj "values" _
  · simp only [Object_iterGetName, splitTableAt, splitTableTC, Index_iterGetName, name_data]
    rfl
  · simp [Object_iterNext, splitTableAt, splitTableTC, DataFrame_iterNext, TypeContext.zero]

/-- C6. Evaluation of the dispatcher at the failing inputs: a numpy float scalar holding
NaN and a numpy half scalar holding +Infinity are given the node kind double, while the
host float holding NaN is given the node kind null by the sibling branch. -/
theorem C6_numpy_nan_dispatched_as_double (env : Env) (w : World) :
    npy_isnan npFloatNaN.info.castDouble = true ∧
    (Object_beginTypeContext env (some npFloatNaN) w).map (fun r => r.1.type)
      = some .JT_DOUBLE ∧
    npy_isinf npHalfInf.info.halfAsDouble = true ∧
    (Object_beginTypeContext env (some npHalfInf) w).map (fun r => r.1.type)
      = some .JT_DOUBLE ∧
    (Object_beginTypeContext env (some pyFloatNaN) w).map (fun r => r.1.type)
      = some .JT_NULL := by
  refine ⟨by decide, ?_, by decide, ?_, ?_⟩
  · simp [Object_beginTypeContext, Object_beginTypeContext_scalar, npFloatNaN, PyObject.info]
  · simp [Object_beginTypeContext, Object_beginTypeContext_scalar, npHalfInf, PyObject.info]
  · have h : npy_isnan 0x7FF8000000000000 = true := by decide
    simp [Object_beginTypeContext, Object_beginTypeContext_scalar, pyFloatNaN, PyObject.info, h]

/-- C7 is broken by the code when an overflow error is already pending. For an
arbitrary-precision integer `v` that is not iterable-like: when `-2^63 <= v <= 2^63 - 1`
and no overflow error is pending at dispatch, the node kind is int64, the state is
unchanged and Object_getLongValue reads back exactly `v`; when `v` is in that range but
an overflow error is pending at dispatch (lines 984-986 test the pending error, not the
result of the conversion), the node kind is invalid and the encoder emits no integer
for the node; when the magnitude overflows 64 bits the node kind is invalid in every
state, an overflow error is pending and the encoder emits no integer for the node. -/
theorem C7_in_range_long_invalid_while_overflow_pending (env : Env) (w : World) (obj : PyObject)
    (h : IsPyLong obj) :
    ((-(2 : Int) ^ 63 ≤ obj.info.longValue ∧ obj.info.longValue ≤ 2 ^ 63 - 1) →
      w.pyErr ≠ some PyExc.OverflowError →
      ∃ tc, Object_beginTypeContext env (some obj) w = some (tc, w) ∧ tc.type = .JT_LONG ∧
        Object_getLongValue obj tc = some obj.info.longValue) ∧
    ((-(2 : Int) ^ 63 ≤ obj.info.longValue ∧ obj.info.longValue ≤ 2 ^ 63 - 1) →
      w.pyErr = some PyExc.OverflowError →
      (∃ tc, Object_beginTypeContext env (some obj) w = some (tc, w) ∧ tc.type = .JT_INVALID) ∧
      ∀ fuel, encode env (fuel + 1) w (some obj) = some (w, .invalid)) ∧
    (¬ (-(2 : Int) ^ 63 ≤ obj.info.longValue ∧ obj.info.longValue ≤ 2 ^ 63 - 1) →
      (∃ tc, Object_beginTypeContext env (some obj) w = some (tc, PyErr_Set .OverflowError w) ∧
        tc.type = .JT_INVALID) ∧
      ∀ fuel, encode env (fuel + 1) w (some obj) = some (PyErr_Set .OverflowError w, .invalid)) := by
  obtain ⟨h1, h2, h3, h4, h5⟩ := h
  refine ⟨?_, ?_, ?_⟩
  · intro hr hclean
    have hov : overflowPending w = false := by
      unfold overflowPending
      cases he : w.pyErr with
      | none => rfl
      | some e =>
        cases e <;> first | rfl | (exfalso; exact hclean he)
    refine ⟨longTC .JT_LONG obj.info.longValue, ?_, rfl, rfl⟩
    simp only [Object_beginTypeContext, Object_beginTypeContext_scalar, h1, h2, h3, h4, h5,
      Bool.or_false, Bool.false_eq_true, if_false, if_true, PyLong_AsLongLong, hr, and_self,
      hov]
    rfl
  · intro hr hpend
    have hov : overflowPending w = true := by
      unfold overflowPending
      rw [hpend]
      rfl
    have hb : Object_beginTypeContext env (some obj) w =
        some (longTC .JT_INVALID obj.info.longValue, w) := by
      simp only [Object_beginTypeContext, Object_beginTypeContext_scalar, h1, h2, h3, h4, h5,
        Bool.or_false, Bool.false_eq_true, if_false, if_true, PyLong_AsLongLong, hr, and_self,
        hov]
      rfl
    refine ⟨⟨_, hb, rfl⟩, ?_⟩
    intro fuel
    rw [encode, hb]
    rfl
  · intro hr
    have hb : Object_beginTypeContext env (some obj) w =
        some (longTC .JT_INVALID (-1), PyErr_Set .OverflowError w) := by
      simp only [Object_beginTypeContext, Object_beginTypeContext_scalar, h1, h2, h3, h4, h5,
        Bool.or_false, Bool.false_eq_true, if_false, if_true, PyLong_AsLongLong, hr]
      rfl
    refine ⟨⟨_, hb, rfl⟩, ?_⟩
    intro fuel
    rw [encode, hb]
    rfl

/-- Witness of C7: the list `[2^64, 5]` of arbitrary-precision integers is encoded as
two invalid nodes with the overflow error of the first element still pending; the
integer 5, dispatched in the state the first element leaves, is an invalid node, and
dispatched in a state without a pending error is int64 and read back as 5. -/
theorem C7_in_range_long_invalid_while_overflow_pending_witness :
    encode env64 8 (world0 .COLUMNS) (some (pyList [pyLong (2 ^ 64), pyLong 5])) =
      some (PyErr_Set .OverflowError (world0 .COLUMNS), .array [.invalid, .invalid]) ∧
    (∃ tc, Object_beginTypeContext env64 (some (pyLong 5))
        (PyErr_Set .OverflowError (world0 .COLUMNS)) =
          some (tc, PyErr_Set .OverflowError (world0 .COLUMNS)) ∧ tc.type = .JT_INVALID) ∧
    (∃ tc, Object_beginTypeContext env64 (some (pyLong 5)) (world0 .COLUMNS)
        = some (tc, world0 .COLUMNS) ∧ tc.type = .JT_LONG ∧
      Object_getLongValue (pyLong 5) tc = some 5) :=
  ⟨rfl,
   ((C7_in_range_long_invalid_while_overflow_pending env64
      (PyErr_Set .OverflowError (world0 .COLUMNS)) (pyLong 5) ⟨rfl, rfl, rfl, rfl, rfl⟩).2.1
      (by decide) rfl).1,
   (C7_in_range_long_invalid_while_overflow_pending env64 (world0 .COLUMNS) (pyLong 5)
      ⟨rfl, rfl, rfl, rfl, rfl⟩).1 (by decide) (by simp [world0])⟩

/-- C8. A raw array of size 0 (hence of rank at least 1), dispatched with no cursor
hand-off pending and whatever the output mode, gets the node kind array; its begin
operation leaves the state unchanged, so allocates no cursor, and leaves the cursor
pointer of the node NULL; its next operation reports no more items and leaves the node
and the state as they are, so that every later call does the same; the encoder emits
the empty array. -/
theorem C8_empty_array_no_iteration (env : Env) (w : World) (arr : PyObject)
    (hraw : RawArray arr) (hsize : PyArray_SIZE arr = 0)
    (hslot : w.encoder.npyCtxtPassthru = none) :
    ∃ tc tc1, Object_beginTypeContext env (some arr) w = some (tc, w) ∧ tc.type = .JT_ARRAY ∧
      Object_iterBegin arr tc w = some (tc1, w) ∧ tc1.npyarr = none ∧
      Object_iterNext arr tc1 w = some (0, tc1, w) ∧
      ∀ fuel, encode env (fuel + 2) w (some arr) = some (w, .array []) := by
  have hb := begin_rawArray env arr hraw w hslot
  have hib : Object_iterBegin arr ({ TypeContext.zero .JT_INVALID with type := .JT_ARRAY }.withNpyArr) w
      = some ({ ({ TypeContext.zero .JT_INVALID with type := .JT_ARRAY }.withNpyArr) with
          iterNext := .NpyArr_iterNextNone }, w) := by
    simp [Object_iterBegin, TypeContext.withNpyArr, NpyArr_iterBegin, TypeContext.zero, hsize]
  refine ⟨_, _, hb, rfl, hib, rfl, rfl, ?_⟩
  intro fuel
  have h := encode_node env (fuel + 1) arr w w w w w _ _ _ _ false [] hb rfl hib
    (by rw [iterate]; rfl) (by rfl)
  rw [h]
  rfl

/-- Witness of C8: the empty 0 x 3 array in Index mode is encoded as `[]`. -/
theorem C8_empty_array_no_iteration_witness :
    encode env64 2 (world0 .INDEX) (some emptyArray) = some (world0 .INDEX, .array []) := by
  obtain ⟨_, _, _, _, _, _, _, h⟩ := C8_empty_array_no_iteration env64 (world0 .INDEX) emptyArray
    (by simp [RawArray, emptyArray, PyObject.info]) (by decide) rfl
  exact h 0

/-- C9. When NpyArr_encodeLabels succeeds (the label array has at least `N` elements,
each of the first `N` renders without error as a NUL-free text, and no allocation
fails), the label stored for element `j`, read as a NUL-terminated string, is the
rendered text without its first and last character when the text begins with a quote
and the text unchanged otherwise; its length is the printed length minus 2 in the
quoted case and the printed length otherwise. -/
theorem C9_label_is_trimmed_rendering (env : Env) (labels : PyObject) (N : Nat)
    (text : Nat → List Nat) (w : World) (hsize : (N : Int) ≤ PyArray_SIZE labels)
    (hrender : LabelsEncode env labels N text)
    (herr : w.pyErr = none) (hfail : ∀ b ∈ w.mallocFails, b = false) :
    ∃ la w', NpyArr_encodeLabels env (some labels) (N : Int) w = some (some la, w') ∧
      ∀ j : Nat, j < N →
        labelAt (some la) (j : Int) =
          some (if (text j).head? = some QUOTE then ((text j).drop 1).dropLast else text j) ∧
        (∀ s, labelAt (some la) (j : Int) = some s →
          s.length = if (text j).head? = some QUOTE then (text j).length - 2
            else (text j).length) := by
  obtain ⟨la, w', h1, -, h3, -⟩ := encodeLabels_ok env labels N text w hsize hrender herr hfail
  refine ⟨la, w', h1, ?_⟩
  intro j hj
  refine ⟨h3 j hj, ?_⟩
  intro s hs
  rw [h3 j hj] at hs
  rw [← Option.some.inj hs]
  exact labelText_length (text j)

/-- Witness of C9: the axis label `"abc"` is stored as `abc`, of length 3. -/
theorem C9_label_is_trimmed_rendering_witness :
    ∃ la w', NpyArr_encodeLabels env64 (some labelsAbc) 1 (world0 .COLUMNS) = some (some la, w') ∧
      labelAt (some la) 0 = some (cstr "abc") ∧ (cstr "abc").length = 3 := by
  obtain ⟨la, w', h1, h2⟩ := C9_label_is_trimmed_rendering env64 labelsAbc 1
    (fun _ => [QUOTE] ++ cstr "abc" ++ [QUOTE]) (world0 .COLUMNS) (by decide)
    (by intro j hj; interval_cases j; exact ⟨rfl, by decide, by decide⟩) rfl (by intro b hb; simp [world0] at hb)
  exact ⟨la, w', h1, (h2 0 (by decide)).1, by decide⟩

/-- C10. A label array with fewer elements than the extent `num` of the axis it
annotates makes NpyArr_encodeLabels return no labels, with no allocation and the
encoder untouched; a table dispatch (Records, Index, Columns) or a series dispatch
(Index, Columns) that requested such labels ends with node kind invalid; and when the
array has at least `num` elements and each of the first `num` encodes, exactly `num`
labels come back, label `j` taken from element `j`. -/
theorem C10_short_label_array_invalid (env : Env) :
    (∀ (labels : PyObject) (num : Int) (w : World), PyArray_SIZE labels < num →
      ∃ w', NpyArr_encodeLabels env (some labels) num w = some (none, w') ∧
        w'.mallocCount = w.mallocCount ∧ w'.live = w.live ∧ w'.encoder = w.encoder ∧
        w'.junk = w.junk) ∧
    (∀ (obj values index columns : PyObject) (w : World), IsTable obj →
      obj.child (.attr (cstr "values")) = some values →
      obj.child (.attr (cstr "index")) = some index →
      obj.child (.attr (cstr "columns")) = some columns →
      ShortLabels w.encoder.outputFormat values index columns →
      ∃ tc w', Object_beginTypeContext env (some obj) w = some (tc, w') ∧
        tc.type = .JT_INVALID) ∧
    (∀ (obj index : PyObject) (w : World), IsSeries obj →
      obj.child (.attr (cstr "index")) = some index →
      (w.encoder.outputFormat = .INDEX ∨ w.encoder.outputFormat = .COLUMNS) →
      PyArray_SIZE index < PyArray_SIZE obj →
      ∃ tc w', Object_beginTypeContext env (some obj) w = some (tc, w') ∧
        tc.type = .JT_INVALID) ∧
    (∀ (labels : PyObject) (N : Nat) (text : Nat → List Nat) (w : World),
      (N : Int) ≤ PyArray_SIZE labels → LabelsEncode env labels N text →
      w.pyErr = none → (∀ b ∈ w.mallocFails, b = false) →
      ∃ la w', NpyArr_encodeLabels env (some labels) (N : Int) w = some (some la, w') ∧
        la.entries.length = N ∧
        ∀ j : Nat, j < N → labelAt (some la) (j : Int) = some (labelText (text j))) := by
  refine ⟨?_, ?_, ?_, ?_⟩
  · intro labels num w h
    exact ⟨_, encodeLabels_short env labels num w h, rfl, rfl, rfl, rfl⟩
  · intro obj values index columns w ht hv hi hc hshort
    rw [begin_table env obj w ht]
    have gv := getAttr_some obj values "values" w hv
    cases hf : w.encoder.outputFormat <;> rw [hf] at hshort <;>
      simp only [ShortLabels] at hshort
    · -- RECORDS
      have gc := getAttr_some obj columns "columns" w hc
      simp [Object_beginTypeContext_dataframe, hf, gv, gc, encodeLabels_short env columns _ w hshort]
    · -- INDEX
      have gi := getAttr_some obj index "index" w hi
      by_cases h0 : PyArray_SIZE index < PyArray_DIM values 0
      · simp [Object_beginTypeContext_dataframe, hf, gv, gi, encodeLabels_short env index _ w h0]
      · have h1 : PyArray_SIZE columns < PyArray_DIM values 1 := by
          rcases hshort with h | h
          · exact absurd h h0
          · exact h
        obtain ⟨r, w1, e1⟩ := encodeLabels_some env index (PyArray_DIM values 0) w
        cases r with
        | none => simp [Object_beginTypeContext_dataframe, hf, gv, gi, e1]
        | some r =>
          have gc := getAttr_some obj columns "columns" w1 hc
          simp [Object_beginTypeContext_dataframe, hf, gv, gi, e1, gc,
            encodeLabels_short env columns _ w1 h1]
    · -- COLUMNS
      have gc := getAttr_some obj columns "columns" w hc
      by_cases h0 : PyArray_SIZE columns < PyArray_DIM values 1
      · simp [Object_beginTypeContext_dataframe, hf, gv, gc, encodeLabels_short env columns _ w h0]
      · have h1 : PyArray_SIZE index < PyArray_DIM values 0 := by
          rcases hshort with h | h
          · exact absurd h h0
          · exact h
        obtain ⟨r, w1, e1⟩ := encodeLabels_some env columns (PyArray_DIM values 1) w
        cases r with
        | none => simp [Object_beginTypeContext_dataframe, hf, gv, gc, e1]
        | some r =>
          have gi := getAttr_some obj index "index" w1 hi
          simp [Object_beginTypeContext_dataframe, hf, gv, gc, e1, gi,
            encodeLabels_short env index _ w1 h1]
  · intro obj index w hs hi hf hshort
    obtain ⟨s1, s2, s3, s4, s5, s6⟩ := hs
    rw [begin_containers env obj w (Or.inr (Or.inl s1))]
    have gi := getAttr_some obj index "index" w hi
    rcases hf with hf | hf <;>
      simp [Object_beginTypeContext_iterable, s2, s3, s4, s5, s6, hf, gi,
        encodeLabels_short env index _ w hshort]
  · intro labels N text w hsize hrender herr hfail
    obtain ⟨la, w', h1, h2, h3, -⟩ := encodeLabels_ok env labels N text w hsize hrender herr hfail
    exact ⟨la, w', h1, h2, h3⟩

/-- Witness of C10: the 2 x 3 table whose column axis has only two labels is rejected
in Columns mode. -/
theorem C10_short_label_array_invalid_witness :
    ∃ tc w', Object_beginTypeContext env64 (some tableShort) (world0 .COLUMNS) = some (tc, w') ∧
      tc.type = .JT_INVALID :=
  (C10_short_label_array_invalid env64).2.1 tableShort values23 index23 index23 (world0 .COLUMNS)
    (by simp [IsTable, NoScalar, tableShort, PyObject.info]) rfl rfl rfl (Or.inl (by decide))

/-- Witness of C5: the 2 x 3 table in Split mode yields `columns`, `index`, `data`. -/
theorem C5_split_table_three_members_witness :
    ∃ tc0 tc1 w1 tc2 w2 tc3 w3 tc4 w4,
      Object_beginTypeContext env64 (some table23) (world0 .SPLIT) = some (tc0, world0 .SPLIT) ∧
      tc0.type = .JT_OBJECT ∧
      Object_iterBegin table23 tc0 (world0 .SPLIT) = some (tc1, w1) ∧
      Object_iterNext table23 tc1 w1 = some (1, tc2, w2) ∧
      Object_iterGetName tc2 w2 = some (some (cstr "columns")) ∧
      Object_iterGetValue tc2 = some (some columns23) ∧
      Object_iterNext table23 tc2 w2 = some (1, tc3, w3) ∧
      Object_iterGetName tc3 w3 = some (some (cstr "index")) ∧
      Object_iterGetValue tc3 = some (some index23) ∧
      Object_iterNext table23 tc3 w3 = some (1, tc4, w4) ∧
      Object_iterGetName tc4 w4 = some (some (cstr "data")) ∧
      Object_iterGetValue tc4 = some (some values23) ∧
      Object_iterNext table23 tc4 w4 = some (0, tc4, w4) :=
  C5_split_table_three_members env64 (world0 .SPLIT) table23 table23_ok.1 rfl (by decide)

/-- C11. A labeled table dispatched in Index or Columns mode, from a state whose live
blocks are distinct blocks of the allocator, ends in one of two outcomes: node kind
object with both label arrays present, of lengths (dim0, dim1) built from (index,
columns) in Index mode and of lengths (dim1, dim0) built from (columns, index) with the
transpose flag set in Columns mode; or node kind invalid with both label pointers null,
and, when the row labels were built and the column labels failed, with the row labels
freed: the label array block and every label string block, live after the row labels
were built, are no longer live after the dispatch. -/
theorem C11_both_labels_or_neither (env : Env) (obj values index columns : PyObject)
    (w : World) (ht : IsTable obj) (hheap : HeapOK w)
    (hv : obj.child (.attr (cstr "values")) = some values)
    (hi : obj.child (.attr (cstr "index")) = some index)
    (hc : obj.child (.attr (cstr "columns")) = some columns) :
    (w.encoder.outputFormat = .INDEX →
      ∃ tc w', Object_beginTypeContext env (some obj) w = some (tc, w') ∧
        LabelsOutcome env w w' tc index columns (PyArray_DIM values 0) (PyArray_DIM values 1) 0) ∧
    (w.encoder.outputFormat = .COLUMNS →
      ∃ tc w', Object_beginTypeContext env (some obj) w = some (tc, w') ∧
        LabelsOutcome env w w' tc columns index (PyArray_DIM values 1) (PyArray_DIM values 0) 1) := by
  have gv := getAttr_some obj values "values" w hv
  constructor
  · intro hf
    rw [begin_table env obj w ht]
    have gi := getAttr_some obj index "index" w hi
    obtain ⟨r, w1, e1⟩ := encodeLabels_some env index (PyArray_DIM values 0) w
    cases r with
    | none =>
      unfold Object_beginTypeContext_dataframe
      simp only [hf, gv, gi, reduceCtorEq, if_false, if_true, e1]
      exact ⟨_, _, rfl, Or.inr ⟨rfl, rfl, rfl, Or.inl e1⟩⟩
    | some r =>
      have gc := getAttr_some obj columns "columns" w1 hc
      obtain ⟨l, w2, e2⟩ := encodeLabels_some env columns (PyArray_DIM values 1) w1
      have s1 := encodeLabels_success env index _ w w1 r e1
      have hw1 := heap_encodeLabels env (some index) _ w w1 (some r) e1 hheap
      have hw2 := heap_encodeLabels env (some columns) _ w1 w2 l e2 hw1
      cases l with
      | none =>
        unfold Object_beginTypeContext_dataframe
        simp only [hf, gv, gi, reduceCtorEq, if_false, if_true, e1, gc, e2]
        exact ⟨_, _, rfl, Or.inr ⟨rfl, rfl, rfl, Or.inr ⟨r, w1, w2, e1, e2, rfl, s1.1,
          freeLabels_frees r _ w2 hw2 (le_of_eq s1.2)⟩⟩⟩
      | some l =>
        unfold Object_beginTypeContext_dataframe
        simp only [hf, gv, gi, reduceCtorEq, if_false, if_true, e1, gc, e2]
        exact ⟨_, _, rfl, Or.inl ⟨rfl, rfl, rfl, rfl, r, l, w1, rfl, rfl, e1, e2, s1.2,
          (encodeLabels_success env columns _ w1 w2 l e2).2⟩⟩
  · intro hf
    rw [begin_table env obj w ht]
    have gc := getAttr_some obj columns "columns" w hc
    obtain ⟨r, w1, e1⟩ := encodeLabels_some env columns (PyArray_DIM values 1) w
    cases r with
    | none =>
      unfold Object_beginTypeContext_dataframe
      simp only [hf, gv, gc, reduceCtorEq, if_false, if_true, e1]
      exact ⟨_, _, rfl, Or.inr ⟨rfl, rfl, rfl, Or.inl e1⟩⟩
    | some r =>
      have gi := getAttr_some obj index "index" w1 hi
      obtain ⟨l, w2, e2⟩ := encodeLabels_some env index (PyArray_DIM values 0) w1
      have s1 := encodeLabels_success env columns _ w w1 r e1
      have hw1 := heap_encodeLabels env (some columns) _ w w1 (some r) e1 hheap
      have hw2 := heap_encodeLabels env (some index) _ w1 w2 l e2 hw1
      cases l with
      | none =>
        unfold Object_beginTypeContext_dataframe
        simp only [hf, gv, gc, reduceCtorEq, if_false, if_true, e1, gi, e2]
        exact ⟨_, _, rfl, Or.inr ⟨rfl, rfl, rfl, Or.inr ⟨r, w1, w2, e1, e2, rfl, s1.1,
          freeLabels_frees r _ w2 hw2 (le_of_eq s1.2)⟩⟩⟩
      | some l =>
        unfold Object_beginTypeContext_dataframe
        simp only [hf, gv, gc, reduceCtorEq, if_false, if_true, e1, gi, e2]
        exact ⟨_, _, rfl, Or.inl ⟨rfl, rfl, rfl, rfl, r, l, w1, rfl, rfl, e1, e2, s1.2,
          (encodeLabels_success env index _ w1 w2 l e2).2⟩⟩

/-- Witness of C11: the 2 x 3 table in Index mode is an object node with both label
arrays; the table whose column axis has only two labels, in Index mode, is an invalid
node without labels, and of the three blocks allocated for its row labels none is live
after the dispatch. -/
theorem C11_both_labels_or_neither_witness :
    (∃ tc w', Object_beginTypeContext env64 (some table23) (world0 .INDEX) = some (tc, w') ∧
      LabelsOutcome env64 (world0 .INDEX) w' tc index23 columns23 2 3 0 ∧
      tc.type = .JT_OBJECT ∧ tc.rowLabels = some (labelArrayOf 0 ["r0", "r1"]) ∧
      tc.columnLabels = some (labelArrayOf 3 ["c0", "c1", "c2"])) ∧
    (∃ tc w', Object_beginTypeContext env64 (some tableShort) (world0 .INDEX) = some (tc, w') ∧
      LabelsOutcome env64 (world0 .INDEX) w' tc index23 index23 2 3 0 ∧
      tc.type = .JT_INVALID ∧ tc.rowLabels = none ∧ tc.columnLabels = none ∧
      w'.mallocCount = 3 ∧ w'.live = []) := by
  have hheap : HeapOK (world0 .INDEX) := ⟨List.nodup_nil, fun p hp => by simp [world0] at hp⟩
  constructor
  · obtain ⟨tc, w', hb, ho⟩ := (C11_both_labels_or_neither env64 table23 values23 index23
      columns23 (world0 .INDEX) table23_ok.1 hheap rfl rfl rfl).1 rfl
    have e := hb.symm.trans table23_index_labels
    obtain ⟨rfl, rfl⟩ := pair_of_some e
    exact ⟨_, _, hb, ho, rfl, rfl, rfl⟩
  · obtain ⟨tc, w', hb, ho⟩ := (C11_both_labels_or_neither env64 tableShort values23 index23
      index23 (world0 .INDEX) (by simp [IsTable, NoScalar, tableShort, PyObject.info]) hheap
      rfl rfl rfl).1 rfl
    obtain ⟨tc0, w0, h0, h1, h2, h3, h4, h5⟩ : ∃ tc0 w0,
        Object_beginTypeContext env64 (some tableShort) (world0 .INDEX) = some (tc0, w0) ∧
        tc0.type = .JT_INVALID ∧ tc0.rowLabels = none ∧ tc0.columnLabels = none ∧
        w0.mallocCount = 3 ∧ w0.live = [] := ⟨_, _, rfl, rfl, rfl, rfl, rfl, rfl⟩
    have e := hb.symm.trans h0
    obtain ⟨rfl, rfl⟩ := pair_of_some e
    exact ⟨_, _, hb, ho, h1, h2, h3, h4, h5⟩

/-- C12. PyDateTimeToINT64 gives the epoch seconds
`86400*(ord(y,m,d) - 719163) + 3600*h + 60*mn + s` whenever the minutes since the epoch
fit a 32 bit int (hour, minute and second in their ranges), and the epoch itself maps
to 0; at 6053-01-23T02:08:00, the first minute that does not fit, the int expression
`(days*24 + h)*60 + mn` wraps and the function gives -128849018880 where the epoch
seconds are 128849018880. -/
theorem C12_datetime_minutes_wrap_at_int_width :
    (∀ obj : PyObject,
      0 ≤ obj.info.hour → obj.info.hour < 24 → 0 ≤ obj.info.minute → obj.info.minute < 60 →
      0 ≤ obj.info.second → obj.info.second < 60 →
      -(2 : Int) ^ 31 ≤ epochMinutes obj.info.year obj.info.month obj.info.day obj.info.hour
        obj.info.minute →
      epochMinutes obj.info.year obj.info.month obj.info.day obj.info.hour obj.info.minute
        < 2 ^ 31 →
      PyDateTimeToINT64 obj = epochSeconds obj.info.year obj.info.month obj.info.day
        obj.info.hour obj.info.minute obj.info.second) ∧
    toordinal 1970 1 1 = 719163 ∧
    PyDateTimeToINT64 (pyDateTime 1970 1 1 0 0 0) = 0 ∧
    epochSeconds 6053 1 23 2 8 0 = 128849018880 ∧
    PyDateTimeToINT64 (pyDateTime 6053 1 23 2 8 0) = -128849018880 := by
  refine ⟨?_, by decide, by decide, by decide, by decide⟩
  intro obj h0 h1 m0 m1 s0 s1 lo hi
  unfold PyDateTimeToINT64 epochSeconds
  simp only [toordinal_day]
  unfold epochMinutes at lo hi
  generalize toordinal obj.info.year obj.info.month obj.info.day - 719163 = D at lo hi ⊢
  have hD : wrap32 D = D := wrap32_fits D (by omega) (by omega)
  rw [hD, wrap32_fits _ lo hi, wrap64_fits _ (by omega) (by omega)]
  ring

/-- Witness of C12: 2013-02-28T13:30:15 is 1362058215 seconds after the epoch. -/
theorem C12_datetime_minutes_wrap_at_int_width_witness :
    PyDateTimeToINT64 (pyDateTime 2013 2 28 13 30 15) = 1362058215 :=
  (C12_datetime_minutes_wrap_at_int_width.1 (pyDateTime 2013 2 28 13 30 15)
    (by decide) (by decide) (by decide) (by decide) (by decide) (by decide) (by decide)
    (by decide)).trans (by decide)

/-- C13. PyDateToINT64 of a date equals PyDateTimeToINT64 of midnight of that day
whenever the minutes since the epoch fit a 32 bit int, both being 86400 times the days
since the epoch; for the date 6053-01-24 the first gives 128849097600 and the second,
whose int expression wraps, gives -128848940160. -/
theorem C13_date_is_midnight_until_int_wraps :
    (∀ y m d : Int, -(2 : Int) ^ 31 ≤ epochMinutes y m d 0 0 → epochMinutes y m d 0 0 < 2 ^ 31 →
      PyDateToINT64 (pyDate y m d) = PyDateTimeToINT64 (pyDateTime y m d 0 0 0) ∧
      PyDateToINT64 (pyDate y m d) = 86400 * (toordinal y m d - 719163)) ∧
    PyDateToINT64 (pyDate 6053 1 24) = 128849097600 ∧
    PyDateTimeToINT64 (pyDateTime 6053 1 24 0 0 0) = -128848940160 := by
  refine ⟨?_, by decide, by decide⟩
  intro y m d lo hi
  unfold PyDateToINT64 PyDateTimeToINT64
  simp only [pyDate, pyDateTime, PyObject.info, toordinal_day]
  unfold epochMinutes at lo hi
  generalize toordinal y m d - 719163 = D at lo hi ⊢
  have hD : wrap32 D = D := wrap32_fits D (by omega) (by omega)
  rw [hD, wrap32_fits _ lo hi, wrap64_fits _ (by omega) (by omega),
    wrap64_fits _ (by omega) (by omega)]
  constructor <;> ring

/-- Witness of C13: the date 2013-02-28 is midnight of that day, 1362009600. -/
theorem C13_date_is_midnight_until_int_wraps_witness :
    PyDateToINT64 (pyDate 2013 2 28) = PyDateTimeToINT64 (pyDateTime 2013 2 28 0 0 0) ∧
    PyDateToINT64 (pyDate 2013 2 28) = 86400 * (toordinal 2013 2 28 - 719163) :=
  C13_date_is_midnight_until_int_wraps.1 2013 2 28 (by decide) (by decide)

/-- C14. A mapping with `n` entries is dispatched as an object whose iterator yields
exactly `n` pairs in the order of PyDict_Next and then stops: call `k + 1` of the next
operation reports an item whose name is the text of key `k` (the key itself when it is a
byte string, its UTF-8 transcoding when it is Unicode, the host's string conversion
otherwise) and whose value is the value of entry `k`; call `n + 1` and every later call
report no more items. -/
theorem C14_mapping_iterator_pairs (env : Env) (w : World) (d : PyObject) (n : Nat)
    (key name : Nat → PyObject)
    (hd : d.info.PyDict_Check = true) (hr : ReachesContainers d) (hsize : d.info.size = n)
    (hkey : ∀ k : Nat, k < n → d.child (.dictKey (k : Int)) = some (key k))
    (hname : ∀ k : Nat, k < n → keyText (key k) = some (name k)) :
    ∃ (tc0 : TypeContext) (tcs : Nat → TypeContext) (tcEnd : TypeContext),
      Object_beginTypeContext env (some d) w = some (tc0, w) ∧ tc0.type = .JT_OBJECT ∧
      Object_iterBegin d tc0 w = some (tcs 0, w) ∧
      (∀ k : Nat, k < n →
        Object_iterNext d (tcs k) w = some (1, tcs (k + 1), w) ∧
        Object_iterGetName (tcs (k + 1)) w = some (some (name k).info.PyString_AS_STRING) ∧
        Object_iterGetValue (tcs (k + 1)) = some (d.child (.dictValue (k : Int)))) ∧
      Object_iterNext d (tcs n) w = some (0, tcEnd, w) ∧
      Object_iterNext d tcEnd w = some (0, tcEnd, w) := by
  have hnext : ∀ (nm v : Option PyObject) (i : Int),
      Object_iterNext d (dictNode d nm v i) w =
        (Dict_iterNext (dictNode d nm v i)).map (fun r => (r.1, r.2, w)) := fun _ _ _ => rfl
  have hnode : ∀ k : Nat, ∃ nm v, dictAfter d name k = dictNode d nm v (k : Int) := by
    intro k
    cases k with
    | zero => exact ⟨none, none, rfl⟩
    | succ j =>
      refine ⟨some (name j), d.child (.dictValue (j : Int)), ?_⟩
      rw [Nat.cast_succ]
      rfl
  obtain ⟨nmN, vN, hN⟩ := hnode n
  refine ⟨_, dictAfter d name, dictNode d none vN (n : Int), begin_dict env d w hd hr, rfl, rfl,
    ?_, ?_, ?_⟩
  · intro k hk
    obtain ⟨nm, v, hkv⟩ := hnode k
    refine ⟨?_, rfl, rfl⟩
    rw [hkv, hnext, dict_next_step d nm v k n (key k) (name k) hsize hk (hkey k hk) (hname k hk)]
    rfl
  · rw [hN, hnext, dict_next_stop d nmN vN n hsize]
    rfl
  · rw [hnext, dict_next_stop d none vN n hsize]
    rfl

/-- Witness of C14: the mapping with the entries `1: 10` and `"b": 20` yields the
names `1` and `b` in that order. -/
theorem C14_mapping_iterator_pairs_witness :
    ∃ (tc0 : TypeContext) (tcs : Nat → TypeContext) (tcEnd : TypeContext),
      Object_beginTypeContext env64 (some dict2) (world0 .COLUMNS) = some (tc0, world0 .COLUMNS) ∧
      tc0.type = .JT_OBJECT ∧
      Object_iterBegin dict2 tc0 (world0 .COLUMNS) = some (tcs 0, world0 .COLUMNS) ∧
      (∀ k : Nat, k < 2 →
        Object_iterNext dict2 (tcs k) (world0 .COLUMNS) = some (1, tcs (k + 1), world0 .COLUMNS) ∧
        Object_iterGetName (tcs (k + 1)) (world0 .COLUMNS) =
          some (some (if k = 0 then pyStr "1" else pyStr "b").info.PyString_AS_STRING) ∧
        Object_iterGetValue (tcs (k + 1)) = some (dict2.child (.dictValue (k : Int)))) ∧
      Object_iterNext dict2 (tcs 2) (world0 .COLUMNS) = some (0, tcEnd, world0 .COLUMNS) ∧
      Object_iterNext dict2 tcEnd (world0 .COLUMNS) = some (0, tcEnd, world0 .COLUMNS) :=
  C14_mapping_iterator_pairs env64 (world0 .COLUMNS) dict2 2
    (fun k => if k = 0 then .mk { PyInt_Check := true, PyInt_AS_LONG := 1 }
          (fun t => match t with
            | .str => some (pyStr "1")
            | _ => none) else pyStr "b")
    (fun k => if k = 0 then pyStr "1" else pyStr "b")
    rfl (Or.inr (Or.inr (by simp [NoScalar, dict2, PyObject.info]))) rfl
    (by intro k hk; interval_cases k <;> rfl)
    (by intro k hk; interval_cases k <;> rfl)

/-- C15. The top-level call fails with the invalid-argument error (ValueError) without
ever handing control to the encoder exactly when an orient string is supplied that is
none of `columns`, `records`, `index`, `split`, `values`; in every other case the
encoder is invoked with the output mode Records, Index, Split, Values for the strings
of those names and Columns for `columns` or an absent orient, and with the saved
original mode equal to that mode. -/
theorem C15_orient_selects_mode_or_fails (env : Env) (fuel : Nat) (w : World)
    (oinput : PyObject) (sOrient : Option (List Nat)) :
    (objToJSON env fuel w oinput sOrient).invoked = (orientMode sOrient).map encoderFor ∧
    (objToJSON env fuel w oinput sOrient =
        { invoked := none, pyErr := some .ValueError, ret := none, finished := true } ↔
      ∃ s, sOrient = some s ∧ s ≠ cstr "columns" ∧ s ≠ cstr "records" ∧ s ≠ cstr "index" ∧
        s ≠ cstr "split" ∧ s ≠ cstr "values") ∧
    orientMode none = some .COLUMNS ∧
    orientMode (some (cstr "columns")) = some .COLUMNS ∧
    orientMode (some (cstr "records")) = some .RECORDS ∧
    orientMode (some (cstr "index")) = some .INDEX ∧
    orientMode (some (cstr "split")) = some .SPLIT ∧
    orientMode (some (cstr "values")) = some .VALUES ∧
    (∀ f, (encoderFor f).outputFormat = f ∧ (encoderFor f).originalOutputFormat = f) := by
  obtain ⟨h1, h2⟩ := objToJSON_invoked env fuel w oinput sOrient
  refine ⟨h1, ?_, rfl, by decide, by decide, by decide, by decide, by decide,
    fun _ => ⟨rfl, rfl⟩⟩
  rw [← orientMode_none]
  constructor
  · intro h
    rw [h] at h1
    cases hm : orientMode sOrient with
    | none => rfl
    | some f =>
      rw [hm] at h1
      cases h1
  · exact h2

/-- Counterexample to C16 as stated: a toDict method that returns the integer 5, not a
mapping, dispatched while an overflow error is pending, gives a null node and leaves
the error pending; the list `[2^64, o]` with such an `o` is encoded as an invalid node
and a null node with the overflow error of the first element still pending. -/
theorem C16_non_mapping_keeps_pending_error :
    (∃ tc, Object_beginTypeContext env64 (some (withToDict (some (pyLong 5))))
        (PyErr_Set .OverflowError (world0 .COLUMNS)) =
          some (tc, PyErr_Set .OverflowError (world0 .COLUMNS)) ∧ tc.type = .JT_NULL ∧
        (PyErr_Set .OverflowError (world0 .COLUMNS)).pyErr = some .OverflowError ∧
        (PyErr_Set .OverflowError (world0 .COLUMNS)).pyErr ≠ none) ∧
    ∃ w', encode env64 8 (world0 .COLUMNS)
        (some (pyList [pyLong (2 ^ 64), withToDict (some (pyLong 5))])) =
          some (w', .array [.invalid, .null]) ∧ w'.pyErr = some .OverflowError :=
  ⟨⟨_, rfl, rfl, rfl, by decide⟩, ⟨_, rfl, rfl⟩⟩

/-- C16 (amended). A value that matches no dedicated handler and exposes a toDict
method: when the call of the method raises, the node kind is null and no host error is
pending afterwards; when it returns something that is not a mapping, the node kind is
null and the state is as before the dispatch, so that the host error state is left as
it was (an error pending before the dispatch stays pending); when it returns a mapping,
the node is the object node of the mapping iterator over the returned mapping. In no
case is the dispatch aborted. -/
theorem C16_toDict_fallback (env : Env) (o f : PyObject) (w : World) (h : NoHandler o)
    (hf : o.child (.attr (cstr "toDict")) = some f) :
    (f.child .call = none →
      ∃ tc, Object_beginTypeContext env (some o) w = some (tc, PyErr_Clear w) ∧
        tc.type = .JT_NULL ∧ (PyErr_Clear w).pyErr = none) ∧
    (∀ r, f.child .call = some r → r.info.PyDict_Check = false →
      ∃ tc, Object_beginTypeContext env (some o) w = some (tc, w) ∧ tc.type = .JT_NULL) ∧
    (∀ r, f.child .call = some r → r.info.PyDict_Check = true →
      Object_beginTypeContext env (some o) w = some (dictTC r, w) ∧
        (dictTC r).type = .JT_OBJECT ∧ (dictTC r).dictObj = some r ∧
        (dictTC r).iterBegin = .Dict_iterBegin ∧ (dictTC r).iterNext = .Dict_iterNext ∧
        (dictTC r).iterEnd = .Dict_iterEnd ∧ (dictTC r).iterGetName = .Dict_iterGetName ∧
        (dictTC r).iterGetValue = .Dict_iterGetValue) := by
  have hb := begin_nohandler env o w h
  rw [getAttr_some o f "toDict" w hf] at hb
  refine ⟨?_, ?_, ?_⟩
  · intro hc
    simp only [hc] at hb
    exact ⟨_, hb, rfl, rfl⟩
  · intro r hc hd
    simp only [hc, hd, Bool.not_false, if_true] at hb
    exact ⟨_, hb, rfl⟩
  · intro r hc hd
    simp only [hc, hd, Bool.not_true, Bool.false_eq_true, if_false] at hb
    exact ⟨hb, rfl, rfl, rfl, rfl, rfl, rfl, rfl⟩

/-- Witness of C16 (amended): a toDict that raises gives null, one that returns the
integer 5 gives null in the unchanged state, and one that returns the mapping `dict2`
gives the object node over `dict2`. -/
theorem C16_toDict_fallback_witness :
    (∃ tc, Object_beginTypeContext env64 (some (withToDict none)) (world0 .COLUMNS) =
        some (tc, PyErr_Clear (world0 .COLUMNS)) ∧ tc.type = .JT_NULL ∧
        (PyErr_Clear (world0 .COLUMNS)).pyErr = none) ∧
    (∃ tc, Object_beginTypeContext env64 (some (withToDict (some (pyLong 5))))
        (PyErr_Set .OverflowError (world0 .COLUMNS)) =
          some (tc, PyErr_Set .OverflowError (world0 .COLUMNS)) ∧ tc.type = .JT_NULL) ∧
    Object_beginTypeContext env64 (some (withToDict (some dict2))) (world0 .COLUMNS) =
      some (dictTC dict2, world0 .COLUMNS) :=
  ⟨(C16_toDict_fallback env64 (withToDict none) _ (world0 .COLUMNS)
      (by simp [NoHandler, NoScalar, withToDict, PyObject.info]) rfl).1 rfl,
   (C16_toDict_fallback env64 (withToDict (some (pyLong 5))) _
      (PyErr_Set .OverflowError (world0 .COLUMNS))
      (by simp [NoHandler, NoScalar, withToDict, PyObject.info]) rfl).2.1 (pyLong 5) rfl rfl,
   ((C16_toDict_fallback env64 (withToDict (some dict2)) _ (world0 .COLUMNS)
      (by simp [NoHandler, NoScalar, withToDict, PyObject.info]) rfl).2.2 dict2 rfl rfl).1⟩

/-- C17. A generic object handled by the reflection fallback (no dedicated handler, no
toDict attribute) whose directory listing is the list `names`: the dispatcher makes it
an object node; from the begin operation on, the item loop yields exactly the members
of `publicMembers`, that is, in the order of `names`, the names not beginning with an
underscore whose read succeeds with a value that is not callable, each with the value
read; a failing read is skipped and leaves no error pending; after the last member the
next operation reports no more items, and does so again on every later call. -/
theorem C17_reflection_members (env : Env) (obj l : PyObject) (names : List PyObject) (w : World)
    (h : NoHandler obj) (hno : obj.child (.attr (cstr "toDict")) = none)
    (hdir : obj.child .dir = some l) (hsize : l.info.size = (names.length : Int))
    (hitems : ∀ (k : Nat) (x : PyObject), names[k]? = some x →
      l.child (.item (0 + (k : Int))) = some x) :
    Object_beginTypeContext env (some obj) w = some (dirTC, PyErr_Clear w) ∧
    dirTC.type = .JT_OBJECT ∧
    (∀ w1, Object_iterBegin obj dirTC w1 = some (dirNode l none none 0, w1)) ∧
    ∀ (fuel : Nat) (w1 : World), names.length + 1 ≤ fuel →
      ∃ tcEnd, drain obj fuel (dirNode l none none 0) w1 =
          some ((publicMembers obj names).map
              (fun p => (some p.1.info.PyString_AS_STRING, some p.2)),
            tcEnd, clearIf (anyReadFails obj names) w1) ∧
        (anyReadFails obj names = true → (clearIf (anyReadFails obj names) w1).pyErr = none) ∧
        Object_iterNext obj tcEnd (clearIf (anyReadFails obj names) w1) =
          some (0, tcEnd, clearIf (anyReadFails obj names) w1) := by
  refine ⟨?_, rfl, ?_, ?_⟩
  · rw [begin_nohandler env obj w h]
    simp only [PyObject_GetAttrString, PyObject_GetAttr, hno, clear_set]
    rfl
  · intro w1
    simp only [Object_iterBegin, dirTC, TypeContext.zero, Dir_iterBegin, hdir, Option.map_some']
    rfl
  · intro fuel w1 hfuel
    obtain ⟨nm', hd⟩ := drain_dir obj l names 0 none none w1 fuel hitems (by rw [hsize]; ring) hfuel
    refine ⟨_, hd, ?_, ?_⟩
    · intro hb
      rw [hb]
      rfl
    · show Dir_iterNext obj (dirNode l nm' none l.info.size) _ = _
      rw [Dir_iterNext_node, sub_self]
      rfl

/-- Witness of C17: of the attributes `_p`, `a`, `m`, `b`, `c` the walk yields `a` = 1
and `c` = 3, the private `_p`, the method `m` and the unreadable `b` being skipped. -/
theorem C17_reflection_members_witness :
    ∃ tcEnd, drain generic5 6
        (dirNode (pyList [pyStr "_p", pyStr "a", pyStr "m", pyStr "b", pyStr "c"]) none none 0)
        (world0 .COLUMNS) =
      some ([(some (cstr "a"), some (pyInt 1)), (some (cstr "c"), some (pyInt 3))], tcEnd,
        PyErr_Clear (world0 .COLUMNS)) := by
  obtain ⟨tcEnd, h, -⟩ := (C17_reflection_members env64 generic5
    (pyList [pyStr "_p", pyStr "a", pyStr "m", pyStr "b", pyStr "c"])
    [pyStr "_p", pyStr "a", pyStr "m", pyStr "b", pyStr "c"] (world0 .COLUMNS)
    (by simp [NoHandler, NoScalar, generic5, PyObject.info]) rfl rfl rfl
    (fun k x hx => by rw [pyList_item]; exact hx)).2.2.2 6 (world0 .COLUMNS) (by decide)
  exact ⟨tcEnd, h⟩

/-- C18. A raw array dispatched while the hand-off slot holds a live cursor adopts
exactly that cursor: the node points at it, no block is allocated and no cursor is
written, the begin operation of the node changes nothing, the slot is empty afterwards,
and the node kind is object when the cursor carries column labels and array otherwise.
The slot is stored into only by a descending NpyArr_iterNext, which reports an item:
every other next operation, every begin and end operation and the end of a node leave
it as it is, and a dispatch leaves it as it is or empties it. -/
theorem C18_handoff_consumed_once (env : Env) :
    (∀ (arr : PyObject) (w : World) (p : Nat) (c : NpyArrContext), RawArray arr →
      w.encoder.npyCtxtPassthru = some p → w.deref (some p) = some (p, c) →
      Object_beginTypeContext env (some arr) w =
          some (passthruTC p c.columnLabels, w.setPassthru none) ∧
        (passthruTC p c.columnLabels).npyarr = some p ∧
        (passthruTC p c.columnLabels).type =
          (if c.columnLabels.isSome then .JT_OBJECT else .JT_ARRAY) ∧
        (w.setPassthru none).encoder.npyCtxtPassthru = none ∧
        (w.setPassthru none).mallocCount = w.mallocCount ∧
        (w.setPassthru none).live = w.live ∧ (w.setPassthru none).cursors = w.cursors ∧
        Object_iterBegin arr (passthruTC p c.columnLabels) (w.setPassthru none) =
          some (passthruTC p c.columnLabels, w.setPassthru none)) ∧
    (∀ (obj : PyObject) (tc tc' : TypeContext) (w w' : World) (r : Int),
      Object_iterNext obj tc w = some (r, tc', w') →
      w'.encoder.npyCtxtPassthru = w.encoder.npyCtxtPassthru ∨
        (tc.iterNext = .NpyArr_iterNext ∧ r = 1 ∧ tc.npyarr.isSome = true ∧
          w'.encoder.npyCtxtPassthru = tc.npyarr)) ∧
    (∀ (obj : PyObject) (tc tc' : TypeContext) (w w' : World),
      Object_iterBegin obj tc w = some (tc', w') →
      w'.encoder.npyCtxtPassthru = w.encoder.npyCtxtPassthru) ∧
    (∀ (tc tc' : TypeContext) (w w' : World), Object_iterEnd tc w = some (tc', w') →
      w'.encoder.npyCtxtPassthru = w.encoder.npyCtxtPassthru) ∧
    (∀ (tc : TypeContext) (w : World),
      (Object_endTypeContext tc w).encoder.npyCtxtPassthru = w.encoder.npyCtxtPassthru) ∧
    (∀ (o : Option PyObject) (tc : TypeContext) (w w' : World),
      Object_beginTypeContext env o w = some (tc, w') →
      w'.encoder.npyCtxtPassthru = w.encoder.npyCtxtPassthru ∨
        w'.encoder.npyCtxtPassthru = none) := by
  refine ⟨?_, ?_, ?_, ?_, ?_, ?_⟩
  · intro arr w p c hraw hslot hd
    obtain ⟨h1, h2, h3, h4, h5, h6⟩ := hraw
    refine ⟨?_, rfl, rfl, rfl, rfl, rfl, rfl, rfl⟩
    simp only [Object_beginTypeContext, Object_beginTypeContext_iterable, h1, h2, h3, h4, h5, h6,
      Bool.or_true, if_true, Bool.false_eq_true, if_false, hslot, hd]
    rfl
  · intro obj tc tc' w w' r h
    exact (iterNext_modes obj tc tc' w w' r h).2.2.2
  · intro obj tc tc' w w' h
    exact (iterBegin_modes obj tc tc' w w' h).1
  · intro tc tc' w w' h
    exact (iterEnd_modes tc tc' w w' h).1
  · intro tc w
    have := modes_endTypeContext tc w
    simp only [World.modes, Prod.mk.injEq] at this
    exact this.1
  · intro o tc w w' h
    exact (begin_modes env o w w' tc h).2.2.1

/-- Witness of C18: the 2 x 3 values dispatched while `cursor23` waits in the slot
adopt it as an array node and empty the slot. -/
theorem C18_handoff_consumed_once_witness :
    Object_beginTypeContext env64 (some values23) worldHandoff =
        some (passthruTC 0 none, worldHandoff.setPassthru none) ∧
      (worldHandoff.setPassthru none).encoder.npyCtxtPassthru = none :=
  let h := (C18_handoff_consumed_once env64).1 values23 worldHandoff 0 cursor23
    table23_ok.2.1 rfl rfl
  ⟨h.1, h.2.2.2.1⟩

/-- C19. Every call of NpyArr_encodeLabels on a label array returns, and whether it
returns labels or none (short array, failed allocation, failed element) the buffer
pointers `start`, `end` and `offset` of the encoder are afterwards what they were
before the call. -/
theorem C19_label_encoding_restores_buffer (env : Env) (labels : PyObject) (num : Int)
    (w : World) :
    ∃ r w', NpyArr_encodeLabels env (some labels) num w = some (r, w') ∧
      w'.encoder.enc.start = w.encoder.enc.start ∧
      w'.encoder.enc.end_ = w.encoder.enc.end_ ∧
      w'.encoder.enc.offset = w.encoder.enc.offset := by
  obtain ⟨r, w', h, -, h1, h2, h3⟩ := encodeLabels_keeps env labels num w
  exact ⟨r, w', h, h1, h2, h3⟩

/-- C20. A labeled axis in Split mode is dispatched as an object whose iterator, once
its name buffer is allocated, yields exactly two members, `name` valued by the name of
the axis and `data` valued by its underlying values, and then reports no more items on
every later call. In every other mode it is dispatched as an array node without labels
whose cursor walks the underlying values, and a non-empty axis is encoded as the
nesting of the elements of those values. -/
theorem C20_axis_split_or_array (env : Env) (w : World) (obj : PyObject) (h : IsIndexLike obj) :
    (w.encoder.outputFormat = .SPLIT → w.mallocFails.head? ≠ some true →
      ∃ tc1 w1 tc2 w2 tc3 w3,
        Object_beginTypeContext env (some obj) w = some (splitIndexTC, w) ∧
        splitIndexTC.type = .JT_OBJECT ∧
        Object_iterBegin obj splitIndexTC w = some (tc1, w1) ∧
        Object_iterNext obj tc1 w1 = some (1, tc2, w2) ∧
        Object_iterGetName tc2 w2 = some (some (cstr "name")) ∧
        Object_iterGetValue tc2 = some (obj.child (.attr (cstr "name"))) ∧
        Object_iterNext obj tc2 w2 = some (1, tc3, w3) ∧
        Object_iterGetName tc3 w3 = some (some (cstr "data")) ∧
        Object_iterGetValue tc3 = some (obj.child (.attr (cstr "values"))) ∧
        Object_iterNext obj tc3 w3 = some (0, tc3, w3)) ∧
    (w.encoder.outputFormat ≠ .SPLIT →
      ∀ values, obj.child (.attr (cstr "values")) = some values →
        Object_beginTypeContext env (some obj) w = some (valuesTC (some values), w) ∧
        (valuesTC (some values)).type = .JT_ARRAY ∧
        (valuesTC (some values)).iterBegin = .NpyArr_iterBegin ∧
        (valuesTC (some values)).iterNext = .NpyArr_iterNext ∧
        (valuesTC (some values)).newObj = some values ∧
        (valuesTC (some values)).rowLabels = none ∧
        (valuesTC (some values)).columnLabels = none ∧
        ∀ (L : Int → JSON) (fuel : Nat), RawArray values → 1 ≤ values.info.dims.length →
          values.info.strides.length = values.info.dims.length → 0 < PyArray_SIZE values →
          w.encoder.npyCtxtPassthru = none → w.mallocFails.head? ≠ some true →
          (∀ (a : Int) (f : Nat) (w' : World), w'.encoder.npyCtxtPassthru = none →
            encode env (f + 1) w' (getitem a values) = some (w', L a)) →
          values.info.dims.sum + values.info.dims.length + 1 ≤ fuel →
          ∃ w', encode env fuel w (some obj) =
            some (w', nestedArray L (values.info.dims.zip values.info.strides)
              (PyArray_DATA values))) := by
  have hb := begin_index env obj w h
  constructor
  · intro hfmt hmalloc
    rw [if_pos hfmt] at hb
    obtain ⟨m1, -⟩ := PyObject_Malloc_ok w hmalloc
    have hm : PyObject_Malloc w = (some w.mallocCount, (PyObject_Malloc w).2) := by rw [← m1]
    have hb1 : Object_iterBegin obj splitIndexTC w =
        some (splitIndexAt w.mallocCount [] none 0, (PyObject_Malloc w).2) := by
      simp only [Object_iterBegin, splitIndexTC, Index_iterBegin, alloc_citemName]
      rw [hm]
      rfl
    refine ⟨_, _,
      splitIndexAt w.mallocCount (memcpy_into [] (cstr "name" ++ [0]))
        (obj.child (.attr (cstr "name"))) 1,
      (PyObject_GetAttrString obj "name" (PyObject_Malloc w).2).2,
      splitIndexAt w.mallocCount
        (memcpy_into (memcpy_into [] (cstr "name" ++ [0])) (cstr "data" ++ [0]))
        (obj.child (.attr (cstr "values"))) 2,
      (PyObject_GetAttrString obj "values"
        (PyObject_GetAttrString obj "name" (PyObject_Malloc w).2).2).2,
      hb, rfl, hb1, ?_, ?_, rfl, ?_, ?_, rfl, ?_⟩
    · simp [Object_iterNext, splitIndexAt, splitIndexTC, Index_iterNext, set_citemName,
        TypeContext.zero]
      exact getAttr_fst obj "name" _
    · simp only [Object_iterGetName, splitIndexAt, splitIndexTC, Index_iterGetName, name_name]
      rfl
    · simp [Object_iterNext, splitIndexAt, splitIndexTC, Index_iterNext, set_citemName,
        TypeContext.zero]
      exact getAttr_fst obj "values" _
    · simp only [Object_iterGetName, splitIndexAt, splitIndexTC, Index_iterGetName, name_data2]
      rfl
    · simp [Object_iterNext, splitIndexAt, splitIndexTC, Index_iterNext, TypeContext.zero]
  · intro hfmt values hv
    rw [if_neg hfmt, getAttr_some obj values "values" w hv] at hb
    refine ⟨hb, rfl, rfl, rfl, rfl, rfl, rfl, ?_⟩
    intro L fuel hraw hrank hstr hsize hslot hmalloc hleaf hfuel
    exact walk_of_begin env w w obj values L (some values) rfl hb hraw hrank hstr hsize hslot
      hmalloc hleaf fuel hfuel

/-- Witness of C20: the axis `idx` over `r0`, `r1` yields `name` and `data` in Split
mode and is the array node over its values in Columns mode. -/
theorem C20_axis_split_or_array_witness :
    (∃ tc1 w1 tc2 w2 tc3 w3,
        Object_beginTypeContext env64 (some axis2) (world0 .SPLIT) =
          some (splitIndexTC, world0 .SPLIT) ∧
        splitIndexTC.type = .JT_OBJECT ∧
        Object_iterBegin axis2 splitIndexTC (world0 .SPLIT) = some (tc1, w1) ∧
        Object_iterNext axis2 tc1 w1 = some (1, tc2, w2) ∧
        Object_iterGetName tc2 w2 = some (some (cstr "name")) ∧
        Object_iterGetValue tc2 = some (some (pyStr "idx")) ∧
        Object_iterNext axis2 tc2 w2 = some (1, tc3, w3) ∧
        Object_iterGetName tc3 w3 = some (some (cstr "data")) ∧
        Object_iterGetValue tc3 = some (some index23) ∧
        Object_iterNext axis2 tc3 w3 = some (0, tc3, w3)) ∧
    Object_beginTypeContext env64 (some axis2) (world0 .COLUMNS) =
      some (valuesTC (some index23), world0 .COLUMNS) :=
  ⟨(C20_axis_split_or_array env64 (world0 .SPLIT) axis2
      (by simp [IsIndexLike, ReachesContainers, NoScalar, axis2, PyObject.info])).1 rfl
      (by decide),
   ((C20_axis_split_or_array env64 (world0 .COLUMNS) axis2
      (by simp [IsIndexLike, ReachesContainers, NoScalar, axis2, PyObject.info])).2
      (by decide) index23 rfl).1⟩

/-- C21. A labeled series is dispatched, in Split mode, as an object whose iterator
(name buffer allocated) yields exactly the three members `name`, `index`, `data` in
that order and then stops; in Index or Columns mode, as an object node of the array
cursor over the values of the series carrying one label per element built from the
series' own axis, so that a non-empty rank 1 series is encoded as the object whose
member `k` is named by axis label `k` and valued by element `k`, or as an invalid node
when the labels cannot be built; in Records or Values mode, as an array node of the
array cursor without labels. -/
theorem C21_series_by_mode (env : Env) (w : World) (obj : PyObject) (h : IsSeries obj) :
    (w.encoder.outputFormat = .SPLIT → w.mallocFails.head? ≠ some true →
      ∃ tc1 w1 tc2 w2 tc3 w3 tc4 w4,
        Object_beginTypeContext env (some obj) w = some (splitSeriesTC, w) ∧
        splitSeriesTC.type = .JT_OBJECT ∧
        Object_iterBegin obj splitSeriesTC w = some (tc1, w1) ∧
        Object_iterNext obj tc1 w1 = some (1, tc2, w2) ∧
        Object_iterGetName tc2 w2 = some (some (cstr "name")) ∧
        Object_iterGetValue tc2 = some (obj.child (.attr (cstr "name"))) ∧
        Object_iterNext obj tc2 w2 = some (1, tc3, w3) ∧
        Object_iterGetName tc3 w3 = some (some (cstr "index")) ∧
        Object_iterGetValue tc3 = some (obj.child (.attr (cstr "index"))) ∧
        Object_iterNext obj tc3 w3 = some (1, tc4, w4) ∧
        Object_iterGetName tc4 w4 = some (some (cstr "data")) ∧
        Object_iterGetValue tc4 = some (obj.child (.attr (cstr "values"))) ∧
        Object_iterNext obj tc4 w4 = some (0, tc4, w4)) ∧
    ((w.encoder.outputFormat = .INDEX ∨ w.encoder.outputFormat = .COLUMNS) →
      ∀ (index values : PyObject) (n : Nat) (s : Int) (text : Nat → List Nat) (L : Int → JSON)
        (fuel : Nat),
        obj.child (.attr (cstr "index")) = some index →
        obj.child (.attr (cstr "values")) = some values →
        RawArray values → values.info.dims = [n] → values.info.strides = [s] → 0 < n →
        PyArray_SIZE obj = (n : Int) → (n : Int) ≤ PyArray_SIZE index →
        LabelsEncode env index n text → CleanWorld w →
        (∀ (a : Int) (g : Nat) (w' : World), w'.encoder.npyCtxtPassthru = none →
          encode env (g + 1) w' (getitem a values) = some (w', L a)) →
        n + 2 ≤ fuel →
        (∃ l w1, Object_beginTypeContext env (some obj) w =
            some (seriesTC (some values) l (n : Int), w1) ∧
          (seriesTC (some values) l (n : Int)).type = .JT_OBJECT ∧
          (seriesTC (some values) l (n : Int)).iterNext = .NpyArr_iterNext ∧
          ∀ k : Nat, k < n → labelAt (some l) (k : Int) = some (labelText (text k))) ∧
        ∃ w', encode env fuel w (some obj) =
          some (w', .object ((List.range n).map (fun k : Nat =>
            (some (labelText (text k)), L (PyArray_DATA values + (k : Int) * s)))))) ∧
    ((w.encoder.outputFormat = .INDEX ∨ w.encoder.outputFormat = .COLUMNS) →
      ∀ (index : PyObject) (w2 : World), obj.child (.attr (cstr "index")) = some index →
        NpyArr_encodeLabels env (some index) (PyArray_SIZE obj) w = some (none, w2) →
        ∃ tc, Object_beginTypeContext env (some obj) w = some (tc, w2) ∧
          tc.type = .JT_INVALID) ∧
    ((w.encoder.outputFormat = .RECORDS ∨ w.encoder.outputFormat = .VALUES) →
      ∀ values, obj.child (.attr (cstr "values")) = some values →
        Object_beginTypeContext env (some obj) w = some (valuesTC (some values), w) ∧
        (valuesTC (some values)).type = .JT_ARRAY ∧
        (valuesTC (some values)).iterNext = .NpyArr_iterNext ∧
        (valuesTC (some values)).rowLabels = none ∧
        (valuesTC (some values)).columnLabels = none) := by
  have hb := begin_series env obj w h
  refine ⟨?_, ?_, ?_, ?_⟩
  · intro hfmt hmalloc
    rw [if_pos hfmt] at hb
    obtain ⟨m1, -⟩ := PyObject_Malloc_ok w hmalloc
    have hm : PyObject_Malloc w = (some w.mallocCount, (PyObject_Malloc w).2) := by rw [← m1]
    have hb1 : Object_iterBegin obj splitSeriesTC w =
        some (splitSeriesAt w.mallocCount [] none 0,
          (PyObject_Malloc w).2.setOutputFormat .VALUES) := by
      simp only [Object_iterBegin, splitSeriesTC, Series_iterBegin, alloc_citemName]
      rw [hm]
      rfl
    refine ⟨_, _,
      splitSeriesAt w.mallocCount (memcpy_into [] (cstr "name" ++ [0]))
        (obj.child (.attr (cstr "name"))) 1,
      (PyObject_GetAttrString obj "name" ((PyObject_Malloc w).2.setOutputFormat .VALUES)).2,
      splitSeriesAt w.mallocCount
        (memcpy_into (memcpy_into [] (cstr "name" ++ [0])) (cstr "index" ++ [0]))
        (obj.child (.attr (cstr "index"))) 2,
      (PyObject_GetAttrString obj "index"
        (PyObject_GetAttrString obj "name" ((PyObject_Malloc w).2.setOutputFormat .VALUES)).2).2,
      splitSeriesAt w.mallocCount
        (memcpy_into (memcpy_into (memcpy_into [] (cstr "name" ++ [0])) (cstr "index" ++ [0]))
          (cstr "data" ++ [0]))
        (obj.child (.attr (cstr "values"))) 3,
      (PyObject_GetAttrString obj "values" (PyObject_GetAttrString obj "index"
        (PyObject_GetAttrString obj "name" ((PyObject_Malloc w).2.setOutputFormat .VALUES)).2).2).2,
      hb, rfl, hb1, ?_, ?_, rfl, ?_, ?_, rfl, ?_, ?_, rfl, ?_⟩
    · simp [Object_iterNext, splitSeriesAt, splitSeriesTC, Series_iterNext, set_citemName,
        TypeContext.zero]
      exact getAttr_fst obj "name" _
    · simp only [Object_iterGetName, splitSeriesAt, splitSeriesTC, Index_iterGetName, name_name]
      rfl
    · simp [Object_iterNext, splitSeriesAt, splitSeriesTC, Series_iterNext, set_citemName,
        TypeContext.zero]
      exact getAttr_fst obj "index" _
    · simp only [Object_iterGetName, splitSeriesAt, splitSeriesTC, Index_iterGetName, name_index2]
      rfl
    · simp [Object_iterNext, splitSeriesAt, splitSeriesTC, Series_iterNext, set_citemName,
        TypeContext.zero]
      exact getAttr_fst obj "values" _
    · simp only [Object_iterGetName, splitSeriesAt, splitSeriesTC, Index_iterGetName, name_data3]
      rfl
    · simp [Object_iterNext, splitSeriesAt, splitSeriesTC, Series_iterNext, TypeContext.zero]
  · intro hfmt index values n s text L fuel hi hv hraw hdims hstr hn hsz hisz hle hw hleaf hfuel
    have hns : ¬ w.encoder.outputFormat = .SPLIT := by
      rcases hfmt with e | e <;> rw [e] <;> decide
    obtain ⟨l, w1, e1, -, l1, k1, -, -, -⟩ := encodeLabels_ok env index n text w hisz hle hw.2.1 hw.2.2
    have hw1 := CleanWorld_keeps w w1 hw k1
    rw [if_neg hns, if_pos hfmt, getAttr_some obj index "index" w hi, hsz] at hb
    simp only [e1, getAttr_some obj values "values" w1 hv] at hb
    refine ⟨⟨l, w1, hb, rfl, rfl, l1⟩, ?_⟩
    obtain ⟨f, rfl⟩ : ∃ g, fuel = g + 1 := ⟨fuel - 1, by omega⟩
    have d0 : PyArray_DIM values 0 = (n : Int) := by simp [PyArray_DIM, hdims]
    have t0 : PyArray_STRIDE values 0 = s := by simp [PyArray_STRIDE, hstr]
    have hnd : PyArray_NDIM values - 1 = 0 := by simp [PyArray_NDIM, hdims]
    have hsize : 0 < PyArray_SIZE values := by
      simp only [PyArray_SIZE, hdims, List.prod_cons, List.prod_nil, mul_one]
      exact_mod_cast hn
    obtain ⟨m1, m2, -⟩ := PyObject_Malloc_ok w1 (mallocFails_head w1 hw1.2.2)
    have a0 : (0 : Int) + 1 * 0 = 0 := by norm_num
    have hframe := frame_leaf (encode env f) obj values L (PyObject_Malloc w1).2 w1.mallocCount
      (by rw [m2]; exact List.mem_cons_self _ _) true 1 0 (PyArray_NDIM values - 1) none (some l)
      0 f (by norm_num) (by rw [hnd]) (by rw [a0, d0]; simp; omega)
      (fun a c => by
        obtain ⟨g, rfl⟩ : ∃ g, f = g + 1 := ⟨f - 1, by omega⟩
        exact hleaf a g _ (passthru_withCursor _ _ c none))
      (by
        intro _ i hi
        rw [a0, d0] at hi
        rw [l1 i (by simpa using hi)]; rfl)
    obtain ⟨w', hw'⟩ := encode_cursor_node env f obj values w w1
      (seriesTC (some values) l (n : Int)) true hb rfl rfl rfl rfl rfl rfl rfl hsize
      (mallocFails_head w1 hw1.2.2) hw1.1 1 0 (by simp [seriesTC, TypeContext.withNpyArr,
        TypeContext.zero]) _ hframe
    refine ⟨w', ?_⟩
    rw [hw', a0, d0, t0]
    simp only [Int.toNat_ofNat, mkNode, if_true]
    rw [frameItems_named (some l) (fun j => labelText (text j)) _ n s _ l1]
  · intro hfmt index w2 hi he
    have hns : ¬ w.encoder.outputFormat = .SPLIT := by
      rcases hfmt with e | e <;> rw [e] <;> decide
    rw [if_neg hns, if_pos hfmt, getAttr_some obj index "index" w hi] at hb
    simp only [he] at hb
    exact ⟨_, hb, rfl⟩
  · intro hfmt values hv
    have hns : ¬ w.encoder.outputFormat = .SPLIT := by
      rcases hfmt with e | e <;> rw [e] <;> decide
    have hni : ¬ (w.encoder.outputFormat = .INDEX ∨ w.encoder.outputFormat = .COLUMNS) := by
      rcases hfmt with e | e <;> rw [e] <;> decide
    rw [if_neg hns, if_neg hni, getAttr_some obj values "values" w hv] at hb
    exact ⟨hb, rfl, rfl, rfl, rfl⟩

/-- Witness of C21: the series `r0: 7, r1: 8` in Index mode is `{"r0":7,"r1":8}`. -/
theorem C21_series_by_mode_witness :
    ∃ w', encode env64 4 (world0 .INDEX) (some series2) =
      some (w', .object [(some (cstr "r0"), .long 7), (some (cstr "r1"), .long 8)]) :=
  ((C21_series_by_mode env64 (world0 .INDEX) series2 series2_ok).2.1 (Or.inl rfl)
    index23 values2 2 8 _ (fun a => .long ((a - 6000) / 8 + 7)) 4 rfl rfl
    (by simp [RawArray, values2, PyObject.info]) rfl rfl (by decide) (by decide) (by decide)
    index23_encode (world0_clean _) values2_leaf (by decide)).2

/-- C23. A table or series node dispatched in Split mode switches the current output
mode to Values in its begin operation; no next operation changes the current mode and
the encoding of a value in Values mode ends in Values mode, so the mode is Values until
the end operation of the node. A labeled axis dispatched in Values mode is the array
node over its underlying values, not the `name`/`data` object. The 2 x 3 table in Split
mode is encoded with the members `columns: [c0, c1, c2]`, `index: [r0, r1]` and
`data: [[1, 2, 3], [4, 5, 6]]`. -/
theorem C23_split_members_in_values_mode (env : Env) (w : World) (obj : PyObject)
    (h : IsTable obj ∨ IsSeries obj) (hfmt : w.encoder.outputFormat = .SPLIT) :
    (∃ tc, Object_beginTypeContext env (some obj) w = some (tc, w) ∧ tc.type = .JT_OBJECT ∧
      ∃ tc1 w1, Object_iterBegin obj tc w = some (tc1, w1) ∧
        w1.encoder.outputFormat = .VALUES) ∧
    (∀ (t t' : TypeContext) (x x' : World) (r : Int), Object_iterNext obj t x = some (r, t', x') →
      x'.encoder.outputFormat = x.encoder.outputFormat) ∧
    (∀ (fuel : Nat) (x x' : World) (o : Option PyObject) (j : JSON),
      x.encoder.outputFormat = .VALUES → encode env fuel x o = some (x', j) →
      x'.encoder.outputFormat = .VALUES) ∧
    (∀ (member values : PyObject) (x : World), IsIndexLike member →
      x.encoder.outputFormat = .VALUES → member.child (.attr (cstr "values")) = some values →
      Object_beginTypeContext env (some member) x = some (valuesTC (some values), x) ∧
        (valuesTC (some values)).type = .JT_ARRAY ∧
        (valuesTC (some values)).iterBegin = .NpyArr_iterBegin) ∧
    ∃ w', encode env64 8 (world0 .SPLIT) (some table23) =
      some (w', .object [
        (some (cstr "columns"), .array [.utf8 (cstr "c0"), .utf8 (cstr "c1"), .utf8 (cstr "c2")]),
        (some (cstr "index"), .array [.utf8 (cstr "r0"), .utf8 (cstr "r1")]),
        (some (cstr "data"), .array [.array [.long 1, .long 2, .long 3],
          .array [.long 4, .long 5, .long 6]])]) := by
  obtain ⟨tc, hb, ht, -, -, tc1, w1, hib, hv, -⟩ := begin_split_node env w obj h hfmt
  refine ⟨⟨tc, hb, ht, tc1, w1, hib, hv⟩, ?_, ?_, ?_, split23_encoded⟩
  · intro t t' x x' r hn
    exact (iterNext_modes obj t t' x x' r hn).1
  · intro fuel x x' o j hx he
    exact values_keeps_values env fuel x x' o j hx he
  · intro member values x hm hx hval
    have hb2 := begin_index env member x hm
    rw [if_neg (by rw [hx]; decide), getAttr_some member values "values" x hval] at hb2
    exact ⟨hb2, rfl, rfl⟩

/-- Witness of C23: the 2 x 3 table in Split mode. -/
theorem C23_split_members_in_values_mode_witness :
    ∃ tc, Object_beginTypeContext env64 (some table23) (world0 .SPLIT) =
        some (tc, world0 .SPLIT) ∧ tc.type = .JT_OBJECT ∧
      ∃ tc1 w1, Object_iterBegin table23 tc (world0 .SPLIT) = some (tc1, w1) ∧
        w1.encoder.outputFormat = .VALUES :=
  (C23_split_members_in_values_mode env64 (world0 .SPLIT) table23 (Or.inl table23_ok.1) rfl).1

/-- C24. Mode changes follow a push/pop discipline. The state a top-level call hands
to the encoder has its current mode equal to the saved mode. From every state whose
current mode is the saved mode or Values, a node that is dispatched, begun, iterated to
exhaustion and ended leaves the current mode at the value it had at the dispatch, a
node that switched the mode having been dispatched in Split mode; the encoding of a
whole node leaves both modes as they were; and no operation changes the saved mode. -/
theorem C24_mode_push_pop (env : Env) :
    (∀ (fuel : Nat) (w : World) (oinput : PyObject) (sOrient : Option (List Nat))
      (pe : PyObjectEncoder), (objToJSON env fuel w oinput sOrient).invoked = some pe →
      pe.outputFormat = pe.originalOutputFormat) ∧
    (∀ (fuel n : Nat) (named : Bool) (w w1 w2 w3 w4 : World) (ob : PyObject)
      (tc tc2 tc3 tc4 : TypeContext) (items : List (Option (List Nat) × JSON)),
      ModeInv w → Object_beginTypeContext env (some ob) w = some (tc, w1) →
      Object_iterBegin ob tc w1 = some (tc2, w2) →
      iterate (encode env fuel) ob named n tc2 w2 = some (items, tc3, w3) →
      Object_iterEnd tc3 w3 = some (tc4, w4) →
      w4.encoder.outputFormat = w.encoder.outputFormat ∧
        w4.encoder.originalOutputFormat = w.encoder.originalOutputFormat ∧
        (Switches tc → w.encoder.outputFormat = .SPLIT ∧ w2.encoder.outputFormat = .VALUES)) ∧
    (∀ (fuel : Nat) (w w' : World) (o : Option PyObject) (j : JSON), ModeInv w →
      encode env fuel w o = some (w', j) →
      w'.encoder.outputFormat = w.encoder.outputFormat ∧
        w'.encoder.originalOutputFormat = w.encoder.originalOutputFormat) ∧
    (∀ (o : Option PyObject) (tc : TypeContext) (w w' : World),
      Object_beginTypeContext env o w = some (tc, w') →
      w'.encoder.originalOutputFormat = w.encoder.originalOutputFormat) ∧
    (∀ (ob : PyObject) (tc tc' : TypeContext) (w w' : World),
      Object_iterBegin ob tc w = some (tc', w') →
      w'.encoder.originalOutputFormat = w.encoder.originalOutputFormat) ∧
    (∀ (ob : PyObject) (tc tc' : TypeContext) (w w' : World) (r : Int),
      Object_iterNext ob tc w = some (r, tc', w') →
      w'.encoder.originalOutputFormat = w.encoder.originalOutputFormat) ∧
    (∀ (tc tc' : TypeContext) (w w' : World), Object_iterEnd tc w = some (tc', w') →
      w'.encoder.originalOutputFormat = w.encoder.originalOutputFormat) ∧
    (∀ (tc : TypeContext) (w : World),
      (Object_endTypeContext tc w).encoder.originalOutputFormat =
        w.encoder.originalOutputFormat) := by
  refine ⟨?_, ?_, ?_, ?_, ?_, ?_, ?_, ?_⟩
  · intro fuel w oinput sOrient pe hp
    rw [(objToJSON_invoked env fuel w oinput sOrient).1] at hp
    cases hm : orientMode sOrient with
    | none => rw [hm] at hp; cases hp
    | some f =>
      rw [hm] at hp
      simp only [Option.map_some', Option.some.injEq] at hp
      rw [← hp]
      rfl
  · intro fuel n named w w1 w2 w3 w4 ob tc tc2 tc3 tc4 items hi hb h1 h2 h3
    have bo := begin_modes env (some ob) w w1 tc hb
    have hn := node_modes (encode env fuel) (encode_modes env fuel) ob named n w w1 w2 w3 w4
      tc tc2 tc3 tc4 items hi bo h1 h2 h3
    have he := modes_endTypeContext tc4 w4
    simp only [World.modes, Prod.mk.injEq] at he
    refine ⟨he.2.1.symm.trans hn.1, he.2.2.symm.trans hn.2, ?_⟩
    intro hs
    exact ⟨bo.2.2.2.1 (bo.2.2.2.2 hs), (iterBegin_modes ob tc tc2 w1 w2 h1).2.2.1 hs⟩
  · intro fuel w w' o j hi he
    exact encode_modes env fuel w o w' j hi he
  · intro o tc w w' h
    exact (begin_modes env o w w' tc h).2.1
  · intro ob tc tc' w w' h
    exact (iterBegin_modes ob tc tc' w w' h).2.1
  · intro ob tc tc' w w' r h
    exact (iterNext_modes ob tc tc' w w' r h).2.1
  · intro tc tc' w w' h
    exact (iterEnd_modes tc tc' w w' h).2.1
  · intro tc w
    have he := modes_endTypeContext tc w
    simp only [World.modes, Prod.mk.injEq] at he
    exact he.2.2

/-- Witness of C24: after the 2 x 3 table is encoded in Split mode, the current mode is
Split again. -/
theorem C24_mode_push_pop_witness :
    ∃ w' j, encode env64 8 (world0 .SPLIT) (some table23) = some (w', j) ∧
      w'.encoder.outputFormat = .SPLIT := by
  obtain ⟨w', h⟩ := split23_encoded
  exact ⟨w', _, h, ((C24_mode_push_pop env64).2.2.1 8 (world0 .SPLIT) w' (some table23) _
    (Or.inl rfl) h).1⟩

/-- C25. Evaluation of NpyArr_encodeLabels at the failing input: when the allocation
of the first label string fails, the function returns no labels with a MemoryError
pending while block 0, the label array it allocated, is still live; when instead the
first element fails to encode, it returns no labels and no block is live. -/
theorem C25_label_array_leaks_on_failed_string_allocation :
    (∃ w', NpyArr_encodeLabels env64 (some labelsAbc) 1 worldSecondMallocFails = some (none, w') ∧
      w'.live = [0] ∧ w'.pyErr = some .MemoryError) ∧
    (∃ w', NpyArr_encodeLabels envFail (some labelsAbc) 1 (world0 .COLUMNS) = some (none, w') ∧
      w'.live = []) :=
  ⟨⟨_, rfl, rfl, rfl⟩, ⟨_, rfl, rfl⟩⟩

/-- C26. From a cursor state of the frame at depth `k` that is not innermost and has
positions remaining, NpyArr_iterNext descends and hands the cursor over; the encoding
of the yielded sub-array, which adopts the cursor, iterates the child frame to
exhaustion and closes it with NpyArrPassThru_iterEnd, leaves the cursor with the depth,
the striding axis, the extent and the stride it had before the descent, with the
position counter of the parent axis incremented by exactly one and with the data
pointer one parent stride further. This holds for both step directions. The elements
are assumed to encode as leaves and the fuel to exceed the largest extent plus the
number of levels; of the labels only those the walk below the descent looks up are
assumed to exist: on a named node, a column label for each position of the innermost
axis and a row label for each position of the axes strictly between the parent axis
and the innermost one. -/
theorem C26_descent_restores_cursor (env : Env) (arr : PyObject) (hraw : RawArray arr)
    (L : Int → JSON) (w : World) (p : Nat) (hp : p ∈ w.live) (inc s0 ndim : Int)
    (rl cl : Option LabelArray) (hinc : inc = 1 ∨ inc = -1) (r : Nat) (k : Int)
    (hnd : ndim = k + 1 + (r : Int)) (M : Nat) (hM : ∀ l : Int, (PyArray_DIM arr l).toNat ≤ M)
    (hleaf : ∀ (a : Int) (g : Nat) (w' : World), w'.encoder.npyCtxtPassthru = none →
      encode env (g + 1) w' (getitem a arr) = some (w', L a))
    (hcl : cl.isSome = true → ∀ i : Nat, i < (PyArray_DIM arr (s0 + inc * ndim)).toNat →
      (labelAt cl i).isSome)
    (hrl : cl.isSome = true → ∀ l : Int, k + 1 ≤ l → l < ndim →
      ∀ i : Nat, i < (PyArray_DIM arr (s0 + inc * l)).toNat → (labelAt rl i).isSome)
    (fuel : Nat) (hfuel : M + 1 + r ≤ fuel) (a : Int) (idx : Int → Int)
    (hpos : idx (s0 + inc * k) < PyArray_DIM arr (s0 + inc * k))
    (tc : TypeContext) (htc : tc.npyarr = some p) :
    ∃ (cEnd : NpyArrContext) (j : JSON),
      NpyArr_iterNext tc (w.withCursor p (frame arr inc s0 ndim rl cl k a idx) none) =
        some (1, { tc with itemValue := some arr },
          w.withCursor p (NpyArr_iterNext_descend (frame arr inc s0 ndim rl cl k a idx))
            (some p)) ∧
      encode env (fuel + 1)
          (w.withCursor p (NpyArr_iterNext_descend (frame arr inc s0 ndim rl cl k a idx))
            (some p)) (some arr) = some (w.withCursor p cEnd none, j) ∧
      cEnd.curdim = (frame arr inc s0 ndim rl cl k a idx).curdim ∧
      cEnd.stridedim = (frame arr inc s0 ndim rl cl k a idx).stridedim ∧
      cEnd.dim = (frame arr inc s0 ndim rl cl k a idx).dim ∧
      cEnd.stride = (frame arr inc s0 ndim rl cl k a idx).stride ∧
      cEnd.index (frame arr inc s0 ndim rl cl k a idx).stridedim =
        (frame arr inc s0 ndim rl cl k a idx).index
          (frame arr inc s0 ndim rl cl k a idx).stridedim + 1 ∧
      cEnd.dataptr = (frame arr inc s0 ndim rl cl k a idx).dataptr +
        (frame arr inc s0 ndim rl cl k a idx).stride := by
  have hinc0 : inc ≠ 0 := by rcases hinc with e | e <;> rw [e] <;> decide
  have hwalk := frame_walk env arr hraw L w p hp inc s0 ndim rl cl hinc0 M hM hleaf hcl r (k + 1)
    fuel arr hnd hfuel hrl
  have hch := child_of_frame env fuel arr hraw w p hp inc s0 ndim rl cl k _ hwalk
  obtain ⟨idx', hagree, henc⟩ := hch a
    (Function.update (Function.update idx (s0 + inc * k) (idx (s0 + inc * k) + 1))
      (s0 + inc * (k + 1)) 0) (by simp)
  refine ⟨frame arr inc s0 ndim rl cl k (a + PyArray_STRIDE arr (s0 + inc * k)) idx',
    mkNode cl.isSome (walkItems L arr inc s0 rl cl r (k + 1) a),
    ?_, ?_, rfl, rfl, rfl, rfl, ?_, rfl⟩
  · rw [NpyArr_iterNext_withCursor w p _ none tc hp htc]
    have h1 : ¬ ((frame arr inc s0 ndim rl cl k a idx).curdim ≥
          (frame arr inc s0 ndim rl cl k a idx).ndim ∨
        (frame arr inc s0 ndim rl cl k a idx).index
            (frame arr inc s0 ndim rl cl k a idx).stridedim ≥
          (frame arr inc s0 ndim rl cl k a idx).dim) := by
      simp only [frame, ge_iff_le, not_or, not_le]
      constructor
      · rw [hnd]; omega
      · exact hpos
    rw [if_neg h1]
    rfl
  · rw [descend_frame]
    exact henc
  · show idx' (s0 + inc * k) = idx (s0 + inc * k) + 1
    rw [hagree k (le_refl k)]
    have hne : s0 + inc * k ≠ s0 + inc * (k + 1) := axis_ne inc s0 (k + 1) k hinc0 (by omega)
    rw [Function.update_noteq hne, Function.update_same]

/-- Witness of C26: the cursors of the 2 x 3 table with the label arrays its dispatch
builds. In Index mode (first axis outermost, step +1, two row and three column labels)
and in Columns mode (transposed: second axis outermost, step -1, three row and two
column labels) the descent into the first sub-array and its exhaustion leave the data
pointer one parent stride further, at 1024 and at 1008. -/
theorem C26_descent_restores_cursor_witness :
    (Object_beginTypeContext env64 (some table23) (world0 .INDEX) =
        some (tableTC values23 .JT_OBJECT (some (labelArrayOf 0 ["r0", "r1"]))
          (some (labelArrayOf 3 ["c0", "c1", "c2"])) 2 3 0, worldLabeled .INDEX) ∧
      ∃ (cEnd : NpyArrContext) (j : JSON),
        encode env64 5
          ((PyObject_Malloc (worldLabeled .INDEX)).2.withCursor 7
            (NpyArr_iterNext_descend (frame values23 1 0 1 (some (labelArrayOf 0 ["r0", "r1"]))
              (some (labelArrayOf 3 ["c0", "c1", "c2"])) 0 1000 (fun _ => 0)))
            (some 7)) (some values23) =
          some ((PyObject_Malloc (worldLabeled .INDEX)).2.withCursor 7 cEnd none, j) ∧
        cEnd.curdim = 0 ∧ cEnd.stridedim = 0 ∧ cEnd.index 0 = 1 ∧ cEnd.dataptr = 1024) ∧
    (Object_beginTypeContext env64 (some table23) (world0 .COLUMNS) =
        some (tableTC values23 .JT_OBJECT (some (labelArrayOf 0 ["c0", "c1", "c2"]))
          (some (labelArrayOf 4 ["r0", "r1"])) 3 2 1, worldLabeled .COLUMNS) ∧
      ∃ (cEnd : NpyArrContext) (j : JSON),
        encode env64 5
          ((PyObject_Malloc (worldLabeled .COLUMNS)).2.withCursor 7
            (NpyArr_iterNext_descend (frame values23 (-1) 1 1
              (some (labelArrayOf 0 ["c0", "c1", "c2"])) (some (labelArrayOf 4 ["r0", "r1"]))
              0 1000 (fun _ => 0)))
            (some 7)) (some values23) =
          some ((PyObject_Malloc (worldLabeled .COLUMNS)).2.withCursor 7 cEnd none, j) ∧
        cEnd.curdim = 0 ∧ cEnd.stridedim = 1 ∧ cEnd.index 1 = 1 ∧ cEnd.dataptr = 1008) := by
  have hM : ∀ l : Int, (PyArray_DIM values23 l).toNat ≤ 3 := by
    intro l
    unfold PyArray_DIM
    split
    · have h3 : ∀ n : Nat, ([2, 3] : List Nat).getD n 0 ≤ 3 := by
        intro n
        rcases n with _ | _ | n <;> simp
      simpa [values23, PyObject.info] using h3 l.toNat
    · simp
  refine ⟨⟨table23_index_labels, ?_⟩, ⟨table23_columns_labels, ?_⟩⟩
  · obtain ⟨cEnd, j, -, h2, h3, h4, -, -, h7, h8⟩ := C26_descent_restores_cursor env64 values23
      table23_ok.2.1 (fun a => .long ((a - 1000) / 8 + 1)) (PyObject_Malloc (worldLabeled .INDEX)).2
      7 (by decide) 1 0 1 (some (labelArrayOf 0 ["r0", "r1"]))
      (some (labelArrayOf 3 ["c0", "c1", "c2"])) (Or.inl rfl) 0 0 (by norm_num) 3 hM values23_leaf
      (by
        intro _ i hi
        have hi3 : i < 3 := hi
        interval_cases i <;> decide)
      (by intro _ l h1 h2; omega) 4 (by decide) 1000 (fun _ => 0) (by decide)
      (passthruTC 7 none) rfl
    exact ⟨cEnd, j, h2, h3, h4, h7, h8⟩
  · obtain ⟨cEnd, j, -, h2, h3, h4, -, -, h7, h8⟩ := C26_descent_restores_cursor env64 values23
      table23_ok.2.1 (fun a => .long ((a - 1000) / 8 + 1))
      (PyObject_Malloc (worldLabeled .COLUMNS)).2 7 (by decide) (-1) 1 1
      (some (labelArrayOf 0 ["c0", "c1", "c2"])) (some (labelArrayOf 4 ["r0", "r1"]))
      (Or.inr rfl) 0 0 (by norm_num) 3 hM values23_leaf
      (by
        intro _ i hi
        have hi2 : i < 2 := hi
        interval_cases i <;> decide)
      (by intro _ l h1 h2; omega) 4 (by decide) 1000 (fun _ => 0) (by decide)
      (passthruTC 7 none) rfl
    exact ⟨cEnd, j, h2, h3, h4, h7, h8⟩

/-- C27. A value that is iterable-like (it implements the iterator capability or is an
N-dimensional array) is dispatched by the container rules alone, whatever scalar checks
it also answers: the node kind it gets is object, array, null or invalid, never
true, false, int32, int64, double or utf8-string, and the node has no scalar
converter. -/
theorem C27_iterable_skips_scalar_checks (env : Env) (obj : PyObject) (w : World)
    (h : obj.info.PyIter_Check = true ∨ obj.info.PyArray_Check = true) :
    Object_beginTypeContext env (some obj) w =
      Object_beginTypeContext_iterable env obj (TypeContext.zero .JT_INVALID) w ∧
    ∀ tc w', Object_beginTypeContext env (some obj) w = some (tc, w') →
      (tc.type = .JT_OBJECT ∨ tc.type = .JT_ARRAY ∨ tc.type = .JT_NULL ∨
        tc.type = .JT_INVALID) ∧
      tc.type ≠ .JT_TRUE ∧ tc.type ≠ .JT_FALSE ∧ tc.type ≠ .JT_INT ∧ tc.type ≠ .JT_LONG ∧
      tc.type ≠ .JT_DOUBLE ∧ tc.type ≠ .JT_UTF8 ∧ tc.PyTypeToJSON = .NULL := by
  have hr : ReachesContainers obj := by
    rcases h with h | h
    · exact Or.inl h
    · exact Or.inr (Or.inl h)
  have hb := begin_containers env obj w hr
  refine ⟨hb, ?_⟩
  intro tc w' ht
  rw [hb] at ht
  obtain ⟨hk, hc⟩ := begin_iterable_kind env obj w w' tc ht
  refine ⟨hk, ?_, ?_, ?_, ?_, ?_, ?_, hc⟩ <;>
    (intro e; rw [e] at hk; rcases hk with hk | hk | hk | hk <;> cases hk)

/-- Witness of C27: an ndarray that also answers the string, integer and boolean checks
is dispatched as an array. -/
theorem C27_iterable_skips_scalar_checks_witness :
    ∃ tc, Object_beginTypeContext env64 (some arrayAndScalar) (world0 .COLUMNS) =
        some (tc, world0 .COLUMNS) ∧ tc.type = .JT_ARRAY ∧ tc.type ≠ .JT_UTF8 :=
  ⟨_, rfl, rfl,
    ((C27_iterable_skips_scalar_checks env64 arrayAndScalar (world0 .COLUMNS) (Or.inr rfl)).2
      _ _ rfl).2.2.2.2.2.2.1⟩

/-- C28. Name lookups of the array cursor stay inside the label arrays. After a next
operation that yields a whole sub-array (a descent from a frame that is not innermost),
NpyArr_iterGetName reads the row labels at the position just yielded; after one that
yields a leaf item it reads the column labels at the position just yielded; in both
walk directions that position is at least 0 and below the extent of the axis, so the
lookup is safe whenever the label array is present with at least as many entries as
the extent. Positions start at 0 when a frame is entered and grow by one per yield. The cursor a node begins carries the label arrays of the node and walks
the axes in the order the transpose flag selects. A non-empty table dispatched in
Index, Columns or Records mode and a non-empty rank 1 series dispatched in Index or
Columns mode, whose labels are built, get label arrays that are present and have as
many entries as the extent of the axis each labels. -/
theorem C28_name_lookups_in_bounds (env : Env) :
    (∀ (obj arr : PyObject) (w : World) (p : Nat) (inc s0 ndim : Int) (rl cl : Option LabelArray)
      (k a : Int) (idx : Int → Int) (tc : TypeContext) (lr : LabelArray) (len : Int),
      p ∈ w.live → inc ≠ 0 → tc.npyarr = some p → tc.iterNext = .NpyArr_iterNext → k < ndim →
      0 ≤ idx (s0 + inc * k) → idx (s0 + inc * k) < PyArray_DIM arr (s0 + inc * k) →
      rl = some lr → PyArray_DIM arr (s0 + inc * k) ≤ len → len ≤ (lr.entries.length : Int) →
      ∃ tc' w' idx' la i,
        Object_iterNext obj tc (w.withCursor p (frame arr inc s0 ndim rl cl k a idx) none) =
          some (1, tc', w') ∧
        w' = w.withCursor p (frame arr inc s0 ndim rl cl (k + 1) a idx') (some p) ∧
        idx' (s0 + inc * (k + 1)) = 0 ∧ idx' (s0 + inc * k) = idx (s0 + inc * k) + 1 ∧
        NpyArr_iterGetName_lookup tc' w' = some (la, i) ∧ LabelLookupOK la i len ∧
        NpyArr_iterGetName tc' w' = labelAt la i) ∧
    (∀ (obj arr : PyObject) (w : World) (p : Nat) (inc s0 ndim : Int) (rl cl : Option LabelArray)
      (k a : Int) (idx : Int → Int) (tc : TypeContext) (lc : LabelArray) (len : Int),
      p ∈ w.live → tc.npyarr = some p →
      (tc.iterNext = .NpyArr_iterNext ∨ tc.iterNext = .NpyArr_iterNextItem) → ndim ≤ k →
      0 ≤ idx (s0 + inc * k) → idx (s0 + inc * k) < PyArray_DIM arr (s0 + inc * k) →
      cl = some lc → PyArray_DIM arr (s0 + inc * k) ≤ len → len ≤ (lc.entries.length : Int) →
      ∃ tc' w' idx' la i,
        Object_iterNext obj tc (w.withCursor p (frame arr inc s0 ndim rl cl k a idx) none) =
          some (1, tc', w') ∧
        w' = w.withCursor p
          (frame arr inc s0 ndim rl cl k (a + PyArray_STRIDE arr (s0 + inc * k)) idx') none ∧
        idx' (s0 + inc * k) = idx (s0 + inc * k) + 1 ∧
        NpyArr_iterGetName_lookup tc' w' = some (la, i) ∧ LabelLookupOK la i len ∧
        NpyArr_iterGetName tc' w' = labelAt la i) ∧
    (∀ (obj arr : PyObject) (tc : TypeContext) (w : World) (inc s0 : Int),
      (match tc.newObj with
        | some o => o
        | none => obj) = arr →
      0 < PyArray_SIZE arr → w.mallocFails.head? ≠ some true →
      w.encoder.npyCtxtPassthru = none →
      (inc, s0) = (if tc.transpose ≠ 0 then ((-1 : Int), PyArray_NDIM arr - 1) else (1, 0)) →
      NpyArr_iterBegin obj tc w =
        ({ tc with npyarr := some w.mallocCount },
          (PyObject_Malloc w).2.withCursor w.mallocCount
            (frame arr inc s0 (PyArray_NDIM arr - 1) tc.rowLabels tc.columnLabels 0
              (PyArray_DATA arr) (Function.update w.junk s0 0)) none)) ∧
    (∀ (obj values index columns : PyObject) (m n : Nat) (s0 s1 : Int)
      (rtext ctext : Nat → List Nat) (w : World),
      TableOf obj values index columns m n s0 s1 → CleanWorld w →
      (n : Int) ≤ PyArray_SIZE columns → LabelsEncode env columns n ctext →
      (m : Int) ≤ PyArray_SIZE index → LabelsEncode env index m rtext →
      (w.encoder.outputFormat = .INDEX →
        ∃ lr lc w', Object_beginTypeContext env (some obj) w =
            some (tableTC values .JT_OBJECT (some lr) (some lc) m n 0, w') ∧
          PyArray_DIM values 0 = (m : Int) ∧ (m : Int) ≤ (lr.entries.length : Int) ∧
          PyArray_DIM values 1 = (n : Int) ∧ (n : Int) ≤ (lc.entries.length : Int)) ∧
      (w.encoder.outputFormat = .COLUMNS →
        ∃ lr lc w', Object_beginTypeContext env (some obj) w =
            some (tableTC values .JT_OBJECT (some lr) (some lc) n m 1, w') ∧
          PyArray_NDIM values - 1 = 1 ∧
          PyArray_DIM values 1 = (n : Int) ∧ (n : Int) ≤ (lr.entries.length : Int) ∧
          PyArray_DIM values 0 = (m : Int) ∧ (m : Int) ≤ (lc.entries.length : Int)) ∧
      (w.encoder.outputFormat = .RECORDS →
        ∃ lc w', Object_beginTypeContext env (some obj) w =
            some (tableTC values .JT_ARRAY none (some lc) 0 n 0, w') ∧
          PyArray_DIM values 1 = (n : Int) ∧ (n : Int) ≤ (lc.entries.length : Int))) ∧
    (∀ (obj index values : PyObject) (n : Nat) (text : Nat → List Nat) (w : World),
      IsSeries obj →
      (w.encoder.outputFormat = .INDEX ∨ w.encoder.outputFormat = .COLUMNS) →
      obj.child (.attr (cstr "index")) = some index →
      obj.child (.attr (cstr "values")) = some values → values.info.dims = [n] →
      PyArray_SIZE obj = (n : Int) → (n : Int) ≤ PyArray_SIZE index →
      LabelsEncode env index n text → CleanWorld w →
      ∃ l w', Object_beginTypeContext env (some obj) w =
          some (seriesTC (some values) l (n : Int), w') ∧
        PyArray_NDIM values - 1 = 0 ∧
        PyArray_DIM values 0 = (n : Int) ∧ (n : Int) ≤ (l.entries.length : Int)) := by
  refine ⟨?_, ?_, ?_, ?_, ?_⟩
  · intro obj arr w p inc s0 ndim rl cl k a idx tc lr len hp hinc htc hnext hk h0 hpos hrl hlen hcov
    obtain ⟨tc', idx', e1, z1, z2, e2⟩ := descent_cursor obj arr w p hp inc s0 ndim rl cl k a idx tc
      hinc htc hnext hk hpos
    refine ⟨tc', _, idx', rl, idx (s0 + inc * k), e1, rfl, z1, z2, e2,
      ⟨lr, hrl, h0, by omega, hcov⟩, ?_⟩
    rw [getName_lookup, e2]
    rfl
  · intro obj arr w p inc s0 ndim rl cl k a idx tc lc len hp htc hnext hk h0 hpos hcl hlen hcov
    obtain ⟨tc', idx', e1, z1, -, e2⟩ := item_cursor obj arr w p hp inc s0 ndim rl cl k a idx tc
      htc hnext hk hpos
    refine ⟨tc', _, idx', cl, idx (s0 + inc * k), e1, rfl, z1, e2,
      ⟨lc, hcl, h0, by omega, hcov⟩, ?_⟩
    rw [getName_lookup, e2]
    rfl
  · intro obj arr tc w inc s0 harr hsize hmalloc hslot hdir
    exact NpyArr_iterBegin_ok obj arr tc w harr hsize hmalloc hslot inc s0 hdir
  · intro obj values index columns m n s0 s1 rtext ctext w ht hw hcs hce hrs hre
    obtain ⟨d0, d1, hnd, -⟩ := PyArray_DIM_two values m n ht.2.2.2.2.2.1
    refine ⟨?_, ?_, ?_⟩
    · intro hfmt
      obtain ⟨lr, lc, w', hb, l1, l2, -⟩ := begin_table_index env obj values index columns m n
        s0 s1 rtext ctext w ht hfmt hw hcs hce hrs hre
      exact ⟨lr, lc, w', hb, d0, labels_cover lr m _ l1, d1, labels_cover lc n _ l2⟩
    · intro hfmt
      obtain ⟨lr, lc, w', hb, l1, l2, -⟩ := begin_table_columns env obj values index columns m n
        s0 s1 rtext ctext w ht hfmt hw hcs hce hrs hre
      exact ⟨lr, lc, w', hb, hnd, d1, labels_cover lr n _ l1, d0, labels_cover lc m _ l2⟩
    · intro hfmt
      obtain ⟨lc, w', hb, l1, -⟩ := begin_table_records env obj values index columns m n
        s0 s1 ctext w ht hfmt hw hcs hce
      exact ⟨lc, w', hb, d1, labels_cover lc n _ l1⟩
  · intro obj index values n text w hs hfmt hi hv hdims hsz hisz hle hw
    obtain ⟨l, w', hb, -, l1⟩ := series_begin_labeled env w obj index values n text hs hfmt hi hv
      hsz hisz hle hw
    exact ⟨l, w', hb, by simp [PyArray_NDIM, hdims], by simp [PyArray_DIM, hdims],
      labels_cover l n _ l1⟩

/-- Witness of C28: the label arrays of the 2 x 3 table in Index mode have 2 and 3
entries. -/
theorem C28_name_lookups_in_bounds_witness :
    ∃ lr lc w', Object_beginTypeContext env64 (some table23) (world0 .INDEX) =
        some (tableTC values23 .JT_OBJECT (some lr) (some lc) 2 3 0, w') ∧
      PyArray_DIM values23 0 = 2 ∧ (2 : Int) ≤ (lr.entries.length : Int) ∧
      PyArray_DIM values23 1 = 3 ∧ (3 : Int) ≤ (lc.entries.length : Int) :=
  ((C28_name_lookups_in_bounds env64).2.2.2.1 table23 values23 index23 columns23 2 3 24 8 _ _
    (world0 .INDEX) table23_ok (world0_clean _) (by decide) columns23_encode (by decide)
    index23_encode).1 rfl

/-- C29 is broken by the code for a rendering that does not begin with a quote. The
writer leaves its offset one past the NUL terminator, which the trimming of a quoted
rendering relies on (it steps the offset back by 2 to reach the closing quote); for an
unquoted rendering `len = enc->offset - cLabel + 1` is therefore the text, the NUL and
one more byte. The loop step copies `text`, the terminator and the byte at the address
of the writer offset, which the rendering did not write: the label stored holds the
byte the buffer held there before. -/
theorem C29_unquoted_label_copies_past_writer_offset (env : Env) (labels : PyObject)
    (stride : Int) (ret : Nat) (num : Int) (n : Nat) (i dataptr : Int)
    (entries : List (Option LabelStr)) (buf : Int → Nat) (w : World) (text : List Nat)
    (hr : env.render (getitem dataptr labels) = (text, none, none))
    (hz : 0 ∉ text) (hq : text.head? ≠ some QUOTE)
    (herr : w.pyErr = none) (hfail : ∀ b ∈ w.mallocFails, b = false) :
    (JSON_EncodeObject env (getitem dataptr labels) buf env.labelBuffer 32768 w).1 =
      env.labelBuffer ∧
    (JSON_EncodeObject env (getitem dataptr labels) buf env.labelBuffer 32768
      w).2.2.encoder.enc.offset = env.labelBuffer + text.length + 1 ∧
    ∃ w3, NpyArr_encodeLabels_loop env labels stride ret num (n + 1) i dataptr entries buf w =
      NpyArr_encodeLabels_loop env labels stride ret num n (i + 1) (dataptr + stride)
        (entries.set i.toNat
          (some { ptr := w.mallocCount, bytes := text ++ [0, buf (env.labelBuffer + text.length + 1)] }))
        (pokeBytes buf env.labelBuffer (text ++ [0])) w3 := by
  have hcase : w.mallocFails = [] ∨ ∃ rest, w.mallocFails = false :: rest := by
    cases hf : w.mallocFails with
    | nil => exact Or.inl rfl
    | cons b rest =>
      have := hfail b (by rw [hf]; simp)
      exact Or.inr ⟨rest, by rw [this]⟩
  refine ⟨rfl, ?_, ?_⟩
  · simp [JSON_EncodeObject, hr, World.setBuffer]
  · rw [NpyArr_encodeLabels_loop]
    simp only [JSON_EncodeObject, hr]
    have hhead : ¬ (pokeBytes buf env.labelBuffer (text ++ [0]) env.labelBuffer = QUOTE) :=
      fun e => hq ((head_poke buf env.labelBuffer text hz).mp e)
    have hstored := peek_unquoted buf env.labelBuffer text
    simp only [World.setBuffer, PyErr_Set, herr, Option.isSome_none, Bool.or_self,
      Bool.false_eq_true, if_false, hhead]
    rcases hcase with hf | ⟨rest, hf⟩
    · simp only [PyObject_Malloc, hf]
      rw [hstored]
      exact ⟨_, rfl⟩
    · simp only [PyObject_Malloc, hf]
      rw [hstored]
      exact ⟨_, rfl⟩

/-- Witness of C29: the integer label 0 renders as the one character `0`; the writer
offset is 5002 and the label stored is that character, the terminator and the byte 7
the buffer held at address 5002. -/
theorem C29_unquoted_label_copies_past_writer_offset_witness :
    (JSON_EncodeObject env64 (getitem 4000 labelsZero) bufSevens env64.labelBuffer 32768
      (world0 .INDEX)).2.2.encoder.enc.offset = 5002 ∧
    ∃ w3, NpyArr_encodeLabels_loop env64 labelsZero 8 0 1 (0 + 1) 0 4000 [none] bufSevens
        (world0 .INDEX) =
      NpyArr_encodeLabels_loop env64 labelsZero 8 0 1 0 (0 + 1) (4000 + 8)
        ([none].set (0 : Int).toNat (some { ptr := 0, bytes := [48, 0, 7] }))
        (pokeBytes bufSevens 5000 [48, 0]) w3 :=
  ⟨rfl, (C29_unquoted_label_copies_past_writer_offset env64 labelsZero 8 0 1 0 0 4000 [none]
    bufSevens (world0 .INDEX) [48] rfl (by decide) (by decide) rfl (by simp [world0])).2.2⟩
end ObjToJSON
